import Mathlib

/-!
SiriDB: pool lookup, pool set, replication coordination, the query listener
and the entry of the parser.

A shallow embedding of `src/siri/db/pools.c`, `src/siri/db/replicate.c`,
`src/siri/parser/listener.c` and `src/cleri/parse.c` together with the
properties proved about them: definitions first, then the lemmas and theorems.

Conventions of the embedding:

* C arrays are `List`s; an access outside the array is a `Fault.out_of_bounds`
  instead of undefined behaviour.
* `uint_fast16_t` is a natural number reduced modulo `2 ^ w`, where the width
  `w` is a parameter (the C standard only promises `16 ≤ w`).
* Recursion of the C code that has no structural measure takes a fuel
  argument; running out of it is `Fault.out_of_fuel`.
-/

set_option autoImplicit false

namespace SiriDB

/-! ## Series → pool lookup (`pools.c`) -/

/-- Ways in which the embedded C code can leave its defined behaviour, or, for
`stack_overflow`, the memory the machine gives to its calls. -/
inductive Fault where
  | out_of_fuel
  | out_of_bounds
  | div_by_zero
  | stack_overflow
  deriving DecidableEq, Repr

/-- Modelled from the spec: the constant `SIRIDB_LOOKUP_SZ` is declared in a
header that is not part of the sources at hand; the spec fixes the lookup at
exactly 8192 slots. -/
def SIRIDB_LOOKUP_SZ : Nat := 8192

/-- Modelled from the spec: the element type of `siridb_lookup_t` is declared
in a header that is not part of the sources at hand; the spec gives the slots
as `uint16`, so a store into a slot keeps the low 16 bits. -/
def LOOKUP_SLOT_BITS : Nat := 16

/-- State of the slot loop of `POOLS_make`: the array `counters` and the
lookup table. -/
abbrev MakeState := List Nat × List Nat

/-- One iteration of the loop `for (i = 0; i < SIRIDB_LOOKUP_SZ; i++)` in
`POOLS_make`:
```
counters[(*lookup)[i]]++;
if (counters[(*lookup)[i]] % m == 0) { (*lookup)[i] = n; }
```
-/
def POOLS_make_slot (w n m : Nat) (st : MakeState) (i : Nat) : Except Fault MakeState :=
  match st.2[i]? with
  | none => .error .out_of_bounds
  | some p =>
    match st.1[p]? with
    | none => .error .out_of_bounds
    | some c =>
      let counters := st.1.set p ((c + 1) % 2 ^ w)
      match counters[p]? with
      | none => .error .out_of_bounds
      | some c1 =>
        if m = 0 then .error .div_by_zero
        else if c1 % m = 0 then .ok (counters, st.2.set i (n % 2 ^ LOOKUP_SLOT_BITS))
        else .ok (counters, st.2)

/-- The loop `for (i = 0; i < SIRIDB_LOOKUP_SZ; i++)` over all slots, run on
the state `st`. The macro `SIRIDB_LOOKUP_SZ` is the parameter `sz`. -/
def POOLS_make_slots (sz w n m : Nat) (st : MakeState) : Except Fault MakeState :=
  (List.range sz).foldlM (POOLS_make_slot w n m) st

/-- The recursive `POOLS_make (n, num_pools, lookup)`, with fuel for the
recursion and the macro `SIRIDB_LOOKUP_SZ` as the parameter `sz`. The counters
are seeded with `counters[i] = i` for `i < n`; `m = n + 1` in `uint_fast16_t`.
The stack that the nested calls take is not part of this definition: it
gives the values the C function computes when the stack holds all its calls;
`POOLS_make_stack` counts the stack as well. -/
def POOLS_make (sz w : Nat) : Nat → Nat → Nat → List Nat → Except Fault (List Nat)
  | 0, _, _, _ => .error .out_of_fuel
  | fuel + 1, n, num_pools, lookup =>
    if n = num_pools then .ok lookup
    else
      let counters := List.range n
      let m := (n + 1) % 2 ^ w
      (POOLS_make_slots sz w n m (counters, lookup)).bind
        fun st => POOLS_make sz w fuel m num_pools st.2

/-- The function `siridb_pools_gen_lookup (num_pools)` on the path where
`calloc` succeeds: a zero-filled table handed to `POOLS_make (1, num_pools, _)`.
The recursion is given `num_pools` units of fuel, which is what a call with
`1 ≤ num_pools` consumes. -/
def siridb_pools_gen_lookup (w num_pools : Nat) : Except Fault (List Nat) :=
  POOLS_make SIRIDB_LOOKUP_SZ w num_pools 1 num_pools (List.replicate SIRIDB_LOOKUP_SZ 0)

/-! ### The iterative algorithm of the specification -/

/-- The body of the inner loop of the specification's algorithm, on unbounded
integers:
```
counters[lookup[i]] += 1
if counters[lookup[i]] % m == 0: lookup[i] = n
```
-/
def spec_slot (n : Nat) (st : MakeState) (i : Nat) : MakeState :=
  let p := st.2.getD i 0
  let counters := st.1.set p (st.1.getD p 0 + 1)
  if counters.getD p 0 % (n + 1) = 0 then (counters, st.2.set i n) else (counters, st.2)

/-- One round `n` of the specification's outer loop on a table of `sz` slots:
counters seeded with `0 .. n-1`, then every slot in index order. -/
def spec_round (sz : Nat) (lookup : List Nat) (n : Nat) : List Nat :=
  ((List.range sz).foldl (spec_slot n) (List.range n, lookup)).2

/-- The specification's algorithm on a table of `sz` slots: all slots zero,
then rounds `n = 1 .. num_pools - 1`. -/
def spec_lookup (sz num_pools : Nat) : List Nat :=
  (List.range' 1 (num_pools - 1)).foldl (spec_round sz) (List.replicate sz 0)

/-- The specification's `gen_lookup (num_pools)`: the algorithm on 8192
slots. -/
def spec_gen_lookup (num_pools : Nat) : List Nat :=
  spec_lookup 8192 num_pools

/-! ## Pool set (`pools.c`)

The structures of `siridb.h`, `server.h`, `pool.h` and `pools.h` are not part
of the sources at hand; their fields are the ones `pools.c` uses, with the
types the specification gives. Allocation is taken to succeed (the
`ERR_ALLOC` branches are left out); `siridb_fifo_new`, which `pools.c` tests
for `NULL`, is an input of the model. -/

/-- Address of a `siridb_server_t`: its index in the server store
`siridb_t.heap`. Two servers are the same object when their addresses are
equal. -/
abbrev ServerPtr := Nat

/-- Modelled from the spec: a server record carries its pool id (`u16`) and a
flag bitset. -/
structure siridb_server_t where
  pool : Nat
  flags : Nat
  deriving DecidableEq, Repr

/-- Modelled from the spec: a pool is its counter `len` and the ordered list
of its member servers. -/
structure siridb_pool_t where
  len : Nat
  server : List ServerPtr
  deriving DecidableEq, Repr

/-- Modelled from the spec: the pool set is the number of pools `len`, the
array `pool` and the series lookup. -/
structure siridb_pools_t where
  len : Nat
  pool : List siridb_pool_t
  lookup : List Nat
  deriving DecidableEq, Repr

/-- Modelled from the spec: the declaration of the pool count
`siridb_pools_t.len` (in `pools.h`) is not at hand. The spec gives pool ids as
`u16`, and `pools.c` holds the largest pool id and every pool index in
`uint16_t` variables; the pool count is taken to be 16 bits wide as well. -/
def POOLS_LEN_BITS : Nat := 16

/-- Status of the replicate task (`replicate.h` is not at hand; these are the
enumerators `replicate.c` uses). -/
inductive siridb_replicate_status_t where
  | REPLICATE_IDLE
  | REPLICATE_INIT
  | REPLICATE_RUNNING
  | REPLICATE_STOPPING
  | REPLICATE_PAUSED
  | REPLICATE_CLOSED
  deriving DecidableEq, Repr

/-- The replicate task: its status, whether the initial replicate file is
open, and the libuv timer, `some ms` when it is armed to fire after `ms`
milliseconds (one shot, the repeat argument is always 0). -/
structure siridb_replicate_t where
  status : siridb_replicate_status_t
  init_fp : Bool
  timer : Option Nat
  deriving DecidableEq, Repr

/-- Modelled from the spec: the FIFO is a queue of change packets in push
order, `records`, of which the head is the record a `pop` hands out; records
committed with an error are logged as possibly failed. -/
structure siridb_fifo_t where
  records : List Nat
  failed : List Nat
  deriving DecidableEq, Repr

/-- The database object, as far as `pools.c` and `replicate.c` use it: the
server store, the list `servers`, the local server, the replica, the pool set,
the FIFO, the replicate task and the flags of the series in `series_map`. -/
structure siridb_t where
  heap : List siridb_server_t
  servers : List ServerPtr
  server : ServerPtr
  replica : Option ServerPtr
  pools : Option siridb_pools_t
  fifo : Option siridb_fifo_t
  replicate : Option siridb_replicate_t
  series_map : List (Nat × Nat)
  deriving DecidableEq, Repr

/-- What the model takes from outside `pools.c` and `replicate.c`: the result
of `siridb_fifo_new`, the series ids read from the file `.replicate` when
`fopen (fn, "r+")` succeeds, and the two flag constants. -/
structure Env where
  fifo_new : Option siridb_fifo_t
  init_file : Option (List Nat)
  SERVER_FLAG_SYNCHRONIZING : Nat
  SIRIDB_SERIES_INIT_REPL : Nat
  deriving DecidableEq, Repr

/-- Dereference of a server pointer. -/
def deref (heap : List siridb_server_t) (p : ServerPtr) : Except Fault siridb_server_t :=
  match heap[p]? with
  | none => .error .out_of_bounds
  | some sv => .ok sv

/-- The callback `POOLS_max_pool (server, &max_pool)`. -/
def POOLS_max_pool (server : siridb_server_t) (max_pool : Nat) : Nat :=
  if server.pool > max_pool then server.pool else max_pool

/-- The walk `llist_walk (siridb->servers, POOLS_max_pool, &max_pool)`. -/
def walk_max_pool (heap : List siridb_server_t) :
    List ServerPtr → Nat → Except Fault Nat
  | [], max_pool => .ok max_pool
  | p :: rest, max_pool =>
    (deref heap p).bind fun server => walk_max_pool heap rest (POOLS_max_pool server max_pool)

/-- Modelled from the spec: `siridb_pool_add_server (pool, server)` appends the
server to the pool. -/
def siridb_pool_add_server (pool : siridb_pool_t) (server : ServerPtr) : siridb_pool_t :=
  { len := pool.len + 1, server := pool.server ++ [server] }

/-- The function `siridb_replicate_init (siridb)`: series listed in the
initial replicate file are flagged, the status is `REPLICATE_IDLE` without
such a file and `REPLICATE_INIT` with it, the timer is initialised but not
started. -/
def siridb_replicate_init (env : Env) (siridb : siridb_t) : siridb_t :=
  let series_map := match env.init_file with
    | none => siridb.series_map
    | some ids => ids.foldl (fun m series_id =>
        m.map fun e => if e.1 = series_id then (e.1, e.2 ||| env.SIRIDB_SERIES_INIT_REPL) else e)
        siridb.series_map
  { siridb with
    series_map := series_map
    replicate := some
      { status := if env.init_file.isNone then .REPLICATE_IDLE else .REPLICATE_INIT
        init_fp := env.init_file.isSome
        timer := none } }

/-- The first part of `POOLS_arrange (server, siridb)`, the election of the
replica:
```
if (siridb->server != server && siridb->server->pool == server->pool)
{
    siridb->replica = server;
    siridb->server->flags |= SERVER_FLAG_SYNCHRONIZING;
    siridb->fifo = siridb_fifo_new(siridb);
    if (siridb->fifo == NULL) { log_critical(..); } else { siridb_replicate_init(siridb); }
}
```
-/
def POOLS_arrange_replica (env : Env) (server : ServerPtr) (sv : siridb_server_t)
    (siridb : siridb_t) : Except Fault siridb_t :=
  if siridb.server ≠ server then
    (deref siridb.heap siridb.server).bind fun this =>
      if this.pool = sv.pool then
        let siridb1 := { siridb with
          replica := some server
          heap := siridb.heap.set siridb.server
            { this with flags := this.flags ||| env.SERVER_FLAG_SYNCHRONIZING }
          fifo := env.fifo_new }
        match siridb1.fifo with
        | none => .ok siridb1
        | some _ => .ok (siridb_replicate_init env siridb1)
      else .ok siridb
  else .ok siridb

/-- The callback `POOLS_arrange (server, siridb)`: the replica election, then
`siridb_pool_add_server (siridb->pools->pool + server->pool, server)`. -/
def POOLS_arrange (env : Env) (server : ServerPtr) (siridb : siridb_t) :
    Except Fault siridb_t :=
  (deref siridb.heap server).bind fun sv =>
  (POOLS_arrange_replica env server sv siridb).bind fun siridb1 =>
  match siridb1.pools with
  | none => .error .out_of_bounds
  | some pools =>
    match pools.pool[sv.pool]? with
    | none => .error .out_of_bounds
    | some pool =>
      .ok { siridb1 with
        pools := some
          { pools with pool := pools.pool.set sv.pool (siridb_pool_add_server pool server) } }

/-- The walk `llist_walk (siridb->servers, POOLS_arrange, siridb)`. -/
def walk_arrange (env : Env) : List ServerPtr → siridb_t → Except Fault siridb_t
  | [], siridb => .ok siridb
  | p :: rest, siridb => (POOLS_arrange env p siridb).bind fun siridb1 => walk_arrange env rest siridb1

/-- The function `siridb_pools_init (siridb)`. -/
def siridb_pools_init (w : Nat) (env : Env) (siridb : siridb_t) : Except Fault siridb_t :=
  /- get max_pool (this can be used to get the number of pools) -/
  (walk_max_pool siridb.heap siridb.servers 0).bind fun max_pool =>
  /- set number of pools -/
  let len := (max_pool + 1) % 2 ^ POOLS_LEN_BITS
  /- allocate memory for all pools, number of servers zero for each pool -/
  let pools : siridb_pools_t :=
    { len := len, pool := List.replicate len { len := 0, server := [] }, lookup := [] }
  (walk_arrange env siridb.servers { siridb with pools := some pools }).bind fun siridb1 =>
  match siridb1.pools with
  | none => .error .out_of_bounds
  | some pools1 =>
    /- generate pool lookup for series -/
    (siridb_pools_gen_lookup w pools1.len).bind fun lookup =>
    .ok { siridb1 with pools := some { pools1 with lookup := lookup } }

/-- The loop shared by `siridb_pools_online` and `siridb_pools_available`
over the pool ids `pids`:
```
if (pid != siridb->server->pool && !pred(siridb->pools->pool + pid)) return 0;
```
and `return 1` after the loop. The per-pool predicate (`siridb_pool_online`,
`siridb_pool_available`, both outside the sources at hand) is the parameter
`pred`; it receives the pool id, the pool and the server store. -/
def pools_all (pred : Nat → siridb_pool_t → List siridb_server_t → Bool)
    (siridb : siridb_t) (pools : siridb_pools_t) : List Nat → Except Fault Nat
  | [] => .ok 1
  | pid :: rest =>
    (deref siridb.heap siridb.server).bind fun this =>
      if pid ≠ this.pool then
        match pools.pool[pid]? with
        | none => .error .out_of_bounds
        | some pool =>
          if !pred pid pool siridb.heap then .ok 0 else pools_all pred siridb pools rest
      else pools_all pred siridb pools rest

/-- The function `siridb_pools_online (siridb)`; `pid` runs over
`0 .. len - 1` (`len` is 16 bits wide, so the `uint16_t` counter reaches it). -/
def siridb_pools_online (siridb_pool_online : Nat → siridb_pool_t → List siridb_server_t → Bool)
    (siridb : siridb_t) : Except Fault Nat :=
  match siridb.pools with
  | none => .error .out_of_bounds
  | some pools => pools_all siridb_pool_online siridb pools (List.range pools.len)

/-- The function `siridb_pools_available (siridb)`. -/
def siridb_pools_available
    (siridb_pool_available : Nat → siridb_pool_t → List siridb_server_t → Bool)
    (siridb : siridb_t) : Except Fault Nat :=
  match siridb.pools with
  | none => .error .out_of_bounds
  | some pools => pools_all siridb_pool_available siridb pools (List.range pools.len)

/-- Modelled from the spec: a promise set has a capacity fixed at
construction and a vector of slots; `none` is a slot that was never sent. The
model also records, in call order, the pools `siridb_pool_send_pkg` was called
for, the pools for which it issued a promise, and whether
`SIRINET_PROMISES_CHECK` found all slots settled. -/
structure sirinet_promises_t where
  size : Int
  promises : List (Option Nat)
  attempts : List Nat
  issued : List Nat
  checked : Bool
  deriving DecidableEq, Repr

/-- Modelled from the spec: `sirinet_promises_new (size, cb, data)` allocates
an empty promise set of the given capacity. -/
def sirinet_promises_new (size : Int) : sirinet_promises_t :=
  { size := size, promises := [], attempts := [], issued := [], checked := false }

/-- The loop of `siridb_pools_send_pkg` over the pool ids `pids`. The
parameter `siridb_pool_send_pkg` is the function of that name (outside the
sources at hand): `true` is its non-zero result, no available server found;
on `false` it has issued a promise. -/
def pools_send_loop (siridb_pool_send_pkg : Nat → siridb_pool_t → List siridb_server_t → Bool)
    (siridb : siridb_t) (pools : siridb_pools_t) :
    List Nat → sirinet_promises_t → Except Fault sirinet_promises_t
  | [], promises => .ok promises
  | pid :: rest, promises =>
    (deref siridb.heap siridb.server).bind fun this =>
      if pid = this.pool then pools_send_loop siridb_pool_send_pkg siridb pools rest promises
      else
        match pools.pool[pid]? with
        | none => .error .out_of_bounds
        | some pool =>
          if siridb_pool_send_pkg pid pool siridb.heap then
            pools_send_loop siridb_pool_send_pkg siridb pools rest
              { promises with
                attempts := promises.attempts ++ [pid]
                promises := promises.promises ++ [none] }
          else
            pools_send_loop siridb_pool_send_pkg siridb pools rest
              { promises with
                attempts := promises.attempts ++ [pid]
                issued := promises.issued ++ [pid] }

/-- The function `siridb_pools_send_pkg (siridb, pkg, timeout, cb, data)`:
a promise set of capacity `len - 1` (computed in `int`), the loop over all
pool ids, and the check whether all slots are settled already. -/
def siridb_pools_send_pkg
    (siridb_pool_send_pkg : Nat → siridb_pool_t → List siridb_server_t → Bool)
    (siridb : siridb_t) : Except Fault sirinet_promises_t :=
  match siridb.pools with
  | none => .error .out_of_bounds
  | some pools =>
    (pools_send_loop siridb_pool_send_pkg siridb pools (List.range pools.len)
      (sirinet_promises_new ((pools.len : Int) - 1))).bind fun promises =>
    .ok { promises with checked := decide ((promises.promises.length : Int) = promises.size) }

/-! ## Replication (`replicate.c`) -/

/-- The constant `REPLICATE_SLEEP`, the timer delay in milliseconds. -/
def REPLICATE_SLEEP : Nat := 100

/-- Modelled from the spec: `siridb_replicate_is_idle (replicate)` (declared
in `replicate.h`, not at hand) holds when the status is `REPLICATE_IDLE`. -/
def siridb_replicate_is_idle (replicate : siridb_replicate_t) : Bool :=
  decide (replicate.status = .REPLICATE_IDLE)

/-- The call `uv_timer_start (replicate->timer, REPLICATE_work,
REPLICATE_SLEEP, 0)`: the timer is armed (again) to fire once. -/
def uv_timer_start (replicate : siridb_replicate_t) (timeout : Nat) : siridb_replicate_t :=
  { replicate with timer := some timeout }

/-- The function `siridb_replicate_start (replicate)`. -/
def siridb_replicate_start (replicate : siridb_replicate_t) : siridb_replicate_t :=
  uv_timer_start { replicate with status := .REPLICATE_RUNNING } REPLICATE_SLEEP

/-- The function `siridb_replicate_pause (replicate)`. -/
def siridb_replicate_pause (replicate : siridb_replicate_t) : siridb_replicate_t :=
  { replicate with
    status := if replicate.status = .REPLICATE_IDLE then .REPLICATE_PAUSED
      else .REPLICATE_STOPPING }

/-- The function `siridb_replicate_continue (replicate)`. -/
def siridb_replicate_continue (replicate : siridb_replicate_t) : siridb_replicate_t :=
  let replicate1 := { replicate with
    status := if replicate.status = .REPLICATE_STOPPING then .REPLICATE_RUNNING
      else .REPLICATE_IDLE }
  if siridb_replicate_is_idle replicate1 then siridb_replicate_start replicate1
  else replicate1

/-- Status of a settled promise (`promise.h` is not at hand; these are the
enumerators `replicate.c` switches on). -/
inductive sirinet_promise_status_t where
  | PROMISE_SUCCESS
  | PROMISE_TIMEOUT_ERROR
  | PROMISE_WRITE_ERROR
  | PROMISE_CANCELLED_ERROR
  | PROMISE_PKG_TYPE_ERROR
  deriving DecidableEq, Repr

/-- Modelled from the spec: `siridb_fifo_commit` advances the read cursor past
the record that was handed out last, which durably drops it. -/
def siridb_fifo_commit (fifo : siridb_fifo_t) : siridb_fifo_t :=
  { fifo with records := fifo.records.tail }

/-- Modelled from the spec: `siridb_fifo_commit_err` advances past the record
as well, but logs it as possibly failed. -/
def siridb_fifo_commit_err (fifo : siridb_fifo_t) : siridb_fifo_t :=
  { records := fifo.records.tail, failed := fifo.failed ++ fifo.records.head?.toList }

/-- The call-back `REPLICATE_on_repl_response (promise, pkg, status)`, with
`siridb = promise->data`. The packet is `none` for `NULL`, else its type
`pkg->tp`; `sirinet_protocol_is_error` (outside the sources at hand) is a
parameter. A `NULL` FIFO, replicate task or packet that is dereferenced is a
fault. -/
def REPLICATE_on_repl_response (sirinet_protocol_is_error : Nat → Bool)
    (siridb : siridb_t) (pkg : Option Nat) (status : sirinet_promise_status_t) :
    Except Fault siridb_t :=
  let commit (f : siridb_fifo_t → siridb_fifo_t) : Except Fault siridb_t :=
    match siridb.fifo with
    | none => .error .out_of_bounds
    | some fifo => .ok { siridb with fifo := some (f fifo) }
  let switch : Except Fault siridb_t :=
    match status with
    | .PROMISE_WRITE_ERROR =>
      /- Write to socket error, data is not send so we should not commit. -/
      .ok siridb
    | .PROMISE_TIMEOUT_ERROR => commit siridb_fifo_commit_err
    | .PROMISE_CANCELLED_ERROR => commit siridb_fifo_commit_err
    | .PROMISE_PKG_TYPE_ERROR => commit siridb_fifo_commit_err
    | .PROMISE_SUCCESS =>
      match pkg with
      | none => .error .out_of_bounds
      | some tp =>
        if sirinet_protocol_is_error tp then commit siridb_fifo_commit_err
        else commit siridb_fifo_commit
  switch.bind fun siridb1 =>
    match siridb1.replicate with
    | none => .error .out_of_bounds
    | some replicate =>
      .ok { siridb1 with replicate := some (uv_timer_start replicate REPLICATE_SLEEP) }

/-! ## Predicates and sample data used in the statements -/

/-- Invariant of the slot loop in round `n` started on table `t0`: after `i`
iterations the counters array still has `n` cells, the table keeps its length,
slots from `i` on are untouched and earlier slots either kept their owner or
moved to pool `n`. -/
def SlotInv (n : Nat) (t0 : List Nat) (i : Nat) (s : MakeState) : Prop :=
  s.1.length = n ∧ s.2.length = t0.length ∧
  (∀ j, i ≤ j → s.2[j]? = t0[j]?) ∧
  (∀ j, j < i → s.2[j]? = t0[j]? ∨ s.2[j]? = some n)

/-- A table is valid at level `n` when it has `sz` slots and
every slot holds a pool id below `n`. -/
def Tbl (sz n : Nat) (t : List Nat) : Prop :=
  t.length = sz ∧ ∀ j p : Nat, t[j]? = some p → p < n

/-- Invariant tying the C slot loop to the specification's loop: the two
states agree after `i` iterations and no counter has reached `n + i`. -/
def RefInv (n : Nat) (t0 : List Nat) (i : Nat) (s : MakeState) : Prop :=
  SlotInv n t0 i s ∧ s = (List.range i).foldl (spec_slot n) (List.range n, t0) ∧
  ∀ x ∈ s.1, x < n + i

/-- Invariant of round 1 on the zero-filled table: the single counter equals
the number of slots seen, slots seen hold their index modulo 2 and the
remaining slots are still zero. -/
def TwoInv (sz i : Nat) (s : MakeState) : Prop :=
  s.1 = [i] ∧ s.2.length = sz ∧
  (∀ j, j < i → s.2[j]? = some (j % 2)) ∧
  (∀ j, i ≤ j → j < sz → s.2[j]? = some 0)

/-- Pool id of the server at address `p`, when the address is valid. -/
def poolOf (heap : List siridb_server_t) (p : ServerPtr) : Option Nat :=
  (heap[p]?).map (fun sv => sv.pool)

/-- The server at `p` is a replica candidate in `s`: it is not the local
server object and has the local server's pool id. -/
def IsReplicaOf (s : siridb_t) (p : ServerPtr) : Prop :=
  s.server ≠ p ∧ poolOf s.heap p = poolOf s.heap s.server

/-- The part of a server list that belongs to pool `q`. -/
def membersOf (heap : List siridb_server_t) (l : List ServerPtr) (q : Nat) : List ServerPtr :=
  l.filter (fun p => decide (poolOf heap p = some q))

/-- The pool set `siridb_pools_init` allocates for `len` pools. -/
def pools_alloc (len : Nat) : siridb_pools_t :=
  { len := len, pool := List.replicate len { len := 0, server := [] }, lookup := [] }

/-- A sample environment: `siridb_fifo_new` succeeds with an empty FIFO and
there is no initial replicate file. -/
def sample_env : Env :=
  { fifo_new := some { records := [], failed := [] }
    init_file := none
    SERVER_FLAG_SYNCHRONIZING := 4
    SIRIDB_SERIES_INIT_REPL := 1 }

/-- A sample database before `siridb_pools_init`: the local server (address
0) and a second server in pool 0, and one server in pool 1. -/
def sample_db : siridb_t :=
  { heap := [{ pool := 0, flags := 0 }, { pool := 1, flags := 0 }, { pool := 0, flags := 3 }]
    servers := [0, 1, 2]
    server := 0
    replica := none
    pools := none
    fifo := none
    replicate := none
    series_map := [] }

/-- A sample database before `siridb_pools_init`: the local server (address
0) and a second server, both in pool 0. -/
def sample_db_pair : siridb_t :=
  { heap := [{ pool := 0, flags := 1 }, { pool := 0, flags := 3 }]
    servers := [0, 1]
    server := 0
    replica := none
    pools := none
    fifo := none
    replicate := none
    series_map := [] }

/-- The database `siridb_pools_init` makes of `sample_db_pair`. -/
def sample_db_pair_init : siridb_t :=
  { heap := [{ pool := 0, flags := 5 }, { pool := 0, flags := 3 }]
    servers := [0, 1]
    server := 0
    replica := some 1
    pools := some
      { len := 1
        pool := [{ len := 2, server := [0, 1] }]
        lookup := List.replicate SIRIDB_LOOKUP_SZ 0 }
    fifo := some { records := [], failed := [] }
    replicate := some { status := .REPLICATE_IDLE, init_fp := false, timer := none }
    series_map := [] }

/-- Whether the send attempt for pool `pid` reports that no server is
available. -/
def sendFails (send : Nat → siridb_pool_t → List siridb_server_t → Bool)
    (heap : List siridb_server_t) (pools : siridb_pools_t) (pid : Nat) : Bool :=
  match pools.pool[pid]? with
  | some pool => send pid pool heap
  | none => false

/-- The pool ids of `pids` other than the local pool id `k`. -/
def peersOf (k : Nat) (pids : List Nat) : List Nat :=
  pids.filter (fun pid => decide (pid ≠ k))

/-- A sample database after initialisation: three pools with one server
each, the local server (address 0) in pool 0, a FIFO holding two records and
a running replicate task. -/
def sample_db_three : siridb_t :=
  { heap := [{ pool := 0, flags := 0 }, { pool := 1, flags := 0 }, { pool := 2, flags := 0 }]
    servers := [0, 1, 2]
    server := 0
    replica := none
    pools := some
      { len := 3
        pool := [{ len := 1, server := [0] }, { len := 1, server := [1] },
          { len := 1, server := [2] }]
        lookup := [] }
    fifo := some { records := [7, 8], failed := [] }
    replicate := some { status := .REPLICATE_RUNNING, init_fp := false, timer := none }
    series_map := [] }

/-- The pool set of `sample_db_three`. -/
def sample_pools_three : siridb_pools_t :=
  { len := 3
    pool := [{ len := 1, server := [0] }, { len := 1, server := [1] },
      { len := 1, server := [2] }]
    lookup := [] }

/-! ## Replication: the timer tick (`replicate.c`) -/

/-- Modelled from the spec: `siridb_fifo_has_data (fifo)` (`fifo.h` is not at
hand) holds when a record is waiting in the FIFO. -/
def siridb_fifo_has_data (fifo : siridb_fifo_t) : Bool :=
  !fifo.records.isEmpty

/-- Modelled from the spec: `siridb_fifo_pop (fifo)` hands out the next
record, `none` for `NULL`; the record stays in the FIFO until it is
committed. -/
def siridb_fifo_pop (fifo : siridb_fifo_t) : Option Nat :=
  fifo.records.head?

/-- What `REPLICATE_work` hands to `siridb_server_send_pkg (siridb->replica,
...)`: a packet popped from the FIFO, with call-back
`REPLICATE_on_repl_response`, or the packet `BPROTO_REPL_FINISHED`, with
call-back `REPLICATE_on_repl_finished_response`. -/
inductive replicate_send_t where
  | repl_pkg (pkg : Nat)
  | repl_finished
  deriving DecidableEq, Repr

/-- The timer call-back `REPLICATE_work (handle)`, with `siridb =
handle->data`. The result is the database and the packets sent, in order.
The macros `siridb_server_is_available` and `siridb_server_is_synchronizing`
(`server.h` is not at hand) are parameters. The conditions are evaluated left
to right as `&&` and `||` do, so a `NULL` FIFO or replica is a fault only
where it is dereferenced. -/
def REPLICATE_work (siridb_server_is_available siridb_server_is_synchronizing :
    siridb_server_t → Bool) (siridb : siridb_t) :
    Except Fault (siridb_t × List replicate_send_t) :=
  match siridb.replicate with
  | none => .error .out_of_bounds
  | some replicate =>
    let fifo : Except Fault siridb_fifo_t :=
      match siridb.fifo with
      | none => .error .out_of_bounds
      | some fifo => .ok fifo
    let replica : Except Fault siridb_server_t :=
      match siridb.replica with
      | none => .error .out_of_bounds
      | some p => deref siridb.heap p
    let pkg : Except Fault (Option Nat) :=
      if replicate.status = .REPLICATE_RUNNING then
        fifo.bind fun f =>
          if siridb_fifo_has_data f then
            replica.bind fun r =>
              if siridb_server_is_available r || siridb_server_is_synchronizing r then
                .ok (siridb_fifo_pop f)
              else .ok none
          else .ok none
      else .ok none
    pkg.bind fun pkg =>
      match pkg with
      | some pkg => .ok (siridb, [.repl_pkg pkg])
      | none =>
        replica.bind fun r =>
          let finished : Except Fault Bool :=
            if siridb_server_is_synchronizing r then
              fifo.bind fun f => .ok (!siridb_fifo_has_data f)
            else .ok false
          finished.bind fun finished =>
            .ok ({ siridb with
                replicate := some ({ replicate with
                  status := if replicate.status = .REPLICATE_STOPPING then .REPLICATE_PAUSED
                    else .REPLICATE_IDLE }) },
              if finished then [.repl_finished] else [])

/-- The replicate task with its surroundings: the database, the number of
packets popped from the FIFO and sent whose response has not been handled
yet, and the log of everything sent to the replica. -/
structure replicate_sys_t where
  siridb : siridb_t
  awaiting : Nat
  sent : List replicate_send_t
  deriving DecidableEq, Repr

/-- The events that drive the replicate task: the three calls
`siridb_replicate_start`, `siridb_replicate_pause` and
`siridb_replicate_continue`, the armed timer firing (`REPLICATE_work`) and the
promise of a sent packet being settled (`REPLICATE_on_repl_response`). -/
inductive replicate_event_t where
  | ev_start
  | ev_pause
  | ev_continue
  | ev_tick
  | ev_response (pkg : Option Nat) (status : sirinet_promise_status_t)
  deriving DecidableEq, Repr

/-- When an event may happen: `siridb_replicate_start` asserts that the task
is idle, `siridb_replicate_pause` and `siridb_replicate_continue` assert that
the status is not `REPLICATE_CLOSED`, libuv runs the timer call-back only when
the timer is armed, and a promise is settled only for a packet that was
sent. -/
def replicate_event_pre (e : replicate_event_t) (s : replicate_sys_t) : Bool :=
  match s.siridb.replicate with
  | none => false
  | some replicate =>
    match e with
    | .ev_start => siridb_replicate_is_idle replicate
    | .ev_pause => decide (replicate.status ≠ .REPLICATE_CLOSED)
    | .ev_continue => decide (replicate.status ≠ .REPLICATE_CLOSED)
    | .ev_tick => replicate.timer.isSome
    | .ev_response _ _ => decide (0 < s.awaiting)

/-- Number of packets of a send log that were popped from the FIFO. -/
def repl_pkg_count (sent : List replicate_send_t) : Nat :=
  (sent.filter fun x => decide (x ≠ .repl_finished)).length

/-- One event. The timer is one shot: when it fires it is no longer armed,
and `REPLICATE_work` runs. -/
def replicate_event_step (siridb_server_is_available siridb_server_is_synchronizing :
    siridb_server_t → Bool) (sirinet_protocol_is_error : Nat → Bool)
    (e : replicate_event_t) (s : replicate_sys_t) : Except Fault replicate_sys_t :=
  match s.siridb.replicate with
  | none => .error .out_of_bounds
  | some replicate =>
    match e with
    | .ev_start =>
      .ok { s with
        siridb := { s.siridb with replicate := some (siridb_replicate_start replicate) } }
    | .ev_pause =>
      .ok { s with
        siridb := { s.siridb with replicate := some (siridb_replicate_pause replicate) } }
    | .ev_continue =>
      .ok { s with
        siridb := { s.siridb with replicate := some (siridb_replicate_continue replicate) } }
    | .ev_tick =>
      (REPLICATE_work siridb_server_is_available siridb_server_is_synchronizing
        { s.siridb with replicate := some { replicate with timer := none } }).bind fun r =>
        .ok { siridb := r.1, awaiting := s.awaiting + repl_pkg_count r.2, sent := s.sent ++ r.2 }
    | .ev_response pkg status =>
      (REPLICATE_on_repl_response sirinet_protocol_is_error s.siridb pkg status).bind fun d =>
        .ok { s with siridb := d, awaiting := s.awaiting - 1 }

/-- A sequence of events, each under the precondition `pre`; `none` when an
event is not allowed where it stands or when a step faults. -/
def replicate_run_with (pre : replicate_event_t → replicate_sys_t → Bool)
    (siridb_server_is_available siridb_server_is_synchronizing : siridb_server_t → Bool)
    (sirinet_protocol_is_error : Nat → Bool) :
    List replicate_event_t → replicate_sys_t → Option replicate_sys_t
  | [], s => some s
  | e :: es, s =>
    if pre e s then
      match replicate_event_step siridb_server_is_available siridb_server_is_synchronizing
          sirinet_protocol_is_error e s with
      | .ok s1 => replicate_run_with pre siridb_server_is_available
          siridb_server_is_synchronizing sirinet_protocol_is_error es s1
      | .error _ => none
    else none

/-- A sequence of events, each under the precondition its assertion states. -/
def replicate_run (siridb_server_is_available siridb_server_is_synchronizing :
    siridb_server_t → Bool) (sirinet_protocol_is_error : Nat → Bool) :
    List replicate_event_t → replicate_sys_t → Option replicate_sys_t :=
  replicate_run_with replicate_event_pre siridb_server_is_available
    siridb_server_is_synchronizing sirinet_protocol_is_error

/-- The precondition of an event when, beyond its assertion,
`siridb_replicate_continue` is called only on a task that is not RUNNING: one
that was paused (PAUSED or STOPPING) or is idle. -/
def replicate_event_pre_paused (e : replicate_event_t) (s : replicate_sys_t) : Bool :=
  replicate_event_pre e s &&
    match e, s.siridb.replicate with
    | .ev_continue, some replicate => decide (replicate.status ≠ .REPLICATE_RUNNING)
    | _, _ => true

/-- What holds of the replicate task in every state of such a run: at most
one packet awaits its response; none does while the timer is armed; an idle
or paused task has neither an armed timer nor a packet that awaits its
response; the task is neither INIT nor CLOSED. -/
def replicate_inv (s : replicate_sys_t) : Prop :=
  ∃ replicate, s.siridb.replicate = some replicate ∧
    s.awaiting ≤ 1 ∧
    (replicate.timer.isSome = true → s.awaiting = 0) ∧
    (replicate.status = .REPLICATE_IDLE ∨ replicate.status = .REPLICATE_PAUSED →
      s.awaiting = 0 ∧ replicate.timer = none) ∧
    replicate.status ≠ .REPLICATE_INIT ∧ replicate.status ≠ .REPLICATE_CLOSED

/-- A freshly initialised replicate task around `sample_db_pair_init`, with
two records waiting in the FIFO; the replica is the server at address 1. -/
def sample_repl_sys : replicate_sys_t :=
  { siridb := { sample_db_pair_init with fifo := some { records := [7, 8], failed := [] } }
    awaiting := 0
    sent := [] }

/-- A replica is available when both bits of `3` are set and no other (sample
reading of the flags). -/
def sample_is_available (server : siridb_server_t) : Bool :=
  server.flags == 3

/-- A replica is synchronizing when its flags are `7` (sample reading of the
flags). -/
def sample_is_synchronizing (server : siridb_server_t) : Bool :=
  server.flags == 7

/-- A running replicate task with an empty FIFO and a synchronizing
replica. -/
def sample_db_synchronizing : siridb_t :=
  { heap := [{ pool := 0, flags := 1 }, { pool := 0, flags := 7 }]
    servers := [0, 1]
    server := 0
    replica := some 1
    pools := none
    fifo := some { records := [], failed := [] }
    replicate := some { status := .REPLICATE_RUNNING, init_fp := false, timer := none }
    series_map := [] }

/-! ## Query listener (`listener.c`)

A handler of `listener.c` gets the handle of a query. Through the handle it
reaches the query, the client socket with its authenticated user `origin`, and
the database. The model passes this state explicitly and returns what the
handler does last: schedule the call-back of the next node, send the result,
send an error, or forward the query to other servers. -/

/-- Address of a `siridb_user_t`: its index in the user store. -/
abbrev UserPtr := Nat

/-- Modelled from the spec: a user record carries its name, its access bits
and a reference count (`user.h` is not at hand). -/
structure siridb_user_t where
  username : Option String
  access_bit : Nat
  ref : Nat
  deriving DecidableEq, Repr

/-- Kind of grammar element of a parse node, as far as the handlers switch on
`cl_obj->tp`. -/
inductive cleri_tp_t where
  | CLERI_TP_CHOICE
  | CLERI_TP_REGEX
  | CLERI_TP_OTHER
  deriving DecidableEq, Repr

/-- A parse node `cleri_node_t`: the id of its grammar element, the kind of
the element, the matched text, the integer `result` and the children. The
linked list `children` is a list: `children->node` is its first element and
`children->next->node` the second; an empty list is the cell whose `node` is
`NULL`. -/
inductive cleri_node_t where
  | mk (gid : Nat) (tp : cleri_tp_t) (str : String) (result : Int)
      (children : List cleri_node_t)
  deriving Repr

/-- The field `cl_obj->via.dummy->gid` of a parse node. -/
def cleri_node_t.gid : cleri_node_t → Nat
  | .mk gid _ _ _ _ => gid

/-- The field `cl_obj->tp` of a parse node. -/
def cleri_node_t.tp : cleri_node_t → cleri_tp_t
  | .mk _ tp _ _ _ => tp

/-- The matched text `str` (of length `len`) of a parse node. -/
def cleri_node_t.str : cleri_node_t → String
  | .mk _ _ str _ _ => str

/-- The field `result` of a parse node. -/
def cleri_node_t.result : cleri_node_t → Int
  | .mk _ _ _ result _ => result

/-- The field `children` of a parse node. -/
def cleri_node_t.children : cleri_node_t → List cleri_node_t
  | .mk _ _ _ _ children => children

/-- The node of the `i`-th cell of a list of children: `children->node` for
`i = 0`, `children->next->node` for `i = 1`. Following a `NULL` link is a
fault. -/
def cleri_child (children : List cleri_node_t) (i : Nat) : Except Fault cleri_node_t :=
  match children[i]? with
  | none => .error .out_of_bounds
  | some node => .ok node

/-- Modelled from the spec: a value of a qpack byte sequence. A map holds
its keys and values in turn. -/
inductive qp_val where
  | raw (s : String)
  | int64 (n : Int)
  | other (tag : Nat)
  | array (items : List qp_val)
  | map (items : List qp_val)
  deriving Repr

/-- Modelled from the spec: the answers of the unpacker about the type of
what it reads (`qp_types_t`), as far as `listener.c` tests them. -/
inductive qp_types_t where
  | QP_END
  | QP_RAW
  | QP_INT64
  | QP_OTHER
  | QP_ARRAY
  | QP_MAP
  | QP_CLOSE
  deriving DecidableEq, Repr

/-- What is added to a packer: the markers `QP_MAP_OPEN`, `QP_ARRAY_OPEN`,
`QP_ARRAY_CLOSE` and `QP_MAP2` of `qp_add_type`, the values of `qp_add_raw`,
`qp_add_string`, `qp_add_int16` and `qp_add_int64`, and a whole value copied
from an unpacker by `qp_extend_from_unpacker`. -/
inductive qp_tok where
  | QP_MAP_OPEN
  | QP_ARRAY_OPEN
  | QP_ARRAY_CLOSE
  | QP_MAP2
  | raw (s : String)
  | str (s : String)
  | int16 (n : Int)
  | int64 (n : Int)
  | value (v : qp_val)
  deriving Repr

/-- Modelled from the spec: the packer is the sequence of what was added. -/
abbrev qp_packer_t := List qp_tok

/-- Modelled from the spec: what an unpacker has before it, a value or the
end of the array or map it has entered. -/
inductive qp_item where
  | val (v : qp_val)
  | close
  deriving Repr

/-- Modelled from the spec: the unpacker is a cursor on a sequence of values. -/
abbrev qp_unpacker_t := List qp_item

/-- Type of a value as the unpacker reports it. -/
def qp_type : qp_val → qp_types_t
  | .raw _ => .QP_RAW
  | .int64 _ => .QP_INT64
  | .other _ => .QP_OTHER
  | .array _ => .QP_ARRAY
  | .map _ => .QP_MAP

/-- Modelled from the spec: `qp_new_unpacker (pkg->data, pkg->len)`. -/
def qp_new_unpacker (data : List qp_val) : qp_unpacker_t :=
  data.map .val

/-- Modelled from the spec: `qp_current (unpacker)`, the type of what comes
next; the cursor stays. -/
def qp_current (unpacker : qp_unpacker_t) : qp_types_t :=
  match unpacker with
  | [] => .QP_END
  | .close :: _ => .QP_CLOSE
  | .val v :: _ => qp_type v

/-- Modelled from the spec: `qp_next (unpacker, obj)` reads what comes next
and reports its type and, for a scalar, its value. An array or a map is
entered: its items come next, then its end. -/
def qp_next (unpacker : qp_unpacker_t) : qp_types_t × Option qp_val × qp_unpacker_t :=
  match unpacker with
  | [] => (.QP_END, none, [])
  | .close :: rest => (.QP_CLOSE, none, rest)
  | .val (.array items) :: rest => (.QP_ARRAY, none, items.map .val ++ .close :: rest)
  | .val (.map items) :: rest => (.QP_MAP, none, items.map .val ++ .close :: rest)
  | .val v :: rest => (qp_type v, some v, rest)

/-- Modelled from the spec: `qp_skip_next (unpacker)` passes over what comes
next, an array or a map with all it holds, and reports its type. -/
def qp_skip_next (unpacker : qp_unpacker_t) : qp_types_t × qp_unpacker_t :=
  match unpacker with
  | [] => (.QP_END, [])
  | .close :: rest => (.QP_CLOSE, rest)
  | .val v :: rest => (qp_type v, rest)

/-- Modelled from the spec: `qp_extend_from_unpacker (packer, unpacker)`
copies the value that comes next to the packer and passes over it. -/
def qp_extend_from_unpacker (packer : qp_packer_t) (unpacker : qp_unpacker_t) :
    qp_packer_t × qp_unpacker_t :=
  match unpacker with
  | .val v :: rest => (packer ++ [.value v], rest)
  | _ => (packer, unpacker)

/-- A packet `sirinet_pkg_t`: its type `tp` and its data, decoded. -/
structure sirinet_pkg_t where
  tp : Nat
  data : List qp_val
  deriving Repr

/-- A settled promise: `promise->data` is the response packet or `NULL`. -/
structure sirinet_promise_t where
  data : Option sirinet_pkg_t
  deriving Repr

/-- A compiled where expression `cexpr_t` (`cexpr.h` is not at hand): the
model names it by a number and takes its evaluation as a parameter. -/
abbrev cexpr_t := Nat

/-- Modelled from the spec: the state of a list statement (`queries.h` is not
at hand): the series of a match, the where expression, the columns and the
remaining limit, a `size_t`. -/
structure query_list_t where
  ct_series : Option (List Nat)
  where_expr : Option cexpr_t
  props : Option (List Nat)
  limit : Nat
  deriving DecidableEq, Repr

/-- Modelled from the spec: the state of a count statement: the series of a
match, the where expression and the counter `n`, taken as a signed 64-bit
integer, the width of the values that are added to it and of the value
emitted. -/
structure query_count_t where
  ct_series : Option (List Nat)
  where_expr : Option cexpr_t
  n : Int
  deriving DecidableEq, Repr

/-- Modelled from the spec: the state of a drop statement. -/
structure query_drop_t where
  ct_series : Option (List Nat)
  where_expr : Option cexpr_t
  data : Option Nat
  deriving DecidableEq, Repr

/-- Modelled from the spec: the state of a select statement. -/
structure query_select_t where
  ct_series : Option (List Nat)
  where_expr : Option cexpr_t
  start_ts : Option Int
  end_ts : Option Int
  deriving DecidableEq, Repr

/-- What `query->data` points to. -/
inductive query_data_t where
  | null
  | children (cs : List cleri_node_t)
  | server (p : ServerPtr)
  | user (p : UserPtr)
  | q_count (q : query_count_t)
  | q_list (q : query_list_t)
  | q_drop (q : query_drop_t)
  | q_select (q : query_select_t)
  deriving Repr

/-- The call-back `query->free_cb`. -/
inductive query_free_cb_t where
  | siridb_query_free
  | decref_server_object
  | decref_user_object
  | query_count_free
  | query_list_free
  | query_drop_free
  | query_select_free
  deriving DecidableEq, Repr

/-- A cell of the cursor `query->nodes`: the parse node and the call-back to
run for it, named by a number. -/
structure siridb_node_t where
  node : cleri_node_t
  cb : Nat
  deriving Repr

/-- The query `siridb_query_t` as far as `listener.c` uses it. -/
structure siridb_query_t where
  flags : Nat
  nodes : List siridb_node_t
  packer : Option qp_packer_t
  timeit : Option qp_packer_t
  data : query_data_t
  free_cb : query_free_cb_t
  err_msg : String
  deriving Repr

/-- What a handler reaches through its handle: the query, the user `origin`
of the client socket, the database, the user objects with the list
`siridb->users`, the reference counts of the server objects, and the global
`who_am_i`. -/
structure query_handle_t where
  query : siridb_query_t
  origin : UserPtr
  siridb : siridb_t
  user_heap : List siridb_user_t
  users : List UserPtr
  server_ref : List Nat
  who_am_i : Option String
  deriving Repr

/-- Message types of `siridb_send_error`; `listener.c` uses the first. -/
inductive sn_msg_t where
  | SN_MSG_QUERY_ERROR
  | SN_MSG_SERVER_ERROR
  deriving DecidableEq, Repr

/-- Packet types of `siridb_query_forward`. -/
inductive bp_query_t where
  | BP_QUERY_SERVER
  | BP_QUERY_POOL
  deriving DecidableEq, Repr

/-- The call-backs given to `siridb_query_forward`. -/
inductive promises_cb_t where
  | on_count_servers_response
  | on_list_xxx_response
  deriving DecidableEq, Repr

/-- What a handler does last. -/
inductive listener_action_t where
  | next_cb (cb : Nat)
  | send_query_result
  | send_error (tp : sn_msg_t)
  | query_forward (tp : bp_query_t) (cb : promises_cb_t)
  deriving DecidableEq, Repr

/-- What `listener.c` takes from the headers and files that are not at hand:
constants, and the functions of other modules, as parameters. -/
structure listener_env where
  SIRIDB_QUERY_FLAG_MASTER : Nat
  SIRIDB_ACCESS_ALTER : Nat
  SIRIDB_ACCESS_COUNT : Nat
  SIRIDB_ACCESS_CREATE : Nat
  SIRIDB_ACCESS_DROP : Nat
  SIRIDB_ACCESS_GRANT : Nat
  SIRIDB_ACCESS_LIST : Nat
  SIRIDB_ACCESS_REVOKE : Nat
  SIRIDB_ACCESS_SELECT : Nat
  SIRIDB_ACCESS_SHOW : Nat
  BP_QUERY_RESPONSE : Nat
  DEFAULT_LIST_LIMIT : Nat
  CLERI_GID_K_NAME : Nat
  CLERI_GID_K_POOL : Nat
  CLERI_GID_K_VERSION : Nat
  CLERI_GID_K_ONLINE : Nat
  CLERI_GID_K_STATUS : Nat
  CLERI_GID_K_USER : Nat
  CLERI_GID_K_ACCESS : Nat
  KW_OFFSET : Nat
  KW_COUNT : Nat
  access_denied_msg : siridb_user_t → Nat → String
  strx_extract_string : String → String
  siridb_servers_by_name : siridb_t → String → Option ServerPtr
  siridb_servers_by_uuid : siridb_t → String → Option ServerPtr
  cexpr_run_user : cexpr_t → siridb_user_t → Bool
  cexpr_run_server : cexpr_t → siridb_t → ServerPtr → Bool
  cexpr_contains_remote_prop : cexpr_t → Bool
  siridb_server_is_remote_prop : Nat → Bool
  siridb_user_prop : siridb_user_t → Nat → List qp_tok
  siridb_props : siridb_t → Option String → Nat → Option (List qp_tok)
  ct_walkn_list_series : siridb_t → query_list_t → List qp_tok × Nat
  llist_walkn_list_servers : siridb_t → query_list_t → List qp_tok × Nat
  walk_list_servers : siridb_t → query_list_t → ServerPtr → List qp_tok × Nat
  timeit_from_unpacker : qp_packer_t → qp_unpacker_t → qp_packer_t

/-- The macro `IS_MASTER`. -/
def IS_MASTER (env : listener_env) (query : siridb_query_t) : Bool :=
  query.flags &&& env.SIRIDB_QUERY_FLAG_MASTER != 0

/-- The call `siridb_send_error (handle, tp)`, the last thing a handler does
on an error. -/
def siridb_send_error (h : query_handle_t) (tp : sn_msg_t) :
    Except Fault (query_handle_t × listener_action_t) :=
  .ok (h, .send_error tp)

/-- The macro `SIRIPARSER_NEXT_NODE`: `siridb_nodes_next` moves the cursor
`query->nodes` to the next cell; at the end the result is sent, else the
call-back of the next cell is scheduled. -/
def SIRIPARSER_NEXT_NODE (h : query_handle_t) :
    Except Fault (query_handle_t × listener_action_t) :=
  match h.query.nodes with
  | [] => .error .out_of_bounds
  | _ :: nodes =>
    let h1 := { h with query := { h.query with nodes := nodes } }
    match nodes with
    | [] => .ok (h1, .send_query_result)
    | next :: _ => .ok (h1, .next_cb next.cb)

/-- Modelled from the spec: `siridb_user_check_access (user, access_bit,
err_msg)` holds when `user.access_bits & required == required`. -/
def siridb_user_check_access (user : siridb_user_t) (access_bit : Nat) : Bool :=
  user.access_bit &&& access_bit == access_bit

/-- The macro `SIRIPARSER_MASTER_CHECK_ACCESS (ACCESS_BIT)`, followed by the
rest `k` of the handler: on the master, when the check of the user `origin`
fails, the handler returns with `siridb_send_error (handle,
SN_MSG_QUERY_ERROR)`; the failing check has written the message. -/
def SIRIPARSER_MASTER_CHECK_ACCESS (env : listener_env) (h : query_handle_t)
    (access_bit : Nat) (k : query_handle_t → Except Fault (query_handle_t × listener_action_t)) :
    Except Fault (query_handle_t × listener_action_t) :=
  if IS_MASTER env h.query then
    match h.user_heap[h.origin]? with
    | none => .error .out_of_bounds
    | some user =>
      if !siridb_user_check_access user access_bit then
        siridb_send_error
          { h with query := { h.query with err_msg := env.access_denied_msg user access_bit } }
          .SN_MSG_QUERY_ERROR
      else k h
  else k h

/-- A call `qp_add_... (query->packer, ...)`; a `NULL` packer is a fault. -/
def qp_add (h : query_handle_t) (toks : List qp_tok) : Except Fault query_handle_t :=
  match h.query.packer with
  | none => .error .out_of_bounds
  | some packer => .ok { h with query := { h.query with packer := some (packer ++ toks) } }

/-- The current parse node `query->nodes->node`. -/
def query_node (h : query_handle_t) : Except Fault cleri_node_t :=
  match h.query.nodes with
  | [] => .error .out_of_bounds
  | cell :: _ => .ok cell.node

/-! ### Users, servers and the state of a statement -/

/-- Modelled from the spec: `siridb_users_get_user (siridb->users, username,
NULL)`, the first user of the list with that name, `none` for `NULL`. A cell
of the list that points outside the user store is a fault. -/
def siridb_users_get_user (user_heap : List siridb_user_t) :
    List UserPtr → String → Except Fault (Option UserPtr)
  | [], _ => .ok none
  | p :: users, username =>
    match user_heap[p]? with
    | none => .error .out_of_bounds
    | some user =>
      if user.username = some username then .ok (some p)
      else siridb_users_get_user user_heap users username

/-- Modelled from the spec: `siridb_user_incref (user)`. -/
def siridb_user_incref (user_heap : List siridb_user_t) (p : UserPtr) :
    Except Fault (List siridb_user_t) :=
  match user_heap[p]? with
  | none => .error .out_of_bounds
  | some user => .ok (user_heap.set p { user with ref := user.ref + 1 })

/-- Modelled from the spec: `siridb_user_new ()` makes a user object without
a name, without access bits and without references; the result is the store
and the address of the new object. -/
def siridb_user_new (user_heap : List siridb_user_t) : List siridb_user_t × UserPtr :=
  (user_heap ++ [{ username := none, access_bit := 0, ref := 0 }], user_heap.length)

/-- Modelled from the spec: `siridb_server_incref (server)`. -/
def siridb_server_incref (server_ref : List Nat) (p : ServerPtr) : Except Fault (List Nat) :=
  match server_ref[p]? with
  | none => .error .out_of_bounds
  | some ref => .ok (server_ref.set p (ref + 1))

/-- Modelled from the spec: `query_count_new ()`. -/
def query_count_new : query_count_t :=
  { ct_series := none, where_expr := none, n := 0 }

/-- Modelled from the spec: `query_list_new ()`; the default limit is a
parameter. -/
def query_list_new (env : listener_env) : query_list_t :=
  { ct_series := none, where_expr := none, props := none, limit := env.DEFAULT_LIST_LIMIT }

/-- Modelled from the spec: `query_drop_new ()`. -/
def query_drop_new : query_drop_t :=
  { ct_series := none, where_expr := none, data := none }

/-- Modelled from the spec: `query_select_new ()`. -/
def query_select_new : query_select_t :=
  { ct_series := none, where_expr := none, start_ts := none, end_ts := none }

/-- A signed 64-bit integer: the value of `x` after a conversion to
`int64_t`. -/
def int64_wrap (x : Int) : Int :=
  (x + 2 ^ 63) % 2 ^ 64 - 2 ^ 63

/-- Modelled from the spec: the width of `size_t`, the type of the remaining
limit. -/
def SIZE_BITS : Nat := 64

/-- The subtraction `a -= b` on a `size_t`. -/
def size_sub (a b : Nat) : Nat :=
  (a + 2 ^ SIZE_BITS - b % 2 ^ SIZE_BITS) % 2 ^ SIZE_BITS

/-! ### Enter handlers -/

/-- The handler `enter_alter_server`. -/
def enter_alter_server (env : listener_env) (h : query_handle_t) :
    Except Fault (query_handle_t × listener_action_t) :=
  SIRIPARSER_MASTER_CHECK_ACCESS env h env.SIRIDB_ACCESS_ALTER fun h =>
    (query_node h).bind fun node =>
    (cleri_child node.children 1).bind fun n1 =>
    (cleri_child n1.children 0).bind fun server_node =>
    let server : Except Fault (Option ServerPtr) :=
      match server_node.tp with
      | .CLERI_TP_CHOICE =>
        .ok (env.siridb_servers_by_name h.siridb (env.strx_extract_string server_node.str))
      | .CLERI_TP_REGEX => .ok (env.siridb_servers_by_uuid h.siridb server_node.str)
      | .CLERI_TP_OTHER =>
        /- we should NEVER get here -/
        .error .out_of_bounds
    server.bind fun server =>
    match server with
    | none =>
      siridb_send_error
        { h with query := { h.query with err_msg := "Cannot find server: " ++ server_node.str } }
        .SN_MSG_QUERY_ERROR
    | some server =>
      (siridb_server_incref h.server_ref server).bind fun server_ref =>
      SIRIPARSER_NEXT_NODE
        { h with
          query := { h.query with data := .server server, free_cb := .decref_server_object }
          server_ref := server_ref }

/-- The handler `enter_alter_user`. -/
def enter_alter_user (env : listener_env) (h : query_handle_t) :
    Except Fault (query_handle_t × listener_action_t) :=
  SIRIPARSER_MASTER_CHECK_ACCESS env h env.SIRIDB_ACCESS_ALTER fun h =>
    (query_node h).bind fun node =>
    (cleri_child node.children 1).bind fun user_node =>
    let username := env.strx_extract_string user_node.str
    (siridb_users_get_user h.user_heap h.users username).bind fun user =>
    match user with
    | none =>
      siridb_send_error
        { h with
          query := { h.query with err_msg := "Cannot find user: '" ++ username ++ "'" } }
        .SN_MSG_QUERY_ERROR
    | some user =>
      (siridb_user_incref h.user_heap user).bind fun user_heap =>
      SIRIPARSER_NEXT_NODE
        { h with
          query := { h.query with data := .user user, free_cb := .decref_user_object }
          user_heap := user_heap }

/-- The handler `enter_count_stmt`. -/
def enter_count_stmt (env : listener_env) (h : query_handle_t) :
    Except Fault (query_handle_t × listener_action_t) :=
  SIRIPARSER_MASTER_CHECK_ACCESS env h env.SIRIDB_ACCESS_COUNT fun h =>
    SIRIPARSER_NEXT_NODE
      { h with
        query := { h.query with
          packer := some [.QP_MAP_OPEN]
          data := .q_count query_count_new
          free_cb := .query_count_free } }

/-- The handler `enter_create_user_stmt`. -/
def enter_create_user_stmt (env : listener_env) (h : query_handle_t) :
    Except Fault (query_handle_t × listener_action_t) :=
  SIRIPARSER_MASTER_CHECK_ACCESS env h env.SIRIDB_ACCESS_CREATE fun h =>
    /- bind user object to data and set correct free call -/
    let new := siridb_user_new h.user_heap
    (siridb_user_incref new.1 new.2).bind fun user_heap =>
    SIRIPARSER_NEXT_NODE
      { h with
        query := { h.query with data := .user new.2, free_cb := .decref_user_object }
        user_heap := user_heap }

/-- The handler `enter_drop_stmt`: the packer and the state of the statement
are made before the access check. -/
def enter_drop_stmt (env : listener_env) (h : query_handle_t) :
    Except Fault (query_handle_t × listener_action_t) :=
  let h1 : query_handle_t :=
    { h with
      query := { h.query with
        packer := some [.QP_MAP_OPEN]
        data := .q_drop query_drop_new
        free_cb := .query_drop_free } }
  SIRIPARSER_MASTER_CHECK_ACCESS env h1 env.SIRIDB_ACCESS_DROP fun h =>
    SIRIPARSER_NEXT_NODE h

/-- The handler `enter_grant_stmt`. -/
def enter_grant_stmt (env : listener_env) (h : query_handle_t) :
    Except Fault (query_handle_t × listener_action_t) :=
  SIRIPARSER_MASTER_CHECK_ACCESS env h env.SIRIDB_ACCESS_GRANT fun h =>
    SIRIPARSER_NEXT_NODE h

/-- The handler `enter_limit_expr`. The parsed limit is the `result` of the
second child of the current node. A signed limit above zero keeps its value
when it is stored in the `size_t` limit of the list state `query->data`. -/
def enter_limit_expr (h : query_handle_t) : Except Fault (query_handle_t × listener_action_t) :=
  (query_node h).bind fun node =>
  (cleri_child node.children 1).bind fun n1 =>
  let limit : Int := n1.result
  if limit ≤ 0 then
    siridb_send_error
      { h with
        query := { h.query with
          err_msg := "Limit must be a value larger than zero but received: '" ++
            toString limit ++ "'" } }
      .SN_MSG_QUERY_ERROR
  else
    match h.query.data with
    | .q_list qlist =>
      SIRIPARSER_NEXT_NODE
        { h with query := { h.query with data := .q_list { qlist with limit := limit.toNat } } }
    | _ => .error .out_of_bounds

/-- The handler `enter_list_stmt`. -/
def enter_list_stmt (env : listener_env) (h : query_handle_t) :
    Except Fault (query_handle_t × listener_action_t) :=
  SIRIPARSER_MASTER_CHECK_ACCESS env h env.SIRIDB_ACCESS_LIST fun h =>
    SIRIPARSER_NEXT_NODE
      { h with
        query := { h.query with
          packer := some [.QP_MAP_OPEN, .raw "columns", .QP_ARRAY_OPEN]
          data := .q_list (query_list_new env)
          free_cb := .query_list_free } }

/-- The handler `enter_revoke_stmt`. -/
def enter_revoke_stmt (env : listener_env) (h : query_handle_t) :
    Except Fault (query_handle_t × listener_action_t) :=
  SIRIPARSER_MASTER_CHECK_ACCESS env h env.SIRIDB_ACCESS_REVOKE fun h =>
    SIRIPARSER_NEXT_NODE h

/-- The handler `enter_select_stmt`. -/
def enter_select_stmt (env : listener_env) (h : query_handle_t) :
    Except Fault (query_handle_t × listener_action_t) :=
  SIRIPARSER_MASTER_CHECK_ACCESS env h env.SIRIDB_ACCESS_SELECT fun h =>
    SIRIPARSER_NEXT_NODE
      { h with
        query := { h.query with
          data := .q_select query_select_new
          free_cb := .query_select_free
          packer := some [.QP_MAP_OPEN] } }

/-! ### Exit handlers -/

/-- The handler `exit_count_series_stmt`. The argument of `qp_add_int64` is
converted to `int64_t`. -/
def exit_count_series_stmt (h : query_handle_t) :
    Except Fault (query_handle_t × listener_action_t) :=
  (qp_add h [.raw "series", .int64 (int64_wrap h.siridb.series_map.length)]).bind fun h =>
  SIRIPARSER_NEXT_NODE h

/-- The loop of `exit_count_servers_stmt` over `siridb->servers`: the counter
`n` is raised for each server that passes the where expression. -/
def count_servers_loop (env : listener_env) (siridb : siridb_t) (where_expr : Option cexpr_t) :
    List ServerPtr → Int → Int
  | [], n => n
  | p :: servers, n =>
    count_servers_loop env siridb where_expr servers
      (match where_expr with
        | none => int64_wrap (n + 1)
        | some w => if env.cexpr_run_server w siridb p then int64_wrap (n + 1) else n)

/-- The handler `exit_count_servers_stmt`. The state of the statement is read
both as a `query_list_t` (for the where expression) and as a `query_count_t`;
the two begin with the same members. -/
def exit_count_servers_stmt (env : listener_env) (h : query_handle_t) :
    Except Fault (query_handle_t × listener_action_t) :=
  match h.query.data with
  | .q_count q_count =>
    let where_expr := q_count.where_expr
    (qp_add h [.raw "servers"]).bind fun h =>
    let is_local : Bool := IS_MASTER env h.query
    /- if is_local, check if we use 'remote' props in where expression -/
    let is_local : Bool :=
      match where_expr with
      | some w => if is_local then !env.cexpr_contains_remote_prop w else is_local
      | none => is_local
    let n : Int :=
      if is_local then count_servers_loop env h.siridb where_expr h.siridb.servers q_count.n
      else count_servers_loop env h.siridb where_expr [h.siridb.server] q_count.n
    let h : query_handle_t :=
      { h with query := { h.query with data := .q_count { q_count with n := n } } }
    if IS_MASTER env h.query && !is_local then
      .ok (h, .query_forward .BP_QUERY_SERVER .on_count_servers_response)
    else
      (qp_add h [.int64 (int64_wrap n)]).bind fun h =>
      SIRIPARSER_NEXT_NODE h
  | _ => .error .out_of_bounds

/-- The block `if (q_list->props == NULL)` of `exit_list_series_stmt`: what it
adds to the packer, and the list state it leaves. -/
def list_series_columns (env : listener_env) (q_list : query_list_t) :
    List qp_tok × query_list_t :=
  match q_list.props with
  | none => ([.raw "name"], { q_list with props := some [env.CLERI_GID_K_NAME] })
  | some _ => ([], q_list)

/-- The handler `exit_list_series_stmt`. The walk `ct_walkn (..., &q_list->limit,
walk_list_series, handle)` (`ct.c` and `walkers.c` are not at hand) is a
parameter that gives what it adds to the packer and the limit it leaves. -/
def exit_list_series_stmt (env : listener_env) (h : query_handle_t) :
    Except Fault (query_handle_t × listener_action_t) :=
  match h.query.data with
  | .q_list q_list =>
    let hdr := list_series_columns env q_list
    let q_list := hdr.2
    (qp_add h (hdr.1 ++ [.QP_ARRAY_CLOSE, .raw "series", .QP_ARRAY_OPEN])).bind fun h =>
    let walk := env.ct_walkn_list_series h.siridb q_list
    (qp_add h walk.1).bind fun h =>
    let q_list := { q_list with limit := walk.2 }
    let h : query_handle_t := { h with query := { h.query with data := .q_list q_list } }
    if IS_MASTER env h.query && q_list.limit != 0 then
      /- we have not reached the limit, send the query to oter pools -/
      .ok (h, .query_forward .BP_QUERY_POOL .on_list_xxx_response)
    else
      (qp_add h [.QP_ARRAY_CLOSE]).bind fun h =>
      SIRIPARSER_NEXT_NODE h
  | _ => .error .out_of_bounds

/-- The variable `is_local` of `exit_list_servers_stmt` after its two checks:
the query runs on the master, no column asked for is a remote property and
the where expression uses none. -/
def list_servers_is_local (env : listener_env) (query : siridb_query_t)
    (q_list : query_list_t) : Bool :=
  let is_local : Bool := IS_MASTER env query
  /- if is_local, check if we need ask for 'remote' columns -/
  let is_local : Bool :=
    match q_list.props with
    | some props =>
      if is_local then !props.any env.siridb_server_is_remote_prop else is_local
    | none => is_local
  /- if is_local, check if we use 'remote' props in where expression -/
  match q_list.where_expr with
  | some w => if is_local then !env.cexpr_contains_remote_prop w else is_local
  | none => is_local

/-- The block `if (q_list->props == NULL)` of `exit_list_servers_stmt`: what
it adds to the packer, and the list state it leaves. -/
def list_servers_columns (env : listener_env) (q_list : query_list_t) :
    List qp_tok × query_list_t :=
  match q_list.props with
  | none =>
    ([.raw "name", .raw "pool", .raw "version", .raw "online", .raw "status"],
      { q_list with
        props := some [env.CLERI_GID_K_NAME, env.CLERI_GID_K_POOL, env.CLERI_GID_K_VERSION,
          env.CLERI_GID_K_ONLINE, env.CLERI_GID_K_STATUS] })
  | some _ => ([], q_list)

/-- The walk of `exit_list_servers_stmt`: `llist_walkn (siridb->servers,
&q_list->limit, walk_list_servers, handle)` when `is_local`, else
`q_list->limit -= walk_list_servers (siridb->server, handle)`. The two
functions (`llist.c` and `walkers.c` are not at hand) are parameters that give
what they add to the packer and, the first, the limit it leaves, the second,
its return value. The result is what is added and the limit that is left. -/
def list_servers_walk (env : listener_env) (siridb : siridb_t) (is_local : Bool)
    (q_list : query_list_t) : List qp_tok × Nat :=
  if is_local then env.llist_walkn_list_servers siridb q_list
  else
    let r := env.walk_list_servers siridb q_list siridb.server
    (r.1, size_sub q_list.limit r.2)

/-- The handler `exit_list_servers_stmt`. -/
def exit_list_servers_stmt (env : listener_env) (h : query_handle_t) :
    Except Fault (query_handle_t × listener_action_t) :=
  match h.query.data with
  | .q_list q_list =>
    let is_local : Bool := list_servers_is_local env h.query q_list
    let hdr := list_servers_columns env q_list
    let q_list := hdr.2
    (qp_add h (hdr.1 ++ [.QP_ARRAY_CLOSE, .raw "servers", .QP_ARRAY_OPEN])).bind fun h =>
    let walk := list_servers_walk env h.siridb is_local q_list
    (qp_add h walk.1).bind fun h =>
    let q_list := { q_list with limit := walk.2 }
    let h : query_handle_t := { h with query := { h.query with data := .q_list q_list } }
    if IS_MASTER env h.query && !is_local && q_list.limit != 0 then
      .ok (h, .query_forward .BP_QUERY_SERVER .on_list_xxx_response)
    else
      (qp_add h [.QP_ARRAY_CLOSE]).bind fun h =>
      SIRIPARSER_NEXT_NODE h
  | _ => .error .out_of_bounds

/-- The row `exit_list_users_stmt` adds for one user: the columns asked for,
or the name and the access rights when none were named. -/
def list_users_row (env : listener_env) (props : Option (List Nat)) (user : siridb_user_t) :
    List qp_tok :=
  [.QP_ARRAY_OPEN] ++
    (match props with
      | none =>
        env.siridb_user_prop user env.CLERI_GID_K_USER ++
          env.siridb_user_prop user env.CLERI_GID_K_ACCESS
      | some props => props.flatMap fun gid => env.siridb_user_prop user gid) ++
    [.QP_ARRAY_CLOSE]

/-- The loop `while (node != NULL)` of `exit_list_users_stmt` over the cells
of `siridb->users`; the result is what is added to the packer. -/
def list_users_loop (env : listener_env) (user_heap : List siridb_user_t)
    (props : Option (List Nat)) (where_expr : Option cexpr_t) :
    List UserPtr → Except Fault (List qp_tok)
  | [] => .ok []
  | p :: users =>
    match user_heap[p]? with
    | none => .error .out_of_bounds
    | some user =>
      let row : List qp_tok :=
        match where_expr with
        | none => list_users_row env props user
        | some w => if env.cexpr_run_user w user then list_users_row env props user else []
      (list_users_loop env user_heap props where_expr users).bind fun rows =>
        .ok (row ++ rows)

/-- The handler `exit_list_users_stmt`. -/
def exit_list_users_stmt (env : listener_env) (h : query_handle_t) :
    Except Fault (query_handle_t × listener_action_t) :=
  match h.query.data with
  | .q_list q_list =>
    let props := q_list.props
    let where_expr := q_list.where_expr
    let hdr : List qp_tok :=
      match props with
      | none => [.raw "user", .raw "access"]
      | some _ => []
    (qp_add h (hdr ++ [.QP_ARRAY_CLOSE, .raw "users", .QP_ARRAY_OPEN])).bind fun h =>
    (list_users_loop env h.user_heap props where_expr h.users).bind fun rows =>
    (qp_add h (rows ++ [.QP_ARRAY_CLOSE])).bind fun h =>
    SIRIPARSER_NEXT_NODE h
  | _ => .error .out_of_bounds

/-- The call `prop_cb (siridb, query->packer, 1)` for the entry `i` of the
table `siridb_props`: what the call-back adds; calling a `NULL` entry or an
entry outside the table is a fault. The call-backs read the database and the
global `who_am_i`. -/
def show_prop (env : listener_env) (siridb : siridb_t) (who_am_i : Option String) (i : Nat) :
    Except Fault (List qp_tok) :=
  if i < env.KW_COUNT then
    match env.siridb_props siridb who_am_i i with
    | none => .error .out_of_bounds
    | some toks => .ok toks
  else .error .out_of_bounds

/-- The loop `while (1)` of `exit_show_stmt` over the properties named in the
query; every second cell is a delimiter. -/
def show_selected (env : listener_env) (siridb : siridb_t) (who_am_i : Option String) :
    List cleri_node_t → Except Fault (List qp_tok)
  | [] => .error .out_of_bounds
  | [node] =>
    (cleri_child node.children 0).bind fun kw =>
    if env.KW_OFFSET ≤ kw.gid then show_prop env siridb who_am_i (kw.gid - env.KW_OFFSET)
    else .error .out_of_bounds
  | node :: _ :: children =>
    (cleri_child node.children 0).bind fun kw =>
    (if env.KW_OFFSET ≤ kw.gid then show_prop env siridb who_am_i (kw.gid - env.KW_OFFSET)
      else .error .out_of_bounds).bind fun toks =>
    /- skip one which is the delimiter -/
    (show_selected env siridb who_am_i children).bind fun rest =>
      .ok (toks ++ rest)

/-- The handler `exit_show_stmt`. -/
def exit_show_stmt (env : listener_env) (h : query_handle_t) :
    Except Fault (query_handle_t × listener_action_t) :=
  SIRIPARSER_MASTER_CHECK_ACCESS env h env.SIRIDB_ACCESS_SHOW fun h =>
    (query_node h).bind fun node =>
    (cleri_child node.children 1).bind fun n1 =>
    let children := n1.children
    let h : query_handle_t :=
      { h with
        query := { h.query with packer := some [.QP_MAP_OPEN, .raw "data", .QP_ARRAY_OPEN] } }
    match h.user_heap[h.origin]? with
    | none => .error .out_of_bounds
    | some user =>
      let h : query_handle_t := { h with who_am_i := user.username }
      let props : Except Fault (List qp_tok) :=
        match children with
        | [] =>
          /- show all properties -/
          .ok ((List.range env.KW_COUNT).flatMap fun i =>
            (env.siridb_props h.siridb h.who_am_i i).getD [])
        | _ :: _ =>
          /- show selected properties chosen by query -/
          show_selected env h.siridb h.who_am_i children
      props.bind fun toks =>
      (qp_add h (toks ++ [.QP_ARRAY_CLOSE])).bind fun h =>
      SIRIPARSER_NEXT_NODE h

/-! ### On response functions -/

/-- The test of `on_count_servers_response` on a response: a map, a raw key
and an integer, which is handed out with the cursor behind it. -/
def count_response_header (unpacker : qp_unpacker_t) : Option (Int × qp_unpacker_t) :=
  let r1 := qp_next unpacker
  if r1.1 = .QP_MAP then
    let r2 := qp_next r1.2.2
    if r2.1 = .QP_RAW then
      let r3 := qp_next r2.2.2
      if r3.1 = .QP_INT64 then
        match r3.2.1 with
        | some (.int64 n) => some (n, r3.2.2)
        | _ => none
      else none
    else none
  else none

/-- One round of the loop of `on_count_servers_response`, on the counter and
the time-it packer. -/
def on_count_slot (env : listener_env) (st : Int × Option qp_packer_t)
    (slot : Option sirinet_promise_t) : Int × Option qp_packer_t :=
  match slot with
  | none => st
  | some promise =>
    match promise.data with
    | none => st
    | some pkg =>
      if pkg.tp = env.BP_QUERY_RESPONSE then
        match count_response_header (qp_new_unpacker pkg.data) with
        | some (n, unpacker) =>
          (int64_wrap (st.1 + n),
            /- extract time-it info if needed -/
            st.2.map fun timeit => env.timeit_from_unpacker timeit unpacker)
        | none => st
      else st

/-- The call-back `on_count_servers_response (promises, handle)`. -/
def on_count_servers_response (env : listener_env) (promises : List (Option sirinet_promise_t))
    (h : query_handle_t) : Except Fault (query_handle_t × listener_action_t) :=
  match h.query.data with
  | .q_count q_count =>
    let r := promises.foldl (on_count_slot env) (q_count.n, h.query.timeit)
    let h : query_handle_t :=
      { h with
        query := { h.query with data := .q_count { q_count with n := r.1 }, timeit := r.2 } }
    (qp_add h [.int64 (int64_wrap r.1)]).bind fun h =>
    SIRIPARSER_NEXT_NODE h
  | _ => .error .out_of_bounds

/-- The test of `on_list_xxx_response` on a response: a map, a raw key, an
array that is passed over, a raw key and an array that is entered; the result
is the cursor on the first item of that array. -/
def list_response_header (unpacker : qp_unpacker_t) : Option qp_unpacker_t :=
  let r1 := qp_next unpacker
  if r1.1 = .QP_MAP then
    let r2 := qp_next r1.2.2
    if r2.1 = .QP_RAW then
      let r3 := qp_skip_next r2.2.2
      if r3.1 = .QP_ARRAY then
        let r4 := qp_next r3.2
        if r4.1 = .QP_RAW then
          let r5 := qp_next r4.2.2
          if r5.1 = .QP_ARRAY then some r5.2.2 else none
        else none
      else none
    else none
  else none

/-- The loop `while (qp_is_array (qp_current (unpacker)))` of
`on_list_xxx_response` on the limit, the packer and the cursor: an array is
copied to the packer by `qp_extend_from_unpacker` while the limit is not zero,
and passed over by `qp_skip_next` after that. -/
def list_rows_loop : Nat → qp_packer_t → qp_unpacker_t → Nat × qp_packer_t × qp_unpacker_t
  | limit, packer, .val (.array items) :: rest =>
    if limit ≠ 0 then list_rows_loop (limit - 1) (packer ++ [.value (.array items)]) rest
    else list_rows_loop limit packer rest
  | limit, packer, unpacker => (limit, packer, unpacker)

/-- One round of the loop of `on_list_xxx_response`, on the limit, the packer
and the time-it packer. -/
def on_list_slot (env : listener_env) (st : Nat × qp_packer_t × Option qp_packer_t)
    (slot : Option sirinet_promise_t) : Nat × qp_packer_t × Option qp_packer_t :=
  match slot with
  | none => st
  | some promise =>
    match promise.data with
    | none => st
    | some pkg =>
      if pkg.tp = env.BP_QUERY_RESPONSE then
        match list_response_header (qp_new_unpacker pkg.data) with
        | some unpacker =>
          let r := list_rows_loop st.1 st.2.1 unpacker
          (r.1, r.2.1,
            /- extract time-it info if needed -/
            st.2.2.map fun timeit => env.timeit_from_unpacker timeit r.2.2)
        | none => st
      else st

/-- The call-back `on_list_xxx_response (promises, handle)`, used for list
series and list servers. -/
def on_list_xxx_response (env : listener_env) (promises : List (Option sirinet_promise_t))
    (h : query_handle_t) : Except Fault (query_handle_t × listener_action_t) :=
  match h.query.data, h.query.packer with
  | .q_list q_list, some packer =>
    let r := promises.foldl (on_list_slot env) (q_list.limit, packer, h.query.timeit)
    SIRIPARSER_NEXT_NODE
      { h with
        query := { h.query with
          data := .q_list { q_list with limit := r.1 }
          packer := some (r.2.1 ++ [.QP_ARRAY_CLOSE])
          timeit := r.2.2 } }
  | _, _ => .error .out_of_bounds

/-! ### What the statements about the listener speak of -/

/-- What `SIRIPARSER_NEXT_NODE` does last when `nodes` is the rest of the
cursor. -/
def next_action (nodes : List siridb_node_t) : listener_action_t :=
  match nodes with
  | [] => .send_query_result
  | next :: _ => .next_cb next.cb

/-- Whether a value is an array. -/
def qp_is_array_val : qp_val → Bool
  | .array _ => true
  | _ => false

/-- The rows of a list response: the packet is a map of a raw key, an array
(the columns), a raw key and an array; the rows are the arrays this last
array begins with. Any other packet has no rows. -/
def pkg_rows (pkg : sirinet_pkg_t) : List qp_val :=
  match pkg.data with
  | .map (.raw _ :: .array _ :: .raw _ :: .array rows :: _) :: _ =>
    rows.takeWhile qp_is_array_val
  | _ => []

/-- The rows a promise slot brings: those of its packet when the slot is not
`NULL`, holds a packet, and the packet is of type `BP_QUERY_RESPONSE`. -/
def slot_rows (env : listener_env) (slot : Option sirinet_promise_t) : List qp_val :=
  match slot with
  | none => []
  | some promise =>
    match promise.data with
    | none => []
    | some pkg => if pkg.tp = env.BP_QUERY_RESPONSE then pkg_rows pkg else []

/-- The integer of a count response: the packet is a map that begins with a
raw key and an integer. Any other packet counts 0. -/
def pkg_count (pkg : sirinet_pkg_t) : Int :=
  match pkg.data with
  | .map (.raw _ :: .int64 n :: _) :: _ => n
  | _ => 0

/-- The integer a promise slot brings: that of its packet when the slot is
not `NULL`, holds a packet, and the packet is of type `BP_QUERY_RESPONSE`;
else 0. -/
def slot_count (env : listener_env) (slot : Option sirinet_promise_t) : Int :=
  match slot with
  | none => 0
  | some promise =>
    match promise.data with
    | none => 0
    | some pkg => if pkg.tp = env.BP_QUERY_RESPONSE then pkg_count pkg else 0

/-- The user store that differs from `user_heap` in the access bits of the
user at `origin` only, which are `a`. -/
def heap_set_access (a : Nat) (origin : UserPtr) (user_heap : List siridb_user_t) :
    List siridb_user_t :=
  match user_heap[origin]? with
  | none => user_heap
  | some user => user_heap.set origin { user with access_bit := a }

/-- The state that differs from `h` in the access bits of the user `origin`
only, which are `a`. -/
def set_origin_access (a : Nat) (h : query_handle_t) : query_handle_t :=
  { h with user_heap := heap_set_access a h.origin h.user_heap }

/-- The handlers that begin with `SIRIPARSER_MASTER_CHECK_ACCESS`, each with
the access bit it asks for. -/
def access_handlers (env : listener_env) :
    List (Nat × (query_handle_t → Except Fault (query_handle_t × listener_action_t))) :=
  [(env.SIRIDB_ACCESS_ALTER, enter_alter_server env),
    (env.SIRIDB_ACCESS_ALTER, enter_alter_user env),
    (env.SIRIDB_ACCESS_COUNT, enter_count_stmt env),
    (env.SIRIDB_ACCESS_CREATE, enter_create_user_stmt env),
    (env.SIRIDB_ACCESS_DROP, enter_drop_stmt env),
    (env.SIRIDB_ACCESS_GRANT, enter_grant_stmt env),
    (env.SIRIDB_ACCESS_LIST, enter_list_stmt env),
    (env.SIRIDB_ACCESS_REVOKE, enter_revoke_stmt env),
    (env.SIRIDB_ACCESS_SELECT, enter_select_stmt env),
    (env.SIRIDB_ACCESS_SHOW, exit_show_stmt env)]

/-- A sample of what the listener takes from outside: the master flag is bit
0, each access right a bit of its own, responses have type 5; a where
expression holds for the users with access bits above its number; the
property of a user is its name or its access bits; the walks add nothing. -/
def sample_listener_env : listener_env :=
  { SIRIDB_QUERY_FLAG_MASTER := 1
    SIRIDB_ACCESS_ALTER := 1
    SIRIDB_ACCESS_COUNT := 2
    SIRIDB_ACCESS_CREATE := 4
    SIRIDB_ACCESS_DROP := 8
    SIRIDB_ACCESS_GRANT := 16
    SIRIDB_ACCESS_LIST := 32
    SIRIDB_ACCESS_REVOKE := 64
    SIRIDB_ACCESS_SELECT := 128
    SIRIDB_ACCESS_SHOW := 256
    BP_QUERY_RESPONSE := 5
    DEFAULT_LIST_LIMIT := 1000
    CLERI_GID_K_NAME := 40
    CLERI_GID_K_POOL := 41
    CLERI_GID_K_VERSION := 42
    CLERI_GID_K_ONLINE := 43
    CLERI_GID_K_STATUS := 44
    CLERI_GID_K_USER := 45
    CLERI_GID_K_ACCESS := 46
    KW_OFFSET := 30
    KW_COUNT := 20
    access_denied_msg := fun _ _ => "Access denied."
    strx_extract_string := fun s => s
    siridb_servers_by_name := fun _ _ => none
    siridb_servers_by_uuid := fun _ _ => none
    cexpr_run_user := fun w user => decide (w < user.access_bit)
    cexpr_run_server := fun _ _ _ => true
    cexpr_contains_remote_prop := fun _ => false
    siridb_server_is_remote_prop := fun _ => false
    siridb_user_prop := fun user gid =>
      if gid = 45 then [.raw (user.username.getD "")] else [.int64 user.access_bit]
    siridb_props := fun _ _ _ => none
    ct_walkn_list_series := fun _ q_list => ([], q_list.limit)
    llist_walkn_list_servers := fun _ q_list => ([], q_list.limit)
    walk_list_servers := fun _ _ _ => ([], 0)
    timeit_from_unpacker := fun timeit _ => timeit }

/-- A parse node without children. -/
def sample_leaf (result : Int) : cleri_node_t :=
  .mk 0 .CLERI_TP_OTHER "" result []

/-- A sample list query on the master, after `enter_list_stmt`: two cells are
left in the cursor, the first for a node whose second child has the result
`result`; three users are known, the first is the user of the client; the
limit of the list state is `limit`. -/
def sample_list_handle (result : Int) (limit : Nat) : query_handle_t :=
  { query :=
      { flags := 1
        nodes := [{ node := .mk 0 .CLERI_TP_OTHER "" 0 [sample_leaf 0, sample_leaf result], cb := 11 },
          { node := sample_leaf 0, cb := 12 }]
        packer := some [.QP_MAP_OPEN, .raw "columns", .QP_ARRAY_OPEN]
        timeit := none
        data := .q_list { ct_series := none, where_expr := none, props := none, limit := limit }
        free_cb := .query_list_free
        err_msg := "" }
    origin := 0
    siridb := sample_db_three
    user_heap := [{ username := some "iris", access_bit := 511, ref := 1 },
      { username := some "sasha", access_bit := 32, ref := 1 },
      { username := some "pee", access_bit := 2, ref := 1 }]
    users := [0, 1, 2]
    server_ref := [1, 1, 1]
    who_am_i := none }

/-- A list response with the given rows. -/
def sample_list_pkg (rows : List qp_val) : sirinet_pkg_t :=
  { tp := 5, data := [.map [.raw "columns", .array [.raw "name"], .raw "series", .array rows]] }

/-- A count response with the given integer. -/
def sample_count_pkg (n : Int) : sirinet_pkg_t :=
  { tp := 5, data := [.map [.raw "servers", .int64 n]] }

/-- A sample count query on the master, after `enter_count_stmt`, with the
counter at `n`, in a database with ten series. -/
def sample_count_handle (n : Int) : query_handle_t :=
  { query :=
      { flags := 1
        nodes := [{ node := sample_leaf 0, cb := 21 }]
        packer := some [.QP_MAP_OPEN]
        timeit := none
        data := .q_count { ct_series := none, where_expr := none, n := n }
        free_cb := .query_count_free
        err_msg := "" }
    origin := 0
    siridb :=
      { sample_db_three with
        series_map := [(1, 0), (2, 0), (3, 0), (4, 0), (5, 0), (6, 0), (7, 0), (8, 0), (9, 0),
          (10, 0)] }
    user_heap := [{ username := some "iris", access_bit := 511, ref := 1 }]
    users := [0]
    server_ref := [1, 1, 1]
    who_am_i := none }

/-- A promise slot that holds a list response with the given rows. -/
def sample_list_slot (rows : List qp_val) : Option sirinet_promise_t :=
  some { data := some (sample_list_pkg rows) }

/-- A promise slot that holds a count response with the given integer. -/
def sample_count_slot (n : Int) : Option sirinet_promise_t :=
  some { data := some (sample_count_pkg n) }

/-- The result of `on_list_xxx_response` on the state `h` with list state
`q_list`, packer `packer` and the rest `nodes` of the cursor, when `rows` are
the rows it appends and `timeit` is the time-it packer it leaves. -/
def list_merged (h : query_handle_t) (q_list : query_list_t) (packer : qp_packer_t)
    (nodes : List siridb_node_t) (rows : List qp_val) (timeit : Option qp_packer_t) :
    query_handle_t × listener_action_t :=
  ({ h with
      query := { h.query with
        nodes := nodes
        data := .q_list { q_list with limit := q_list.limit - rows.length }
        packer := some (packer ++ rows.map .value ++ [.QP_ARRAY_CLOSE])
        timeit := timeit } },
    next_action nodes)

/-- The result of `on_count_servers_response` on the state `h` with count
state `q_count`, packer `packer` and the rest `nodes` of the cursor, when `n`
is the counter it leaves, `emitted` the integer it adds to the packer and
`timeit` the time-it packer it leaves. -/
def count_merged (h : query_handle_t) (q_count : query_count_t) (packer : qp_packer_t)
    (nodes : List siridb_node_t) (n emitted : Int) (timeit : Option qp_packer_t) :
    query_handle_t × listener_action_t :=
  ({ h with
      query := { h.query with
        nodes := nodes
        data := .q_count { q_count with n := n }
        packer := some (packer ++ [.int64 emitted])
        timeit := timeit } },
    next_action nodes)

/-- The sample list query with a limit of 2 on a peer: the master flag is
cleared. -/
def sample_peer_handle : query_handle_t :=
  { sample_list_handle 1 2 with query := { (sample_list_handle 1 2).query with flags := 0 } }

/-! ## Replication: scheduled work (`replicate.c`) -/

/-- The precondition of an event when, beyond its assertion,
`siridb_replicate_pause` is called only on a task that is not PAUSED
already. -/
def replicate_event_pre_pause_once (e : replicate_event_t) (s : replicate_sys_t) : Bool :=
  replicate_event_pre e s &&
    match e, s.siridb.replicate with
    | .ev_pause, some replicate => decide (replicate.status ≠ .REPLICATE_PAUSED)
    | _, _ => true

/-- Work is scheduled for an active task: when the status is RUNNING or
STOPPING the timer is armed or a sent packet awaits its response; the task is
neither INIT nor CLOSED. -/
def replicate_scheduled (s : replicate_sys_t) : Prop :=
  ∃ replicate, s.siridb.replicate = some replicate ∧
    (replicate.status = .REPLICATE_RUNNING ∨ replicate.status = .REPLICATE_STOPPING →
      replicate.timer.isSome = true ∨ 0 < s.awaiting) ∧
    replicate.status ≠ .REPLICATE_INIT ∧ replicate.status ≠ .REPLICATE_CLOSED

/-! ## Count series with a where expression (`listener.c`) -/

/-- A sample count query as `sample_count_handle`, after
`enter_where_xxx_stmt` has stored the where expression `w` in the count
state. -/
def sample_count_where_handle (w : cexpr_t) : query_handle_t :=
  { sample_count_handle 0 with
    query := { (sample_count_handle 0).query with
      data := .q_count { ct_series := none, where_expr := some w, n := 0 } } }

/-- A sample evaluation of a where expression on a series, an entry of
`siridb->series_map`: the expression `w` holds for the series with an id of
at most `w`. -/
def sample_cexpr_run_series (w : cexpr_t) (series : Nat × Nat) : Bool :=
  decide (series.1 ≤ w)

/-! ## Statements on users and servers (`listener.c`) -/

/-- What the handlers of the statements on users and servers take from the
files that are not at hand. `siridb_access_from_children` gives the mask of an
access expression; `siridb_users_save` holds when the users cannot be written
(the C function returns non-zero); `siridb_users_add_user` gives the new list
`siridb->users` or the error message; `siridb_user_set_password` gives the
error message when it fails (the password is not part of the state). The
fields `access_bit` and the mask are of one unsigned type: the bitwise
operators on them are those of the natural numbers. -/
structure listener_users_env where
  siridb_access_from_children : List cleri_node_t → Nat
  siridb_users_save : List siridb_user_t → List UserPtr → Bool
  siridb_users_add_user : List siridb_user_t → List UserPtr → UserPtr →
    Except String (List UserPtr)
  siridb_user_set_password : siridb_user_t → String → Option String
  CLERI_GID_K_DEBUG : Nat
  CLERI_GID_K_INFO : Nat
  CLERI_GID_K_WARNING : Nat
  CLERI_GID_K_ERROR : Nat
  CLERI_GID_K_CRITICAL : Nat
  LOGGER_DEBUG : Nat
  LOGGER_INFO : Nat
  LOGGER_WARNING : Nat
  LOGGER_ERROR : Nat
  LOGGER_CRITICAL : Nat
  logger_level_name : Nat → String
  server_name : siridb_t → ServerPtr → String

/-- The macro `QP_ADD_SUCCESS` followed by `qp_add_fmt (query->packer, ...)`
with the formatted message `msg`. -/
def QP_ADD_SUCCESS (msg : String) : List qp_tok :=
  [.raw "success_msg", .str msg]

/-- The handler `enter_access_expr`: it binds the children of the access
expression to the query. -/
def enter_access_expr (h : query_handle_t) : Except Fault (query_handle_t × listener_action_t) :=
  (query_node h).bind fun node =>
  SIRIPARSER_NEXT_NODE { h with query := { h.query with data := .children node.children } }

/-- The handler `enter_grant_user_stmt`. The state `query->data` is read as
the children that `enter_access_expr` has bound. -/
def enter_grant_user_stmt (env : listener_env) (uenv : listener_users_env) (h : query_handle_t) :
    Except Fault (query_handle_t × listener_action_t) :=
  (query_node h).bind fun node =>
  (cleri_child node.children 1).bind fun user_node =>
  let username := env.strx_extract_string user_node.str
  (siridb_users_get_user h.user_heap h.users username).bind fun user =>
  match user with
  | none =>
    siridb_send_error
      { h with
        query := { h.query with err_msg := "Cannot find user: '" ++ username ++ "'" } }
      .SN_MSG_QUERY_ERROR
  | some p =>
    match h.query.data, h.user_heap[p]? with
    | .children access, some user =>
      let user_heap := h.user_heap.set p
        { user with access_bit := user.access_bit ||| uenv.siridb_access_from_children access }
      (siridb_user_incref user_heap p).bind fun user_heap =>
      SIRIPARSER_NEXT_NODE
        { h with
          query := { h.query with data := .user p, free_cb := .decref_user_object }
          user_heap := user_heap }
    | _, _ => .error .out_of_bounds

/-- The handler `enter_revoke_user_stmt`. -/
def enter_revoke_user_stmt (env : listener_env) (uenv : listener_users_env) (h : query_handle_t) :
    Except Fault (query_handle_t × listener_action_t) :=
  (query_node h).bind fun node =>
  (cleri_child node.children 1).bind fun user_node =>
  let username := env.strx_extract_string user_node.str
  (siridb_users_get_user h.user_heap h.users username).bind fun user =>
  match user with
  | none =>
    siridb_send_error
      { h with
        query := { h.query with err_msg := "Cannot find user: '" ++ username ++ "'" } }
      .SN_MSG_QUERY_ERROR
  | some p =>
    match h.query.data, h.user_heap[p]? with
    | .children access, some user =>
      let user_heap := h.user_heap.set p
        { user with
          access_bit := user.access_bit ^^^
            (user.access_bit &&& uenv.siridb_access_from_children access) }
      (siridb_user_incref user_heap p).bind fun user_heap =>
      SIRIPARSER_NEXT_NODE
        { h with
          query := { h.query with data := .user p, free_cb := .decref_user_object }
          user_heap := user_heap }
    | _, _ => .error .out_of_bounds

/-- The user object `(siridb_user_t *) query->data`; any other state of the
statement is a fault. -/
def query_user (h : query_handle_t) : Except Fault (UserPtr × siridb_user_t) :=
  match h.query.data with
  | .user p =>
    match h.user_heap[p]? with
    | some user => .ok (p, user)
    | none => .error .out_of_bounds
  | _ => .error .out_of_bounds

/-- The handler `enter_set_password`. -/
def enter_set_password (env : listener_env) (uenv : listener_users_env) (h : query_handle_t) :
    Except Fault (query_handle_t × listener_action_t) :=
  (query_user h).bind fun user =>
  (query_node h).bind fun node =>
  (cleri_child node.children 2).bind fun pw_node =>
  match uenv.siridb_user_set_password user.2 (env.strx_extract_string pw_node.str) with
  | some err_msg =>
    siridb_send_error { h with query := { h.query with err_msg := err_msg } } .SN_MSG_QUERY_ERROR
  | none => SIRIPARSER_NEXT_NODE h

/-- The three handlers `exit_alter_user`, `exit_grant_user_stmt` and
`exit_revoke_user_stmt` differ in the message only: when the users cannot be
written the error is sent; else a new packer takes the success message with
the name of the user `query->data`, a string that is not `NULL`. -/
def exit_users_save (uenv : listener_users_env) (fmt : String → String) (h : query_handle_t) :
    Except Fault (query_handle_t × listener_action_t) :=
  if uenv.siridb_users_save h.user_heap h.users then
    siridb_send_error
      { h with query := { h.query with err_msg := "Could not write users to file!" } }
      .SN_MSG_QUERY_ERROR
  else
    (query_user h).bind fun user =>
    match user.2.username with
    | none => .error .out_of_bounds
    | some username =>
      SIRIPARSER_NEXT_NODE
        { h with
          query := { h.query with
            packer := some (.QP_MAP_OPEN :: QP_ADD_SUCCESS (fmt username)) } }

/-- The handler `exit_alter_user`. -/
def exit_alter_user (uenv : listener_users_env) (h : query_handle_t) :
    Except Fault (query_handle_t × listener_action_t) :=
  exit_users_save uenv
    (fun username => "Successful changed password for user '" ++ username ++ "'.") h

/-- The handler `exit_grant_user_stmt`. -/
def exit_grant_user_stmt (uenv : listener_users_env) (h : query_handle_t) :
    Except Fault (query_handle_t × listener_action_t) :=
  exit_users_save uenv
    (fun username => "Successfully granted permissions to user '" ++ username ++ "'.") h

/-- The handler `exit_revoke_user_stmt`. -/
def exit_revoke_user_stmt (uenv : listener_users_env) (h : query_handle_t) :
    Except Fault (query_handle_t × listener_action_t) :=
  exit_users_save uenv
    (fun username => "Successfully revoked permissions from user '" ++ username ++ "'.") h

/-- The handler `exit_create_user_stmt`: the name is stored in the user
object `query->data`; when `siridb_users_add_user` succeeds the free call-back
is set back to `siridb_query_free`. -/
def exit_create_user_stmt (env : listener_env) (uenv : listener_users_env) (h : query_handle_t) :
    Except Fault (query_handle_t × listener_action_t) :=
  (query_user h).bind fun user =>
  (query_node h).bind fun node =>
  (cleri_child node.children 1).bind fun user_node =>
  let username := env.strx_extract_string user_node.str
  let user_heap := h.user_heap.set user.1 { user.2 with username := some username }
  match uenv.siridb_users_add_user user_heap h.users user.1 with
  | .error err_msg =>
    siridb_send_error
      { h with
        query := { h.query with err_msg := err_msg }
        user_heap := user_heap }
      .SN_MSG_QUERY_ERROR
  | .ok users =>
    /- success, we do not need to free the user anymore -/
    SIRIPARSER_NEXT_NODE
      { h with
        query := { h.query with
          free_cb := .siridb_query_free
          packer := some (.QP_MAP_OPEN ::
            QP_ADD_SUCCESS ("User '" ++ username ++ "' is created successfully.")) }
        user_heap := user_heap
        users := users }

/-- The `switch` of `exit_set_log_level` on the keyword of the level; the
default branch, `assert (0)`, is a fault. -/
def set_log_level_switch (uenv : listener_users_env) (gid : Nat) : Except Fault Nat :=
  if gid = uenv.CLERI_GID_K_DEBUG then .ok uenv.LOGGER_DEBUG
  else if gid = uenv.CLERI_GID_K_INFO then .ok uenv.LOGGER_INFO
  else if gid = uenv.CLERI_GID_K_WARNING then .ok uenv.LOGGER_WARNING
  else if gid = uenv.CLERI_GID_K_ERROR then .ok uenv.LOGGER_ERROR
  else if gid = uenv.CLERI_GID_K_CRITICAL then .ok uenv.LOGGER_CRITICAL
  else .error .out_of_bounds

/-- The handler `exit_set_log_level`; the state `query->data` is the server
of `enter_alter_server`. The level of the logger itself is not part of the
state. -/
def exit_set_log_level (uenv : listener_users_env) (h : query_handle_t) :
    Except Fault (query_handle_t × listener_action_t) :=
  match h.query.data with
  | .server server =>
    (query_node h).bind fun n0 =>
    (cleri_child n0.children 2).bind fun n2 =>
    (cleri_child n2.children 0).bind fun node =>
    (set_log_level_switch uenv node.gid).bind fun log_level =>
    SIRIPARSER_NEXT_NODE
      { h with
        query := { h.query with
          packer := some (.QP_MAP_OPEN ::
            QP_ADD_SUCCESS ("Successful set log level to '" ++
              uenv.logger_level_name log_level ++ "' on '" ++
              uenv.server_name h.siridb server ++ "'.")) } }
  | _ => .error .out_of_bounds

/-! ### Free call-backs -/

/-- Modelled from the spec: `siridb_user_decref (user)` takes one reference
from the user; an object without references is gone, to release it again is a
fault. -/
def siridb_user_decref (user_heap : List siridb_user_t) (p : UserPtr) :
    Except Fault (List siridb_user_t) :=
  match user_heap[p]? with
  | none => .error .out_of_bounds
  | some user =>
    if user.ref = 0 then .error .out_of_bounds
    else .ok (user_heap.set p { user with ref := user.ref - 1 })

/-- Modelled from the spec: `siridb_server_decref (server)`. -/
def siridb_server_decref (server_ref : List Nat) (p : ServerPtr) : Except Fault (List Nat) :=
  match server_ref[p]? with
  | none => .error .out_of_bounds
  | some ref =>
    if ref = 0 then .error .out_of_bounds
    else .ok (server_ref.set p (ref - 1))

/-- The free call-back `decref_server_object`; the normal free call
`siridb_query_free` that ends it releases the query only. -/
def decref_server_object (h : query_handle_t) : Except Fault query_handle_t :=
  match h.query.data with
  | .server p =>
    (siridb_server_decref h.server_ref p).bind fun server_ref =>
    .ok { h with server_ref := server_ref }
  | _ => .error .out_of_bounds

/-- The free call-back `decref_user_object`. -/
def decref_user_object (h : query_handle_t) : Except Fault query_handle_t :=
  match h.query.data with
  | .user p =>
    (siridb_user_decref h.user_heap p).bind fun user_heap =>
    .ok { h with user_heap := user_heap }
  | _ => .error .out_of_bounds

/-- Modelled from the spec: a query is freed exactly once via `free_cb` on
completion or error. The call-backs other than the two of `listener.c`
release the query and the state of its statement; they hold no reference to
a user or a server. -/
def query_free (h : query_handle_t) : Except Fault query_handle_t :=
  match h.query.free_cb with
  | .decref_server_object => decref_server_object h
  | .decref_user_object => decref_user_object h
  | _ => .ok h

/-- A handler of the listener. -/
abbrev listener_cb_t := query_handle_t → Except Fault (query_handle_t × listener_action_t)

/-- Modelled from the spec: the life of a query along a path of handlers. Each
handler that ends with `SIRIPARSER_NEXT_NODE` schedules the next one; when a
handler sends the result or an error the query is freed via `free_cb`. The
query is freed as well when the path stops before that (the client is gone).
A forwarded query lives on in its promises, the run says nothing on it. -/
def query_run : List listener_cb_t → query_handle_t → Except Fault (Option query_handle_t)
  | [], h => (query_free h).bind fun h => .ok (some h)
  | cb :: cbs, h =>
    (cb h).bind fun r =>
    match r.2 with
    | .next_cb _ => query_run cbs r.1
    | .send_query_result => (query_free r.1).bind fun h => .ok (some h)
    | .send_error _ => (query_free r.1).bind fun h => .ok (some h)
    | .query_forward _ _ => .ok none

/-- The reference count of a user (on the left) or of a server (on the
right); an address without object counts zero. -/
def ref_count (h : query_handle_t) : UserPtr ⊕ ServerPtr → Nat
  | .inl p =>
    match h.user_heap[p]? with
    | some user => user.ref
    | none => 0
  | .inr p => h.server_ref.getD p 0

/-- The access bits of the user at `p`. -/
def user_access_bit (h : query_handle_t) (p : UserPtr) : Option Nat :=
  (h.user_heap[p]?).map fun user => user.access_bit

/-- The statements whose enter handler takes a reference: the enter handler,
the handlers that may follow it up to the end of the statement, and whether
the statement hands its reference over when it succeeds. -/
def incref_statements (env : listener_env) (uenv : listener_users_env) :
    List (listener_cb_t × List listener_cb_t × Bool) :=
  [(enter_alter_server env, [exit_set_log_level uenv], false),
   (enter_alter_user env, [enter_set_password env uenv, exit_alter_user uenv], false),
   (enter_create_user_stmt env, [enter_set_password env uenv, exit_create_user_stmt env uenv],
     true),
   (enter_grant_user_stmt env uenv, [enter_set_password env uenv, exit_grant_user_stmt uenv],
     false),
   (enter_revoke_user_stmt env uenv, [exit_revoke_user_stmt uenv], false)]

/-- Sample functions for the statements on users: the mask of an access
expression is the disjunction of the numbers of its nodes, the users can be
written, a new user is added at the end of the list, and a password needs
four characters. -/
def sample_users_env : listener_users_env :=
  { siridb_access_from_children := fun access => access.foldl (fun acc n => acc ||| n.gid) 0
    siridb_users_save := fun _ _ => false
    siridb_users_add_user := fun _ users p => .ok (users ++ [p])
    siridb_user_set_password := fun _ password =>
      if password.length < 4 then some "Password should be at least 4 characters." else none
    CLERI_GID_K_DEBUG := 50
    CLERI_GID_K_INFO := 51
    CLERI_GID_K_WARNING := 52
    CLERI_GID_K_ERROR := 53
    CLERI_GID_K_CRITICAL := 54
    LOGGER_DEBUG := 0
    LOGGER_INFO := 1
    LOGGER_WARNING := 2
    LOGGER_ERROR := 3
    LOGGER_CRITICAL := 4
    logger_level_name := fun level => toString level
    server_name := fun _ p => "server" ++ toString p }

/-- The sample functions when the users cannot be written to file. -/
def sample_users_env_no_save : listener_users_env :=
  { sample_users_env with siridb_users_save := fun _ _ => true }

/-- A sample query `grant` or `revoke` for the user sasha, after
`enter_access_expr` has bound an access expression with the mask 130: the
cursor holds the node of the user statement twice, for its enter and for its
exit handler. The user sasha has the access bits 32. -/
def sample_grant_handle : query_handle_t :=
  { sample_list_handle 0 0 with
    query :=
      { flags := 1
        nodes :=
          [{ node := .mk 0 .CLERI_TP_OTHER "" 0
                [sample_leaf 0, .mk 0 .CLERI_TP_OTHER "sasha" 0 []], cb := 31 },
            { node := .mk 0 .CLERI_TP_OTHER "" 0
                [sample_leaf 0, .mk 0 .CLERI_TP_OTHER "sasha" 0 []], cb := 32 }]
        packer := none
        timeit := none
        data := .children [.mk 2 .CLERI_TP_OTHER "count" 0 [], .mk 128 .CLERI_TP_OTHER "select" 0 []]
        free_cb := .siridb_query_free
        err_msg := "" } }

/-! ### References held by a query -/

/-- The state of the statement that goes with a reference to `obj`. -/
def ref_data : UserPtr ⊕ ServerPtr → query_data_t
  | .inl p => .user p
  | .inr p => .server p

/-- The free call-back that goes with a reference to `obj`. -/
def ref_free_cb : UserPtr ⊕ ServerPtr → query_free_cb_t
  | .inl _ => .decref_user_object
  | .inr _ => .decref_server_object

/-- The reference counts of `h1` are those of `h` with one more for `obj`. -/
def ref_taken (obj : UserPtr ⊕ ServerPtr) (h h1 : query_handle_t) : Prop :=
  ∀ o : UserPtr ⊕ ServerPtr, ref_count h1 o = ref_count h o + if o = obj then 1 else 0

/-- The query of `h1` holds a reference to `obj` that was taken in `h`: the
object is bound to `query->data` and the free call-back is the one that
releases it. -/
def ref_held (obj : UserPtr ⊕ ServerPtr) (h h1 : query_handle_t) : Prop :=
  h1.query.data = ref_data obj ∧ h1.query.free_cb = ref_free_cb obj ∧ ref_taken obj h h1

/-- What an enter handler that takes a reference does: it ends with an error
and has touched neither a reference count nor the free call-back, or it goes
on and the query holds a reference to one object. -/
def enter_step (cb : listener_cb_t) : Prop :=
  ∀ (h h1 : query_handle_t) (a : listener_action_t), cb h = .ok (h1, a) →
    ((∃ tp, a = .send_error tp) ∧ h1.query.free_cb = h.query.free_cb ∧
      ∀ o : UserPtr ⊕ ServerPtr, ref_count h1 o = ref_count h o) ∨
    ((a = .send_query_result ∨ ∃ cb1, a = .next_cb cb1) ∧
      ∃ obj : UserPtr ⊕ ServerPtr, ref_held obj h h1)

/-- What a handler that follows does: it keeps the reference counts and the
object bound to `query->data`, it never forwards, and it keeps the free
call-back, or, in a statement that hands its reference over, sets it back to
`siridb_query_free`. -/
def later_step (hands_over : Bool) (cb : listener_cb_t) : Prop :=
  ∀ (h h1 : query_handle_t) (a : listener_action_t), cb h = .ok (h1, a) →
    (∀ o : UserPtr ⊕ ServerPtr, ref_count h1 o = ref_count h o) ∧
    h1.query.data = h.query.data ∧
    (h1.query.free_cb = h.query.free_cb ∨
      (hands_over = true ∧ h1.query.free_cb = .siridb_query_free)) ∧
    ∀ (tp : bp_query_t) (cb1 : promises_cb_t), a ≠ .query_forward tp cb1

/-- A sample query `create user` on the master, before
`enter_create_user_stmt`: the cursor holds the node of the statement twice,
for its enter and for its exit handler; its second child is the name. -/
def sample_create_user_handle : query_handle_t :=
  { sample_grant_handle with
    query := { sample_grant_handle.query with
      nodes :=
        [{ node := .mk 0 .CLERI_TP_OTHER "" 0
              [sample_leaf 0, .mk 0 .CLERI_TP_OTHER "dora" 0 []], cb := 41 },
          { node := .mk 0 .CLERI_TP_OTHER "" 0
              [sample_leaf 0, .mk 0 .CLERI_TP_OTHER "dora" 0 []], cb := 42 }]
      data := .null } }

/-! ## Drop shard (`listener.c`) -/

/-- Address of a shard object in the store of shards. -/
abbrev ShardPtr := Nat

/-- A shard `siridb_shard_t` as far as `exit_drop_shard_stmt` uses it. -/
structure siridb_shard_t where
  id : Nat
  flags : Nat
  ref : Nat
  deriving DecidableEq, Repr

/-- What `exit_drop_shard_stmt` reaches through its handle beyond the query
and the series of `siridb->series_map`: the shard objects and the index
`siridb->shards`, from shard id to shard. -/
structure shard_handle_t where
  handle : query_handle_t
  shard_heap : List siridb_shard_t
  shards : List (Nat × ShardPtr)
  deriving Repr

/-- What `exit_drop_shard_stmt` takes from the files that are not at hand:
`atoll`, the flag `SIRIDB_SHARD_WILL_BE_REMOVED`, and the call-back
`walk_drop_shard` on a series of `siridb->series_map`. -/
structure listener_shards_env where
  atoll : String → Int
  SIRIDB_SHARD_WILL_BE_REMOVED : Nat
  walk_drop_shard : ShardPtr → Nat × Nat → Nat × Nat

/-- Modelled from the spec: `imap64_pop (imap, id)` takes the entry with the
key `id` out of the index and returns its value, `none` for `NULL` when there
is no such entry; the index is as it was then. -/
def imap64_pop (imap : List (Nat × ShardPtr)) (id : Nat) :
    Option ShardPtr × List (Nat × ShardPtr) :=
  match imap.find? (fun e => e.1 == id) with
  | none => (none, imap)
  | some e => (some e.2, imap.filter (fun e => e.1 != id))

/-- Modelled from the spec: `siridb_shard_decref (shard)`. -/
def siridb_shard_decref (shard_heap : List siridb_shard_t) (p : ShardPtr) :
    Except Fault (List siridb_shard_t) :=
  match shard_heap[p]? with
  | none => .error .out_of_bounds
  | some shard =>
    if shard.ref = 0 then .error .out_of_bounds
    else .ok (shard_heap.set p { shard with ref := shard.ref - 1 })

/-- The handler `exit_drop_shard_stmt`. The shard id is an `int64_t`; the key
of the index is its conversion to `uint64_t`. The success message is added
whether the shard was found or not. -/
def exit_drop_shard_stmt (senv : listener_shards_env) (s : shard_handle_t) :
    Except Fault (shard_handle_t × listener_action_t) :=
  (query_node s.handle).bind fun node =>
  (cleri_child node.children 1).bind fun shard_id_node =>
  let shard_id : Int := int64_wrap (senv.atoll shard_id_node.str)
  let popped := imap64_pop s.shards (shard_id % 2 ^ 64).toNat
  let s : shard_handle_t := { s with shards := popped.2 }
  let dropped : Except Fault shard_handle_t :=
    match popped.1 with
    | none =>
      /- Cannot find shard -/
      .ok s
    | some shard =>
      match s.handle.query.data, s.shard_heap[shard]? with
      | .q_drop q_drop, some sh =>
        let series_map := s.handle.siridb.series_map.map (senv.walk_drop_shard shard)
        let shard_heap := s.shard_heap.set shard
          { sh with flags := sh.flags ||| senv.SIRIDB_SHARD_WILL_BE_REMOVED }
        (siridb_shard_decref shard_heap shard).bind fun shard_heap =>
        .ok { s with
          handle := { s.handle with
            query := { s.handle.query with data := .q_drop { q_drop with data := some shard } }
            siridb := { s.handle.siridb with series_map := series_map } }
          shard_heap := shard_heap }
      | _, _ => .error .out_of_bounds
  dropped.bind fun s =>
  /- we send back a successful message even when the shard was not found
     because it might be dropped on another server so at least the shard
     is gone. -/
  (qp_add s.handle
    (QP_ADD_SUCCESS ("Shard '" ++ toString shard_id ++ "' is dropped successfully."))).bind
    fun handle =>
  (SIRIPARSER_NEXT_NODE handle).bind fun r =>
  .ok ({ s with handle := r.1 }, r.2)

/-- Sample functions for `exit_drop_shard_stmt`: `atoll` reads the digits of
a decimal number, the flag is 2, and the walk clears the flags of a series. -/
def sample_shards_env : listener_shards_env :=
  { atoll := fun str => (str.toList.foldl (fun acc ch => 10 * acc + (ch.toNat - 48)) 0 : Nat)
    SIRIDB_SHARD_WILL_BE_REMOVED := 2
    walk_drop_shard := fun _ series => (series.1, 0) }

/-- A sample query `drop shard 999` after `enter_drop_stmt`, on a server that
holds the shards 7 and 8. -/
def sample_drop_shard_handle : shard_handle_t :=
  { handle :=
      { sample_count_handle 0 with
        query :=
          { flags := 1
            nodes :=
              [{ node := .mk 0 .CLERI_TP_OTHER "" 0
                  [sample_leaf 0, .mk 0 .CLERI_TP_OTHER "999" 0 []], cb := 51 }]
            packer := some [.QP_MAP_OPEN]
            timeit := none
            data := .q_drop query_drop_new
            free_cb := .query_drop_free
            err_msg := "" } }
    shard_heap := [{ id := 7, flags := 0, ref := 1 }, { id := 8, flags := 0, ref := 1 }]
    shards := [(7, 0), (8, 1)] }

/-! ## List pools (`listener.c`) -/

/-- The walker `siridb_pool_walker_t` that `exit_list_pools_stmt` fills for a
pool: its id, its number of servers and the number of series. -/
structure siridb_pool_walker_t where
  pid : Nat
  servers : Nat
  series : Nat
  deriving DecidableEq, Repr

/-- What `exit_list_pools_stmt` takes from the headers and files that are not
at hand: two more keyword ids, the evaluation of a where expression on a pool
walker, and the length of the collection `siridb->series`. -/
structure listener_pools_env where
  CLERI_GID_K_SERVERS : Nat
  CLERI_GID_K_SERIES : Nat
  cexpr_run_pool : cexpr_t → siridb_pool_walker_t → Bool
  series_len : siridb_t → Nat

/-- A signed 16-bit integer: the value of `x` after a conversion to
`int16_t`, the type of the argument of `qp_add_int16`. -/
def int16_wrap (x : Int) : Int :=
  (x + 2 ^ 15) % 2 ^ 16 - 2 ^ 15

/-- The block `if (qlist->props == NULL)` of `exit_list_pools_stmt`: what it
adds to the packer, and the columns it leaves in the list state. -/
def list_pools_columns (env : listener_env) (penv : listener_pools_env)
    (props : Option (List Nat)) : List qp_tok × List Nat :=
  match props with
  | none =>
    ([.raw "pool", .raw "servers", .raw "series"],
      [env.CLERI_GID_K_POOL, penv.CLERI_GID_K_SERVERS, penv.CLERI_GID_K_SERIES])
  | some props => ([], props)

/-- The `switch` of `exit_list_pools_stmt` on a column: what it adds for the
pool of the walker. There is no default branch. -/
def list_pools_value (env : listener_env) (penv : listener_pools_env)
    (wpool : siridb_pool_walker_t) (gid : Nat) : List qp_tok :=
  if gid = env.CLERI_GID_K_POOL then [.int16 (int16_wrap wpool.pid)]
  else if gid = penv.CLERI_GID_K_SERVERS then [.int16 (int16_wrap wpool.servers)]
  else if gid = penv.CLERI_GID_K_SERIES then [.int64 (int64_wrap wpool.series)]
  else []

/-- The row that `exit_list_pools_stmt` adds for a pool: the inner loop over
the columns between `QP_ARRAY_OPEN` and `QP_ARRAY_CLOSE`. -/
def list_pools_row (env : listener_env) (penv : listener_pools_env) (props : List Nat)
    (wpool : siridb_pool_walker_t) : List qp_tok :=
  [.QP_ARRAY_OPEN] ++ props.flatMap (list_pools_value env penv wpool) ++ [.QP_ARRAY_CLOSE]

/-- The condition `where_expr == NULL || cexpr_run (where_expr, cb, &wpool)`. -/
def list_pools_where (penv : listener_pools_env) (where_expr : Option cexpr_t)
    (wpool : siridb_pool_walker_t) : Bool :=
  match where_expr with
  | none => true
  | some w => penv.cexpr_run_pool w wpool

/-- The loop `for (wpool.pid = 0, n = 0; wpool.pid < siridb->pools->size &&
n < qlist->limit; wpool.pid++)` of `exit_list_pools_stmt`, from the pool
`pid` with `todo` pools to go and `n` rows added; the result is what is added
to the packer. The counters stay below the number of pools, a `uint16_t`. -/
def list_pools_loop (env : listener_env) (penv : listener_pools_env) (siridb : siridb_t)
    (pools : siridb_pools_t) (props : List Nat) (where_expr : Option cexpr_t) (limit : Nat) :
    Nat → Nat → Nat → Except Fault (List qp_tok)
  | 0, _, _ => .ok []
  | todo + 1, pid, n =>
    if n < limit then
      match pools.pool[pid]? with
      | none => .error .out_of_bounds
      | some pool =>
        let wpool : siridb_pool_walker_t :=
          { pid := pid, servers := pool.len, series := penv.series_len siridb }
        if list_pools_where penv where_expr wpool then
          (list_pools_loop env penv siridb pools props where_expr limit todo (pid + 1)
            (n + 1)).bind fun rows =>
          .ok (list_pools_row env penv props wpool ++ rows)
        else list_pools_loop env penv siridb pools props where_expr limit todo (pid + 1) n
    else .ok []

/-- The handler `exit_list_pools_stmt`. -/
def exit_list_pools_stmt (env : listener_env) (penv : listener_pools_env) (h : query_handle_t) :
    Except Fault (query_handle_t × listener_action_t) :=
  match h.query.data with
  | .q_list qlist =>
    let columns := list_pools_columns env penv qlist.props
    let h : query_handle_t :=
      { h with query := { h.query with data := .q_list { qlist with props := some columns.2 } } }
    (qp_add h (columns.1 ++ [.QP_ARRAY_CLOSE, .raw "pools", .QP_ARRAY_OPEN])).bind fun h =>
    match h.siridb.pools with
    | none => .error .out_of_bounds
    | some pools =>
      (list_pools_loop env penv h.siridb pools columns.2 qlist.where_expr qlist.limit
        pools.len 0 0).bind fun rows =>
      (qp_add h (rows ++ [.QP_ARRAY_CLOSE])).bind fun h =>
      SIRIPARSER_NEXT_NODE h
  | _ => .error .out_of_bounds

/-- The walker of the pool `pid`, for a pool that is there. -/
def list_pools_walker (penv : listener_pools_env) (siridb : siridb_t) (pools : siridb_pools_t)
    (pid : Nat) : siridb_pool_walker_t :=
  { pid := pid
    servers := match pools.pool[pid]? with
      | some pool => pool.len
      | none => 0
    series := penv.series_len siridb }

/-! ### What `list pools` is to emit, in the words of the specification -/

/-- The value of the column `gid` of a pool: its id for `pool`, the number
of its servers for `servers` and the number of series for `series`. -/
def spec_pools_value (env : listener_env) (penv : listener_pools_env)
    (wpool : siridb_pool_walker_t) (gid : Nat) : qp_tok :=
  if gid = env.CLERI_GID_K_POOL then .int16 (int16_wrap wpool.pid)
  else if gid = penv.CLERI_GID_K_SERVERS then .int16 (int16_wrap wpool.servers)
  else .int64 (int64_wrap wpool.series)

/-- The pools that satisfy the where expression (all pools when there is
none), in increasing pool id. -/
def spec_pools_matching (penv : listener_pools_env) (siridb : siridb_t) (pools : siridb_pools_t)
    (where_expr : Option cexpr_t) : List Nat :=
  (List.range pools.len).filter fun pid =>
    match where_expr with
    | none => true
    | some w => penv.cexpr_run_pool w (list_pools_walker penv siridb pools pid)

/-- Sample functions for `exit_list_pools_stmt`: the where expression `w`
holds for the pools with an id of `w` at least; there are ten series. -/
def sample_pools_env : listener_pools_env :=
  { CLERI_GID_K_SERVERS := 47
    CLERI_GID_K_SERIES := 48
    cexpr_run_pool := fun w wpool => decide (w ≤ wpool.pid)
    series_len := fun _ => 10 }

/-- A sample query `list pools` after `enter_list_stmt`, in the database of
three pools, with the columns `props`, the where expression `where_expr` and
the limit `limit`. -/
def sample_list_pools_handle (props : Option (List Nat)) (where_expr : Option cexpr_t)
    (limit : Nat) : query_handle_t :=
  { sample_list_handle 0 limit with
    query := { (sample_list_handle 0 limit).query with
      data := .q_list
        { ct_series := none, where_expr := where_expr, props := props, limit := limit } } }

/-! ## Columns of a list statement (`listener.c`) -/

/-- The loop `while (1)` of `enter_xxx_columns` over the cells `columns`:
what it adds to the packer, the column ids it appends to `qlist->props`, and
the number of times its body has run. The name of a column is the text of its
node, its id is that of the first child of the node; every second cell is a
delimiter, passed over by `columns = columns->next->next`. -/
def xxx_columns_loop : List cleri_node_t → Except Fault (List qp_tok × List Nat × Nat)
  | [] => .error .out_of_bounds
  | [node] =>
    (cleri_child node.children 0).bind fun kw =>
    .ok ([.raw node.str], [kw.gid], 1)
  | node :: _ :: columns =>
    (cleri_child node.children 0).bind fun kw =>
    (xxx_columns_loop columns).bind fun rest =>
    .ok (.raw node.str :: rest.1, kw.gid :: rest.2.1, rest.2.2 + 1)

/-- The handler `enter_xxx_columns`. -/
def enter_xxx_columns (h : query_handle_t) : Except Fault (query_handle_t × listener_action_t) :=
  (query_node h).bind fun node =>
  match h.query.data with
  | .q_list qlist =>
    (xxx_columns_loop node.children).bind fun cols =>
    (qp_add h cols.1).bind fun h =>
    SIRIPARSER_NEXT_NODE
      { h with query := { h.query with data := .q_list { qlist with props := some cols.2.1 } } }
  | _ => .error .out_of_bounds

/-- The cells of a column list: the first column, then each further column
after its delimiter. -/
def column_cells (column : cleri_node_t) (more : List (cleri_node_t × cleri_node_t)) :
    List cleri_node_t :=
  column :: more.flatMap fun dc => [dc.1, dc.2]

/-- The id of a column node: that of its first child. -/
def column_gid (column : cleri_node_t) : Nat :=
  match column.children with
  | kw :: _ => kw.gid
  | [] => 0

/-- A sample query `list ... name, pool` after `enter_list_stmt`, at the node
of the columns. -/
def sample_columns_handle : query_handle_t :=
  { sample_list_handle 0 5 with
    query := { (sample_list_handle 0 5).query with
      nodes :=
        [{ node := .mk 0 .CLERI_TP_OTHER "name, pool" 0
            [.mk 0 .CLERI_TP_CHOICE "name" 0 [.mk 40 .CLERI_TP_OTHER "name" 0 []],
              .mk 0 .CLERI_TP_OTHER "," 0 [],
              .mk 0 .CLERI_TP_CHOICE "pool" 0 [.mk 41 .CLERI_TP_OTHER "pool" 0 []]],
           cb := 61 },
          { node := sample_leaf 0, cb := 62 }] } }

/-! ## Parsing a string to a grammar (`parse.c`) -/

/-- Modelled from the spec: what is expected at the furthest position the
walk has reached (`expecting.h` is not at hand): the position `str`, as an
offset into the text, and the required and optional elements; an empty list
`required` is the cell whose `cl_obj` is `NULL`. -/
structure cleri_expecting_t where
  str : Nat
  required : List Nat
  optional : List Nat
  deriving DecidableEq, Repr

/-- The parse result `cleri_parse_t` as far as `parse.c` uses it: the text
`str` (its bytes, without the terminating NUL), the length `tree->len` of the
root node, whose text starts with `str`, the expecting, and the fields
`is_valid` (an `int`) and `pos`. -/
structure cleri_parse_t where
  str : List Nat
  tree_len : Nat
  expecting : cleri_expecting_t
  is_valid : Int
  pos : Nat
  deriving DecidableEq, Repr

/-- What `parse.c` takes from the files that are not at hand: the functions
on the expecting (`none` is the return value -1 of the C functions) and two
constants. -/
structure cleri_env where
  cleri_expecting_set_mode : cleri_expecting_t → Nat → Nat → Option cleri_expecting_t
  cleri_expecting_update : cleri_expecting_t → Nat → Nat → Option cleri_expecting_t
  cleri_expecting_combine : cleri_expecting_t → cleri_expecting_t
  CLERI_EXP_MODE_REQUIRED : Nat
  CLERI_END_OF_STATEMENT : Nat

/-- The grammar as far as `cleri_parse` uses it: the function `parse_object`
of the element `grammar->start`, applied to the parse result with the root
node as parent. -/
structure cleri_grammar_t where
  parse_object : cleri_parse_t → Except Fault cleri_parse_t

/-- The byte `*(str + i)` of a C string: the byte after the last one is the
terminating NUL, to read past it is a fault. -/
def cstr_get (str : List Nat) (i : Nat) : Except Fault Nat :=
  if i < str.length then .ok (str.getD i 0)
  else if i = str.length then .ok 0
  else .error .out_of_bounds

/-- The function `isspace` of `ctype.h` in the C locale: space, tab, newline,
vertical tab, form feed and carriage return. -/
def isspace (ch : Nat) : Bool :=
  ch == 32 || (9 ≤ ch && ch ≤ 13)

/-- The loop `while (isspace (*(parent->str + parent->len))) parent->len++`
of `cleri__parse_walk` for a parent whose text starts at the offset 0. -/
def parse_walk_skip (str : List Nat) : Nat → Nat → Except Fault Nat
  | 0, _ => .error .out_of_fuel
  | fuel + 1, len =>
    (cstr_get str len).bind fun ch =>
    if isspace ch then parse_walk_skip str fuel (len + 1) else .ok len

/-- The function `cleri__parse_walk` as `cleri_parse` calls it, with the root
node as parent: the length of the parent is moved to the next byte that is
not white space, the mode of the expecting is set, with `is_valid = -1` when
that fails, and the element is parsed. -/
def cleri__parse_walk (env : cleri_env) (cl_obj : cleri_grammar_t) (pr : cleri_parse_t)
    (mode : Nat) : Except Fault cleri_parse_t :=
  (parse_walk_skip pr.str (pr.str.length + 1) pr.tree_len).bind fun len =>
  let pr : cleri_parse_t := { pr with tree_len := len }
  match env.cleri_expecting_set_mode pr.expecting 0 mode with
  | none => .ok { pr with is_valid := -1 }
  | some expecting => cl_obj.parse_object { pr with expecting := expecting }

/-- The loop `for (test = end; *test; test++)` of `cleri_parse`: the value of
`at_end` after it. -/
def parse_at_end (str : List Nat) : Nat → Nat → Except Fault Bool
  | 0, _ => .error .out_of_fuel
  | fuel + 1, test =>
    (cstr_get str test).bind fun ch =>
    if ch = 0 then .ok true
    else if !isspace ch then .ok false
    else parse_at_end str fuel (test + 1)

/-- Modelled from the spec: `cleri_expecting_new (str)`, nothing is expected
yet at the start of the text. -/
def cleri_expecting_new : cleri_expecting_t :=
  { str := 0, required := [], optional := [] }

/-- The parse result that `cleri_parse` prepares before the walk. -/
def cleri_parse_new (str : List Nat) : cleri_parse_t :=
  { str := str, tree_len := 0, expecting := cleri_expecting_new, is_valid := 0, pos := 0 }

/-- What `cleri_parse` does after the walk has left `pr`; `none` is the
return value `NULL`. -/
def cleri_parse_result (env : cleri_env) (pr : cleri_parse_t) :
    Except Fault (Option cleri_parse_t) :=
  /- When is_valid is -1 an unexpected error like an allocation error
     has occurred. -/
  if pr.is_valid = -1 then .ok none
  else
    /- process the parse result -/
    let end_ := pr.tree_len
    /- check if we are at the end of the string -/
    (parse_at_end pr.str (pr.str.length + 1) end_).bind fun at_end =>
    let pr : cleri_parse_t := { pr with is_valid := if at_end then 1 else 0 }
    let pr : cleri_parse_t :=
      { pr with pos := if pr.is_valid ≠ 0 then pr.tree_len else pr.expecting.str }
    let expecting : Option cleri_expecting_t :=
      if !at_end && pr.expecting.required.isEmpty then
        (env.cleri_expecting_set_mode pr.expecting end_ env.CLERI_EXP_MODE_REQUIRED).bind
          fun expecting =>
          env.cleri_expecting_update expecting env.CLERI_END_OF_STATEMENT end_
      else some pr.expecting
    match expecting with
    | none => .ok none
    | some expecting =>
      .ok (some { pr with expecting := env.cleri_expecting_combine expecting })

/-- The function `cleri_parse`; `none` is the return value `NULL`. Failing
allocations of the preparation are left out. -/
def cleri_parse (env : cleri_env) (grammar : cleri_grammar_t) (str : List Nat) :
    Except Fault (Option cleri_parse_t) :=
  (cleri__parse_walk env grammar (cleri_parse_new str) env.CLERI_EXP_MODE_REQUIRED).bind
    fun pr => cleri_parse_result env pr

/-- Every byte of the text from the offset `len` up to the terminating NUL is
white space. -/
def rest_is_space (str : List Nat) (len : Nat) : Prop :=
  ∀ i : Nat, len ≤ i → i < str.length → isspace (str.getD i 0) = true

/-- Sample functions on the expecting: they succeed and record the element. -/
def sample_cleri_env : cleri_env :=
  { cleri_expecting_set_mode := fun expecting _ _ => some expecting
    cleri_expecting_update := fun expecting cl_obj str =>
      some { expecting with str := str, required := cl_obj :: expecting.required }
    cleri_expecting_combine := fun expecting => expecting
    CLERI_EXP_MODE_REQUIRED := 1
    CLERI_END_OF_STATEMENT := 0 }

/-- A sample grammar whose start element matches the first `n` bytes of the
text; what could follow them is the element 7, expected at the offset `n`. -/
def sample_grammar (n : Nat) : cleri_grammar_t :=
  { parse_object := fun pr =>
      .ok { pr with
        tree_len := n
        expecting := { str := n, required := [7], optional := [] } } }

/-! ## The share of a new pool (`pools.c`) -/

/-- The 1-based rank of the slot `j` among the slots of the pool `p` in the
table `t`, in increasing slot index: the number of slots up to `j` that `p`
owns. -/
def slot_rank (t : List Nat) (p j : Nat) : Nat :=
  (t.take (j + 1)).count p

/-- The owner of the slot `j` of the pool `p` after the generation step `n`:
the new pool `n` when `p` plus the rank of the slot is a multiple of `n + 1`,
else `p` as before. -/
def slot_owner (n : Nat) (t : List Nat) (p j : Nat) : Nat :=
  if (p + slot_rank t p j) % (n + 1) = 0 then n else p

/-- Invariant of the slot loop in round `n` started on table `t0`, after `i`
iterations: the counter of each pool is its id plus the number of its slots
seen, and each slot seen has the owner `slot_owner` gives. -/
def ShareInv (n : Nat) (t0 : List Nat) (i : Nat) (s : MakeState) : Prop :=
  SlotInv n t0 i s ∧
  (∀ p : Nat, p < n → s.1[p]? = some (p + (t0.take i).count p)) ∧
  (∀ j p : Nat, j < i → t0[j]? = some p → s.2[j]? = some (slot_owner n t0 p j))

/-- The number of slots that the pool `p` owns in `t0` and the pool `n` owns
in `t1`, among the first `k` slots. -/
def moved_slots (t0 t1 : List Nat) (p n k : Nat) : Nat :=
  ((List.range k).filter fun j => t0[j]? == some p && t1[j]? == some n).length

/-! ## The stack of `POOLS_make` (`pools.c`) -/

/-- The function `POOLS_make (n, num_pools, lookup)` on a machine that gives
its calls a stack of `stack` bytes. A call takes `frame` bytes for itself
and, when it does not return at once, `cell` bytes for each of the `n`
elements of its array `uint_fast16_t counters[n]`; both are held while the
nested call `POOLS_make (m, num_pools, lookup)` runs, since the array is alive
up to the end of the block. A call for which the stack that is left is too
small ends the run with `Fault.stack_overflow`. Apart from the stack this is
`POOLS_make`. -/
def POOLS_make_stack (sz w frame cell : Nat) :
    Nat → Nat → Nat → Nat → List Nat → Except Fault (List Nat)
  | 0, _, _, _, _ => .error .out_of_fuel
  | fuel + 1, stack, n, num_pools, lookup =>
    if stack < frame then .error .stack_overflow
    else if n = num_pools then .ok lookup
    else if stack - frame < cell * n then .error .stack_overflow
    else
      let counters := List.range n
      let m := (n + 1) % 2 ^ w
      (POOLS_make_slots sz w n m (counters, lookup)).bind
        fun st => POOLS_make_stack sz w frame cell fuel (stack - frame - cell * n) m num_pools st.2

/-- The function `siridb_pools_gen_lookup (num_pools)` on a machine that has
`stack` bytes of stack left for the call of `POOLS_make`. -/
def siridb_pools_gen_lookup_stack (w frame cell stack num_pools : Nat) :
    Except Fault (List Nat) :=
  POOLS_make_stack SIRIDB_LOOKUP_SZ w frame cell num_pools stack 1 num_pools
    (List.replicate SIRIDB_LOOKUP_SZ 0)

/-- The stack that `POOLS_make (n, n + k, lookup)` needs: the frames and the
arrays of its `k` nested levels and the frame of the last call, which returns
at once. -/
def POOLS_make_stack_need (frame cell : Nat) : Nat → Nat → Nat
  | _, 0 => frame
  | n, k + 1 => frame + cell * n + POOLS_make_stack_need frame cell (n + 1) k

/-! ### Loop rule and single-slot lemmas -/

/-- Hoare-style rule for a fallible loop over `0 .. K-1`: an invariant that
holds initially and is carried by every iteration (which must not fault)
holds for the final state, and the loop does not fault. -/
theorem foldlM_range_inv {σ : Type} (body : σ → Nat → Except Fault σ)
    (Inv : Nat → σ → Prop) (K : Nat) (s0 : σ) (h0 : Inv 0 s0)
    (hstep : ∀ i s, i < K → Inv i s → ∃ s', body s i = .ok s' ∧ Inv (i + 1) s') :
    ∃ s', (List.range K).foldlM body s0 = .ok s' ∧ Inv K s' := by
  induction K with
  | zero => exact ⟨s0, rfl, h0⟩
  | succ K ih =>
    obtain ⟨s1, h1, hi1⟩ := ih (fun i s hi => hstep i s (Nat.lt_succ_of_lt hi))
    obtain ⟨s2, h2, hi2⟩ := hstep K s1 (Nat.lt_succ_self K) hi1
    refine ⟨s2, ?_, hi2⟩
    rw [List.range_succ, List.foldlM_append, h1]
    show List.foldlM body s1 [K] = Except.ok s2
    rw [List.foldlM_cons, h2]
    rfl

/-- A slot iteration whose two array reads are in bounds does not fault and
yields the expected state. -/
theorem POOLS_make_slot_ok (w n m i p c0 : Nat) (cs t : List Nat)
    (hp : t[i]? = some p) (hc : cs[p]? = some c0) (hm : m ≠ 0) :
    POOLS_make_slot w n m (cs, t) i =
      .ok (cs.set p ((c0 + 1) % 2 ^ w),
        if ((c0 + 1) % 2 ^ w) % m = 0 then t.set i (n % 2 ^ LOOKUP_SLOT_BITS) else t) := by
  have hlt : p < cs.length := (List.getElem?_eq_some.mp hc).1
  unfold POOLS_make_slot
  simp only [hp, hc, List.getElem?_set_self hlt, hm, if_false]
  split <;> rfl

theorem SlotInv_init (n : Nat) (t0 : List Nat) : SlotInv n t0 0 (List.range n, t0) :=
  ⟨List.length_range n, rfl, fun _ _ => rfl, fun _ h => absurd h (Nat.not_lt_zero _)⟩

/-- Under the invariant the reads of iteration `i` are in bounds: the slot
holds some `p < n` and `counters[p]` exists. -/
theorem SlotInv_reads (sz n : Nat) (t0 : List Nat) (ht0 : Tbl sz n t0) (i : Nat)
    (hi : i < sz) (s : MakeState) (hs : SlotInv n t0 i s) :
    ∃ p c0, s.2[i]? = some p ∧ s.1[p]? = some c0 ∧ p < n := by
  obtain ⟨hc, _, hge, _⟩ := hs
  have hi0 : i < t0.length := by rw [ht0.1]; exact hi
  have h1 : s.2[i]? = some t0[i] := by
    rw [hge i (Nat.le_refl i)]; exact List.getElem?_eq_getElem hi0
  have hp : t0[i] < n := ht0.2 i t0[i] (List.getElem?_eq_getElem hi0)
  have hpc : t0[i] < s.1.length := by rw [hc]; exact hp
  exact ⟨t0[i], s.1[t0[i]], h1, List.getElem?_eq_getElem hpc, hp⟩

/-- The invariant is carried by the state a slot iteration produces. -/
theorem SlotInv_next (n : Nat) (t0 : List Nat) (i p v : Nat) (b : Bool) (s : MakeState)
    (hs : SlotInv n t0 i s) (hi : i < t0.length) :
    SlotInv n t0 (i + 1) (s.1.set p v, if b then s.2.set i n else s.2) := by
  obtain ⟨hc, hl, hge, hlt⟩ := hs
  refine ⟨by simp [hc], by cases b <;> simp [hl], ?_, ?_⟩
  · intro j hj
    cases b
    · exact hge j (by omega)
    · simp only [if_true]
      rw [List.getElem?_set_ne (by omega)]
      exact hge j (by omega)
  · intro j hj
    by_cases hji : j = i
    · subst hji
      cases b
      · exact Or.inl (hge j (Nat.le_refl j))
      · right
        simp only [if_true]
        exact List.getElem?_set_self (by rw [hl]; exact hi)
    · have hj' : j < i := by omega
      cases b
      · exact hlt j hj'
      · simp only [if_true]
        rw [List.getElem?_set_ne (fun h => hji h.symm)]
        exact hlt j hj'

/-! ### One round and the recursion -/

/-- Under the invariant, iteration `i` of the slot loop does not fault and
re-establishes the invariant. -/
theorem SlotInv_step (sz w n : Nat) (t0 : List Nat) (ht0 : Tbl sz n t0)
    (hn : n < 2 ^ LOOKUP_SLOT_BITS) (i : Nat) (hi : i < sz) (s : MakeState)
    (hs : SlotInv n t0 i s) :
    ∃ s', POOLS_make_slot w n (n + 1) s i = .ok s' ∧ SlotInv n t0 (i + 1) s' := by
  obtain ⟨p, c0, hp, hc, _⟩ := SlotInv_reads sz n t0 ht0 i hi s hs
  refine ⟨_, POOLS_make_slot_ok w n (n + 1) i p c0 s.1 s.2 hp hc (Nat.succ_ne_zero n), ?_⟩
  rw [Nat.mod_eq_of_lt hn]
  have h := SlotInv_next n t0 i p ((c0 + 1) % 2 ^ w)
    (decide (((c0 + 1) % 2 ^ w) % (n + 1) = 0)) s hs (by rw [ht0.1]; exact hi)
  simpa using h

/-- A round on a valid table never faults, and ends in a state that satisfies
the slot invariant for all slots. -/
theorem POOLS_make_slots_struct (sz w n : Nat) (t0 : List Nat) (ht0 : Tbl sz n t0)
    (hn : n < 2 ^ LOOKUP_SLOT_BITS) :
    ∃ s, POOLS_make_slots sz w n (n + 1) (List.range n, t0) = .ok s ∧
      SlotInv n t0 sz s := by
  unfold POOLS_make_slots
  exact foldlM_range_inv _ (SlotInv n t0) _ _ (SlotInv_init n t0)
    (fun i s hi hs => SlotInv_step sz w n t0 ht0 hn i hi s hs)

/-- The table at the end of round `n` is valid at level `n + 1`. -/
theorem Tbl_of_SlotInv (sz n : Nat) (t0 : List Nat) (ht0 : Tbl sz n t0) (s : MakeState)
    (hs : SlotInv n t0 sz s) : Tbl sz (n + 1) s.2 := by
  obtain ⟨_, hl, _, hlt⟩ := hs
  refine ⟨by rw [hl]; exact ht0.1, ?_⟩
  intro j p hj
  have hjl : j < sz := by
    have h := (List.getElem?_eq_some.mp hj).1
    rw [hl, ht0.1] at h
    exact h
  rcases hlt j hjl with h | h
  · rw [h] at hj
    exact Nat.lt_succ_of_lt (ht0.2 j p hj)
  · rw [h] at hj
    cases hj
    exact Nat.lt_succ_self n

theorem bind_ok {α β : Type} (a : α) (f : α → Except Fault β) :
    (Except.ok a : Except Fault α).bind f = f a := rfl

theorem bind_error {α β : Type} (e : Fault) (f : α → Except Fault β) :
    (Except.error e : Except Fault α).bind f = .error e := rfl

/-- Unfolding of `POOLS_make` at `n = num_pools`. -/
theorem POOLS_make_done (sz w fuel n : Nat) (t : List Nat) :
    POOLS_make sz w (fuel + 1) n n t = .ok t := by
  rw [POOLS_make, if_pos rfl]

/-- Unfolding of `POOLS_make` at `n ≠ num_pools` when round `n` succeeds. -/
theorem POOLS_make_round (sz w fuel n N : Nat) (t : List Nat) (hn : n ≠ N) :
    POOLS_make sz w (fuel + 1) n N t =
      (POOLS_make_slots sz w n ((n + 1) % 2 ^ w) (List.range n, t)).bind
        (fun st => POOLS_make sz w fuel ((n + 1) % 2 ^ w) N st.2) := by
  rw [POOLS_make, if_neg hn]

/-- Totality of the recursion: from a valid table at level `n ≤ num_pools`,
with fuel for the remaining rounds, `POOLS_make` returns a table valid at level
`num_pools` (no fault, in particular no read outside `counters`). -/
theorem POOLS_make_total (sz w num_pools : Nat) (hw : num_pools < 2 ^ w)
    (hN : num_pools ≤ 2 ^ LOOKUP_SLOT_BITS) :
    ∀ (fuel n : Nat) (t : List Nat), n ≤ num_pools → num_pools - n < fuel → Tbl sz n t →
      ∃ r, POOLS_make sz w fuel n num_pools t = .ok r ∧ Tbl sz num_pools r := by
  intro fuel
  induction fuel with
  | zero => intro n t _ h _; exact absurd h (Nat.not_lt_zero _)
  | succ fuel ih =>
    intro n t hle hf ht
    by_cases hn : n = num_pools
    · subst hn
      exact ⟨t, POOLS_make_done sz w fuel n t, ht⟩
    · have hlt : n < num_pools := Nat.lt_of_le_of_ne hle hn
      obtain ⟨s, hs, hinv⟩ := POOLS_make_slots_struct sz w n t ht (by omega)
      have hm : (n + 1) % 2 ^ w = n + 1 := Nat.mod_eq_of_lt (by omega)
      obtain ⟨r, hr, hrt⟩ := ih (n + 1) s.2 hlt (by omega) (Tbl_of_SlotInv sz n t ht s hinv)
      refine ⟨r, ?_, hrt⟩
      rw [POOLS_make_round sz w fuel n num_pools t hn, hm, hs]
      exact hr

/-- Adding a pool runs one further round on the previous result:
`POOLS_make (n, N+1, t)` is `POOLS_make (n, N, t)` followed by round `N`. -/
theorem POOLS_make_succ (sz w N : Nat) (hw : N + 1 < 2 ^ w) :
    ∀ (fuel n : Nat) (t : List Nat), n ≤ N → N - n < fuel →
      POOLS_make sz w (fuel + 1) n (N + 1) t =
        (POOLS_make sz w fuel n N t).bind
          (fun r => (POOLS_make_slots sz w N (N + 1) (List.range N, r)).bind
            (fun st => .ok st.2)) := by
  intro fuel
  induction fuel with
  | zero => intro n t _ h; exact absurd h (Nat.not_lt_zero _)
  | succ fuel ih =>
    intro n t hle hf
    by_cases hn : n = N
    · subst hn
      have hm : (n + 1) % 2 ^ w = n + 1 := Nat.mod_eq_of_lt hw
      have h1 : n ≠ n + 1 := by omega
      rw [POOLS_make_round sz w (fuel + 1) n (n + 1) t h1, hm, POOLS_make_done, bind_ok]
      cases POOLS_make_slots sz w n (n + 1) (List.range n, t) with
      | error e => rw [bind_error, bind_error]
      | ok st => rw [bind_ok, bind_ok]; exact POOLS_make_done sz w fuel (n + 1) st.2
    · have hlt : n < N := Nat.lt_of_le_of_ne hle hn
      have hm : (n + 1) % 2 ^ w = n + 1 := Nat.mod_eq_of_lt (by omega)
      have h1 : n ≠ N + 1 := by omega
      rw [POOLS_make_round sz w (fuel + 1) n (N + 1) t h1, POOLS_make_round sz w fuel n N t hn, hm]
      cases hs : POOLS_make_slots sz w n (n + 1) (List.range n, t) with
      | error e => rw [bind_error, bind_error, bind_error]
      | ok st => rw [bind_ok, bind_ok]; exact ih (n + 1) st.2 hlt (by omega)

/-- A run towards `N` pools passes through the state of a run towards any
`n ≤ N`: it is the run up to `n` followed by the run from `n` on. -/
theorem POOLS_make_split (sz w n N : Nat) (hn : n ≤ N) (hw : N < 2 ^ w) :
    ∀ (fuel a : Nat) (t : List Nat), a ≤ n → N - a < fuel →
      POOLS_make sz w fuel a N t =
        (POOLS_make sz w (n - a + 1) a n t).bind
          (fun r => POOLS_make sz w (fuel - (n - a)) n N r) := by
  intro fuel
  induction fuel with
  | zero => intro a t _ h; exact absurd h (Nat.not_lt_zero _)
  | succ fuel ih =>
    intro a t ha hf
    by_cases han : a = n
    · subst han
      rw [Nat.sub_self, POOLS_make_done, bind_ok]
      rfl
    · have hlt : a < n := Nat.lt_of_le_of_ne ha han
      have h1 : a ≠ N := by omega
      have hm : (a + 1) % 2 ^ w = a + 1 := Nat.mod_eq_of_lt (by omega)
      have e1 : n - a + 1 = (n - (a + 1) + 1) + 1 := by omega
      have e2 : fuel + 1 - (n - a) = fuel - (n - (a + 1)) := by omega
      rw [POOLS_make_round sz w fuel a N t h1, e1,
        POOLS_make_round sz w (n - (a + 1) + 1) a n t han, hm, e2]
      cases POOLS_make_slots sz w a (a + 1) (List.range a, t) with
      | error e => rw [bind_error, bind_error, bind_error]
      | ok st =>
        rw [bind_ok, bind_ok]
        exact ih (a + 1) st.2 hlt (by omega)

/-- The zero-filled table `calloc` returns is valid at level 1. -/
theorem Tbl_zero (sz : Nat) : Tbl sz 1 (List.replicate sz 0) := by
  refine ⟨List.length_replicate _ _, ?_⟩
  intro j p hj
  rw [List.getElem?_replicate] at hj
  split at hj
  · cases hj; exact Nat.one_pos
  · cases hj

theorem two_pow_le_of_le (w : Nat) (hw : 16 ≤ w) : 65536 ≤ 2 ^ w :=
  calc 65536 = 2 ^ 16 := by norm_num
    _ ≤ 2 ^ w := Nat.pow_le_pow_right (by norm_num) hw

/-- Reading a slot of a valid table. -/
theorem Tbl_get (sz n : Nat) (t : List Nat) (ht : Tbl sz n t) (i : Nat)
    (hi : i < sz) : ∃ p, t[i]? = some p ∧ p < n := by
  have hl : i < t.length := by rw [ht.1]; exact hi
  exact ⟨t[i], List.getElem?_eq_getElem hl, ht.2 i t[i] (List.getElem?_eq_getElem hl)⟩

/-! ### Refinement of the specification's algorithm -/

/-- The specification's slot step when both reads are in bounds. -/
theorem spec_slot_eq (n i p c0 : Nat) (s : MakeState)
    (hp : s.2[i]? = some p) (hc : s.1[p]? = some c0) :
    spec_slot n s i =
      (s.1.set p (c0 + 1), if (c0 + 1) % (n + 1) = 0 then s.2.set i n else s.2) := by
  have hlt : p < s.1.length := (List.getElem?_eq_some.mp hc).1
  unfold spec_slot
  simp only [List.getD_eq_getElem?_getD, hp, hc, Option.getD_some,
    List.getElem?_set_self hlt]
  split <;> rfl

/-- A round of the C code on a valid table computes the specification's round
as long as the counters cannot wrap. -/
theorem POOLS_make_slots_refines (sz w n : Nat) (t0 : List Nat) (ht0 : Tbl sz n t0)
    (hn : n < 2 ^ LOOKUP_SLOT_BITS) (hwrap : n + sz ≤ 2 ^ w) :
    ∃ s, POOLS_make_slots sz w n (n + 1) (List.range n, t0) = .ok s ∧
      RefInv n t0 sz s := by
  unfold POOLS_make_slots
  apply foldlM_range_inv _ (RefInv n t0) _ _
  · exact ⟨SlotInv_init n t0, rfl, fun x hx => by simpa using hx⟩
  · intro i s hi hs
    obtain ⟨hinv, hspec, hbound⟩ := hs
    obtain ⟨p, c0, hp, hc, _⟩ := SlotInv_reads sz n t0 ht0 i hi s hinv
    have hc0 : c0 < n + i := hbound c0 (List.mem_iff_getElem?.mpr ⟨p, hc⟩)
    have hmod : (c0 + 1) % 2 ^ w = c0 + 1 := Nat.mod_eq_of_lt (by omega)
    refine ⟨_, POOLS_make_slot_ok w n (n + 1) i p c0 s.1 s.2 hp hc (Nat.succ_ne_zero n), ?_⟩
    rw [Nat.mod_eq_of_lt hn, hmod]
    refine ⟨?_, ?_, ?_⟩
    · have h := SlotInv_next n t0 i p (c0 + 1)
        (decide ((c0 + 1) % (n + 1) = 0)) s hinv (by rw [ht0.1]; exact hi)
      simpa using h
    · rw [List.range_succ, List.foldl_append, ← hspec]
      exact (spec_slot_eq n i p c0 s hp hc).symm
    · intro x hx
      rcases List.mem_or_eq_of_mem_set hx with h | h
      · have := hbound x h; omega
      · omega

/-- The recursion of the C code computes the specification's remaining rounds
`n, n+1, .., N-1` when neither the counters nor the slots can wrap. -/
theorem POOLS_make_refines (sz w N : Nat) (hN : N ≤ 2 ^ LOOKUP_SLOT_BITS)
    (hw : N < 2 ^ w) (hwrap : N + sz ≤ 2 ^ w) :
    ∀ (fuel n : Nat) (t : List Nat), n ≤ N → N - n < fuel → Tbl sz n t →
      POOLS_make sz w fuel n N t = .ok ((List.range' n (N - n)).foldl (spec_round sz) t) := by
  intro fuel
  induction fuel with
  | zero => intro n t _ h _; exact absurd h (Nat.not_lt_zero _)
  | succ fuel ih =>
    intro n t hle hf ht
    by_cases hn : n = N
    · subst hn
      rw [POOLS_make_done, Nat.sub_self]
      rfl
    · have hlt : n < N := Nat.lt_of_le_of_ne hle hn
      have hm : (n + 1) % 2 ^ w = n + 1 := Nat.mod_eq_of_lt (by omega)
      obtain ⟨s, hs, hinv, hspec, _⟩ := POOLS_make_slots_refines sz w n t ht
        (by omega) (by omega)
      have e : N - n = (N - (n + 1)) + 1 := by omega
      rw [POOLS_make_round sz w fuel n N t hn, hm, hs, bind_ok,
        ih (n + 1) s.2 hlt (by omega) (Tbl_of_SlotInv sz n t ht s hinv), e, List.range'_succ,
        List.foldl_cons]
      have hr : spec_round sz t n = s.2 := by
        unfold spec_round
        rw [hspec]
      rw [hr]

/-! ### The first round: two pools -/

/-- Round 1 on the zero-filled table gives every slot its index modulo 2. -/
theorem POOLS_make_slots_two (sz w : Nat) (hsz : sz < 2 ^ w) (h2 : 1 < 2 ^ LOOKUP_SLOT_BITS) :
    ∃ s, POOLS_make_slots sz w 1 2 (List.range 1, List.replicate sz 0) = .ok s ∧
      TwoInv sz sz s := by
  unfold POOLS_make_slots
  apply foldlM_range_inv _ (TwoInv sz) _ _
  · refine ⟨rfl, List.length_replicate _ _, fun j h => absurd h (Nat.not_lt_zero _), ?_⟩
    intro j _ hj
    rw [List.getElem?_replicate, if_pos hj]
  · intro i s hi hs
    obtain ⟨hc, hl, hlt, hge⟩ := hs
    have hp : s.2[i]? = some 0 := hge i (Nat.le_refl i) hi
    have hc0 : s.1[0]? = some i := by rw [hc]; rfl
    have hmod : (i + 1) % 2 ^ w = i + 1 := Nat.mod_eq_of_lt (by omega)
    refine ⟨_, POOLS_make_slot_ok w 1 2 i 0 i s.1 s.2 hp hc0 (by decide), ?_⟩
    rw [hmod, Nat.mod_eq_of_lt h2, hc]
    refine ⟨rfl, ?_, ?_, ?_⟩
    · split <;> simp [hl]
    · intro j hj
      by_cases hji : j = i
      · subst hji
        split
        · rw [List.getElem?_set_self (by rw [hl]; exact hi)]
          congr 1; omega
        · rw [hp]; congr 1; omega
      · have hj' : j < i := by omega
        split
        · rw [List.getElem?_set_ne (fun h => hji h.symm)]; exact hlt j hj'
        · exact hlt j hj'
    · intro j hij hj
      split
      · rw [List.getElem?_set_ne (by omega)]; exact hge j (by omega) hj
      · exact hge j (by omega) hj

/-- Among the first `2 * k` naturals taken modulo 2 the value 1 occurs `k`
times. -/
theorem count_one_range_mod_two (k : Nat) :
    ((List.range (2 * k)).map (fun i => i % 2)).count 1 = k := by
  induction k with
  | zero => rfl
  | succ k ih =>
    have e : 2 * (k + 1) = (2 * k + 1) + 1 := by ring
    have h0 : (2 * k) % 2 = 0 := by omega
    have h1 : (2 * k + 1) % 2 = 1 := by omega
    rw [e, List.range_succ, List.range_succ, List.map_append, List.map_append,
      List.count_append, List.count_append, ih]
    simp [h0, h1]

/-! ### Lookup generation on 8192 slots -/

theorem SIRIDB_LOOKUP_SZ_eq : SIRIDB_LOOKUP_SZ = 8192 := rfl

/-- In the model that gives the recursion all the stack it asks for, lookup
generation for a pool count in `[1, 65535]` gives a table that is valid at
level `num_pools`. -/
theorem siridb_pools_gen_lookup_total (w : Nat) (hw : 16 ≤ w) (num_pools : Nat)
    (h1 : 1 ≤ num_pools) (h2 : num_pools < 65536) :
    ∃ r, siridb_pools_gen_lookup w num_pools = .ok r ∧ Tbl SIRIDB_LOOKUP_SZ num_pools r := by
  have h := two_pow_le_of_le w hw
  exact POOLS_make_total SIRIDB_LOOKUP_SZ w num_pools (by omega)
    (by unfold LOOKUP_SLOT_BITS; omega) num_pools 1 _ h1 (by omega) (Tbl_zero _)

/-- Lookup generation for `N + 1` pools is lookup generation for `N` pools
followed by round `N`. -/
theorem siridb_pools_gen_lookup_succ (w : Nat) (hw : 16 ≤ w) (N : Nat)
    (h1 : 1 ≤ N) (h2 : N + 1 < 65536) :
    siridb_pools_gen_lookup w (N + 1) =
      (siridb_pools_gen_lookup w N).bind
        (fun r => (POOLS_make_slots SIRIDB_LOOKUP_SZ w N (N + 1) (List.range N, r)).bind
          (fun st => .ok st.2)) := by
  have h := two_pow_le_of_le w hw
  exact POOLS_make_succ SIRIDB_LOOKUP_SZ w N (by omega) N 1 _ h1 (by omega)

/-- C1. Lookup stability under growth: for `1 ≤ N < 8192` both tables exist,
have 8192 slots, and every slot of `siridb_pools_gen_lookup (N + 1)` holds
either what the same slot of `siridb_pools_gen_lookup (N)` holds or `N`. -/
theorem lookup_stability_under_growth (w : Nat) (hw : 16 ≤ w) (N : Nat)
    (h1 : 1 ≤ N) (h2 : N < 8192) :
    ∃ t1 t2, siridb_pools_gen_lookup w N = .ok t1 ∧
      siridb_pools_gen_lookup w (N + 1) = .ok t2 ∧
      t1.length = 8192 ∧ t2.length = 8192 ∧
      ∀ i, i < 8192 → ∃ a b, t1[i]? = some a ∧ t2[i]? = some b ∧ (b = a ∨ b = N) := by
  obtain ⟨t1, ht1, htbl⟩ := siridb_pools_gen_lookup_total w hw N h1 (by omega)
  obtain ⟨s, hs, hinv⟩ := POOLS_make_slots_struct SIRIDB_LOOKUP_SZ w N t1 htbl
    (by unfold LOOKUP_SLOT_BITS; omega)
  have ht2 : siridb_pools_gen_lookup w (N + 1) = .ok s.2 := by
    rw [siridb_pools_gen_lookup_succ w hw N h1 (by omega), ht1, bind_ok, hs, bind_ok]
  have hl1 : t1.length = 8192 := htbl.1
  refine ⟨t1, s.2, ht1, ht2, hl1, by rw [hinv.2.1, hl1], ?_⟩
  intro i hi
  obtain ⟨a, ha, _⟩ := Tbl_get SIRIDB_LOOKUP_SZ N t1 htbl i hi
  rcases hinv.2.2.2 i hi with h | h
  · exact ⟨a, a, ha, by rw [h, ha], Or.inl rfl⟩
  · exact ⟨a, N, ha, h, Or.inr rfl⟩

theorem lookup_stability_under_growth_witness :
    16 ≤ 16 ∧ 1 ≤ 5 ∧ 5 < 8192 ∧
    ∃ t1 t2, siridb_pools_gen_lookup 16 5 = .ok t1 ∧
      siridb_pools_gen_lookup 16 (5 + 1) = .ok t2 ∧
      t1.length = 8192 ∧ t2.length = 8192 ∧
      ∀ i, i < 8192 → ∃ a b, t1[i]? = some a ∧ t2[i]? = some b ∧ (b = a ∨ b = 5) :=
  ⟨by decide, by decide, by decide,
    lookup_stability_under_growth 16 (by decide) 5 (by decide) (by decide)⟩

/-- The values of lookup generation, in the model that gives the recursion
all the stack it asks for: for every `num_pools` in `[1, 8192]` the recursive
`POOLS_make`, started at `n = 1` on the zero-filled table with at least
`num_pools` units of fuel, gives exactly the table of the specification's
iterative algorithm, and so does `siridb_pools_gen_lookup`; the table is a
function of `num_pools` alone: it does not depend on the fuel or on the width
of `uint_fast16_t`. -/
theorem siridb_pools_gen_lookup_refines_spec (w : Nat) (hw : 16 ≤ w) (num_pools : Nat)
    (h1 : 1 ≤ num_pools) (h2 : num_pools ≤ 8192) :
    (∀ fuel, num_pools ≤ fuel →
      POOLS_make SIRIDB_LOOKUP_SZ w fuel 1 num_pools (List.replicate SIRIDB_LOOKUP_SZ 0) =
        .ok (spec_gen_lookup num_pools)) ∧
    siridb_pools_gen_lookup w num_pools = .ok (spec_gen_lookup num_pools) ∧
    (∀ w2, 16 ≤ w2 →
      siridb_pools_gen_lookup w2 num_pools = siridb_pools_gen_lookup w num_pools) := by
  have key : ∀ w1, 16 ≤ w1 → ∀ fuel, num_pools ≤ fuel →
      POOLS_make SIRIDB_LOOKUP_SZ w1 fuel 1 num_pools (List.replicate SIRIDB_LOOKUP_SZ 0) =
        .ok (spec_gen_lookup num_pools) := by
    intro w1 hw1 fuel hf
    have h := two_pow_le_of_le w1 hw1
    unfold spec_gen_lookup spec_lookup
    rw [← SIRIDB_LOOKUP_SZ_eq]
    exact POOLS_make_refines SIRIDB_LOOKUP_SZ w1 num_pools (by unfold LOOKUP_SLOT_BITS; omega)
      (by omega) (by rw [SIRIDB_LOOKUP_SZ_eq]; omega) fuel 1 _ h1 (by omega) (Tbl_zero _)
  refine ⟨key w hw, key w hw num_pools (Nat.le_refl _), ?_⟩
  intro w2 hw2
  unfold siridb_pools_gen_lookup
  rw [key w hw num_pools (Nat.le_refl _), key w2 hw2 num_pools (Nat.le_refl _)]

theorem siridb_pools_gen_lookup_refines_spec_witness :
    16 ≤ 16 ∧ 1 ≤ 3 ∧ 3 ≤ 8192 ∧
    (∀ fuel, 3 ≤ fuel →
      POOLS_make SIRIDB_LOOKUP_SZ 16 fuel 1 3 (List.replicate SIRIDB_LOOKUP_SZ 0) =
        .ok (spec_gen_lookup 3)) ∧
    siridb_pools_gen_lookup 16 3 = .ok (spec_gen_lookup 3) ∧
    (∀ w2, 16 ≤ w2 → siridb_pools_gen_lookup w2 3 = siridb_pools_gen_lookup 16 3) :=
  ⟨by decide, by decide, by decide,
    siridb_pools_gen_lookup_refines_spec 16 (by decide) 3 (by decide) (by decide)⟩

/-- C3. `siridb_pools_gen_lookup (1)` is the table of 8192 zeros, and
`siridb_pools_gen_lookup (2)` is a table of 8192 slots in which slot `i` holds
1 when `i` is odd and 0 otherwise, so that pool 1 owns 4096 slots. -/
theorem lookup_one_and_two_pools (w : Nat) (hw : 16 ≤ w) :
    siridb_pools_gen_lookup w 1 = .ok (List.replicate 8192 0) ∧
    ∃ t, siridb_pools_gen_lookup w 2 = .ok t ∧ t.length = 8192 ∧
      (∀ i, i < 8192 → t[i]? = some (if i % 2 = 1 then 1 else 0)) ∧
      t.count 1 = 4096 := by
  have h := two_pow_le_of_le w hw
  have hone : siridb_pools_gen_lookup w 1 = .ok (List.replicate 8192 0) := by
    unfold siridb_pools_gen_lookup
    rw [POOLS_make_done, SIRIDB_LOOKUP_SZ_eq]
  refine ⟨hone, ?_⟩
  obtain ⟨s, hs, _, hl, hlt, _⟩ := POOLS_make_slots_two SIRIDB_LOOKUP_SZ w
    (by rw [SIRIDB_LOOKUP_SZ_eq]; omega) (by unfold LOOKUP_SLOT_BITS; norm_num)
  have htwo : siridb_pools_gen_lookup w 2 = .ok s.2 := by
    rw [siridb_pools_gen_lookup_succ w hw 1 (Nat.le_refl 1) (by norm_num), hone,
      ← SIRIDB_LOOKUP_SZ_eq, bind_ok, hs, bind_ok]
  rw [SIRIDB_LOOKUP_SZ_eq] at hl hlt
  have hget : ∀ i, i < 8192 → s.2[i]? = some (if i % 2 = 1 then 1 else 0) := by
    intro i hi
    have e : i % 2 = if i % 2 = 1 then 1 else 0 := by split <;> omega
    rw [hlt i hi]
    exact congrArg some e
  refine ⟨s.2, htwo, hl, hget, ?_⟩
  have hlist : s.2 = (List.range (2 * 4096)).map (fun i => i % 2) := by
    apply List.ext_getElem?
    intro j
    by_cases hj : j < 8192
    · rw [hlt j hj, List.getElem?_map, List.getElem?_range (by omega)]
      rfl
    · rw [List.getElem?_eq_none (by omega), List.getElem?_eq_none (by simp; omega)]
  rw [hlist, count_one_range_mod_two]

theorem lookup_one_and_two_pools_witness :
    16 ≤ 16 ∧
    siridb_pools_gen_lookup 16 1 = .ok (List.replicate 8192 0) ∧
    ∃ t, siridb_pools_gen_lookup 16 2 = .ok t ∧ t.length = 8192 ∧
      (∀ i, i < 8192 → t[i]? = some (if i % 2 = 1 then 1 else 0)) ∧
      t.count 1 = 4096 :=
  ⟨by decide, lookup_one_and_two_pools 16 (by decide)⟩

/-- C4. For `num_pools` in `[1, 8192]` and every generation step `n` with
`1 ≤ n < num_pools`: the table `t` the run holds when step `n` starts (the run
towards `num_pools` continues from `(n, t)`) has 8192 slots that all hold a
value below `n`; before every iteration `i` of the slot loop of step `n` the
loop has not faulted, `counters` has `n` cells and slot `i` holds an index `p`
for which `counters[p]` exists. The returned table has 8192 slots that all hold
a value below `num_pools`. -/
theorem lookup_slots_are_valid_pool_ids (w : Nat) (hw : 16 ≤ w) (num_pools : Nat)
    (h1 : 1 ≤ num_pools) (h2 : num_pools ≤ 8192) :
    (∀ n, 1 ≤ n → n < num_pools →
      ∃ t, siridb_pools_gen_lookup w n = .ok t ∧
        (∀ fuel, num_pools ≤ fuel →
          POOLS_make SIRIDB_LOOKUP_SZ w fuel 1 num_pools
              (List.replicate SIRIDB_LOOKUP_SZ 0) =
            POOLS_make SIRIDB_LOOKUP_SZ w (fuel - (n - 1)) n num_pools t) ∧
        t.length = 8192 ∧
        (∀ i, i < 8192 → ∃ p, t[i]? = some p ∧ p < n) ∧
        (∀ i, i < 8192 → ∃ cs t1 p c0,
          (List.range i).foldlM (POOLS_make_slot w n (n + 1)) (List.range n, t) =
            .ok (cs, t1) ∧
          cs.length = n ∧ t1[i]? = some p ∧ p < n ∧ cs[p]? = some c0)) ∧
    ∃ r, siridb_pools_gen_lookup w num_pools = .ok r ∧ r.length = 8192 ∧
      ∀ i, i < 8192 → ∃ p, r[i]? = some p ∧ p < num_pools := by
  have h := two_pow_le_of_le w hw
  constructor
  · intro n hn1 hn2
    obtain ⟨t, ht, htbl⟩ := siridb_pools_gen_lookup_total w hw n hn1 (by omega)
    refine ⟨t, ht, ?_, htbl.1, fun i hi => Tbl_get SIRIDB_LOOKUP_SZ n t htbl i hi, ?_⟩
    · intro fuel hf
      have e : n - 1 + 1 = n := by omega
      rw [POOLS_make_split SIRIDB_LOOKUP_SZ w n num_pools (by omega) (by omega) fuel 1 _ hn1
        (by omega), e]
      unfold siridb_pools_gen_lookup at ht
      rw [ht, bind_ok]
    · intro i hi
      obtain ⟨s, hs, hinv⟩ := foldlM_range_inv (POOLS_make_slot w n (n + 1))
        (SlotInv n t) i (List.range n, t) (SlotInv_init n t)
        (fun j s hj hs => SlotInv_step SIRIDB_LOOKUP_SZ w n t htbl
          (by unfold LOOKUP_SLOT_BITS; omega) j (by rw [SIRIDB_LOOKUP_SZ_eq]; omega) s hs)
      obtain ⟨p, c0, hp, hc, hpn⟩ := SlotInv_reads SIRIDB_LOOKUP_SZ n t htbl i hi s hinv
      exact ⟨s.1, s.2, p, c0, hs, hinv.1, hp, hpn, hc⟩
  · obtain ⟨r, hr, htbl⟩ := siridb_pools_gen_lookup_total w hw num_pools h1 (by omega)
    exact ⟨r, hr, htbl.1, fun i hi => Tbl_get SIRIDB_LOOKUP_SZ num_pools r htbl i hi⟩

theorem lookup_slots_are_valid_pool_ids_witness :
    16 ≤ 16 ∧ 1 ≤ 2 ∧ 2 ≤ 8192 ∧
    (∀ n, 1 ≤ n → n < 2 →
      ∃ t, siridb_pools_gen_lookup 16 n = .ok t ∧
        (∀ fuel, 2 ≤ fuel →
          POOLS_make SIRIDB_LOOKUP_SZ 16 fuel 1 2
              (List.replicate SIRIDB_LOOKUP_SZ 0) =
            POOLS_make SIRIDB_LOOKUP_SZ 16 (fuel - (n - 1)) n 2 t) ∧
        t.length = 8192 ∧
        (∀ i, i < 8192 → ∃ p, t[i]? = some p ∧ p < n) ∧
        (∀ i, i < 8192 → ∃ cs t1 p c0,
          (List.range i).foldlM (POOLS_make_slot 16 n (n + 1)) (List.range n, t) =
            .ok (cs, t1) ∧
          cs.length = n ∧ t1[i]? = some p ∧ p < n ∧ cs[p]? = some c0)) ∧
    ∃ r, siridb_pools_gen_lookup 16 2 = .ok r ∧ r.length = 8192 ∧
      ∀ i, i < 8192 → ∃ p, r[i]? = some p ∧ p < 2 :=
  ⟨by decide, by decide, by decide,
    lookup_slots_are_valid_pool_ids 16 (by decide) 2 (by decide) (by decide)⟩

/-! ## Pool set: membership and replica election -/

theorem deref_ok (heap : List siridb_server_t) (p : ServerPtr) (sv : siridb_server_t)
    (h : heap[p]? = some sv) : deref heap p = .ok sv := by
  unfold deref; rw [h]

theorem poolOf_some (heap : List siridb_server_t) (p : ServerPtr) (sv : siridb_server_t)
    (h : heap[p]? = some sv) : poolOf heap p = some sv.pool := by
  unfold poolOf; rw [h]; rfl

/-- Setting flags of one server does not change any pool id. -/
theorem poolOf_set_flags (heap : List siridb_server_t) (i : ServerPtr)
    (this : siridb_server_t) (h : heap[i]? = some this) (f : Nat) (p : ServerPtr) :
    poolOf (heap.set i { this with flags := f }) p = poolOf heap p := by
  unfold poolOf
  by_cases hip : i = p
  · subst hip
    rw [List.getElem?_set_self (List.getElem?_eq_some.mp h).1, h]
    rfl
  · rw [List.getElem?_set_ne hip]

/-- The replica election of `POOLS_arrange` for the server at `server` (record
`sv`). It never faults when the local server pointer is valid, leaves the pool
set, the server list, the local pointer and all pool ids alone, and either
changes nothing (not a candidate) or records `server` and sets the flag. -/
theorem POOLS_arrange_replica_spec (env : Env) (server : ServerPtr) (sv this : siridb_server_t)
    (s : siridb_t) (hthis : s.heap[s.server]? = some this) :
    ∃ s1, POOLS_arrange_replica env server sv s = .ok s1 ∧
      s1.pools = s.pools ∧ s1.server = s.server ∧ s1.servers = s.servers ∧
      (∀ p, poolOf s1.heap p = poolOf s.heap p) ∧
      ((s.server ≠ server ∧ this.pool = sv.pool) →
        s1.replica = some server ∧
        s1.heap = s.heap.set s.server
          { this with flags := this.flags ||| env.SERVER_FLAG_SYNCHRONIZING }) ∧
      (¬ (s.server ≠ server ∧ this.pool = sv.pool) → s1 = s) := by
  unfold POOLS_arrange_replica
  by_cases h1 : s.server ≠ server
  · rw [if_pos h1, deref_ok _ _ _ hthis, bind_ok]
    by_cases h2 : this.pool = sv.pool
    · rw [if_pos h2]
      cases hf : env.fifo_new with
      | none =>
        refine ⟨_, rfl, rfl, rfl, rfl, ?_, fun _ => ⟨rfl, rfl⟩, fun h => absurd ⟨h1, h2⟩ h⟩
        intro p
        exact poolOf_set_flags s.heap s.server this hthis _ p
      | some f =>
        refine ⟨_, rfl, rfl, rfl, rfl, ?_, fun _ => ⟨rfl, rfl⟩, fun h => absurd ⟨h1, h2⟩ h⟩
        intro p
        exact poolOf_set_flags s.heap s.server this hthis _ p
    · rw [if_neg h2]
      exact ⟨s, rfl, rfl, rfl, rfl, fun _ => rfl, fun h => absurd h.2 h2, fun _ => rfl⟩
  · rw [if_neg h1]
    exact ⟨s, rfl, rfl, rfl, rfl, fun _ => rfl, fun h => absurd h.1 h1, fun _ => rfl⟩

/-- One call of `POOLS_arrange` for a valid server whose pool exists. -/
theorem POOLS_arrange_spec (env : Env) (p : ServerPtr) (sv this : siridb_server_t)
    (s : siridb_t) (pools : siridb_pools_t) (pool : siridb_pool_t)
    (hp : s.heap[p]? = some sv) (hthis : s.heap[s.server]? = some this)
    (hpools : s.pools = some pools) (hpool : pools.pool[sv.pool]? = some pool) :
    ∃ s1, POOLS_arrange env p s = .ok s1 ∧
      s1.pools = some ({ pools with
        pool := pools.pool.set sv.pool (siridb_pool_add_server pool p) }) ∧
      s1.server = s.server ∧
      (∀ q, poolOf s1.heap q = poolOf s.heap q) ∧
      (IsReplicaOf s p →
        s1.replica = some p ∧
        s1.heap = s.heap.set s.server
          { this with flags := this.flags ||| env.SERVER_FLAG_SYNCHRONIZING }) ∧
      (¬ IsReplicaOf s p →
        s1.replica = s.replica ∧ s1.heap = s.heap ∧ s1.fifo = s.fifo ∧
        s1.replicate = s.replicate ∧ s1.series_map = s.series_map) := by
  obtain ⟨s1, h1, hpl, hsv, _, hpo, hyes, hno⟩ :=
    POOLS_arrange_replica_spec env p sv this s hthis
  have hiff : IsReplicaOf s p ↔ (s.server ≠ p ∧ this.pool = sv.pool) := by
    unfold IsReplicaOf
    rw [poolOf_some _ _ _ hp, poolOf_some _ _ _ hthis]
    constructor
    · rintro ⟨a, b⟩; exact ⟨a, (Option.some.inj b).symm⟩
    · rintro ⟨a, b⟩; exact ⟨a, by rw [b]⟩
  refine ⟨{ s1 with
      pools := some ({ pools with
        pool := pools.pool.set sv.pool (siridb_pool_add_server pool p) }) },
    ?_, rfl, hsv, hpo, ?_, ?_⟩
  · unfold POOLS_arrange
    rw [deref_ok _ _ _ hp, bind_ok, h1, bind_ok]
    simp only [hpl, hpools, hpool]
  · intro h
    exact hyes (hiff.mp h)
  · intro h
    have e := hno (fun h' => h (hiff.mpr h'))
    rw [e]
    exact ⟨rfl, rfl, rfl, rfl, rfl⟩

theorem membersOf_congr (h1 h2 : List siridb_server_t) (l : List ServerPtr) (q : Nat)
    (h : ∀ p, poolOf h1 p = poolOf h2 p) : membersOf h1 l q = membersOf h2 l q := by
  unfold membersOf
  congr 1
  funext p
  rw [h p]

/-- The walk of `POOLS_arrange` over `l`: it does not fault when every server
of `l` is valid and has a pool in the array, every pool `q` receives exactly
the servers of `l` with pool id `q`, in order, and pool ids, pool count and
lookup are left alone. -/
theorem walk_arrange_pools (env : Env) :
    ∀ (l : List ServerPtr) (s : siridb_t) (pools : siridb_pools_t),
      s.pools = some pools →
      (∃ this, s.heap[s.server]? = some this) →
      (∀ p ∈ l, ∃ q, poolOf s.heap p = some q ∧ q < pools.pool.length) →
      ∃ s1 pools1, walk_arrange env l s = .ok s1 ∧ s1.pools = some pools1 ∧
        pools1.len = pools.len ∧ pools1.lookup = pools.lookup ∧
        pools1.pool.length = pools.pool.length ∧ s1.server = s.server ∧
        (∀ q, poolOf s1.heap q = poolOf s.heap q) ∧
        ∀ (q : Nat) (a : siridb_pool_t), pools.pool[q]? = some a →
          pools1.pool[q]? = some (siridb_pool_t.mk
            (a.len + (membersOf s.heap l q).length) (a.server ++ membersOf s.heap l q)) := by
  intro l
  induction l with
  | nil =>
    intro s pools hpools _ _
    refine ⟨s, pools, rfl, hpools, rfl, rfl, rfl, rfl, fun _ => rfl, ?_⟩
    intro q a ha
    rw [ha]
    simp [membersOf]
  | cons p l ih =>
    intro s pools hpools hthis hvalid
    obtain ⟨this, hthis⟩ := hthis
    obtain ⟨q0, hq0, hq0lt⟩ := hvalid p (List.mem_cons_self p l)
    obtain ⟨sv, hsv, hsvq⟩ : ∃ sv, s.heap[p]? = some sv ∧ sv.pool = q0 := by
      unfold poolOf at hq0
      cases h : s.heap[p]? with
      | none => rw [h] at hq0; cases hq0
      | some sv => rw [h] at hq0; exact ⟨sv, rfl, Option.some.inj hq0⟩
    subst hsvq
    have hpool : pools.pool[sv.pool]? = some pools.pool[sv.pool] :=
      List.getElem?_eq_getElem hq0lt
    obtain ⟨s1, h1, hpl1, hsrv1, hpo1, _, _⟩ :=
      POOLS_arrange_spec env p sv this s pools _ hsv hthis hpools hpool
    have hthis1 : ∃ this1, s1.heap[s1.server]? = some this1 := by
      have h := hpo1 s.server
      rw [poolOf_some _ _ _ hthis] at h
      unfold poolOf at h
      rw [hsrv1]
      cases h' : s1.heap[s.server]? with
      | none => rw [h'] at h; cases h
      | some t => exact ⟨t, rfl⟩
    obtain ⟨s2, pools2, h2, hpl2, hlen2, hlk2, hlength2, hsrv2, hpo2, hmem2⟩ :=
      ih s1 _ hpl1 hthis1 (by
        intro p' hp'
        obtain ⟨q, hq, hqlt⟩ := hvalid p' (List.mem_cons_of_mem p hp')
        exact ⟨q, by rw [hpo1 p', hq], by simpa using hqlt⟩)
    refine ⟨s2, pools2, ?_, hpl2, hlen2, hlk2, by simpa using hlength2, by rw [hsrv2, hsrv1],
      fun q => by rw [hpo2 q, hpo1 q], ?_⟩
    · show (POOLS_arrange env p s).bind (fun siridb1 => walk_arrange env l siridb1) = _
      rw [h1, bind_ok, h2]
    · intro q a ha
      have hcongr : membersOf s1.heap l q = membersOf s.heap l q :=
        membersOf_congr _ _ l q hpo1
      by_cases hq : sv.pool = q
      · subst hq
        have ha' : a = pools.pool[sv.pool] := by
          rw [hpool] at ha; exact (Option.some.inj ha).symm
        have hm : membersOf s.heap (p :: l) sv.pool = p :: membersOf s.heap l sv.pool := by
          unfold membersOf
          rw [List.filter_cons_of_pos (by simp [hq0])]
        rw [hmem2 sv.pool (siridb_pool_add_server pools.pool[sv.pool] p)
          (List.getElem?_set_self hq0lt), hcongr, hm, ← ha']
        simp [siridb_pool_add_server, Nat.add_assoc, Nat.add_comm 1]
      · have hm : membersOf s.heap (p :: l) q = membersOf s.heap l q := by
          unfold membersOf
          rw [List.filter_cons_of_neg]
          simp only [hq0, decide_eq_true_eq]
          intro h
          exact hq (Option.some.inj h)
        rw [hmem2 q a (by
          show (pools.pool.set sv.pool _)[q]? = some a
          rw [List.getElem?_set_ne hq]; exact ha), hcongr, hm]

/-- The walk of `POOLS_max_pool` returns an upper bound of all pool ids of
the list that is the start value or the pool id of a server of the list. -/
theorem walk_max_pool_spec (heap : List siridb_server_t) :
    ∀ (l : List ServerPtr) (m0 : Nat), (∀ p ∈ l, ∃ q, poolOf heap p = some q) →
      ∃ M, walk_max_pool heap l m0 = .ok M ∧ m0 ≤ M ∧
        (∀ p ∈ l, ∀ q, poolOf heap p = some q → q ≤ M) ∧
        (M = m0 ∨ ∃ p ∈ l, poolOf heap p = some M) := by
  intro l
  induction l with
  | nil =>
    intro m0 _
    exact ⟨m0, rfl, Nat.le_refl _, fun p hp => absurd hp (List.not_mem_nil p), Or.inl rfl⟩
  | cons p l ih =>
    intro m0 hvalid
    obtain ⟨q0, hq0⟩ := hvalid p (List.mem_cons_self p l)
    obtain ⟨sv, hsv, hsvq⟩ : ∃ sv, heap[p]? = some sv ∧ sv.pool = q0 := by
      unfold poolOf at hq0
      cases h : heap[p]? with
      | none => rw [h] at hq0; cases hq0
      | some sv => rw [h] at hq0; exact ⟨sv, rfl, Option.some.inj hq0⟩
    obtain ⟨M, hM, hle, hub, hwit⟩ := ih (POOLS_max_pool sv m0)
      (fun p' hp' => hvalid p' (List.mem_cons_of_mem p hp'))
    have hstep : m0 ≤ POOLS_max_pool sv m0 ∧ sv.pool ≤ POOLS_max_pool sv m0 ∧
        (POOLS_max_pool sv m0 = m0 ∨ POOLS_max_pool sv m0 = sv.pool) := by
      unfold POOLS_max_pool
      split <;> omega
    refine ⟨M, ?_, by omega, ?_, ?_⟩
    · show (deref heap p).bind (fun server =>
        walk_max_pool heap l (POOLS_max_pool server m0)) = _
      rw [deref_ok _ _ _ hsv, bind_ok, hM]
    · intro p' hp' q hq
      rcases List.mem_cons.mp hp' with h | h
      · subst h
        rw [hq0] at hq
        have := Option.some.inj hq
        omega
      · exact hub p' h q hq
    · rcases hwit with h | ⟨p', hp', hq'⟩
      · rcases hstep.2.2 with h2 | h2
        · exact Or.inl (by omega)
        · right
          refine ⟨p, List.mem_cons_self p l, ?_⟩
          rw [hq0, h, h2, hsvq]
      · exact Or.inr ⟨p', List.mem_cons_of_mem p hp', hq'⟩

/-- Summing, over the pool ids below `L`, the indicator of one fixed pool id
gives 1 when that id is below `L` and 0 otherwise. -/
theorem sum_indicator (x : Nat) :
    ∀ L, ((List.range L).map (fun q => if x = q then 1 else 0)).sum = if x < L then 1 else 0 := by
  intro L
  induction L with
  | zero => rfl
  | succ L ih =>
    rw [List.range_succ, List.map_append, List.sum_append, ih]
    simp only [List.map_cons, List.map_nil, List.sum_cons, List.sum_nil]
    split <;> split <;> split <;> omega

/-- When every server of `l` has a pool id below `L`, the member counts of the
pools `0 .. L-1` add up to the length of `l`. -/
theorem sum_membersOf (heap : List siridb_server_t) (L : Nat) :
    ∀ l : List ServerPtr, (∀ p ∈ l, ∃ q, poolOf heap p = some q ∧ q < L) →
      ((List.range L).map (fun q => (membersOf heap l q).length)).sum = l.length := by
  intro l
  induction l with
  | nil =>
    intro _
    simp [membersOf]
  | cons p l ih =>
    intro hvalid
    obtain ⟨q0, hq0, hlt⟩ := hvalid p (List.mem_cons_self p l)
    have hfun : (fun q => (membersOf heap (p :: l) q).length) =
        (fun q => (if q0 = q then 1 else 0) + (membersOf heap l q).length) := by
      funext q
      unfold membersOf
      by_cases h : q0 = q
      · rw [List.filter_cons_of_pos (by simp [hq0, h]), if_pos h, List.length_cons]
        omega
      · rw [List.filter_cons_of_neg (by simp [hq0, h]), if_neg h]
        omega
    rw [hfun, List.sum_map_add, sum_indicator, if_pos hlt,
      ih (fun p' hp' => hvalid p' (List.mem_cons_of_mem p hp')), List.length_cons]
    omega

theorem IsReplicaOf_congr (s s1 : siridb_t) (hsrv : s1.server = s.server)
    (hpo : ∀ q, poolOf s1.heap q = poolOf s.heap q) (p : ServerPtr) :
    IsReplicaOf s1 p ↔ IsReplicaOf s p := by
  unfold IsReplicaOf
  rw [hsrv, hpo p, hpo s.server]

/-- Replica election along the walk of `POOLS_arrange` over `l`: without a
candidate in `l` the replica, the server store, the FIFO and the replicate
task are untouched; with a candidate the replica is a candidate of `l` and the
only change of the server store is the flag set on the local server. -/
theorem walk_arrange_replica (env : Env) :
    ∀ (l : List ServerPtr) (s : siridb_t) (pools : siridb_pools_t) (this : siridb_server_t),
      s.pools = some pools → s.heap[s.server]? = some this →
      (∀ p ∈ l, ∃ q, poolOf s.heap p = some q ∧ q < pools.pool.length) →
      ∀ s1, walk_arrange env l s = .ok s1 →
        ((∀ p ∈ l, ¬ IsReplicaOf s p) →
          s1.replica = s.replica ∧ s1.heap = s.heap ∧ s1.fifo = s.fifo ∧
          s1.replicate = s.replicate) ∧
        ((∃ p ∈ l, IsReplicaOf s p) →
          (∃ r ∈ l, IsReplicaOf s r ∧ s1.replica = some r) ∧
          s1.heap = s.heap.set s.server
            { this with flags := this.flags ||| env.SERVER_FLAG_SYNCHRONIZING }) := by
  intro l
  induction l with
  | nil =>
    intro s pools this _ _ _ s1 h1
    have e : s1 = s := by
      have h : Except.ok s = Except.ok s1 := h1
      cases h; rfl
    subst e
    exact ⟨fun _ => ⟨rfl, rfl, rfl, rfl⟩, fun ⟨p, hp, _⟩ => absurd hp (List.not_mem_nil p)⟩
  | cons p l ih =>
    intro s pools this hpools hthis hvalid s2 h2
    obtain ⟨q0, hq0, hq0lt⟩ := hvalid p (List.mem_cons_self p l)
    obtain ⟨sv, hsv, hsvq⟩ : ∃ sv, s.heap[p]? = some sv ∧ sv.pool = q0 := by
      unfold poolOf at hq0
      cases h : s.heap[p]? with
      | none => rw [h] at hq0; cases hq0
      | some sv => rw [h] at hq0; exact ⟨sv, rfl, Option.some.inj hq0⟩
    subst hsvq
    obtain ⟨s1, h1, hpl1, hsrv1, hpo1, hyes, hno⟩ :=
      POOLS_arrange_spec env p sv this s pools _ hsv hthis hpools
        (List.getElem?_eq_getElem hq0lt)
    have hwalk : walk_arrange env l s1 = .ok s2 := by
      have h : (POOLS_arrange env p s).bind (fun siridb1 => walk_arrange env l siridb1) =
          .ok s2 := h2
      rw [h1, bind_ok] at h
      exact h
    have hvalid1 : ∀ p' ∈ l, ∃ q, poolOf s1.heap p' = some q ∧
        q < (pools.pool.set sv.pool (siridb_pool_add_server pools.pool[sv.pool] p)).length := by
      intro p' hp'
      obtain ⟨q, hq, hqlt⟩ := hvalid p' (List.mem_cons_of_mem p hp')
      exact ⟨q, by rw [hpo1 p', hq], by simpa using hqlt⟩
    have hcongr := IsReplicaOf_congr s s1 hsrv1 hpo1
    by_cases hc : IsReplicaOf s p
    · obtain ⟨hrep1, hheap1⟩ := hyes hc
      have hthis1 : s1.heap[s1.server]? = some
          { this with flags := this.flags ||| env.SERVER_FLAG_SYNCHRONIZING } := by
        rw [hsrv1, hheap1]
        exact List.getElem?_set_self (List.getElem?_eq_some.mp hthis).1
      obtain ⟨hA, hB⟩ := ih s1 _ _ hpl1 hthis1 hvalid1 s2 hwalk
      refine ⟨fun h => absurd hc (h p (List.mem_cons_self p l)), fun _ => ?_⟩
      by_cases hex : ∃ p' ∈ l, IsReplicaOf s p'
      · obtain ⟨p', hp', hc'⟩ := hex
        obtain ⟨⟨r, hr, hrc, hrep⟩, hheap⟩ := hB ⟨p', hp', (hcongr p').mpr hc'⟩
        refine ⟨⟨r, List.mem_cons_of_mem p hr, (hcongr r).mp hrc, hrep⟩, ?_⟩
        rw [hheap, hsrv1, hheap1, List.set_set]
        simp only [Nat.or_assoc, Nat.or_self]
      · have hnone : ∀ p' ∈ l, ¬ IsReplicaOf s1 p' :=
          fun p' hp' h => hex ⟨p', hp', (hcongr p').mp h⟩
        obtain ⟨hrep, hheap, _, _⟩ := hA hnone
        exact ⟨⟨p, List.mem_cons_self p l, hc, by rw [hrep, hrep1]⟩, by rw [hheap, hheap1]⟩
    · obtain ⟨hrep1, hheap1, hfifo1, hrepl1, _⟩ := hno hc
      have hthis1 : s1.heap[s1.server]? = some this := by rw [hsrv1, hheap1]; exact hthis
      obtain ⟨hA, hB⟩ := ih s1 _ _ hpl1 hthis1 hvalid1 s2 hwalk
      constructor
      · intro h
        obtain ⟨a, b, c, d⟩ := hA (fun p' hp' h' =>
          h p' (List.mem_cons_of_mem p hp') ((hcongr p').mp h'))
        exact ⟨by rw [a, hrep1], by rw [b, hheap1], by rw [c, hfifo1], by rw [d, hrepl1]⟩
      · rintro ⟨p', hp', hc'⟩
        have hp'l : p' ∈ l := by
          rcases List.mem_cons.mp hp' with h | h
          · subst h; exact absurd hc' hc
          · exact h
        obtain ⟨⟨r, hr, hrc, hrep⟩, hheap⟩ := hB ⟨p', hp'l, (hcongr p').mpr hc'⟩
        exact ⟨⟨r, List.mem_cons_of_mem p hr, (hcongr r).mp hrc, hrep⟩,
          by rw [hheap, hsrv1, hheap1]⟩

/-- Unfolding of `siridb_pools_init` along a run whose three stages succeed. -/
theorem siridb_pools_init_ok (w : Nat) (env : Env) (s s1 : siridb_t) (M : Nat)
    (pools1 : siridb_pools_t) (lookup : List Nat)
    (hmax : walk_max_pool s.heap s.servers 0 = .ok M)
    (hwalk : walk_arrange env s.servers
      { s with pools := some (pools_alloc ((M + 1) % 2 ^ POOLS_LEN_BITS)) } = .ok s1)
    (hpools : s1.pools = some pools1)
    (hlookup : siridb_pools_gen_lookup w pools1.len = .ok lookup) :
    siridb_pools_init w env s =
      .ok { s1 with pools := some ({ pools1 with lookup := lookup }) } := by
  unfold siridb_pools_init
  unfold pools_alloc at hwalk
  rw [hmax, bind_ok]
  simp only []
  rw [hwalk, bind_ok]
  simp only [hpools]
  rw [hlookup, bind_ok]

/-- Unfolding of `siridb_pools_init` along a run whose two walks succeed: what
is left is the generation of the lookup. -/
theorem siridb_pools_init_eq (w : Nat) (env : Env) (s s1 : siridb_t) (M : Nat)
    (pools1 : siridb_pools_t)
    (hmax : walk_max_pool s.heap s.servers 0 = .ok M)
    (hwalk : walk_arrange env s.servers
      { s with pools := some (pools_alloc ((M + 1) % 2 ^ POOLS_LEN_BITS)) } = .ok s1)
    (hpools : s1.pools = some pools1) :
    siridb_pools_init w env s =
      (siridb_pools_gen_lookup w pools1.len).bind fun lookup =>
        .ok { s1 with pools := some ({ pools1 with lookup := lookup }) } := by
  unfold siridb_pools_init
  unfold pools_alloc at hwalk
  rw [hmax, bind_ok]
  simp only []
  rw [hwalk, bind_ok]
  simp only [hpools]

/-- C5. Pool membership after `siridb_pools_init`: for every non-empty list
of valid servers with pool ids below 8192, the bound of the pool count, the
two walks of the function return a state `s1` with a pool set `pools`, and
what the function does then is the generation of the lookup: it returns
exactly when `siridb_pools_gen_lookup` returns, and its result is `s1` with
the lookup table stored in `pools`. The number of pools (and the length of
the pool array) is the largest pool id of the list plus one; pool `q` holds
exactly the servers of the list with pool id `q`, in list order, and its
counter is their number; so every server found in pool `q` is a server of the
list with pool id `q`, and the pool sizes add up to the number of servers. -/
theorem pools_init_membership (w : Nat) (env : Env) (s : siridb_t)
    (hne : s.servers ≠ [])
    (hvalid : ∀ p ∈ s.servers, ∃ sv, s.heap[p]? = some sv ∧ sv.pool < 8192)
    (hlocal : ∃ this, s.heap[s.server]? = some this) :
    ∃ (s1 : siridb_t) (pools : siridb_pools_t) (m : Nat),
      siridb_pools_init w env s =
        ((siridb_pools_gen_lookup w (m + 1)).bind fun lookup =>
          .ok { s1 with pools := some ({ pools with lookup := lookup }) }) ∧
      (∀ s2 : siridb_t, siridb_pools_init w env s = .ok s2 →
        ∃ lookup, siridb_pools_gen_lookup w (m + 1) = .ok lookup ∧
          s2 = { s1 with pools := some ({ pools with lookup := lookup }) }) ∧
      s1.pools = some pools ∧
      (∃ p ∈ s.servers, poolOf s.heap p = some m) ∧
      (∀ p ∈ s.servers, ∀ q, poolOf s.heap p = some q → q ≤ m) ∧
      pools.len = m + 1 ∧ pools.pool.length = m + 1 ∧
      (∀ p, poolOf s1.heap p = poolOf s.heap p) ∧
      (∀ q, q < m + 1 → pools.pool[q]? = some (siridb_pool_t.mk
        (membersOf s.heap s.servers q).length (membersOf s.heap s.servers q))) ∧
      (∀ q pool p, pools.pool[q]? = some pool → p ∈ pool.server →
        p ∈ s.servers ∧ poolOf s1.heap p = some q) ∧
      (pools.pool.map (fun pool => pool.len)).sum = s.servers.length ∧
      (pools.pool.map (fun pool => pool.server.length)).sum = s.servers.length := by
  have hpo : ∀ p ∈ s.servers, ∃ q, poolOf s.heap p = some q ∧ q < 8192 := by
    intro p hp
    obtain ⟨sv, hsv, hlt⟩ := hvalid p hp
    exact ⟨sv.pool, poolOf_some _ _ _ hsv, hlt⟩
  obtain ⟨M, hM, _, hub, hwit⟩ := walk_max_pool_spec s.heap s.servers 0
    (fun p hp => (hpo p hp).imp fun _ h => h.1)
  -- the maximum is the pool id of a server of the list
  have hwit' : ∃ p ∈ s.servers, poolOf s.heap p = some M := by
    rcases hwit with h | h
    · cases hs : s.servers with
      | nil => exact absurd hs hne
      | cons p l =>
        have hp : p ∈ s.servers := by rw [hs]; exact List.mem_cons_self p l
        obtain ⟨q, hq, _⟩ := hpo p hp
        have := hub p hp q hq
        exact ⟨p, List.mem_cons_self p l, by rw [hq]; congr 1; omega⟩
    · exact h
  have hM65 : M < 8192 := by
    obtain ⟨p, hp, hq⟩ := hwit'
    obtain ⟨q, hq', hlt⟩ := hpo p hp
    rw [hq] at hq'
    have := Option.some.inj hq'
    omega
  have hlen : (M + 1) % 2 ^ POOLS_LEN_BITS = M + 1 :=
    Nat.mod_eq_of_lt (by unfold POOLS_LEN_BITS; omega)
  obtain ⟨s1, pools1, h1, hpl1, hlen1, _, hlength1, _, hpo1, hmem1⟩ :=
    walk_arrange_pools env s.servers
      { s with pools := some (pools_alloc ((M + 1) % 2 ^ POOLS_LEN_BITS)) }
      (pools_alloc ((M + 1) % 2 ^ POOLS_LEN_BITS)) rfl hlocal
      (by
        intro p hp
        obtain ⟨q, hq, _⟩ := hpo p hp
        refine ⟨q, hq, ?_⟩
        have := hub p hp q hq
        simp only [pools_alloc, List.length_replicate, hlen]
        omega)
  simp only [pools_alloc, List.length_replicate, hlen] at hlen1 hlength1 hmem1
  have heq : siridb_pools_init w env s =
      ((siridb_pools_gen_lookup w (M + 1)).bind fun lookup =>
        .ok { s1 with pools := some ({ pools1 with lookup := lookup }) }) := by
    rw [← hlen1]
    exact siridb_pools_init_eq w env s s1 M pools1 hM h1 hpl1
  have hget : ∀ q, q < M + 1 → pools1.pool[q]? = some (siridb_pool_t.mk
      (membersOf s.heap s.servers q).length (membersOf s.heap s.servers q)) := by
    intro q hq
    have h := hmem1 q { len := 0, server := [] }
      (by rw [List.getElem?_replicate, if_pos hq])
    simpa using h
  have hlist : pools1.pool = (List.range (M + 1)).map (fun q => siridb_pool_t.mk
      (membersOf s.heap s.servers q).length (membersOf s.heap s.servers q)) := by
    apply List.ext_getElem?
    intro q
    by_cases hq : q < M + 1
    · rw [hget q hq, List.getElem?_map, List.getElem?_range hq]
      rfl
    · rw [List.getElem?_eq_none (by omega), List.getElem?_eq_none (by simp; omega)]
  have hsum := sum_membersOf s.heap (M + 1) s.servers (by
    intro p hp
    obtain ⟨q, hq, _⟩ := hpo p hp
    exact ⟨q, hq, by have := hub p hp q hq; omega⟩)
  refine ⟨s1, pools1, M, heq, ?_, hpl1, hwit', hub, hlen1, hlength1, hpo1, hget, ?_, ?_, ?_⟩
  · intro s2 hs2
    rw [heq] at hs2
    cases hl : siridb_pools_gen_lookup w (M + 1) with
    | error e => rw [hl] at hs2; cases hs2
    | ok lookup =>
      rw [hl, bind_ok] at hs2
      exact ⟨lookup, rfl, (Except.ok.inj hs2).symm⟩
  · intro q pool p hq hp
    have hqlt : q < M + 1 := by
      have h := (List.getElem?_eq_some.mp hq).1
      simpa [hlength1] using h
    have hq' : pools1.pool[q]? = some pool := hq
    rw [hget q hqlt] at hq'
    have e := Option.some.inj hq'
    rw [← e] at hp
    have hp' : p ∈ membersOf s.heap s.servers q := hp
    unfold membersOf at hp'
    rw [List.mem_filter] at hp'
    refine ⟨hp'.1, ?_⟩
    show poolOf s1.heap p = some q
    rw [hpo1 p]
    simpa using hp'.2
  · show (pools1.pool.map (fun pool => pool.len)).sum = s.servers.length
    rw [hlist, List.map_map]
    exact hsum
  · show (pools1.pool.map (fun pool => pool.server.length)).sum = s.servers.length
    rw [hlist, List.map_map]
    exact hsum

/-- C5, witness: three servers, two of them in pool 0 and one in pool 1. The
function returns, with two pools that hold the servers 0 and 2 and the
server 1. -/
theorem pools_init_membership_witness :
    ∃ (s1 : siridb_t) (pools : siridb_pools_t) (lookup : List Nat),
      siridb_pools_init 16 sample_env sample_db =
        .ok { s1 with pools := some ({ pools with lookup := lookup }) } ∧
      pools.len = 2 ∧
      pools.pool[0]? = some { len := 2, server := [0, 2] } ∧
      pools.pool[1]? = some { len := 1, server := [1] } ∧
      (pools.pool.map (fun pool => pool.len)).sum = 3 := by
  obtain ⟨s1, pools, m, heq, _, _, ⟨p, hp, hpm⟩, hub, hlen, _, _, hget, _, hsum, _⟩ :=
    pools_init_membership 16 sample_env sample_db (by decide)
      (by
        intro p hp
        simp only [sample_db, List.mem_cons, List.mem_singleton, List.not_mem_nil,
          or_false] at hp
        rcases hp with h | h | h <;> subst h
        · exact ⟨_, rfl, by decide⟩
        · exact ⟨_, rfl, by decide⟩
        · exact ⟨_, rfl, by decide⟩)
      ⟨_, rfl⟩
  have hm1 : 1 ≤ m := hub 1 (by decide) 1 rfl
  have hm2 : m ≤ 1 := by
    simp only [sample_db, List.mem_cons, List.mem_singleton, List.not_mem_nil,
      or_false] at hp
    rcases hp with h | h | h <;> subst h <;> cases hpm <;> decide
  have hm : m = 1 := Nat.le_antisymm hm2 hm1
  subst hm
  obtain ⟨lookup, hlookup, _⟩ := siridb_pools_gen_lookup_total 16 (by decide) 2
    (by decide) (by decide)
  rw [hlookup, bind_ok] at heq
  exact ⟨s1, pools, lookup, heq, hlen, hget 0 (by decide), hget 1 (by decide), hsum⟩

/-! ### Runs of `siridb_pools_init` that return -/

theorem bind_eq_ok {α β : Type} (x : Except Fault α) (f : α → Except Fault β) (b : β)
    (h : x.bind f = .ok b) : ∃ a, x = .ok a ∧ f a = .ok b := by
  cases x with
  | error e => cases h
  | ok a => exact ⟨a, rfl, h⟩

theorem deref_eq_ok (heap : List siridb_server_t) (p : ServerPtr) (sv : siridb_server_t)
    (h : deref heap p = .ok sv) : heap[p]? = some sv := by
  unfold deref at h
  cases hp : heap[p]? with
  | none => rw [hp] at h; cases h
  | some x => rw [hp] at h; cases h; rfl

/-- A bit that was or-ed into a word is set in it. -/
theorem flag_set_of_or (a b : Nat) : (a ||| b) &&& b = b := by
  apply Nat.eq_of_testBit_eq
  intro i
  simp only [Nat.testBit_and, Nat.testBit_or]
  cases a.testBit i <;> cases b.testBit i <;> rfl

/-- A call of `POOLS_arrange` that returns has read a valid server, a valid
local server and an existing pool. -/
theorem POOLS_arrange_inv (env : Env) (p : ServerPtr) (s s1 : siridb_t)
    (h : POOLS_arrange env p s = .ok s1) :
    ∃ sv this pools pool, s.heap[p]? = some sv ∧ s.heap[s.server]? = some this ∧
      s.pools = some pools ∧ pools.pool[sv.pool]? = some pool := by
  unfold POOLS_arrange at h
  obtain ⟨sv, hsv, h⟩ := bind_eq_ok _ _ _ h
  have hsv' := deref_eq_ok _ _ _ hsv
  obtain ⟨s2, hs2, h⟩ := bind_eq_ok _ _ _ h
  have hthis : ∃ this, s.heap[s.server]? = some this := by
    by_cases hne : s.server ≠ p
    · unfold POOLS_arrange_replica at hs2
      rw [if_pos hne] at hs2
      obtain ⟨this, ht, _⟩ := bind_eq_ok _ _ _ hs2
      exact ⟨this, deref_eq_ok _ _ _ ht⟩
    · have e : s.server = p := Classical.not_not.mp hne
      rw [e]
      exact ⟨sv, hsv'⟩
  obtain ⟨this, hthis⟩ := hthis
  obtain ⟨s2', hs2', hpl, _⟩ := POOLS_arrange_replica_spec env p sv this s hthis
  rw [hs2] at hs2'
  cases hs2'
  rw [hpl] at h
  cases hpools : s.pools with
  | none => rw [hpools] at h; cases h
  | some pools =>
    rw [hpools] at h
    cases hpool : pools.pool[sv.pool]? with
    | none => simp only [hpool] at h; cases h
    | some pool => exact ⟨sv, this, pools, pool, hsv', hthis, rfl, hpool⟩

/-- A walk of `POOLS_arrange` that returns has only seen valid servers whose
pool exists, and, when the list is not empty, a valid local server. -/
theorem walk_arrange_valid (env : Env) :
    ∀ (l : List ServerPtr) (s s1 : siridb_t) (pools : siridb_pools_t),
      s.pools = some pools → walk_arrange env l s = .ok s1 →
      (∀ p ∈ l, ∃ q, poolOf s.heap p = some q ∧ q < pools.pool.length) ∧
      (l ≠ [] → ∃ this, s.heap[s.server]? = some this) := by
  intro l
  induction l with
  | nil =>
    intro s s1 pools _ _
    exact ⟨fun p hp => absurd hp (List.not_mem_nil p), fun h => absurd rfl h⟩
  | cons p l ih =>
    intro s s2 pools hpools h
    have h' : (POOLS_arrange env p s).bind (fun siridb1 => walk_arrange env l siridb1) =
        .ok s2 := h
    obtain ⟨s1, h1, hwalk⟩ := bind_eq_ok _ _ _ h'
    obtain ⟨sv, this, pools', pool, hsv, hthis, hpools', hpool⟩ :=
      POOLS_arrange_inv env p s s1 h1
    rw [hpools] at hpools'
    cases hpools'
    obtain ⟨s1', h1', hpl1, _, hpo1, _, _⟩ :=
      POOLS_arrange_spec env p sv this s pools pool hsv hthis hpools hpool
    rw [h1] at h1'
    cases h1'
    obtain ⟨hv, _⟩ := ih s1 s2 _ hpl1 hwalk
    refine ⟨?_, fun _ => ⟨this, hthis⟩⟩
    intro p' hp'
    rcases List.mem_cons.mp hp' with e | hl
    · subst e
      exact ⟨sv.pool, poolOf_some _ _ _ hsv, (List.getElem?_eq_some.mp hpool).1⟩
    · obtain ⟨q, hq, hlt⟩ := hv p' hl
      exact ⟨q, by rw [← hpo1 p', hq], by simpa using hlt⟩

/-- The stages of a run of `siridb_pools_init` that returns. -/
theorem siridb_pools_init_inv (w : Nat) (env : Env) (s s2 : siridb_t)
    (h : siridb_pools_init w env s = .ok s2) :
    ∃ M s1 pools1 lookup, walk_max_pool s.heap s.servers 0 = .ok M ∧
      walk_arrange env s.servers
        { s with pools := some (pools_alloc ((M + 1) % 2 ^ POOLS_LEN_BITS)) } = .ok s1 ∧
      s1.pools = some pools1 ∧ siridb_pools_gen_lookup w pools1.len = .ok lookup ∧
      s2 = { s1 with pools := some ({ pools1 with lookup := lookup }) } := by
  unfold siridb_pools_init at h
  obtain ⟨M, hM, h⟩ := bind_eq_ok _ _ _ h
  simp only [] at h
  obtain ⟨s1, h1, h⟩ := bind_eq_ok _ _ _ h
  cases hpools : s1.pools with
  | none => simp only [hpools] at h; cases h
  | some pools1 =>
    simp only [hpools] at h
    obtain ⟨lookup, hl, h⟩ := bind_eq_ok _ _ _ h
    cases h
    exact ⟨M, s1, pools1, lookup, hM, h1, hpools, hl, rfl⟩

/-- C6. Replica election in `siridb_pools_init`, for every run that returns.
Without a server in the list that is another object than the local server and
has the local server's pool id, the replica field, the server store (so the
local server's flags), the FIFO and the replicate task are left unchanged.
With such a server, the recorded replica is such a server of the list and the
only change of the server store is `SERVER_FLAG_SYNCHRONIZING` or-ed into the
local server's flags, so the flag is set. When no replica was recorded before,
a replica is recorded if and only if such a server exists. -/
theorem pools_init_replica_election (w : Nat) (env : Env) (s s2 : siridb_t)
    (h : siridb_pools_init w env s = .ok s2) :
    ((∀ p ∈ s.servers, ¬ IsReplicaOf s p) →
      s2.replica = s.replica ∧ s2.heap = s.heap ∧ s2.fifo = s.fifo ∧
      s2.replicate = s.replicate) ∧
    ((∃ p ∈ s.servers, IsReplicaOf s p) →
      (∃ r ∈ s.servers, IsReplicaOf s r ∧ s2.replica = some r) ∧
      ∃ this this2, s.heap[s.server]? = some this ∧ s2.heap[s2.server]? = some this2 ∧
        s2.heap = s.heap.set s.server
          { this with flags := this.flags ||| env.SERVER_FLAG_SYNCHRONIZING } ∧
        this2.pool = this.pool ∧
        this2.flags = this.flags ||| env.SERVER_FLAG_SYNCHRONIZING ∧
        this2.flags &&& env.SERVER_FLAG_SYNCHRONIZING = env.SERVER_FLAG_SYNCHRONIZING) ∧
    (s.replica = none → (s2.replica ≠ none ↔ ∃ p ∈ s.servers, IsReplicaOf s p)) ∧
    s2.server = s.server ∧
    (∀ this this2, s.heap[s.server]? = some this → s2.heap[s2.server]? = some this2 →
      this.flags &&& env.SERVER_FLAG_SYNCHRONIZING ≠ env.SERVER_FLAG_SYNCHRONIZING →
      (this2.flags &&& env.SERVER_FLAG_SYNCHRONIZING = env.SERVER_FLAG_SYNCHRONIZING ↔
        ∃ p ∈ s.servers, IsReplicaOf s p)) := by
  obtain ⟨M, s1, pools1, lookup, _, hwalk, _, _, hs2⟩ := siridb_pools_init_inv w env s s2 h
  subst hs2
  obtain ⟨hvalid, hthis⟩ := walk_arrange_valid env s.servers _ s1 _ rfl hwalk
  have hA : (∀ p ∈ s.servers, ¬ IsReplicaOf s p) →
      s1.replica = s.replica ∧ s1.heap = s.heap ∧ s1.fifo = s.fifo ∧
      s1.replicate = s.replicate := by
    intro hno
    cases hl : s.servers with
    | nil =>
      rw [hl] at hwalk
      have e : Except.ok _ = Except.ok s1 := hwalk
      cases e
      exact ⟨rfl, rfl, rfl, rfl⟩
    | cons p l =>
      obtain ⟨this, ht⟩ := hthis (by rw [hl]; exact List.cons_ne_nil p l)
      exact (walk_arrange_replica env s.servers _ _ this rfl ht hvalid s1 hwalk).1 hno
  have hB : (∃ p ∈ s.servers, IsReplicaOf s p) →
      (∃ r ∈ s.servers, IsReplicaOf s r ∧ s1.replica = some r) ∧
      ∃ this, s.heap[s.server]? = some this ∧
        s1.heap = s.heap.set s.server
          { this with flags := this.flags ||| env.SERVER_FLAG_SYNCHRONIZING } := by
    rintro ⟨p, hp, hc⟩
    obtain ⟨this, ht⟩ := hthis (List.ne_nil_of_mem hp)
    obtain ⟨hr, hh⟩ :=
      (walk_arrange_replica env s.servers _ _ this rfl ht hvalid s1 hwalk).2 ⟨p, hp, hc⟩
    exact ⟨hr, this, ht, hh⟩
  have hsrv : s1.server = s.server := by
    cases hl : s.servers with
    | nil =>
      rw [hl] at hwalk
      have e : Except.ok _ = Except.ok s1 := hwalk
      cases e
      rfl
    | cons p l =>
      obtain ⟨this, ht⟩ := hthis (by rw [hl]; exact List.cons_ne_nil p l)
      obtain ⟨s1', _, h1', _, _, _, _, hsrv', _⟩ := walk_arrange_pools env s.servers
        { s with pools := some (pools_alloc ((M + 1) % 2 ^ POOLS_LEN_BITS)) } _ rfl
        ⟨this, ht⟩ hvalid
      rw [hwalk] at h1'
      cases h1'
      exact hsrv'
  have hB2 : (∃ p ∈ s.servers, IsReplicaOf s p) → ∀ this, s.heap[s.server]? = some this →
      s1.heap[s1.server]? = some
        { this with flags := this.flags ||| env.SERVER_FLAG_SYNCHRONIZING } := by
    intro hex this ht
    obtain ⟨_, this1, ht1, hh⟩ := hB hex
    rw [ht] at ht1
    cases ht1
    rw [hsrv, hh]
    exact List.getElem?_set_self (List.getElem?_eq_some.mp ht).1
  refine ⟨hA, ?_, ?_, hsrv, ?_⟩
  · intro hex
    obtain ⟨hr, this, ht, hh⟩ := hB hex
    exact ⟨hr, this, { this with flags := this.flags ||| env.SERVER_FLAG_SYNCHRONIZING },
      ht, hB2 hex this ht, hh, rfl, rfl, flag_set_of_or _ _⟩
  · intro hnone
    constructor
    · intro hne
      by_contra hno
      have hno' : ∀ p ∈ s.servers, ¬ IsReplicaOf s p := fun p hp hc => hno ⟨p, hp, hc⟩
      have e : s1.replica = s.replica := (hA hno').1
      exact hne (by show s1.replica = none; rw [e, hnone])
    · intro hex
      obtain ⟨⟨r, _, _, hr⟩, _⟩ := hB hex
      show s1.replica ≠ none
      rw [hr]
      exact Option.some_ne_none r
  · intro this this2 ht ht2 hflag
    have ht2' : s1.heap[s1.server]? = some this2 := ht2
    constructor
    · intro hset
      by_contra hno
      have hno' : ∀ p ∈ s.servers, ¬ IsReplicaOf s p := fun p hp hc => hno ⟨p, hp, hc⟩
      have e : s1.heap = s.heap := (hA hno').2.1
      rw [hsrv, e, ht] at ht2'
      cases ht2'
      exact hflag hset
    · intro hex
      rw [hB2 hex this ht] at ht2'
      cases ht2'
      exact flag_set_of_or _ _

theorem pools_init_replica_election_witness :
    siridb_pools_init 16 sample_env sample_db_pair = .ok sample_db_pair_init ∧
    ((∀ p ∈ sample_db_pair.servers, ¬ IsReplicaOf sample_db_pair p) →
      sample_db_pair_init.replica = sample_db_pair.replica ∧
      sample_db_pair_init.heap = sample_db_pair.heap ∧
      sample_db_pair_init.fifo = sample_db_pair.fifo ∧
      sample_db_pair_init.replicate = sample_db_pair.replicate) ∧
    ((∃ p ∈ sample_db_pair.servers, IsReplicaOf sample_db_pair p) →
      (∃ r ∈ sample_db_pair.servers,
        IsReplicaOf sample_db_pair r ∧ sample_db_pair_init.replica = some r) ∧
      ∃ this this2, sample_db_pair.heap[sample_db_pair.server]? = some this ∧
        sample_db_pair_init.heap[sample_db_pair_init.server]? = some this2 ∧
        sample_db_pair_init.heap = sample_db_pair.heap.set sample_db_pair.server
          { this with flags := this.flags ||| sample_env.SERVER_FLAG_SYNCHRONIZING } ∧
        this2.pool = this.pool ∧
        this2.flags = this.flags ||| sample_env.SERVER_FLAG_SYNCHRONIZING ∧
        this2.flags &&& sample_env.SERVER_FLAG_SYNCHRONIZING =
          sample_env.SERVER_FLAG_SYNCHRONIZING) ∧
    (sample_db_pair.replica = none →
      (sample_db_pair_init.replica ≠ none ↔
        ∃ p ∈ sample_db_pair.servers, IsReplicaOf sample_db_pair p)) ∧
    sample_db_pair_init.server = sample_db_pair.server ∧
    (∀ this this2, sample_db_pair.heap[sample_db_pair.server]? = some this →
      sample_db_pair_init.heap[sample_db_pair_init.server]? = some this2 →
      this.flags &&& sample_env.SERVER_FLAG_SYNCHRONIZING ≠
        sample_env.SERVER_FLAG_SYNCHRONIZING →
      (this2.flags &&& sample_env.SERVER_FLAG_SYNCHRONIZING =
          sample_env.SERVER_FLAG_SYNCHRONIZING ↔
        ∃ p ∈ sample_db_pair.servers, IsReplicaOf sample_db_pair p)) :=
  ⟨rfl, pools_init_replica_election 16 sample_env sample_db_pair sample_db_pair_init rfl⟩

/-! ## Pool set: online, available and fan-out -/

/-- The loop of `siridb_pools_online` / `siridb_pools_available` over pool
ids that are all in the array: it returns 1 or 0, and 1 exactly when the
predicate holds for every pool of the list other than the local one. -/
theorem pools_all_spec (pred : Nat → siridb_pool_t → List siridb_server_t → Bool)
    (s : siridb_t) (pools : siridb_pools_t) (this : siridb_server_t)
    (hthis : s.heap[s.server]? = some this) :
    ∀ pids : List Nat, (∀ pid ∈ pids, pid < pools.pool.length) →
      ∃ r, pools_all pred s pools pids = .ok r ∧ (r = 1 ∨ r = 0) ∧
        (r = 1 ↔ ∀ pid ∈ pids, ∀ pool, pid ≠ this.pool → pools.pool[pid]? = some pool →
          pred pid pool s.heap = true) := by
  intro pids
  induction pids with
  | nil =>
    intro _
    exact ⟨1, rfl, Or.inl rfl,
      ⟨fun _ pid hp => absurd hp (List.not_mem_nil pid), fun _ => rfl⟩⟩
  | cons pid rest ih =>
    intro hb
    obtain ⟨r, hr, h01, hiff⟩ := ih (fun q hq => hb q (List.mem_cons_of_mem pid hq))
    have hlt := hb pid (List.mem_cons_self pid rest)
    have hpool : pools.pool[pid]? = some pools.pool[pid] := List.getElem?_eq_getElem hlt
    unfold pools_all
    rw [deref_ok _ _ _ hthis, bind_ok]
    by_cases hne : pid ≠ this.pool
    · rw [if_pos hne]
      simp only [hpool]
      cases hpr : pred pid pools.pool[pid] s.heap with
      | false =>
        refine ⟨0, rfl, Or.inr rfl, ?_⟩
        constructor
        · intro h; cases h
        · intro h
          have := h pid (List.mem_cons_self pid rest) _ hne hpool
          rw [hpr] at this
          cases this
      | true =>
        refine ⟨r, hr, h01, ?_⟩
        rw [hiff]
        constructor
        · intro h q hq pool hqne hqp
          rcases List.mem_cons.mp hq with e | hl
          · subst e
            rw [hpool] at hqp
            cases hqp
            exact hpr
          · exact h q hl pool hqne hqp
        · intro h q hq
          exact h q (List.mem_cons_of_mem pid hq)
    · rw [if_neg hne]
      refine ⟨r, hr, h01, ?_⟩
      rw [hiff]
      constructor
      · intro h q hq pool hqne hqp
        rcases List.mem_cons.mp hq with e | hl
        · subst e
          exact absurd hqne hne
        · exact h q hl pool hqne hqp
      · intro h q hq
        exact h q (List.mem_cons_of_mem pid hq)

/-- The result of the loop over all pool ids of a well-formed pool set. -/
theorem pools_all_range (pred : Nat → siridb_pool_t → List siridb_server_t → Bool)
    (s : siridb_t) (pools : siridb_pools_t) (this : siridb_server_t)
    (hlen : pools.pool.length = pools.len) (hthis : s.heap[s.server]? = some this) :
    ∃ r, pools_all pred s pools (List.range pools.len) = .ok r ∧ (r = 1 ∨ r = 0) ∧
      (r = 1 ↔ ∀ pid pool, pid ≠ this.pool → pools.pool[pid]? = some pool →
        pred pid pool s.heap = true) := by
  obtain ⟨r, hr, h01, hiff⟩ := pools_all_spec pred s pools this hthis (List.range pools.len)
    (fun pid hp => by rw [hlen]; exact List.mem_range.mp hp)
  refine ⟨r, hr, h01, ?_⟩
  rw [hiff]
  constructor
  · intro h pid pool hne hp
    have hlt : pid < pools.len := by
      rw [← hlen]; exact (List.getElem?_eq_some.mp hp).1
    exact h pid (List.mem_range.mpr hlt) pool hne hp
  · intro h pid _ pool hne hp
    exact h pid pool hne hp

/-- Two results in `{0, 1}` that are 1 under the same condition are equal. -/
theorem flag_eq_of_iff (r1 r2 : Nat) (P : Prop) (h1 : r1 = 1 ∨ r1 = 0) (h2 : r2 = 1 ∨ r2 = 0)
    (i1 : r1 = 1 ↔ P) (i2 : r2 = 1 ↔ P) : r1 = r2 := by
  rcases h1 with a | a <;> rcases h2 with b | b
  · rw [a, b]
  · have := i2.mpr (i1.mp a); omega
  · have := i1.mpr (i2.mp b); omega
  · rw [a, b]

/-- The loop over all pools of a well-formed pool set, for any per-pool
predicate: the result is 1 or 0; it is 1 exactly when the predicate holds for
every pool other than the local one; it is the same for any content of the
local pool and for any predicate that agrees on the other pools; and it is 1
when the local pool is the only pool. -/
theorem pools_all_main (pred : Nat → siridb_pool_t → List siridb_server_t → Bool)
    (s : siridb_t) (pools : siridb_pools_t) (this : siridb_server_t)
    (hlen : pools.pool.length = pools.len) (hthis : s.heap[s.server]? = some this) :
    ∃ r, pools_all pred s pools (List.range pools.len) = .ok r ∧ (r = 1 ∨ r = 0) ∧
      (r = 1 ↔ ∀ pid pool, pid ≠ this.pool → pools.pool[pid]? = some pool →
        pred pid pool s.heap = true) ∧
      (∀ x, pools_all pred
        { s with pools := some ({ pools with pool := pools.pool.set this.pool x }) }
        ({ pools with pool := pools.pool.set this.pool x })
        (List.range pools.len) = .ok r) ∧
      (∀ pred2 : Nat → siridb_pool_t → List siridb_server_t → Bool,
        (∀ pid pool heap, pid ≠ this.pool → pred2 pid pool heap = pred pid pool heap) →
        pools_all pred2 s pools (List.range pools.len) = .ok r) ∧
      (pools.len = 1 → this.pool < pools.len → r = 1) := by
  obtain ⟨r, hr, h01, hiff⟩ := pools_all_range pred s pools this hlen hthis
  refine ⟨r, hr, h01, hiff, ?_, ?_, ?_⟩
  · intro x
    obtain ⟨r2, hr2, h012, hiff2⟩ := pools_all_range pred
      { s with pools := some ({ pools with pool := pools.pool.set this.pool x }) }
      ({ pools with pool := pools.pool.set this.pool x }) this
      (by simpa using hlen) hthis
    have e : r2 = r := by
      apply flag_eq_of_iff r2 r _ h012 h01 hiff2
      rw [hiff]
      constructor
      · intro h pid pool hne hp
        apply h pid pool hne
        have hp' : (pools.pool.set this.pool x)[pid]? = some pool := hp
        rw [List.getElem?_set_ne (fun e => hne e.symm)] at hp'
        exact hp'
      · intro h pid pool hne hp
        apply h pid pool hne
        show (pools.pool.set this.pool x)[pid]? = some pool
        rw [List.getElem?_set_ne (fun e => hne e.symm)]
        exact hp
    rw [← e]
    exact hr2
  · intro pred2 hagree
    obtain ⟨r2, hr2, h012, hiff2⟩ := pools_all_range pred2 s pools this hlen hthis
    have e : r2 = r := by
      apply flag_eq_of_iff r2 r _ h012 h01 hiff2
      rw [hiff]
      constructor
      · intro h pid pool hne hp
        rw [hagree pid pool s.heap hne]
        exact h pid pool hne hp
      · intro h pid pool hne hp
        rw [← hagree pid pool s.heap hne]
        exact h pid pool hne hp
    rw [← e]
    exact hr2
  · intro h1 hlt
    rw [hiff]
    intro pid pool hne hp
    have hpid : pid < pools.len := by
      rw [← hlen]; exact (List.getElem?_eq_some.mp hp).1
    omega

/-- C7. On a database whose pool set is well formed (the array has `len`
pools) and whose local server pointer is valid, `siridb_pools_online` and
`siridb_pools_available` return 1 or 0, and 1 if and only if every pool whose
id differs from the local server's pool id satisfies the per-pool predicate.
The result is the same whatever the local pool contains and whatever the
predicate says about the local pool, and it is 1 when the local pool is the
only pool. -/
theorem pools_online_available
    (online available : Nat → siridb_pool_t → List siridb_server_t → Bool)
    (s : siridb_t) (pools : siridb_pools_t) (this : siridb_server_t)
    (hpools : s.pools = some pools) (hlen : pools.pool.length = pools.len)
    (hthis : s.heap[s.server]? = some this) :
    ∃ r_on r_av, siridb_pools_online online s = .ok r_on ∧
      siridb_pools_available available s = .ok r_av ∧
      (r_on = 1 ∨ r_on = 0) ∧ (r_av = 1 ∨ r_av = 0) ∧
      (r_on = 1 ↔ ∀ pid pool, pid ≠ this.pool → pools.pool[pid]? = some pool →
        online pid pool s.heap = true) ∧
      (r_av = 1 ↔ ∀ pid pool, pid ≠ this.pool → pools.pool[pid]? = some pool →
        available pid pool s.heap = true) ∧
      (∀ x, siridb_pools_online online
        { s with pools := some ({ pools with pool := pools.pool.set this.pool x }) } =
          .ok r_on) ∧
      (∀ x, siridb_pools_available available
        { s with pools := some ({ pools with pool := pools.pool.set this.pool x }) } =
          .ok r_av) ∧
      (∀ online2 : Nat → siridb_pool_t → List siridb_server_t → Bool,
        (∀ pid pool heap, pid ≠ this.pool → online2 pid pool heap = online pid pool heap) →
        siridb_pools_online online2 s = .ok r_on) ∧
      (∀ available2 : Nat → siridb_pool_t → List siridb_server_t → Bool,
        (∀ pid pool heap, pid ≠ this.pool →
          available2 pid pool heap = available pid pool heap) →
        siridb_pools_available available2 s = .ok r_av) ∧
      (pools.len = 1 → this.pool < pools.len → r_on = 1 ∧ r_av = 1) := by
  obtain ⟨r_on, h1, h2, h3, h4, h5, h6⟩ := pools_all_main online s pools this hlen hthis
  obtain ⟨r_av, g1, g2, g3, g4, g5, g6⟩ := pools_all_main available s pools this hlen hthis
  refine ⟨r_on, r_av, ?_, ?_, h2, g2, h3, g3, ?_, ?_, ?_, ?_,
    fun a b => ⟨h6 a b, g6 a b⟩⟩
  · unfold siridb_pools_online; rw [hpools]; exact h1
  · unfold siridb_pools_available; rw [hpools]; exact g1
  · intro x; unfold siridb_pools_online; exact h4 x
  · intro x; unfold siridb_pools_available; exact g4 x
  · intro online2 ha
    unfold siridb_pools_online; rw [hpools]; exact h5 online2 ha
  · intro available2 ha
    unfold siridb_pools_available; rw [hpools]; exact g5 available2 ha

theorem pools_online_available_witness :
    ∃ r_on r_av,
      siridb_pools_online (fun pid _ _ => decide (pid ≠ 0)) sample_db_three = .ok r_on ∧
      siridb_pools_available (fun pid _ _ => decide (pid ≠ 2)) sample_db_three = .ok r_av ∧
      r_on = 1 ∧ r_av = 0 := by
  obtain ⟨r_on, r_av, h1, h2, _, h4, h5, h6, _⟩ :=
    pools_online_available (fun pid _ _ => decide (pid ≠ 0)) (fun pid _ _ => decide (pid ≠ 2))
      sample_db_three sample_pools_three { pool := 0, flags := 0 } rfl rfl rfl
  refine ⟨r_on, r_av, h1, h2, ?_, ?_⟩
  · rw [h5]
    intro pid pool hne _
    exact decide_eq_true hne
  · rcases h4 with h | h
    · have := h6.mp h 2 { len := 1, server := [2] } (by decide) rfl
      simp at this
    · exact h

/-- The loop of `siridb_pools_send_pkg` over pool ids that are all in the
array: one attempt per peer pool in list order, a `none` slot per failed
attempt and an issued promise per successful one. -/
theorem pools_send_loop_spec (send : Nat → siridb_pool_t → List siridb_server_t → Bool)
    (s : siridb_t) (pools : siridb_pools_t) (this : siridb_server_t)
    (hthis : s.heap[s.server]? = some this) :
    ∀ (pids : List Nat) (promises : sirinet_promises_t),
      (∀ pid ∈ pids, pid < pools.pool.length) →
      pools_send_loop send s pools pids promises = .ok
        { promises with
          attempts := promises.attempts ++ peersOf this.pool pids
          promises := promises.promises ++
            ((peersOf this.pool pids).filter (sendFails send s.heap pools)).map (fun _ => none)
          issued := promises.issued ++
            (peersOf this.pool pids).filter (fun pid => !sendFails send s.heap pools pid) } := by
  intro pids
  induction pids with
  | nil =>
    intro promises _
    simp [pools_send_loop, peersOf]
  | cons pid rest ih =>
    intro promises hb
    have hrest : ∀ q ∈ rest, q < pools.pool.length :=
      fun q hq => hb q (List.mem_cons_of_mem pid hq)
    have hlt := hb pid (List.mem_cons_self pid rest)
    have hpool : pools.pool[pid]? = some pools.pool[pid] := List.getElem?_eq_getElem hlt
    unfold pools_send_loop
    rw [deref_ok _ _ _ hthis, bind_ok]
    by_cases he : pid = this.pool
    · rw [if_pos he, ih promises hrest]
      have hp : peersOf this.pool (pid :: rest) = peersOf this.pool rest := by
        unfold peersOf
        rw [List.filter_cons_of_neg (by simp [he])]
      rw [hp]
    · rw [if_neg he]
      have hp : peersOf this.pool (pid :: rest) = pid :: peersOf this.pool rest := by
        unfold peersOf
        rw [List.filter_cons_of_pos (by simp [he])]
      simp only [hpool]
      cases hs : send pid pools.pool[pid] s.heap with
      | true =>
        have hf : sendFails send s.heap pools pid = true := by
          unfold sendFails; rw [hpool]; exact hs
        simp only [if_true]
        rw [ih _ hrest, hp, List.filter_cons_of_pos hf,
          List.filter_cons_of_neg (by simp [hf])]
        simp
      | false =>
        have hf : sendFails send s.heap pools pid = false := by
          unfold sendFails; rw [hpool]; exact hs
        simp only [Bool.false_eq_true, if_false]
        rw [ih _ hrest, hp, List.filter_cons_of_neg (by simp [hf]),
          List.filter_cons_of_pos (by simp [hf])]
        simp

/-- The peers among the pool ids below `L` are `L - 1` many when the local
pool id is below `L`. -/
theorem length_peersOf_range (k : Nat) :
    ∀ L, (peersOf k (List.range L)).length = if k < L then L - 1 else L := by
  intro L
  induction L with
  | zero => rfl
  | succ L ih =>
    unfold peersOf at ih ⊢
    rw [List.range_succ, List.filter_append, List.length_append, ih]
    by_cases h : L = k
    · subst h
      simp
    · rw [List.filter_cons_of_pos (by simp [h])]
      simp only [List.filter_nil, List.length_singleton]
      split <;> split <;> omega

/-- Failed and successful attempts partition the attempts. -/
theorem length_filter_partition (f : Nat → Bool) (l : List Nat) :
    (l.filter (fun x => !f x)).length + (l.filter f).length = l.length := by
  induction l with
  | nil => rfl
  | cons a l ih =>
    cases h : f a
    · rw [List.filter_cons_of_pos (by simp [h]), List.filter_cons_of_neg (by simp [h]),
        List.length_cons, List.length_cons]
      omega
    · rw [List.filter_cons_of_neg (by simp [h]), List.filter_cons_of_pos (by simp [h]),
        List.length_cons, List.length_cons]
      omega

/-- C8. On a database whose pool set is well formed and whose local server
belongs to one of its pools, `siridb_pools_send_pkg` returns a promise set of
capacity `len - 1`; the pools it calls `siridb_pool_send_pkg` for are exactly
the pool ids below `len` other than the local pool id, each once and in
increasing order; the set holds one `none` slot per attempt that reported no
available server and nothing else, a promise was issued for every other
attempt, and issued promises plus `none` slots are `len - 1` many. With 3
pools, of which only pool 2, a peer, has no available server, the set holds
exactly one `none`. -/
theorem pools_send_pkg_spec (send : Nat → siridb_pool_t → List siridb_server_t → Bool)
    (s : siridb_t) (pools : siridb_pools_t) (this : siridb_server_t)
    (hpools : s.pools = some pools) (hlen : pools.pool.length = pools.len)
    (hthis : s.heap[s.server]? = some this) (hlocal : this.pool < pools.len) :
    ∃ r, siridb_pools_send_pkg send s = .ok r ∧
      r.size = (pools.len : Int) - 1 ∧
      r.attempts = peersOf this.pool (List.range pools.len) ∧
      (∀ pid, pid ∈ r.attempts ↔ pid < pools.len ∧ pid ≠ this.pool) ∧
      r.attempts.Pairwise (fun a b => a < b) ∧
      r.promises = (r.attempts.filter (sendFails send s.heap pools)).map (fun _ => none) ∧
      r.issued = r.attempts.filter (fun pid => !sendFails send s.heap pools pid) ∧
      (∀ x ∈ r.promises, x = none) ∧
      r.issued.length + r.promises.length = pools.len - 1 ∧
      ((r.issued.length : Int) + (r.promises.length : Int) = r.size) ∧
      (pools.len = 3 → this.pool ≠ 2 →
        (∀ pid, pid < 3 → (sendFails send s.heap pools pid = true ↔ pid = 2)) →
        r.promises = [none]) := by
  have hloop := pools_send_loop_spec send s pools this hthis (List.range pools.len)
    (sirinet_promises_new ((pools.len : Int) - 1))
    (fun pid hp => by rw [hlen]; exact List.mem_range.mp hp)
  have hcount : (peersOf this.pool (List.range pools.len)).length = pools.len - 1 := by
    rw [length_peersOf_range, if_pos hlocal]
  have hpart := length_filter_partition (sendFails send s.heap pools)
    (peersOf this.pool (List.range pools.len))
  obtain ⟨r, hr, hsize, hatt, hprom, hiss⟩ : ∃ r, siridb_pools_send_pkg send s = .ok r ∧
      r.size = (pools.len : Int) - 1 ∧
      r.attempts = peersOf this.pool (List.range pools.len) ∧
      r.promises = ((peersOf this.pool (List.range pools.len)).filter
        (sendFails send s.heap pools)).map (fun _ => none) ∧
      r.issued = (peersOf this.pool (List.range pools.len)).filter
        (fun pid => !sendFails send s.heap pools pid) := by
    unfold siridb_pools_send_pkg
    rw [hpools]
    simp only []
    rw [hloop, bind_ok]
    exact ⟨_, rfl, rfl, rfl, rfl, rfl⟩
  refine ⟨r, hr, hsize, hatt, ?_, ?_, by rw [hprom, hatt], by rw [hiss, hatt], ?_, ?_, ?_, ?_⟩
  · intro pid
    rw [hatt]
    simp [peersOf]
  · rw [hatt]
    exact List.Pairwise.filter _ (List.pairwise_lt_range pools.len)
  · intro x hx
    rw [hprom, List.mem_map] at hx
    obtain ⟨_, _, e⟩ := hx
    exact e.symm
  · rw [hprom, hiss, List.length_map]
    omega
  · rw [hprom, hiss, hsize, List.length_map]
    omega
  · intro h3 hk hf
    have h1 : sendFails send s.heap pools 1 = false := by
      cases h : sendFails send s.heap pools 1
      · rfl
      · have := (hf 1 (by decide)).mp h
        omega
    have h0 : sendFails send s.heap pools 0 = false := by
      cases h : sendFails send s.heap pools 0
      · rfl
      · have := (hf 0 (by decide)).mp h
        omega
    have h2 : sendFails send s.heap pools 2 = true := (hf 2 (by decide)).mpr rfl
    have hk01 : this.pool = 0 ∨ this.pool = 1 := by omega
    rw [hprom, h3]
    rcases hk01 with e | e <;> rw [e]
    · have hp : peersOf 0 (List.range 3) = [1, 2] := by decide
      rw [hp, List.filter_cons_of_neg (by simp [h1]), List.filter_cons_of_pos h2]
      rfl
    · have hp : peersOf 1 (List.range 3) = [0, 2] := by decide
      rw [hp, List.filter_cons_of_neg (by simp [h0]), List.filter_cons_of_pos h2]
      rfl

theorem pools_send_pkg_spec_witness :
    ∃ r, siridb_pools_send_pkg (fun pid _ _ => decide (pid = 2)) sample_db_three = .ok r ∧
      r.size = 2 ∧ r.attempts = [1, 2] ∧ r.promises = [none] ∧ r.issued = [1] := by
  obtain ⟨r, h1, h2, h3, _, _, h6, h7, _⟩ :=
    pools_send_pkg_spec (fun pid _ _ => decide (pid = 2)) sample_db_three sample_pools_three
      { pool := 0, flags := 0 } rfl rfl rfl (by decide)
  exact ⟨r, h1, h2, h3, by rw [h6, h3]; rfl, by rw [h7, h3]; rfl⟩

/-! ## Replication: response handling and status transitions -/

/-- C9. With a FIFO and a replicate task in place, `REPLICATE_on_repl_response`
returns and changes the FIFO by exactly the action the promise status selects:
`commit` on success with a non-error packet type, `commit_err` on success with
an error packet type and on timeout, cancellation and package-type error, and
nothing on a write error (the record stays in the FIFO). In every case the
replicate status is unchanged, the timer is armed for 100 ms and nothing else
of the database changes. On a FIFO that holds a record the three possible
outcomes for the FIFO are pairwise different. -/
theorem repl_response_fifo_action (is_error : Nat → Bool) (s : siridb_t)
    (fifo : siridb_fifo_t) (replicate : siridb_replicate_t) (tp : Nat)
    (hfifo : s.fifo = some fifo) (hrepl : s.replicate = some replicate) :
    (∀ (pkg : Option Nat) (status : sirinet_promise_status_t),
      (status = .PROMISE_SUCCESS → pkg ≠ none) →
      ∃ s1 fifo1, REPLICATE_on_repl_response is_error s pkg status = .ok s1 ∧
        s1 = { s with
          fifo := some fifo1
          replicate := some { replicate with timer := some 100 } } ∧
        (fifo1 = fifo ∨ fifo1 = siridb_fifo_commit fifo ∨
          fifo1 = siridb_fifo_commit_err fifo)) ∧
    (is_error tp = false →
      REPLICATE_on_repl_response is_error s (some tp) .PROMISE_SUCCESS = .ok
        { s with
          fifo := some (siridb_fifo_commit fifo)
          replicate := some { replicate with timer := some 100 } }) ∧
    (is_error tp = true →
      REPLICATE_on_repl_response is_error s (some tp) .PROMISE_SUCCESS = .ok
        { s with
          fifo := some (siridb_fifo_commit_err fifo)
          replicate := some { replicate with timer := some 100 } }) ∧
    (∀ pkg, REPLICATE_on_repl_response is_error s pkg .PROMISE_TIMEOUT_ERROR = .ok
        { s with
          fifo := some (siridb_fifo_commit_err fifo)
          replicate := some { replicate with timer := some 100 } }) ∧
    (∀ pkg, REPLICATE_on_repl_response is_error s pkg .PROMISE_CANCELLED_ERROR = .ok
        { s with
          fifo := some (siridb_fifo_commit_err fifo)
          replicate := some { replicate with timer := some 100 } }) ∧
    (∀ pkg, REPLICATE_on_repl_response is_error s pkg .PROMISE_PKG_TYPE_ERROR = .ok
        { s with
          fifo := some (siridb_fifo_commit_err fifo)
          replicate := some { replicate with timer := some 100 } }) ∧
    (∀ pkg, REPLICATE_on_repl_response is_error s pkg .PROMISE_WRITE_ERROR = .ok
        { s with
          fifo := some fifo
          replicate := some { replicate with timer := some 100 } }) ∧
    (fifo.records ≠ [] →
      siridb_fifo_commit fifo ≠ fifo ∧ siridb_fifo_commit_err fifo ≠ fifo ∧
      siridb_fifo_commit fifo ≠ siridb_fifo_commit_err fifo) := by
  have hW : ∀ pkg, REPLICATE_on_repl_response is_error s pkg .PROMISE_WRITE_ERROR = .ok
      { s with fifo := some fifo, replicate := some { replicate with timer := some 100 } } := by
    intro pkg
    simp only [REPLICATE_on_repl_response, bind_ok, hrepl, uv_timer_start, REPLICATE_SLEEP]
    rw [← hfifo]
  have hT : ∀ pkg, REPLICATE_on_repl_response is_error s pkg .PROMISE_TIMEOUT_ERROR = .ok
      { s with fifo := some (siridb_fifo_commit_err fifo),
               replicate := some { replicate with timer := some 100 } } := by
    intro pkg
    simp only [REPLICATE_on_repl_response, hfifo, bind_ok, hrepl, uv_timer_start,
      REPLICATE_SLEEP]
  have hC : ∀ pkg, REPLICATE_on_repl_response is_error s pkg .PROMISE_CANCELLED_ERROR = .ok
      { s with fifo := some (siridb_fifo_commit_err fifo),
               replicate := some { replicate with timer := some 100 } } := by
    intro pkg
    simp only [REPLICATE_on_repl_response, hfifo, bind_ok, hrepl, uv_timer_start,
      REPLICATE_SLEEP]
  have hP : ∀ pkg, REPLICATE_on_repl_response is_error s pkg .PROMISE_PKG_TYPE_ERROR = .ok
      { s with fifo := some (siridb_fifo_commit_err fifo),
               replicate := some { replicate with timer := some 100 } } := by
    intro pkg
    simp only [REPLICATE_on_repl_response, hfifo, bind_ok, hrepl, uv_timer_start,
      REPLICATE_SLEEP]
  have hS0 : ∀ tp, is_error tp = false →
      REPLICATE_on_repl_response is_error s (some tp) .PROMISE_SUCCESS = .ok
      { s with fifo := some (siridb_fifo_commit fifo),
               replicate := some { replicate with timer := some 100 } } := by
    intro tp h
    simp only [REPLICATE_on_repl_response, hfifo, h, bind_ok, hrepl, uv_timer_start,
      REPLICATE_SLEEP, Bool.false_eq_true, if_false]
  have hS1 : ∀ tp, is_error tp = true →
      REPLICATE_on_repl_response is_error s (some tp) .PROMISE_SUCCESS = .ok
      { s with fifo := some (siridb_fifo_commit_err fifo),
               replicate := some { replicate with timer := some 100 } } := by
    intro tp h
    simp only [REPLICATE_on_repl_response, hfifo, h, bind_ok, hrepl, uv_timer_start,
      REPLICATE_SLEEP, if_true]
  refine ⟨?_, hS0 tp, hS1 tp, hT, hC, hP, hW, ?_⟩
  · intro pkg status hpkg
    cases status with
    | PROMISE_WRITE_ERROR => exact ⟨_, fifo, hW pkg, rfl, Or.inl rfl⟩
    | PROMISE_TIMEOUT_ERROR => exact ⟨_, _, hT pkg, rfl, Or.inr (Or.inr rfl)⟩
    | PROMISE_CANCELLED_ERROR => exact ⟨_, _, hC pkg, rfl, Or.inr (Or.inr rfl)⟩
    | PROMISE_PKG_TYPE_ERROR => exact ⟨_, _, hP pkg, rfl, Or.inr (Or.inr rfl)⟩
    | PROMISE_SUCCESS =>
      cases pkg with
      | none => exact absurd rfl (hpkg rfl)
      | some tp1 =>
        cases h : is_error tp1 with
        | false => exact ⟨_, _, hS0 tp1 h, rfl, Or.inr (Or.inl rfl)⟩
        | true => exact ⟨_, _, hS1 tp1 h, rfl, Or.inr (Or.inr rfl)⟩
  · intro hne
    obtain ⟨records, failed⟩ := fifo
    cases records with
    | nil => exact absurd rfl hne
    | cons a l =>
      refine ⟨?_, ?_, ?_⟩
      · intro h
        have := congrArg (fun f => f.records.length) h
        simp [siridb_fifo_commit] at this
      · intro h
        have := congrArg (fun f => f.records.length) h
        simp [siridb_fifo_commit_err] at this
      · intro h
        have := congrArg (fun f => f.failed.length) h
        simp [siridb_fifo_commit, siridb_fifo_commit_err] at this

theorem repl_response_fifo_action_witness :
    ∃ s1, REPLICATE_on_repl_response (fun tp => decide (tp = 9)) sample_db_three (some 3)
        .PROMISE_SUCCESS = .ok s1 ∧
      s1.fifo = some { records := [8], failed := [] } ∧
      s1.replicate = some { status := .REPLICATE_RUNNING, init_fp := false, timer := some 100 } :=
  ⟨_, (repl_response_fifo_action (fun tp => decide (tp = 9)) sample_db_three
    { records := [7, 8], failed := [] }
    { status := .REPLICATE_RUNNING, init_fp := false, timer := none } 3 rfl rfl).2.1 rfl,
    rfl, rfl⟩

/-- C10. Status transitions of the replicate task, for any state of the
initial file and of the timer: `siridb_replicate_start` on IDLE gives RUNNING
with the timer armed for 100 ms; `siridb_replicate_pause` maps IDLE to PAUSED
and RUNNING to STOPPING and leaves the timer alone;
`siridb_replicate_continue` maps STOPPING to RUNNING and leaves the timer
alone (start is not called), and on PAUSED or IDLE it is
`siridb_replicate_start` on the task set to IDLE, which gives RUNNING with
the timer armed for 100 ms. -/
theorem replicate_status_transitions (init_fp : Bool) (timer : Option Nat) :
    siridb_replicate_start { status := .REPLICATE_IDLE, init_fp := init_fp, timer := timer } =
      { status := .REPLICATE_RUNNING, init_fp := init_fp, timer := some 100 } ∧
    siridb_replicate_pause { status := .REPLICATE_IDLE, init_fp := init_fp, timer := timer } =
      { status := .REPLICATE_PAUSED, init_fp := init_fp, timer := timer } ∧
    siridb_replicate_pause { status := .REPLICATE_RUNNING, init_fp := init_fp, timer := timer } =
      { status := .REPLICATE_STOPPING, init_fp := init_fp, timer := timer } ∧
    siridb_replicate_continue
        { status := .REPLICATE_STOPPING, init_fp := init_fp, timer := timer } =
      { status := .REPLICATE_RUNNING, init_fp := init_fp, timer := timer } ∧
    siridb_replicate_continue
        { status := .REPLICATE_PAUSED, init_fp := init_fp, timer := timer } =
      siridb_replicate_start
        { status := .REPLICATE_IDLE, init_fp := init_fp, timer := timer } ∧
    siridb_replicate_continue
        { status := .REPLICATE_IDLE, init_fp := init_fp, timer := timer } =
      siridb_replicate_start
        { status := .REPLICATE_IDLE, init_fp := init_fp, timer := timer } ∧
    siridb_replicate_continue
        { status := .REPLICATE_PAUSED, init_fp := init_fp, timer := timer } =
      { status := .REPLICATE_RUNNING, init_fp := init_fp, timer := some 100 } ∧
    siridb_replicate_continue
        { status := .REPLICATE_IDLE, init_fp := init_fp, timer := timer } =
      { status := .REPLICATE_RUNNING, init_fp := init_fp, timer := some 100 } :=
  ⟨rfl, rfl, rfl, rfl, rfl, rfl, rfl, rfl⟩

/-! ## Replication: the timer tick -/

/-- The tick when a packet goes out: the task is running, the FIFO has data
and the replica can take it. -/
theorem REPLICATE_work_send (av sy : siridb_server_t → Bool) (siridb : siridb_t)
    (replicate : siridb_replicate_t) (fifo : siridb_fifo_t) (p : ServerPtr)
    (replica : siridb_server_t) (pkg : Nat)
    (hrep : siridb.replicate = some replicate) (hfifo : siridb.fifo = some fifo)
    (hp : siridb.replica = some p) (hr : siridb.heap[p]? = some replica)
    (hst : replicate.status = .REPLICATE_RUNNING)
    (hpkg : fifo.records.head? = some pkg)
    (hav : (av replica || sy replica) = true) :
    REPLICATE_work av sy siridb = .ok (siridb, [.repl_pkg pkg]) := by
  have hd : siridb_fifo_has_data fifo = true := by
    unfold siridb_fifo_has_data
    cases hrec : fifo.records with
    | nil => rw [hrec] at hpkg; cases hpkg
    | cons a l => rfl
  unfold REPLICATE_work
  simp only [hrep, hfifo, hp, deref_ok _ _ _ hr, hst, if_true, bind_ok, hd, hav,
    siridb_fifo_pop, hpkg]

/-- The tick when no packet goes out: the status drops, and
`BPROTO_REPL_FINISHED` is sent first when the replica is synchronizing and the
FIFO is empty. -/
theorem REPLICATE_work_drop (av sy : siridb_server_t → Bool) (siridb : siridb_t)
    (replicate : siridb_replicate_t) (fifo : siridb_fifo_t) (p : ServerPtr)
    (replica : siridb_server_t)
    (hrep : siridb.replicate = some replicate) (hfifo : siridb.fifo = some fifo)
    (hp : siridb.replica = some p) (hr : siridb.heap[p]? = some replica)
    (hno : ¬ (replicate.status = .REPLICATE_RUNNING ∧ siridb_fifo_has_data fifo = true ∧
      (av replica || sy replica) = true)) :
    REPLICATE_work av sy siridb =
      .ok ({ siridb with
          replicate := some ({ replicate with
            status := if replicate.status = .REPLICATE_STOPPING then .REPLICATE_PAUSED
              else .REPLICATE_IDLE }) },
        if (sy replica && !siridb_fifo_has_data fifo) = true then [.repl_finished] else []) := by
  have hpkg : (if replicate.status = .REPLICATE_RUNNING then
        (Except.ok fifo : Except Fault siridb_fifo_t).bind fun f =>
          if siridb_fifo_has_data f then
            (Except.ok replica : Except Fault siridb_server_t).bind fun r =>
              if av r || sy r then
                (.ok (siridb_fifo_pop f) : Except Fault (Option Nat))
              else .ok none
          else .ok none
      else .ok none) = .ok none := by
    by_cases h1 : replicate.status = .REPLICATE_RUNNING
    · rw [if_pos h1, bind_ok]
      by_cases h2 : siridb_fifo_has_data fifo = true
      · rw [if_pos h2, bind_ok]
        have h3 : ¬ (av replica || sy replica) = true := fun h3 => hno ⟨h1, h2, h3⟩
        rw [if_neg h3]
      · rw [if_neg h2]
    · rw [if_neg h1]
  unfold REPLICATE_work
  simp only [hrep, hfifo, hp, deref_ok _ _ _ hr]
  rw [hpkg]
  simp only [bind_ok]
  cases hsy : sy replica <;> cases hd : siridb_fifo_has_data fifo <;>
    simp [bind_ok]
/-- C11 (amended). A timer tick `REPLICATE_work` on a task that is RUNNING or
STOPPING returns, and touches nothing but the status. (a) When the status is
RUNNING, the FIFO has data and the replica is available or synchronizing, the
head record of the FIFO is popped and sent, nothing else is sent and the
status stays RUNNING. Otherwise the status drops to IDLE, to PAUSED when it
was STOPPING, and on that way `BPROTO_REPL_FINISHED` is sent exactly when the
replica is synchronizing and the FIFO is empty; nothing else is sent. The
status is unchanged only in outcome (a). -/
theorem replicate_work_outcomes (av sy : siridb_server_t → Bool) (siridb : siridb_t)
    (replicate : siridb_replicate_t) (fifo : siridb_fifo_t) (p : ServerPtr)
    (replica : siridb_server_t)
    (hrep : siridb.replicate = some replicate) (hfifo : siridb.fifo = some fifo)
    (hp : siridb.replica = some p) (hr : siridb.heap[p]? = some replica)
    (hst : replicate.status = .REPLICATE_RUNNING ∨ replicate.status = .REPLICATE_STOPPING) :
    ∃ status1 sent,
      REPLICATE_work av sy siridb =
        .ok ({ siridb with replicate := some { replicate with status := status1 } }, sent) ∧
      ((replicate.status = .REPLICATE_RUNNING ∧ siridb_fifo_has_data fifo = true ∧
          (av replica || sy replica) = true) →
        status1 = .REPLICATE_RUNNING ∧
        ∃ pkg, siridb_fifo_pop fifo = some pkg ∧ sent = [.repl_pkg pkg]) ∧
      (¬ (replicate.status = .REPLICATE_RUNNING ∧ siridb_fifo_has_data fifo = true ∧
          (av replica || sy replica) = true) →
        status1 = (if replicate.status = .REPLICATE_STOPPING then .REPLICATE_PAUSED
          else .REPLICATE_IDLE) ∧
        sent = if (sy replica && !siridb_fifo_has_data fifo) = true then [.repl_finished]
          else []) ∧
      (status1 = replicate.status ↔
        (replicate.status = .REPLICATE_RUNNING ∧ siridb_fifo_has_data fifo = true ∧
          (av replica || sy replica) = true)) := by
  by_cases ha : replicate.status = .REPLICATE_RUNNING ∧ siridb_fifo_has_data fifo = true ∧
      (av replica || sy replica) = true
  · obtain ⟨h1, h2, h3⟩ := ha
    obtain ⟨pkg, hpkg⟩ : ∃ pkg, fifo.records.head? = some pkg := by
      unfold siridb_fifo_has_data at h2
      cases hrec : fifo.records with
      | nil => rw [hrec] at h2; cases h2
      | cons a l => exact ⟨a, rfl⟩
    refine ⟨.REPLICATE_RUNNING, [.repl_pkg pkg], ?_, ?_, ?_, ?_⟩
    · rw [REPLICATE_work_send av sy siridb replicate fifo p replica pkg hrep hfifo hp hr h1
        hpkg h3]
      have e1 : ({ replicate with status := .REPLICATE_RUNNING } : siridb_replicate_t) =
          replicate := by
        cases replicate; cases h1; rfl
      rw [e1, ← hrep]
    · intro _
      exact ⟨rfl, pkg, hpkg, rfl⟩
    · intro hn
      exact absurd ⟨h1, h2, h3⟩ hn
    · exact ⟨fun _ => ⟨h1, h2, h3⟩, fun _ => h1.symm⟩
  · refine ⟨_, _, REPLICATE_work_drop av sy siridb replicate fifo p replica hrep hfifo hp hr ha,
      ?_, ?_, ?_⟩
    · intro h
      exact absurd h ha
    · intro _
      exact ⟨rfl, rfl⟩
    · constructor
      · intro h
        rcases hst with h1 | h1
        · rw [h1] at h; simp at h
        · rw [h1] at h; simp at h
      · intro h
        exact absurd h ha

/-- C11, witness: the running task of `sample_repl_sys` with two records
waiting and an available replica. -/
theorem replicate_work_outcomes_witness :
    ∃ status1 sent,
      REPLICATE_work sample_is_available sample_is_synchronizing
          { sample_repl_sys.siridb with
            replicate := some { status := .REPLICATE_RUNNING, init_fp := false, timer := none } } =
        .ok ({ sample_repl_sys.siridb with
            replicate := some { status := status1, init_fp := false, timer := none } }, sent) ∧
      status1 = .REPLICATE_RUNNING ∧ sent = [.repl_pkg 7] := by
  obtain ⟨status1, sent, h, ha, _, _⟩ :=
    replicate_work_outcomes sample_is_available sample_is_synchronizing
      { sample_repl_sys.siridb with
        replicate := some { status := .REPLICATE_RUNNING, init_fp := false, timer := none } }
      { status := .REPLICATE_RUNNING, init_fp := false, timer := none }
      { records := [7, 8], failed := [] } 1 { pool := 0, flags := 3 }
      rfl rfl rfl rfl (Or.inl rfl)
  obtain ⟨h1, pkg, hpkg, hsent⟩ := ha ⟨rfl, rfl, rfl⟩
  refine ⟨status1, sent, h, h1, ?_⟩
  rw [hsent]
  cases hpkg
  rfl

/-- C11, counterexample. A running task whose FIFO is empty and whose replica
is synchronizing: the tick sends `BPROTO_REPL_FINISHED` (outcome b) and the
status is changed to IDLE as well. -/
theorem replicate_work_finished_then_idle :
    REPLICATE_work sample_is_available sample_is_synchronizing sample_db_synchronizing =
      .ok ({ sample_db_synchronizing with
          replicate := some { status := .REPLICATE_IDLE, init_fp := false, timer := none } },
        [.repl_finished]) ∧
    sample_db_synchronizing.replicate =
      some { status := .REPLICATE_RUNNING, init_fp := false, timer := none } :=
  ⟨rfl, rfl⟩

/-- C12, the failing run. A freshly initialised idle task with two records in
the FIFO and an available replica is started, the timer fires and the first
record is sent; `siridb_replicate_continue` is called while the status is
RUNNING (its assertion only asks for a status other than CLOSED), which arms
the timer again; the timer fires and the same record is sent a second time
while the first response is still awaited: two packets await their response.
When both responses have been handled both records are committed and the
FIFO is empty, although the second record was never sent. In another order
of the same events the timer ends up armed while the status is IDLE, which
the assertions of `REPLICATE_work` exclude. -/
theorem replicate_continue_while_running :
    (replicate_run sample_is_available sample_is_synchronizing (fun _ => false)
        [.ev_start, .ev_tick, .ev_continue, .ev_tick] sample_repl_sys).map
        (fun s => (s.awaiting, s.sent, s.siridb.replicate)) =
      some (2, [.repl_pkg 7, .repl_pkg 7],
        some { status := .REPLICATE_RUNNING, init_fp := false, timer := none }) ∧
    (replicate_run sample_is_available sample_is_synchronizing (fun _ => false)
        [.ev_start, .ev_tick, .ev_continue, .ev_tick,
          .ev_response (some 0) .PROMISE_SUCCESS, .ev_response (some 0) .PROMISE_SUCCESS]
        sample_repl_sys).map
        (fun s => (s.awaiting, s.sent, s.siridb.fifo)) =
      some (0, [.repl_pkg 7, .repl_pkg 7], some { records := [], failed := [] }) ∧
    (replicate_run sample_is_available sample_is_synchronizing (fun _ => false)
        [.ev_start, .ev_tick, .ev_continue, .ev_tick,
          .ev_response (some 0) .PROMISE_SUCCESS, .ev_tick,
          .ev_response (some 0) .PROMISE_SUCCESS, .ev_tick,
          .ev_response (some 0) .PROMISE_SUCCESS]
        sample_repl_sys).map
        (fun s => (s.awaiting, s.siridb.replicate)) =
      some (0, some { status := .REPLICATE_IDLE, init_fp := false, timer := some 100 }) :=
  ⟨rfl, rfl, rfl⟩

/-! ## Query listener: the cursor and the packer -/

theorem SIRIPARSER_NEXT_NODE_cons (h : query_handle_t) (cell : siridb_node_t)
    (nodes : List siridb_node_t) (hn : h.query.nodes = cell :: nodes) :
    SIRIPARSER_NEXT_NODE h =
      .ok ({ h with query := { h.query with nodes := nodes } }, next_action nodes) := by
  unfold SIRIPARSER_NEXT_NODE
  rw [hn]
  cases nodes <;> rfl

theorem qp_add_some (h : query_handle_t) (packer : qp_packer_t) (toks : List qp_tok)
    (hp : h.query.packer = some packer) :
    qp_add h toks = .ok { h with query := { h.query with packer := some (packer ++ toks) } } := by
  unfold qp_add
  rw [hp]

/-! ## Query listener: merging the responses of a list statement -/

/-- The loop of `on_list_xxx_response` written with the calls of the source:
while `qp_current` reports an array, the array is copied by
`qp_extend_from_unpacker` and the limit lowered when the limit is not zero,
and passed over by `qp_skip_next` when it is. -/
theorem list_rows_loop_eq (limit : Nat) (packer : qp_packer_t) (unpacker : qp_unpacker_t) :
    list_rows_loop limit packer unpacker =
      if qp_current unpacker = .QP_ARRAY then
        if limit ≠ 0 then
          list_rows_loop (limit - 1) (qp_extend_from_unpacker packer unpacker).1
            (qp_extend_from_unpacker packer unpacker).2
        else list_rows_loop limit packer (qp_skip_next unpacker).2
      else (limit, packer, unpacker) := by
  rcases unpacker with _ | ⟨item, rest⟩
  · rfl
  · cases item with
    | close => rfl
    | val v =>
      cases v <;> rfl

/-- The loop on the items of an array that was entered: the arrays the items
begin with are the rows; the first `limit` of them are copied. -/
theorem list_rows_loop_spec (items : List qp_val) (tl : qp_unpacker_t) :
    ∀ (limit : Nat) (packer : qp_packer_t),
      list_rows_loop limit packer (items.map .val ++ .close :: tl) =
        (limit - ((items.takeWhile qp_is_array_val).take limit).length,
          packer ++ ((items.takeWhile qp_is_array_val).take limit).map .value,
          (items.dropWhile qp_is_array_val).map .val ++ .close :: tl) := by
  induction items with
  | nil =>
    intro limit packer
    simp [list_rows_loop]
  | cons v items ih =>
    intro limit packer
    cases v with
    | array xs =>
      simp only [List.map_cons, List.cons_append]
      rw [list_rows_loop]
      by_cases hl : limit = 0
      · subst hl
        rw [if_neg (by simp)]
        rw [ih]
        simp [qp_is_array_val, List.takeWhile_cons, List.dropWhile_cons]
      · rw [if_pos hl]
        rw [ih]
        obtain ⟨k, rfl⟩ : ∃ k, limit = k + 1 := ⟨limit - 1, by omega⟩
        simp [qp_is_array_val, List.takeWhile_cons, List.dropWhile_cons]
    | raw s => simp [list_rows_loop, qp_is_array_val, List.takeWhile_cons, List.dropWhile_cons]
    | int64 n => simp [list_rows_loop, qp_is_array_val, List.takeWhile_cons, List.dropWhile_cons]
    | other t => simp [list_rows_loop, qp_is_array_val, List.takeWhile_cons, List.dropWhile_cons]
    | map xs => simp [list_rows_loop, qp_is_array_val, List.takeWhile_cons, List.dropWhile_cons]

/-- The test of `on_list_xxx_response` against the shape of the packet: it
fails on a packet without rows, and on a packet of the shape that has rows it
leaves the cursor on the items of the array that holds them. -/
theorem list_response_header_rows (pkg : sirinet_pkg_t) :
    (list_response_header (qp_new_unpacker pkg.data) = none ∧ pkg_rows pkg = []) ∨
    (∃ (rows : List qp_val) (tl : qp_unpacker_t), list_response_header (qp_new_unpacker pkg.data) =
        some (rows.map .val ++ .close :: tl) ∧
      pkg_rows pkg = rows.takeWhile qp_is_array_val) := by
  obtain ⟨tp, data⟩ := pkg
  rcases data with _ | ⟨v, tl⟩
  · exact Or.inl ⟨rfl, rfl⟩
  cases v <;> try exact Or.inl ⟨rfl, rfl⟩
  rename_i items
  rcases items with _ | ⟨i1, items⟩
  · exact Or.inl ⟨rfl, rfl⟩
  cases i1 <;> try exact Or.inl ⟨rfl, rfl⟩
  rcases items with _ | ⟨i2, items⟩
  · exact Or.inl ⟨rfl, rfl⟩
  cases i2 <;> try exact Or.inl ⟨rfl, rfl⟩
  rcases items with _ | ⟨i3, items⟩
  · exact Or.inl ⟨rfl, rfl⟩
  cases i3 <;> try exact Or.inl ⟨rfl, rfl⟩
  rcases items with _ | ⟨i4, items⟩
  · exact Or.inl ⟨rfl, rfl⟩
  cases i4 <;> try exact Or.inl ⟨rfl, rfl⟩
  rename_i rows
  exact Or.inr ⟨rows, _, rfl, rfl⟩

/-- One round of the loop of `on_list_xxx_response`: of the rows of the slot
the first `limit` are appended, and the limit is lowered by their number. -/
theorem on_list_slot_spec (env : listener_env) (limit : Nat) (packer : qp_packer_t)
    (timeit : Option qp_packer_t) (slot : Option sirinet_promise_t) :
    ∃ timeit1, on_list_slot env (limit, packer, timeit) slot =
      (limit - ((slot_rows env slot).take limit).length,
        packer ++ ((slot_rows env slot).take limit).map .value, timeit1) := by
  cases slot with
  | none => exact ⟨timeit, by simp [on_list_slot, slot_rows]⟩
  | some promise =>
    obtain ⟨data⟩ := promise
    cases data with
    | none => exact ⟨timeit, by simp [on_list_slot, slot_rows]⟩
    | some pkg =>
      by_cases htp : pkg.tp = env.BP_QUERY_RESPONSE
      · rcases list_response_header_rows pkg with ⟨h1, h2⟩ | ⟨rows, tl, h1, h2⟩
        · exact ⟨timeit, by simp [on_list_slot, slot_rows, htp, h1, h2]⟩
        · refine ⟨timeit.map fun t => env.timeit_from_unpacker t
            ((rows.dropWhile qp_is_array_val).map .val ++ .close :: tl), ?_⟩
          simp only [on_list_slot, slot_rows, htp, if_true, h1, h2, list_rows_loop_spec]
      · exact ⟨timeit, by simp [on_list_slot, slot_rows, htp]⟩

/-- The loop of `on_list_xxx_response` over the slots: of the rows of all
slots, in slot order and then row order, the first `limit` are appended, and
the limit is lowered by their number. -/
theorem on_list_fold_spec (env : listener_env) (promises : List (Option sirinet_promise_t)) :
    ∀ (limit : Nat) (packer : qp_packer_t) (timeit : Option qp_packer_t),
      ∃ timeit1, promises.foldl (on_list_slot env) (limit, packer, timeit) =
        (limit - ((promises.flatMap (slot_rows env)).take limit).length,
          packer ++ ((promises.flatMap (slot_rows env)).take limit).map .value, timeit1) := by
  induction promises with
  | nil =>
    intro limit packer timeit
    exact ⟨timeit, by simp⟩
  | cons slot promises ih =>
    intro limit packer timeit
    obtain ⟨t1, h1⟩ := on_list_slot_spec env limit packer timeit slot
    obtain ⟨t2, h2⟩ := ih (limit - ((slot_rows env slot).take limit).length)
      (packer ++ ((slot_rows env slot).take limit).map .value) t1
    refine ⟨t2, ?_⟩
    rw [List.foldl_cons, h1, h2]
    have e : limit - ((slot_rows env slot).take limit).length =
        limit - (slot_rows env slot).length := by
      rw [List.length_take]
      omega
    rw [e, List.flatMap_cons, List.take_append_eq_append_take, List.map_append,
      List.length_append, List.append_assoc]
    congr 1
    simp only [List.length_take]
    omega

/-- The call-back `on_list_xxx_response` in full: it returns, having appended
the first `limit` rows of all slots and the end of the array. -/
theorem on_list_xxx_response_spec (env : listener_env)
    (promises : List (Option sirinet_promise_t)) (h : query_handle_t) (q_list : query_list_t)
    (packer : qp_packer_t) (cell : siridb_node_t) (nodes : List siridb_node_t)
    (hdata : h.query.data = .q_list q_list) (hpacker : h.query.packer = some packer)
    (hnodes : h.query.nodes = cell :: nodes) :
    ∃ timeit1, on_list_xxx_response env promises h =
      .ok (list_merged h q_list packer nodes
        ((promises.flatMap (slot_rows env)).take q_list.limit) timeit1) := by
  obtain ⟨t1, h1⟩ := on_list_fold_spec env promises q_list.limit packer h.query.timeit
  refine ⟨t1, ?_⟩
  unfold on_list_xxx_response
  simp only [hdata, hpacker, h1]
  refine (SIRIPARSER_NEXT_NODE_cons _ cell nodes ?_).trans ?_
  · exact hnodes
  · rfl

/-- C13. For every list of promise slots and every remaining limit `L`,
`on_list_xxx_response` returns, and it has appended to the packer exactly the
first `min (L, R)` of the `R` rows that the well-formed `BP_QUERY_RESPONSE`
packets of the slots that are not `NULL` hold, taken in slot order and then
row order, followed by the end of the array; the limit is left at `L` minus
the number of appended rows, so when the rows added before together with `L`
do not exceed the limit `n` of the query, the rows added before together with
the merged rows do not exceed `n` either. -/
theorem on_list_xxx_response_limit (env : listener_env)
    (promises : List (Option sirinet_promise_t)) (h : query_handle_t) (q_list : query_list_t)
    (packer : qp_packer_t) (cell : siridb_node_t) (nodes : List siridb_node_t)
    (hdata : h.query.data = .q_list q_list) (hpacker : h.query.packer = some packer)
    (hnodes : h.query.nodes = cell :: nodes) :
    ∃ (rows : List qp_val) (timeit1 : Option qp_packer_t),
      rows = (promises.flatMap (slot_rows env)).take q_list.limit ∧
      rows.length = min q_list.limit (promises.flatMap (slot_rows env)).length ∧
      on_list_xxx_response env promises h =
        .ok ({ h with
            query := { h.query with
              nodes := nodes
              data := .q_list { q_list with limit := q_list.limit - rows.length }
              packer := some (packer ++ rows.map .value ++ [.QP_ARRAY_CLOSE])
              timeit := timeit1 } },
          next_action nodes) ∧
      ∀ n local_rows : Nat, local_rows + q_list.limit ≤ n → local_rows + rows.length ≤ n := by
  obtain ⟨t1, h1⟩ := on_list_xxx_response_spec env promises h q_list packer cell nodes hdata
    hpacker hnodes
  refine ⟨_, t1, rfl, List.length_take _ _, h1, ?_⟩
  intro n local_rows hn
  rw [List.length_take]
  omega

/-- C13, witness: three slots, the second `NULL`, with three rows in all,
merged under a remaining limit of 2. -/
theorem on_list_xxx_response_limit_witness :
    ∃ timeit1 : Option qp_packer_t,
      on_list_xxx_response sample_listener_env
          [sample_list_slot [.array [.int64 1], .array [.int64 2]], none,
            sample_list_slot [.array [.int64 3]]]
          (sample_list_handle 1 2) =
        .ok ({ sample_list_handle 1 0 with
            query := { (sample_list_handle 1 0).query with
              nodes := [{ node := sample_leaf 0, cb := 12 }]
              packer := some [.QP_MAP_OPEN, .raw "columns", .QP_ARRAY_OPEN,
                .value (.array [.int64 1]), .value (.array [.int64 2]), .QP_ARRAY_CLOSE]
              timeit := timeit1 } },
          .next_cb 12) := by
  obtain ⟨rows, t1, hrows, _, h1, _⟩ :=
    on_list_xxx_response_limit sample_listener_env
      [sample_list_slot [.array [.int64 1], .array [.int64 2]], none,
        sample_list_slot [.array [.int64 3]]]
      (sample_list_handle 1 2) _ _ _ _ rfl rfl rfl
  refine ⟨t1, ?_⟩
  rw [h1, hrows]
  rfl

/-- C20 (amended). For every list of promise slots, every permutation of it
and every remaining limit, `on_list_xxx_response` appends the same number of
rows and leaves the same remaining limit; when the limit is at least the
number of rows of all slots, the rows appended are the same multiset. -/
theorem on_list_xxx_response_perm (env : listener_env)
    (promises promises1 : List (Option sirinet_promise_t)) (h : query_handle_t)
    (q_list : query_list_t) (packer : qp_packer_t) (cell : siridb_node_t)
    (nodes : List siridb_node_t)
    (hdata : h.query.data = .q_list q_list) (hpacker : h.query.packer = some packer)
    (hnodes : h.query.nodes = cell :: nodes) (hperm : promises.Perm promises1) :
    ∃ (rows rows1 : List qp_val) (timeit timeit1 : Option qp_packer_t),
      on_list_xxx_response env promises h =
        .ok (list_merged h q_list packer nodes rows timeit) ∧
      on_list_xxx_response env promises1 h =
        .ok (list_merged h q_list packer nodes rows1 timeit1) ∧
      rows.length = rows1.length ∧
      q_list.limit - rows.length = q_list.limit - rows1.length ∧
      ((promises.flatMap (slot_rows env)).length ≤ q_list.limit → rows.Perm rows1) := by
  obtain ⟨t, ht⟩ := on_list_xxx_response_spec env promises h q_list packer cell nodes hdata
    hpacker hnodes
  obtain ⟨t1, ht1⟩ := on_list_xxx_response_spec env promises1 h q_list packer cell nodes hdata
    hpacker hnodes
  have hp : (promises.flatMap (slot_rows env)).Perm (promises1.flatMap (slot_rows env)) :=
    hperm.flatMap_right _
  have hl : ((promises.flatMap (slot_rows env)).take q_list.limit).length =
      ((promises1.flatMap (slot_rows env)).take q_list.limit).length := by
    rw [List.length_take, List.length_take, hp.length_eq]
  refine ⟨_, _, t, t1, ht, ht1, hl, by rw [hl], ?_⟩
  intro hle
  rw [List.take_of_length_le hle, List.take_of_length_le (by rw [← hp.length_eq]; exact hle)]
  exact hp

/-- C20, witness: two slots with one row each, swapped, under a limit of 5. -/
theorem on_list_xxx_response_perm_witness :
    ∃ (rows rows1 : List qp_val) (timeit timeit1 : Option qp_packer_t),
      on_list_xxx_response sample_listener_env
          [sample_list_slot [.array [.int64 1]], sample_list_slot [.array [.int64 2]]]
          (sample_list_handle 1 5) =
        .ok (list_merged (sample_list_handle 1 5)
          { ct_series := none, where_expr := none, props := none, limit := 5 }
          [.QP_MAP_OPEN, .raw "columns", .QP_ARRAY_OPEN] [{ node := sample_leaf 0, cb := 12 }]
          rows timeit) ∧
      on_list_xxx_response sample_listener_env
          [sample_list_slot [.array [.int64 2]], sample_list_slot [.array [.int64 1]]]
          (sample_list_handle 1 5) =
        .ok (list_merged (sample_list_handle 1 5)
          { ct_series := none, where_expr := none, props := none, limit := 5 }
          [.QP_MAP_OPEN, .raw "columns", .QP_ARRAY_OPEN] [{ node := sample_leaf 0, cb := 12 }]
          rows1 timeit1) ∧
      rows.length = rows1.length ∧ rows.Perm rows1 := by
  obtain ⟨rows, rows1, t, t1, h1, h2, h3, _, h5⟩ :=
    on_list_xxx_response_perm sample_listener_env
      [sample_list_slot [.array [.int64 1]], sample_list_slot [.array [.int64 2]]]
      [sample_list_slot [.array [.int64 2]], sample_list_slot [.array [.int64 1]]]
      (sample_list_handle 1 5) _ _ _ _ rfl rfl rfl (List.Perm.swap _ _ _)
  exact ⟨rows, rows1, t, t1, h1, h2, h3, h5 (by decide)⟩

/-- C20, counterexample. Two slots with one row each under a remaining limit
of 1: in one order of the slots the row of the first is appended, in the
other order the row of the second; the two are not the same multiset. -/
theorem on_list_xxx_response_order_matters :
    List.Perm [sample_list_slot [.array [.int64 1]], sample_list_slot [.array [.int64 2]]]
      [sample_list_slot [.array [.int64 2]], sample_list_slot [.array [.int64 1]]] ∧
    on_list_xxx_response sample_listener_env
        [sample_list_slot [.array [.int64 1]], sample_list_slot [.array [.int64 2]]]
        (sample_list_handle 1 1) =
      .ok (list_merged (sample_list_handle 1 1)
        { ct_series := none, where_expr := none, props := none, limit := 1 }
        [.QP_MAP_OPEN, .raw "columns", .QP_ARRAY_OPEN] [{ node := sample_leaf 0, cb := 12 }]
        [.array [.int64 1]] none) ∧
    on_list_xxx_response sample_listener_env
        [sample_list_slot [.array [.int64 2]], sample_list_slot [.array [.int64 1]]]
        (sample_list_handle 1 1) =
      .ok (list_merged (sample_list_handle 1 1)
        { ct_series := none, where_expr := none, props := none, limit := 1 }
        [.QP_MAP_OPEN, .raw "columns", .QP_ARRAY_OPEN] [{ node := sample_leaf 0, cb := 12 }]
        [.array [.int64 2]] none) ∧
    ¬ List.Perm [qp_val.array [.int64 1]] [qp_val.array [.int64 2]] := by
  refine ⟨List.Perm.swap _ _ _, rfl, rfl, ?_⟩
  simp

/-! ## Query listener: merging the responses of a count statement -/

theorem int64_wrap_add (a b : Int) : int64_wrap (int64_wrap a + b) = int64_wrap (a + b) := by
  unfold int64_wrap
  omega

theorem int64_wrap_idem (a : Int) : int64_wrap (int64_wrap a) = int64_wrap a := by
  unfold int64_wrap
  omega

theorem int64_wrap_of_range (x : Int) (h1 : -2 ^ 63 ≤ x) (h2 : x < 2 ^ 63) :
    int64_wrap x = x := by
  unfold int64_wrap
  omega

/-- The test of `on_count_servers_response` against the shape of the packet:
on a map that begins with a raw key and an integer it hands out the integer,
on any other packet it fails. -/
theorem count_response_header_count (pkg : sirinet_pkg_t) :
    (count_response_header (qp_new_unpacker pkg.data) = none ∧ pkg_count pkg = 0) ∨
    (∃ u : qp_unpacker_t,
      count_response_header (qp_new_unpacker pkg.data) = some (pkg_count pkg, u)) := by
  obtain ⟨tp, data⟩ := pkg
  rcases data with _ | ⟨v, tl⟩
  · exact Or.inl ⟨rfl, rfl⟩
  cases v <;> try exact Or.inl ⟨rfl, rfl⟩
  rename_i items
  rcases items with _ | ⟨i1, items⟩
  · exact Or.inl ⟨rfl, rfl⟩
  cases i1 <;> try exact Or.inl ⟨rfl, rfl⟩
  rcases items with _ | ⟨i2, items⟩
  · exact Or.inl ⟨rfl, rfl⟩
  cases i2 <;> try exact Or.inl ⟨rfl, rfl⟩
  exact Or.inr ⟨_, rfl⟩

/-- One round of the loop of `on_count_servers_response`: the integer of the
slot is added to the counter. -/
theorem on_count_slot_spec (env : listener_env) (n : Int) (timeit : Option qp_packer_t)
    (slot : Option sirinet_promise_t) :
    ∃ (n1 : Int) (timeit1 : Option qp_packer_t),
      on_count_slot env (n, timeit) slot = (n1, timeit1) ∧
      int64_wrap n1 = int64_wrap (n + slot_count env slot) := by
  cases slot with
  | none => exact ⟨n, timeit, rfl, by simp [slot_count]⟩
  | some promise =>
    obtain ⟨data⟩ := promise
    cases data with
    | none => exact ⟨n, timeit, rfl, by simp [slot_count]⟩
    | some pkg =>
      by_cases htp : pkg.tp = env.BP_QUERY_RESPONSE
      · rcases count_response_header_count pkg with ⟨h1, h2⟩ | ⟨u, h1⟩
        · exact ⟨n, timeit, by simp [on_count_slot, htp, h1], by simp [slot_count, htp, h2]⟩
        · refine ⟨int64_wrap (n + pkg_count pkg),
            timeit.map fun t => env.timeit_from_unpacker t u, ?_, ?_⟩
          · simp only [on_count_slot, htp, if_true, h1]
          · simp only [slot_count, htp, if_true]
            exact int64_wrap_idem _
      · exact ⟨n, timeit, by simp [on_count_slot, htp], by simp [slot_count, htp]⟩

/-- The loop of `on_count_servers_response` over the slots: the integers of
all slots are added to the counter. -/
theorem on_count_fold_spec (env : listener_env) (promises : List (Option sirinet_promise_t)) :
    ∀ (n : Int) (timeit : Option qp_packer_t),
      ∃ (n1 : Int) (timeit1 : Option qp_packer_t),
        promises.foldl (on_count_slot env) (n, timeit) = (n1, timeit1) ∧
        int64_wrap n1 = int64_wrap (n + (promises.map (slot_count env)).sum) := by
  induction promises with
  | nil =>
    intro n timeit
    exact ⟨n, timeit, rfl, by simp⟩
  | cons slot promises ih =>
    intro n timeit
    obtain ⟨n1, t1, h1, e1⟩ := on_count_slot_spec env n timeit slot
    obtain ⟨n2, t2, h2, e2⟩ := ih n1 t1
    refine ⟨n2, t2, ?_, ?_⟩
    · rw [List.foldl_cons, h1, h2]
    · rw [e2, List.map_cons, List.sum_cons, ← int64_wrap_add, e1, int64_wrap_add]
      congr 1
      ring

/-- The call-back `on_count_servers_response` in full. -/
theorem on_count_servers_response_spec (env : listener_env)
    (promises : List (Option sirinet_promise_t)) (h : query_handle_t) (q_count : query_count_t)
    (packer : qp_packer_t) (cell : siridb_node_t) (nodes : List siridb_node_t)
    (hdata : h.query.data = .q_count q_count) (hpacker : h.query.packer = some packer)
    (hnodes : h.query.nodes = cell :: nodes) :
    ∃ (n1 : Int) (timeit1 : Option qp_packer_t),
      on_count_servers_response env promises h =
        .ok (count_merged h q_count packer nodes n1
          (int64_wrap (q_count.n + (promises.map (slot_count env)).sum)) timeit1) := by
  obtain ⟨n1, t1, h1, e1⟩ := on_count_fold_spec env promises q_count.n h.query.timeit
  refine ⟨n1, t1, ?_⟩
  unfold on_count_servers_response
  simp only [hdata, h1, qp_add, hpacker, bind_ok, e1]
  refine (SIRIPARSER_NEXT_NODE_cons _ cell nodes ?_).trans ?_
  · exact hnodes
  · rfl

/-- C19. `on_count_servers_response` returns, and the integer it adds to the
packer is the local counter plus the sum of the integers of all slots that are
not `NULL` and hold a `BP_QUERY_RESPONSE` packet of the shape map, raw key,
integer, a `NULL` slot and a packet of any other type or shape counting 0. The
sum is that of 64-bit integers: it is the exact sum whenever the exact sum is
an `int64_t`. For every other order of the slots the same integer is
added. -/
theorem on_count_servers_response_sum (env : listener_env)
    (promises : List (Option sirinet_promise_t)) (h : query_handle_t) (q_count : query_count_t)
    (packer : qp_packer_t) (cell : siridb_node_t) (nodes : List siridb_node_t)
    (hdata : h.query.data = .q_count q_count) (hpacker : h.query.packer = some packer)
    (hnodes : h.query.nodes = cell :: nodes) :
    ∃ emitted : Int,
      emitted = int64_wrap (q_count.n + (promises.map (slot_count env)).sum) ∧
      (-2 ^ 63 ≤ q_count.n + (promises.map (slot_count env)).sum →
        q_count.n + (promises.map (slot_count env)).sum < 2 ^ 63 →
        emitted = q_count.n + (promises.map (slot_count env)).sum) ∧
      (∃ (n1 : Int) (timeit1 : Option qp_packer_t),
        on_count_servers_response env promises h =
          .ok (count_merged h q_count packer nodes n1 emitted timeit1)) ∧
      ∀ promises1 : List (Option sirinet_promise_t), promises.Perm promises1 →
        ∃ (n1 : Int) (timeit1 : Option qp_packer_t),
          on_count_servers_response env promises1 h =
            .ok (count_merged h q_count packer nodes n1 emitted timeit1) := by
  refine ⟨_, rfl, int64_wrap_of_range _,
    on_count_servers_response_spec env promises h q_count packer cell nodes hdata hpacker hnodes,
    ?_⟩
  intro promises1 hperm
  have hs : (promises.map (slot_count env)).sum = (promises1.map (slot_count env)).sum :=
    (hperm.map _).sum_eq
  rw [hs]
  exact on_count_servers_response_spec env promises1 h q_count packer cell nodes hdata hpacker
    hnodes

/-- C19, witness: a local counter of 10 and the slots 7, `NULL`, a promise
without packet, and 4 give 21. -/
theorem on_count_servers_response_sum_witness :
    ∃ (n1 : Int) (timeit1 : Option qp_packer_t),
      on_count_servers_response sample_listener_env
          [sample_count_slot 7, none, some { data := none }, sample_count_slot 4]
          (sample_count_handle 10) =
        .ok (count_merged (sample_count_handle 10)
          { ct_series := none, where_expr := none, n := 10 } [.QP_MAP_OPEN] [] n1 21 timeit1) := by
  obtain ⟨emitted, he, _, ⟨n1, t1, h1⟩, _⟩ :=
    on_count_servers_response_sum sample_listener_env
      [sample_count_slot 7, none, some { data := none }, sample_count_slot 4]
      (sample_count_handle 10) _ _ _ _ rfl rfl rfl
  refine ⟨n1, t1, ?_⟩
  rw [h1, he]
  rfl

/-! ## Query listener: the limit of a list statement -/

/-- C16. `enter_limit_expr` on a list state, the parsed limit being the
result of the second child of the current node: when the limit is zero or
less the handler ends with `SN_MSG_QUERY_ERROR`, having changed the error
message only, so the limit of the list state and the cursor are as they were;
when the limit is above zero the limit of the list state becomes the parsed
value and the cursor moves to the next node. The handler ends with
`SN_MSG_QUERY_ERROR` if and only if the parsed limit is zero or less. -/
theorem enter_limit_expr_spec (h : query_handle_t) (cell : siridb_node_t)
    (nodes : List siridb_node_t) (n1 : cleri_node_t) (qlist : query_list_t)
    (hnodes : h.query.nodes = cell :: nodes) (hchild : cell.node.children[1]? = some n1)
    (hdata : h.query.data = .q_list qlist) :
    (n1.result ≤ 0 →
      enter_limit_expr h =
        .ok ({ h with
            query := { h.query with
              err_msg := "Limit must be a value larger than zero but received: '" ++
                toString n1.result ++ "'" } },
          .send_error .SN_MSG_QUERY_ERROR)) ∧
    (0 < n1.result →
      enter_limit_expr h =
        .ok ({ h with
            query := { h.query with
              nodes := nodes
              data := .q_list { qlist with limit := n1.result.toNat } } },
          next_action nodes) ∧
      (n1.result.toNat : Int) = n1.result) ∧
    ((∃ h1, enter_limit_expr h = .ok (h1, .send_error .SN_MSG_QUERY_ERROR)) ↔
      n1.result ≤ 0) := by
  have hneg : n1.result ≤ 0 →
      enter_limit_expr h =
        .ok ({ h with
            query := { h.query with
              err_msg := "Limit must be a value larger than zero but received: '" ++
                toString n1.result ++ "'" } },
          .send_error .SN_MSG_QUERY_ERROR) := by
    intro hle
    unfold enter_limit_expr query_node cleri_child
    simp only [hnodes, bind_ok, hchild, hle, if_true]
    rfl
  have hpos : 0 < n1.result →
      enter_limit_expr h =
        .ok ({ h with
            query := { h.query with
              nodes := nodes
              data := .q_list { qlist with limit := n1.result.toNat } } },
          next_action nodes) := by
    intro hlt
    unfold enter_limit_expr query_node cleri_child
    simp only [hnodes, bind_ok, hchild, not_le.mpr hlt, if_false, hdata]
    refine (SIRIPARSER_NEXT_NODE_cons _ cell nodes ?_).trans ?_
    · rfl
    · rfl
  refine ⟨hneg, fun hlt => ⟨hpos hlt, Int.toNat_of_nonneg (le_of_lt hlt)⟩, ?_, ?_⟩
  · rintro ⟨h1, he⟩
    by_contra hn
    rw [hpos (not_le.mp hn)] at he
    cases hnodes1 : nodes with
    | nil => rw [hnodes1] at he; cases he
    | cons c cs => rw [hnodes1] at he; cases he
  · intro hle
    exact ⟨_, hneg hle⟩

/-- C16, witness: `limit 7` on the sample list query. -/
theorem enter_limit_expr_spec_witness :
    enter_limit_expr (sample_list_handle 7 1000) =
      .ok ({ sample_list_handle 7 7 with
          query := { (sample_list_handle 7 7).query with
            nodes := [{ node := sample_leaf 0, cb := 12 }] } },
        .next_cb 12) ∧
    ((∃ h1, enter_limit_expr (sample_list_handle 7 1000) =
        .ok (h1, .send_error .SN_MSG_QUERY_ERROR)) ↔ (7 : Int) ≤ 0) :=
  ⟨((enter_limit_expr_spec (sample_list_handle 7 1000) _ _ (sample_leaf 7) _ rfl rfl rfl).2.1
      (by decide)).1,
    (enter_limit_expr_spec (sample_list_handle 7 1000) _ _ (sample_leaf 7) _ rfl rfl rfl).2.2⟩

/-- The rows `exit_list_users_stmt` adds do not depend on the limit of the
list state: the handler never reads it. -/
theorem exit_list_users_stmt_any_limit (env : listener_env) (h : query_handle_t)
    (q_list : query_list_t) (limit1 : Nat) (hdata : h.query.data = .q_list q_list) :
    (exit_list_users_stmt env
        { h with
          query := { h.query with data := .q_list { q_list with limit := limit1 } } }).map
        (fun r => (r.1.query.packer, r.2)) =
      (exit_list_users_stmt env h).map (fun r => (r.1.query.packer, r.2)) := by
  unfold exit_list_users_stmt
  simp only [hdata]
  cases hp : h.query.packer with
  | none => simp [qp_add, hp]
  | some packer =>
    simp only [qp_add, hp, bind_ok]
    cases list_users_loop env h.user_heap q_list.props q_list.where_expr h.users with
    | error e => rfl
    | ok rows =>
      simp only [bind_ok]
      cases hn : h.query.nodes with
      | nil => simp [SIRIPARSER_NEXT_NODE, hn, Except.map]
      | cons c cs => cases cs <;> simp [SIRIPARSER_NEXT_NODE, hn, Except.map]

/-- C14, the failing run. A list statement on three users without a where
expression and with `limit 1`, after `enter_list_stmt`: `enter_limit_expr`
sets the limit of the list state to 1, and `exit_list_users_stmt`, which runs
next, adds three user rows. -/
theorem exit_list_users_stmt_over_limit :
    ∃ h1 : query_handle_t,
      enter_limit_expr (sample_list_handle 1 1000) = .ok (h1, .next_cb 12) ∧
      h1.query.data =
        .q_list { ct_series := none, where_expr := none, props := none, limit := 1 } ∧
      exit_list_users_stmt sample_listener_env h1 =
        .ok ({ h1 with
            query := { h1.query with
              nodes := []
              packer := some [.QP_MAP_OPEN, .raw "columns", .QP_ARRAY_OPEN,
                .raw "user", .raw "access", .QP_ARRAY_CLOSE,
                .raw "users", .QP_ARRAY_OPEN,
                .QP_ARRAY_OPEN, .raw "iris", .int64 511, .QP_ARRAY_CLOSE,
                .QP_ARRAY_OPEN, .raw "sasha", .int64 32, .QP_ARRAY_CLOSE,
                .QP_ARRAY_OPEN, .raw "pee", .int64 2, .QP_ARRAY_CLOSE,
                .QP_ARRAY_CLOSE] } },
          .send_query_result) :=
  ⟨_, rfl, rfl, rfl⟩

/-! ## Query listener: count series -/

/-- `exit_count_series_stmt` never forwards the query. -/
theorem exit_count_series_stmt_local (h : query_handle_t)
    (r : query_handle_t × listener_action_t) (hr : exit_count_series_stmt h = .ok r) :
    r.2 = .send_query_result ∨ ∃ cb, r.2 = .next_cb cb := by
  unfold exit_count_series_stmt at hr
  obtain ⟨h1, _, hr⟩ := bind_eq_ok _ _ _ hr
  unfold SIRIPARSER_NEXT_NODE at hr
  cases hn : h1.query.nodes with
  | nil => rw [hn] at hr; cases hr
  | cons c cs =>
    rw [hn] at hr
    cases cs with
    | nil => cases hr; exact Or.inl rfl
    | cons c1 cs1 => cases hr; exact Or.inr ⟨_, rfl⟩

/-- C18, the failing run. `count series` on the master of a cluster of three
pools, with ten series in the local pool: `exit_count_series_stmt` adds the
local count 10 to the packer and sends the result; the query is not forwarded
and no count of another pool is added. -/
theorem exit_count_series_stmt_master :
    IS_MASTER sample_listener_env (sample_count_handle 0).query = true ∧
    (sample_count_handle 0).siridb.pools.map (fun pools => pools.len) = some 3 ∧
    exit_count_series_stmt (sample_count_handle 0) =
      .ok ({ sample_count_handle 0 with
          query := { (sample_count_handle 0).query with
            nodes := []
            packer := some [.QP_MAP_OPEN, .raw "series", .int64 10] } },
        .send_query_result) :=
  ⟨rfl, rfl, rfl⟩

/-! ## Query listener: forwarding a list statement -/

/-- `exit_list_series_stmt` in full: after the columns and the local walk the
query is forwarded when it runs on the master and the limit the walk has left
is not zero; else the array of the result is closed and the cursor moves to
the next node. -/
theorem exit_list_series_stmt_spec (env : listener_env) (h : query_handle_t)
    (q_list : query_list_t) (packer : qp_packer_t) (cell : siridb_node_t)
    (nodes : List siridb_node_t)
    (hdata : h.query.data = .q_list q_list) (hpacker : h.query.packer = some packer)
    (hnodes : h.query.nodes = cell :: nodes) :
    exit_list_series_stmt env h =
      if (IS_MASTER env h.query &&
          (env.ct_walkn_list_series h.siridb (list_series_columns env q_list).2).2 != 0) = true
      then
        .ok ({ h with
            query := { h.query with
              data := .q_list { (list_series_columns env q_list).2 with
                limit := (env.ct_walkn_list_series h.siridb (list_series_columns env q_list).2).2 }
              packer := some (packer ++
                ((list_series_columns env q_list).1 ++
                  [.QP_ARRAY_CLOSE, .raw "series", .QP_ARRAY_OPEN]) ++
                (env.ct_walkn_list_series h.siridb (list_series_columns env q_list).2).1) } },
          .query_forward .BP_QUERY_POOL .on_list_xxx_response)
      else
        .ok ({ h with
            query := { h.query with
              nodes := nodes
              data := .q_list { (list_series_columns env q_list).2 with
                limit := (env.ct_walkn_list_series h.siridb (list_series_columns env q_list).2).2 }
              packer := some (packer ++
                ((list_series_columns env q_list).1 ++
                  [.QP_ARRAY_CLOSE, .raw "series", .QP_ARRAY_OPEN]) ++
                (env.ct_walkn_list_series h.siridb (list_series_columns env q_list).2).1 ++
                [.QP_ARRAY_CLOSE]) } },
          next_action nodes) := by
  unfold exit_list_series_stmt
  simp only [hdata, qp_add, hpacker, bind_ok]
  split
  · rename_i hc
    exact (if_pos hc).symm
  · rename_i hc
    refine Eq.trans ?_ (if_neg hc).symm
    refine (SIRIPARSER_NEXT_NODE_cons _ cell nodes ?_).trans ?_
    · exact hnodes
    · rfl

/-- `exit_list_servers_stmt` in full: after the columns and the local walk
the query is forwarded when it runs on the master, is not local and the limit
the walk has left is not zero; else the array of the result is closed and the
cursor moves to the next node. -/
theorem exit_list_servers_stmt_spec (env : listener_env) (h : query_handle_t)
    (q_list : query_list_t) (packer : qp_packer_t) (cell : siridb_node_t)
    (nodes : List siridb_node_t)
    (hdata : h.query.data = .q_list q_list) (hpacker : h.query.packer = some packer)
    (hnodes : h.query.nodes = cell :: nodes) :
    exit_list_servers_stmt env h =
      if (IS_MASTER env h.query && !list_servers_is_local env h.query q_list &&
          (list_servers_walk env h.siridb (list_servers_is_local env h.query q_list)
            (list_servers_columns env q_list).2).2 != 0) = true
      then
        .ok ({ h with
            query := { h.query with
              data := .q_list { (list_servers_columns env q_list).2 with
                limit := (list_servers_walk env h.siridb
                  (list_servers_is_local env h.query q_list)
                  (list_servers_columns env q_list).2).2 }
              packer := some (packer ++
                ((list_servers_columns env q_list).1 ++
                  [.QP_ARRAY_CLOSE, .raw "servers", .QP_ARRAY_OPEN]) ++
                (list_servers_walk env h.siridb (list_servers_is_local env h.query q_list)
                  (list_servers_columns env q_list).2).1) } },
          .query_forward .BP_QUERY_SERVER .on_list_xxx_response)
      else
        .ok ({ h with
            query := { h.query with
              nodes := nodes
              data := .q_list { (list_servers_columns env q_list).2 with
                limit := (list_servers_walk env h.siridb
                  (list_servers_is_local env h.query q_list)
                  (list_servers_columns env q_list).2).2 }
              packer := some (packer ++
                ((list_servers_columns env q_list).1 ++
                  [.QP_ARRAY_CLOSE, .raw "servers", .QP_ARRAY_OPEN]) ++
                (list_servers_walk env h.siridb (list_servers_is_local env h.query q_list)
                  (list_servers_columns env q_list).2).1 ++
                [.QP_ARRAY_CLOSE]) } },
          next_action nodes) := by
  unfold exit_list_servers_stmt
  simp only [hdata, qp_add, hpacker, bind_ok]
  split
  · rename_i hc
    exact (if_pos hc).symm
  · rename_i hc
    refine Eq.trans ?_ (if_neg hc).symm
    refine (SIRIPARSER_NEXT_NODE_cons _ cell nodes ?_).trans ?_
    · exact hnodes
    · rfl

/-- C15. `exit_list_series_stmt` and `exit_list_servers_stmt` on a list state
return. Whenever one of them forwards the query, the query runs on the master
and the limit left by the local walk is not zero. When that limit is zero or
the query does not run on the master, the handler does not forward: to what
the columns and the walk have added it adds the end of the array of the
result, once, and the cursor moves to the next node. -/
theorem exit_list_forward_only_with_limit (env : listener_env) (h : query_handle_t)
    (q_list : query_list_t) (packer : qp_packer_t) (cell : siridb_node_t)
    (nodes : List siridb_node_t)
    (hdata : h.query.data = .q_list q_list) (hpacker : h.query.packer = some packer)
    (hnodes : h.query.nodes = cell :: nodes) :
    (∃ r, exit_list_series_stmt env h = .ok r) ∧
    (∀ h1 tp cb, exit_list_series_stmt env h = .ok (h1, .query_forward tp cb) →
      IS_MASTER env h.query = true ∧
      (env.ct_walkn_list_series h.siridb (list_series_columns env q_list).2).2 ≠ 0 ∧
      h1.query.data = .q_list { (list_series_columns env q_list).2 with
        limit := (env.ct_walkn_list_series h.siridb (list_series_columns env q_list).2).2 }) ∧
    (IS_MASTER env h.query = false ∨
        (env.ct_walkn_list_series h.siridb (list_series_columns env q_list).2).2 = 0 →
      exit_list_series_stmt env h =
        .ok ({ h with
            query := { h.query with
              nodes := nodes
              data := .q_list { (list_series_columns env q_list).2 with
                limit := (env.ct_walkn_list_series h.siridb (list_series_columns env q_list).2).2 }
              packer := some (packer ++
                ((list_series_columns env q_list).1 ++
                  [.QP_ARRAY_CLOSE, .raw "series", .QP_ARRAY_OPEN]) ++
                (env.ct_walkn_list_series h.siridb (list_series_columns env q_list).2).1 ++
                [.QP_ARRAY_CLOSE]) } },
          next_action nodes)) ∧
    (∃ r, exit_list_servers_stmt env h = .ok r) ∧
    (∀ h1 tp cb, exit_list_servers_stmt env h = .ok (h1, .query_forward tp cb) →
      IS_MASTER env h.query = true ∧
      (list_servers_walk env h.siridb (list_servers_is_local env h.query q_list)
        (list_servers_columns env q_list).2).2 ≠ 0 ∧
      h1.query.data = .q_list { (list_servers_columns env q_list).2 with
        limit := (list_servers_walk env h.siridb (list_servers_is_local env h.query q_list)
          (list_servers_columns env q_list).2).2 }) ∧
    (IS_MASTER env h.query = false ∨
        (list_servers_walk env h.siridb (list_servers_is_local env h.query q_list)
          (list_servers_columns env q_list).2).2 = 0 →
      exit_list_servers_stmt env h =
        .ok ({ h with
            query := { h.query with
              nodes := nodes
              data := .q_list { (list_servers_columns env q_list).2 with
                limit := (list_servers_walk env h.siridb
                  (list_servers_is_local env h.query q_list)
                  (list_servers_columns env q_list).2).2 }
              packer := some (packer ++
                ((list_servers_columns env q_list).1 ++
                  [.QP_ARRAY_CLOSE, .raw "servers", .QP_ARRAY_OPEN]) ++
                (list_servers_walk env h.siridb (list_servers_is_local env h.query q_list)
                  (list_servers_columns env q_list).2).1 ++
                [.QP_ARRAY_CLOSE]) } },
          next_action nodes)) := by
  have hs := exit_list_series_stmt_spec env h q_list packer cell nodes hdata hpacker hnodes
  have hv := exit_list_servers_stmt_spec env h q_list packer cell nodes hdata hpacker hnodes
  have hna : ∀ tp cb, next_action nodes ≠ .query_forward tp cb := by
    intro tp cb
    cases nodes <;> simp [next_action]
  refine ⟨?_, ?_, ?_, ?_, ?_, ?_⟩
  · rw [hs]; split <;> exact ⟨_, rfl⟩
  · intro h1 tp cb he
    rw [hs] at he
    split at he
    · rename_i hc
      simp only [Bool.and_eq_true, bne_iff_ne, ne_eq] at hc
      cases he
      exact ⟨hc.1, hc.2, rfl⟩
    · exact absurd (Prod.mk.inj (Except.ok.inj he)).2 (hna tp cb)
  · intro hc
    rw [hs, if_neg]
    simp only [Bool.and_eq_true, bne_iff_ne, ne_eq, not_and, not_not]
    rcases hc with hc | hc
    · intro hm; rw [hc] at hm; cases hm
    · intro _; exact hc
  · rw [hv]; split <;> exact ⟨_, rfl⟩
  · intro h1 tp cb he
    rw [hv] at he
    split at he
    · rename_i hc
      simp only [Bool.and_eq_true, bne_iff_ne, ne_eq] at hc
      cases he
      exact ⟨hc.1.1, hc.2, rfl⟩
    · exact absurd (Prod.mk.inj (Except.ok.inj he)).2 (hna tp cb)
  · intro hc
    rw [hv, if_neg]
    simp only [Bool.and_eq_true, bne_iff_ne, ne_eq, not_and, not_not]
    rcases hc with hc | hc
    · intro hm; rw [hc] at hm; cases hm.1
    · intro _; exact hc

/-! ## Query listener: access control -/

/-- On the master a failing access check ends the handler with
`SN_MSG_QUERY_ERROR`; the rest of the handler does not run. -/
theorem SIRIPARSER_MASTER_CHECK_ACCESS_denied (env : listener_env) (h : query_handle_t)
    (access_bit : Nat) (k : query_handle_t → Except Fault (query_handle_t × listener_action_t))
    (user : siridb_user_t) (hm : IS_MASTER env h.query = true)
    (hu : h.user_heap[h.origin]? = some user)
    (hc : siridb_user_check_access user access_bit = false) :
    SIRIPARSER_MASTER_CHECK_ACCESS env h access_bit k =
      .ok ({ h with query := { h.query with err_msg := env.access_denied_msg user access_bit } },
        .send_error .SN_MSG_QUERY_ERROR) := by
  unfold SIRIPARSER_MASTER_CHECK_ACCESS siridb_send_error
  simp only [hm, if_true, hu, hc, Bool.not_false]

/-- When the query does not run on the master the access check is not
evaluated: the handler is its rest. -/
theorem SIRIPARSER_MASTER_CHECK_ACCESS_peer (env : listener_env) (h : query_handle_t)
    (access_bit : Nat) (k : query_handle_t → Except Fault (query_handle_t × listener_action_t))
    (hm : IS_MASTER env h.query = false) :
    SIRIPARSER_MASTER_CHECK_ACCESS env h access_bit k = k h := by
  unfold SIRIPARSER_MASTER_CHECK_ACCESS
  simp only [hm, Bool.false_eq_true, if_false]

theorem heap_set_access_getElem? (a : Nat) (origin : UserPtr) (user_heap : List siridb_user_t)
    (p : Nat) :
    (heap_set_access a origin user_heap)[p]? =
      (user_heap[p]?).map fun u => if origin = p then { u with access_bit := a } else u := by
  unfold heap_set_access
  cases h0 : user_heap[origin]? with
  | none =>
    by_cases hp : origin = p
    · subst hp; simp [h0]
    · simp [hp]
  | some u0 =>
    have hlt : origin < user_heap.length := by
      by_contra hn
      rw [List.getElem?_eq_none (Nat.le_of_not_lt hn)] at h0
      cases h0
    rw [List.getElem?_set]
    by_cases hp : origin = p
    · subst hp; simp [h0, hlt]
    · simp [hp]

theorem heap_set_access_append (a : Nat) (origin : UserPtr) (user_heap l : List siridb_user_t)
    (ho : origin < user_heap.length) :
    heap_set_access a origin (user_heap ++ l) = heap_set_access a origin user_heap ++ l := by
  unfold heap_set_access
  rw [List.getElem?_append_left ho]
  cases h0 : user_heap[origin]? with
  | none => rfl
  | some u0 => simp only [List.set_append_left _ _ ho]

theorem heap_set_access_length (a : Nat) (origin : UserPtr) (user_heap : List siridb_user_t) :
    (heap_set_access a origin user_heap).length = user_heap.length := by
  unfold heap_set_access
  cases user_heap[origin]? <;> simp

/-- Looking up a user by name does not read the access bits. -/
theorem siridb_users_get_user_set_access (a : Nat) (origin : UserPtr)
    (user_heap : List siridb_user_t) (username : String) (users : List UserPtr) :
    siridb_users_get_user (heap_set_access a origin user_heap) users username =
      siridb_users_get_user user_heap users username := by
  induction users with
  | nil => rfl
  | cons p users ih =>
    unfold siridb_users_get_user
    rw [heap_set_access_getElem?]
    cases user_heap[p]? with
    | none => rfl
    | some u =>
      simp only [Option.map_some']
      rw [ih]
      by_cases hp : origin = p <;> simp [hp]

/-- Taking a reference to a user and setting access bits commute. -/
theorem siridb_user_incref_set_access (a : Nat) (origin : UserPtr)
    (user_heap : List siridb_user_t) (p : UserPtr) :
    siridb_user_incref (heap_set_access a origin user_heap) p =
      (siridb_user_incref user_heap p).map (heap_set_access a origin) := by
  unfold siridb_user_incref
  rw [heap_set_access_getElem?]
  cases hp : user_heap[p]? with
  | none => rfl
  | some u =>
    have hlt : p < user_heap.length := by
      by_contra hn
      rw [List.getElem?_eq_none (Nat.le_of_not_lt hn)] at hp
      cases hp
    simp only [Option.map_some', Except.map]
    congr 1
    apply List.ext_getElem?
    intro j
    rw [heap_set_access_getElem?, List.getElem?_set, List.getElem?_set,
      heap_set_access_length, heap_set_access_getElem?]
    by_cases hj : p = j
    · subst hj
      by_cases ho : origin = p <;> simp [hlt, ho]
    · simp [hj]

/-- Moving the cursor does not read the user store. -/
theorem SIRIPARSER_NEXT_NODE_set_access (a : Nat) (h : query_handle_t) :
    SIRIPARSER_NEXT_NODE (set_origin_access a h) =
      (SIRIPARSER_NEXT_NODE h).map fun r => (set_origin_access a r.1, r.2) := by
  unfold SIRIPARSER_NEXT_NODE
  cases hn : h.query.nodes with
  | nil =>
    have e : (set_origin_access a h).query.nodes = [] := hn
    rw [e]; rfl
  | cons c cs =>
    have e : (set_origin_access a h).query.nodes = c :: cs := hn
    rw [e]
    cases cs <;> rfl

/-- Moving the cursor, with the state spelled out. -/
theorem SIRIPARSER_NEXT_NODE_frame (a : Nat) (query : siridb_query_t) (origin : UserPtr)
    (siridb : siridb_t) (user_heap : List siridb_user_t) (users : List UserPtr)
    (server_ref : List Nat) (who_am_i : Option String) :
    SIRIPARSER_NEXT_NODE
        { query := query, origin := origin, siridb := siridb,
          user_heap := heap_set_access a origin user_heap, users := users,
          server_ref := server_ref, who_am_i := who_am_i } =
      (SIRIPARSER_NEXT_NODE
        { query := query, origin := origin, siridb := siridb, user_heap := user_heap,
          users := users, server_ref := server_ref, who_am_i := who_am_i }).map
        fun r => (set_origin_access a r.1, r.2) :=
  SIRIPARSER_NEXT_NODE_set_access a
    { query := query, origin := origin, siridb := siridb, user_heap := user_heap,
      users := users, server_ref := server_ref, who_am_i := who_am_i }

/-- The handlers without a user in their rest: what they do when the query
does not run on the master does not depend on the access bits of the user of
the client. -/
theorem enter_count_stmt_set_access (env : listener_env) (a : Nat) (h : query_handle_t)
    (hm : IS_MASTER env h.query = false) :
    enter_count_stmt env (set_origin_access a h) =
      (enter_count_stmt env h).map fun r => (set_origin_access a r.1, r.2) := by
  unfold enter_count_stmt
  rw [SIRIPARSER_MASTER_CHECK_ACCESS_peer _ _ _ _ hm,
    SIRIPARSER_MASTER_CHECK_ACCESS_peer _ (set_origin_access a h) _ _ hm]
  exact SIRIPARSER_NEXT_NODE_frame a _ _ _ _ _ _ _

theorem enter_list_stmt_set_access (env : listener_env) (a : Nat) (h : query_handle_t)
    (hm : IS_MASTER env h.query = false) :
    enter_list_stmt env (set_origin_access a h) =
      (enter_list_stmt env h).map fun r => (set_origin_access a r.1, r.2) := by
  unfold enter_list_stmt
  rw [SIRIPARSER_MASTER_CHECK_ACCESS_peer _ _ _ _ hm,
    SIRIPARSER_MASTER_CHECK_ACCESS_peer _ (set_origin_access a h) _ _ hm]
  exact SIRIPARSER_NEXT_NODE_frame a _ _ _ _ _ _ _

theorem enter_select_stmt_set_access (env : listener_env) (a : Nat) (h : query_handle_t)
    (hm : IS_MASTER env h.query = false) :
    enter_select_stmt env (set_origin_access a h) =
      (enter_select_stmt env h).map fun r => (set_origin_access a r.1, r.2) := by
  unfold enter_select_stmt
  rw [SIRIPARSER_MASTER_CHECK_ACCESS_peer _ _ _ _ hm,
    SIRIPARSER_MASTER_CHECK_ACCESS_peer _ (set_origin_access a h) _ _ hm]
  exact SIRIPARSER_NEXT_NODE_frame a _ _ _ _ _ _ _

theorem enter_grant_stmt_set_access (env : listener_env) (a : Nat) (h : query_handle_t)
    (hm : IS_MASTER env h.query = false) :
    enter_grant_stmt env (set_origin_access a h) =
      (enter_grant_stmt env h).map fun r => (set_origin_access a r.1, r.2) := by
  unfold enter_grant_stmt
  rw [SIRIPARSER_MASTER_CHECK_ACCESS_peer _ _ _ _ hm,
    SIRIPARSER_MASTER_CHECK_ACCESS_peer _ (set_origin_access a h) _ _ hm]
  exact SIRIPARSER_NEXT_NODE_frame a _ _ _ _ _ _ _

theorem enter_revoke_stmt_set_access (env : listener_env) (a : Nat) (h : query_handle_t)
    (hm : IS_MASTER env h.query = false) :
    enter_revoke_stmt env (set_origin_access a h) =
      (enter_revoke_stmt env h).map fun r => (set_origin_access a r.1, r.2) := by
  unfold enter_revoke_stmt
  rw [SIRIPARSER_MASTER_CHECK_ACCESS_peer _ _ _ _ hm,
    SIRIPARSER_MASTER_CHECK_ACCESS_peer _ (set_origin_access a h) _ _ hm]
  exact SIRIPARSER_NEXT_NODE_frame a _ _ _ _ _ _ _

theorem enter_drop_stmt_set_access (env : listener_env) (a : Nat) (h : query_handle_t)
    (hm : IS_MASTER env h.query = false) :
    enter_drop_stmt env (set_origin_access a h) =
      (enter_drop_stmt env h).map fun r => (set_origin_access a r.1, r.2) := by
  unfold enter_drop_stmt
  have key : ∀ g : query_handle_t, IS_MASTER env g.query = false →
      SIRIPARSER_MASTER_CHECK_ACCESS env
          { g with
            query := { g.query with
              packer := some [.QP_MAP_OPEN]
              data := .q_drop query_drop_new
              free_cb := .query_drop_free } }
          env.SIRIDB_ACCESS_DROP (fun h => SIRIPARSER_NEXT_NODE h) =
        SIRIPARSER_NEXT_NODE
          { g with
            query := { g.query with
              packer := some [.QP_MAP_OPEN]
              data := .q_drop query_drop_new
              free_cb := .query_drop_free } } :=
    fun g hg => SIRIPARSER_MASTER_CHECK_ACCESS_peer env _ _ _ hg
  exact (key (set_origin_access a h) hm).trans
    ((SIRIPARSER_NEXT_NODE_frame a _ _ _ _ _ _ _).trans
      (congrArg (Except.map fun r => (set_origin_access a r.1, r.2)) (key h hm).symm))

theorem enter_alter_server_set_access (env : listener_env) (a : Nat) (h : query_handle_t)
    (hm : IS_MASTER env h.query = false) :
    enter_alter_server env (set_origin_access a h) =
      (enter_alter_server env h).map fun r => (set_origin_access a r.1, r.2) := by
  unfold enter_alter_server
  rw [SIRIPARSER_MASTER_CHECK_ACCESS_peer _ _ _ _ hm,
    SIRIPARSER_MASTER_CHECK_ACCESS_peer _ (set_origin_access a h) _ _ hm]
  have e1 : query_node (set_origin_access a h) = query_node h := rfl
  rw [e1]
  cases query_node h with
  | error e => rfl
  | ok node =>
    simp only [bind_ok]
    cases cleri_child node.children 1 with
    | error e => rfl
    | ok n1 =>
      simp only [bind_ok]
      cases cleri_child n1.children 0 with
      | error e => rfl
      | ok server_node =>
        simp only [bind_ok]
        have e2 : (set_origin_access a h).siridb = h.siridb := rfl
        have e3 : (set_origin_access a h).server_ref = h.server_ref := rfl
        rw [e2, e3]
        cases server_node.tp with
        | CLERI_TP_OTHER => rfl
        | CLERI_TP_CHOICE =>
          simp only [bind_ok]
          cases env.siridb_servers_by_name h.siridb (env.strx_extract_string server_node.str) with
          | none => rfl
          | some server =>
            simp only []
            cases siridb_server_incref h.server_ref server with
            | error e => rfl
            | ok server_ref =>
              simp only [bind_ok]
              exact SIRIPARSER_NEXT_NODE_frame a _ _ _ _ _ _ _
        | CLERI_TP_REGEX =>
          simp only [bind_ok]
          cases env.siridb_servers_by_uuid h.siridb server_node.str with
          | none => rfl
          | some server =>
            simp only []
            cases siridb_server_incref h.server_ref server with
            | error e => rfl
            | ok server_ref =>
              simp only [bind_ok]
              exact SIRIPARSER_NEXT_NODE_frame a _ _ _ _ _ _ _

theorem enter_alter_user_set_access (env : listener_env) (a : Nat) (h : query_handle_t)
    (hm : IS_MASTER env h.query = false) :
    enter_alter_user env (set_origin_access a h) =
      (enter_alter_user env h).map fun r => (set_origin_access a r.1, r.2) := by
  unfold enter_alter_user
  rw [SIRIPARSER_MASTER_CHECK_ACCESS_peer _ _ _ _ hm,
    SIRIPARSER_MASTER_CHECK_ACCESS_peer _ (set_origin_access a h) _ _ hm]
  have e1 : query_node (set_origin_access a h) = query_node h := rfl
  rw [e1]
  cases query_node h with
  | error e => rfl
  | ok node =>
    simp only [bind_ok]
    cases cleri_child node.children 1 with
    | error e => rfl
    | ok user_node =>
      simp only [bind_ok]
      have e2 : (set_origin_access a h).user_heap = heap_set_access a h.origin h.user_heap := rfl
      have e3 : (set_origin_access a h).users = h.users := rfl
      rw [e2, e3, siridb_users_get_user_set_access]
      cases siridb_users_get_user h.user_heap h.users
          (env.strx_extract_string user_node.str) with
      | error e => rfl
      | ok user =>
        simp only [bind_ok]
        cases user with
        | none => rfl
        | some user =>
          simp only []
          rw [siridb_user_incref_set_access]
          cases siridb_user_incref h.user_heap user with
          | error e => rfl
          | ok user_heap =>
            simp only [Except.map, bind_ok]
            exact SIRIPARSER_NEXT_NODE_set_access a
              { h with
                query := { h.query with data := .user user, free_cb := .decref_user_object }
                user_heap := user_heap }

theorem enter_create_user_stmt_set_access (env : listener_env) (a : Nat) (h : query_handle_t)
    (hm : IS_MASTER env h.query = false) (ho : h.origin < h.user_heap.length) :
    enter_create_user_stmt env (set_origin_access a h) =
      (enter_create_user_stmt env h).map fun r => (set_origin_access a r.1, r.2) := by
  unfold enter_create_user_stmt
  rw [SIRIPARSER_MASTER_CHECK_ACCESS_peer _ _ _ _ hm,
    SIRIPARSER_MASTER_CHECK_ACCESS_peer _ (set_origin_access a h) _ _ hm]
  have e2 : (set_origin_access a h).user_heap = heap_set_access a h.origin h.user_heap := rfl
  simp only [e2, siridb_user_new, heap_set_access_length]
  rw [← heap_set_access_append _ _ _ _ ho, siridb_user_incref_set_access]
  cases siridb_user_incref (h.user_heap ++ [{ username := none, access_bit := 0, ref := 0 }])
      h.user_heap.length with
  | error e => rfl
  | ok user_heap =>
    simp only [Except.map, bind_ok]
    exact SIRIPARSER_NEXT_NODE_set_access a
      { h with
        query := { h.query with
          data := .user h.user_heap.length, free_cb := .decref_user_object }
        user_heap := user_heap }

theorem exit_show_stmt_set_access (env : listener_env) (a : Nat) (h : query_handle_t)
    (hm : IS_MASTER env h.query = false) :
    exit_show_stmt env (set_origin_access a h) =
      (exit_show_stmt env h).map fun r => (set_origin_access a r.1, r.2) := by
  unfold exit_show_stmt
  rw [SIRIPARSER_MASTER_CHECK_ACCESS_peer _ _ _ _ hm,
    SIRIPARSER_MASTER_CHECK_ACCESS_peer _ (set_origin_access a h) _ _ hm]
  have e1 : query_node (set_origin_access a h) = query_node h := rfl
  rw [e1]
  cases query_node h with
  | error e => rfl
  | ok node =>
    simp only [bind_ok]
    cases cleri_child node.children 1 with
    | error e => rfl
    | ok n1 =>
      simp only [bind_ok]
      have e2 : (set_origin_access a h).user_heap = heap_set_access a h.origin h.user_heap := rfl
      have e3 : (set_origin_access a h).origin = h.origin := rfl
      have e4 : (set_origin_access a h).siridb = h.siridb := rfl
      simp only [e2, e3, e4, heap_set_access_getElem?]
      cases h.user_heap[h.origin]? with
      | none => rfl
      | some user =>
        simp only [Option.map_some', if_true]
        cases n1.children with
        | nil =>
          simp only [bind_ok, qp_add]
          exact SIRIPARSER_NEXT_NODE_frame a _ _ _ _ _ _ _
        | cons c cs =>
          simp only []
          cases show_selected env h.siridb user.username (c :: cs) with
          | error e => rfl
          | ok toks =>
            simp only [bind_ok, qp_add]
            exact SIRIPARSER_NEXT_NODE_frame a _ _ _ _ _ _ _

/-- C17. For each of the ten handlers that begin with
`SIRIPARSER_MASTER_CHECK_ACCESS` (alter server, alter user, count, create
user, drop, grant, list, revoke, select, show), with the access bit it asks
for: when the query runs on the master and the access check of the user of
the client fails for that bit, the handler ends with `SN_MSG_QUERY_ERROR` and
the cursor stays where it was; when the query does not run on the master the
access bits are not read: with any other access bits `a` of that user the
handler has the same outcome, on a state that differs in these access bits
only. -/
theorem master_check_access (env : listener_env) (h : query_handle_t) (access_bit : Nat)
    (handler : query_handle_t → Except Fault (query_handle_t × listener_action_t))
    (hmem : (access_bit, handler) ∈ access_handlers env) :
    (∀ user, IS_MASTER env h.query = true → h.user_heap[h.origin]? = some user →
      siridb_user_check_access user access_bit = false →
      ∃ h1, handler h = .ok (h1, .send_error .SN_MSG_QUERY_ERROR) ∧
        h1.query.nodes = h.query.nodes) ∧
    (IS_MASTER env h.query = false → h.origin < h.user_heap.length →
      ∀ a, handler (set_origin_access a h) =
        (handler h).map fun r => (set_origin_access a r.1, r.2)) := by
  simp only [access_handlers, List.mem_cons, List.mem_singleton, List.not_mem_nil, or_false,
    Prod.mk.injEq] at hmem
  rcases hmem with e | e | e | e | e | e | e | e | e | e <;> obtain ⟨rfl, rfl⟩ := e
  · refine ⟨fun user hm hu hc => ?_, fun hm _ a => enter_alter_server_set_access env a h hm⟩
    unfold enter_alter_server
    rw [SIRIPARSER_MASTER_CHECK_ACCESS_denied env h _ _ user hm hu hc]
    exact ⟨_, rfl, rfl⟩
  · refine ⟨fun user hm hu hc => ?_, fun hm _ a => enter_alter_user_set_access env a h hm⟩
    unfold enter_alter_user
    rw [SIRIPARSER_MASTER_CHECK_ACCESS_denied env h _ _ user hm hu hc]
    exact ⟨_, rfl, rfl⟩
  · refine ⟨fun user hm hu hc => ?_, fun hm _ a => enter_count_stmt_set_access env a h hm⟩
    unfold enter_count_stmt
    rw [SIRIPARSER_MASTER_CHECK_ACCESS_denied env h _ _ user hm hu hc]
    exact ⟨_, rfl, rfl⟩
  · refine ⟨fun user hm hu hc => ?_,
      fun hm ho a => enter_create_user_stmt_set_access env a h hm ho⟩
    unfold enter_create_user_stmt
    rw [SIRIPARSER_MASTER_CHECK_ACCESS_denied env h _ _ user hm hu hc]
    exact ⟨_, rfl, rfl⟩
  · refine ⟨fun user hm hu hc => ?_, fun hm _ a => enter_drop_stmt_set_access env a h hm⟩
    unfold enter_drop_stmt
    exact ⟨_,
      SIRIPARSER_MASTER_CHECK_ACCESS_denied env
        { h with
          query := { h.query with
            packer := some [.QP_MAP_OPEN]
            data := .q_drop query_drop_new
            free_cb := .query_drop_free } }
        _ _ user hm hu hc,
      rfl⟩
  · refine ⟨fun user hm hu hc => ?_, fun hm _ a => enter_grant_stmt_set_access env a h hm⟩
    unfold enter_grant_stmt
    rw [SIRIPARSER_MASTER_CHECK_ACCESS_denied env h _ _ user hm hu hc]
    exact ⟨_, rfl, rfl⟩
  · refine ⟨fun user hm hu hc => ?_, fun hm _ a => enter_list_stmt_set_access env a h hm⟩
    unfold enter_list_stmt
    rw [SIRIPARSER_MASTER_CHECK_ACCESS_denied env h _ _ user hm hu hc]
    exact ⟨_, rfl, rfl⟩
  · refine ⟨fun user hm hu hc => ?_, fun hm _ a => enter_revoke_stmt_set_access env a h hm⟩
    unfold enter_revoke_stmt
    rw [SIRIPARSER_MASTER_CHECK_ACCESS_denied env h _ _ user hm hu hc]
    exact ⟨_, rfl, rfl⟩
  · refine ⟨fun user hm hu hc => ?_, fun hm _ a => enter_select_stmt_set_access env a h hm⟩
    unfold enter_select_stmt
    rw [SIRIPARSER_MASTER_CHECK_ACCESS_denied env h _ _ user hm hu hc]
    exact ⟨_, rfl, rfl⟩
  · refine ⟨fun user hm hu hc => ?_, fun hm _ a => exit_show_stmt_set_access env a h hm⟩
    unfold exit_show_stmt
    rw [SIRIPARSER_MASTER_CHECK_ACCESS_denied env h _ _ user hm hu hc]
    exact ⟨_, rfl, rfl⟩

/-- C17, witness: `enter_list_stmt` on the master for a user without access
bits, and on a peer for the same user with and without them. -/
theorem master_check_access_witness :
    (∃ h1, enter_list_stmt sample_listener_env (set_origin_access 0 (sample_list_handle 1 2)) =
        .ok (h1, .send_error .SN_MSG_QUERY_ERROR) ∧
      h1.query.nodes = (sample_list_handle 1 2).query.nodes) ∧
    enter_list_stmt sample_listener_env (set_origin_access 0 sample_peer_handle) =
      (enter_list_stmt sample_listener_env sample_peer_handle).map
        fun r => (set_origin_access 0 r.1, r.2) :=
  ⟨(master_check_access sample_listener_env (set_origin_access 0 (sample_list_handle 1 2)) 32
      (enter_list_stmt sample_listener_env)
      (by simp [access_handlers, sample_listener_env])).1
      { username := some "iris", access_bit := 0, ref := 1 } rfl rfl rfl,
    (master_check_access sample_listener_env sample_peer_handle 32
      (enter_list_stmt sample_listener_env)
      (by simp [access_handlers, sample_listener_env])).2 rfl (by decide) 0⟩

/-- C15, witness: `exit_list_series_stmt` on a peer closes the array of the
result and moves on; on the master with a limit of 2 left it forwards. -/
theorem exit_list_forward_only_with_limit_witness :
    exit_list_series_stmt sample_listener_env sample_peer_handle =
      .ok ({ sample_peer_handle with
          query := { sample_peer_handle.query with
            nodes := [{ node := sample_leaf 0, cb := 12 }]
            data := .q_list
              { ct_series := none, where_expr := none, props := some [40], limit := 2 }
            packer := some [.QP_MAP_OPEN, .raw "columns", .QP_ARRAY_OPEN, .raw "name",
              .QP_ARRAY_CLOSE, .raw "series", .QP_ARRAY_OPEN, .QP_ARRAY_CLOSE] } },
        .next_cb 12) ∧
    ∃ r, exit_list_servers_stmt sample_listener_env (sample_list_handle 1 2) = .ok r :=
  ⟨(exit_list_forward_only_with_limit sample_listener_env sample_peer_handle _ _ _ _
      rfl rfl rfl).2.2.1 (Or.inl rfl),
    (exit_list_forward_only_with_limit sample_listener_env (sample_list_handle 1 2) _ _ _ _
      rfl rfl rfl).2.2.2.1⟩

/-! ## Replication: one packet in flight when continue follows a pause -/

/-- What a tick that returns has done: either it has sent one packet popped
from the FIFO and left the database as it was, the task being RUNNING, or it
has dropped the status and sent at most `BPROTO_REPL_FINISHED`. -/
theorem REPLICATE_work_cases (av sy : siridb_server_t → Bool) (siridb d : siridb_t)
    (replicate : siridb_replicate_t) (sent : List replicate_send_t)
    (hrep : siridb.replicate = some replicate)
    (h : REPLICATE_work av sy siridb = .ok (d, sent)) :
    (replicate.status = .REPLICATE_RUNNING ∧ d = siridb ∧ ∃ pkg, sent = [.repl_pkg pkg]) ∨
    (d = { siridb with
        replicate := some ({ replicate with
          status := if replicate.status = .REPLICATE_STOPPING then .REPLICATE_PAUSED
            else .REPLICATE_IDLE }) } ∧
      (sent = [] ∨ sent = [.repl_finished])) := by
  unfold REPLICATE_work at h
  simp only [hrep] at h
  obtain ⟨pkg, hpkg, h⟩ := bind_eq_ok _ _ _ h
  cases pkg with
  | some pkg =>
    simp only [Except.ok.injEq, Prod.mk.injEq] at h
    refine Or.inl ⟨?_, h.1.symm, pkg, h.2.symm⟩
    by_contra hst
    rw [if_neg hst] at hpkg
    cases hpkg
  | none =>
    simp only at h
    obtain ⟨r, _, h⟩ := bind_eq_ok _ _ _ h
    obtain ⟨fin, _, h⟩ := bind_eq_ok _ _ _ h
    simp only [Except.ok.injEq, Prod.mk.injEq] at h
    refine Or.inr ⟨h.1.symm, ?_⟩
    cases fin
    · exact Or.inl h.2.symm
    · exact Or.inr h.2.symm

/-- A response handler that returns has armed the timer and left the status
of the task as it was. -/
theorem REPLICATE_on_repl_response_replicate (is_error : Nat → Bool) (siridb d : siridb_t)
    (replicate : siridb_replicate_t) (pkg : Option Nat) (status : sirinet_promise_status_t)
    (hrep : siridb.replicate = some replicate)
    (h : REPLICATE_on_repl_response is_error siridb pkg status = .ok d) :
    d.replicate = some (uv_timer_start replicate REPLICATE_SLEEP) := by
  unfold REPLICATE_on_repl_response at h
  obtain ⟨d1, hd1, h⟩ := bind_eq_ok _ _ _ h
  have hkeep : d1.replicate = some replicate := by
    cases status <;> simp only at hd1
    · cases pkg with
      | none => cases hd1
      | some tp =>
        simp only at hd1
        cases hf : siridb.fifo with
        | none => simp [hf] at hd1
        | some fifo =>
          simp only [hf] at hd1
          split at hd1 <;> (cases hd1; exact hrep)
    all_goals first
      | (cases hd1; exact hrep)
      | (cases hf : siridb.fifo with
          | none => simp [hf] at hd1
          | some fifo => simp only [hf] at hd1; cases hd1; exact hrep)
  rw [hkeep] at h
  cases h
  rfl

/-- Each event that is allowed, `siridb_replicate_continue` on a task that is
not RUNNING only, keeps `replicate_inv`. -/
theorem replicate_inv_step (av sy : siridb_server_t → Bool) (is_error : Nat → Bool)
    (e : replicate_event_t) (s s1 : replicate_sys_t) (hinv : replicate_inv s)
    (hpre : replicate_event_pre_paused e s = true)
    (hstep : replicate_event_step av sy is_error e s = .ok s1) : replicate_inv s1 := by
  obtain ⟨r, hr, h1, h2, h3, h4, h5⟩ := hinv
  unfold replicate_event_pre_paused replicate_event_pre at hpre
  unfold replicate_event_step at hstep
  simp only [hr] at hpre hstep
  cases e with
  | ev_start =>
    simp only [Bool.and_true, siridb_replicate_is_idle, decide_eq_true_eq] at hpre
    cases hstep
    refine ⟨_, rfl, h1, fun _ => (h3 (Or.inl hpre)).1, ?_, ?_, ?_⟩ <;>
      simp [siridb_replicate_start, uv_timer_start]
  | ev_pause =>
    cases hstep
    refine ⟨_, rfl, h1, h2, ?_, ?_, ?_⟩
    · intro hs
      by_cases hi : r.status = .REPLICATE_IDLE
      · exact h3 (Or.inl hi)
      · simp [siridb_replicate_pause, hi] at hs
    · simp only [siridb_replicate_pause]; split <;> simp
    · simp only [siridb_replicate_pause]; split <;> simp
  | ev_continue =>
    simp only [Bool.and_eq_true, decide_eq_true_eq] at hpre
    cases hstep
    by_cases hs : r.status = .REPLICATE_STOPPING
    · refine ⟨_, rfl, h1, ?_, ?_, ?_, ?_⟩ <;>
        simp [siridb_replicate_continue, hs, siridb_replicate_is_idle]
      exact h2
    · have h0 : s.awaiting = 0 := by
        rcases hst : r.status with _ | _ | _ | _ | _ | _
        · exact (h3 (Or.inl hst)).1
        · exact absurd hst h4
        · exact absurd hst hpre.2
        · exact absurd hst hs
        · exact (h3 (Or.inr hst)).1
        · exact absurd hst h5
      refine ⟨_, rfl, h1, fun _ => h0, ?_, ?_, ?_⟩ <;>
        simp [siridb_replicate_continue, hs, siridb_replicate_is_idle, siridb_replicate_start,
          uv_timer_start]
  | ev_tick =>
    simp only [Bool.and_true] at hpre
    have h0 : s.awaiting = 0 := h2 hpre
    obtain ⟨res, hres, hstep⟩ := bind_eq_ok _ _ _ hstep
    cases hstep
    obtain ⟨d, sent⟩ := res
    rcases REPLICATE_work_cases av sy _ d { r with timer := none } sent rfl hres with
      ⟨hrun, hd, pkg, hsent⟩ | ⟨hd, hsent⟩
    · subst hd hsent
      refine ⟨_, rfl, ?_, ?_, ?_, h4, h5⟩
      · simp [h0, repl_pkg_count]
      · simp
      · intro hs
        simp only at hrun
        rcases hs with hs | hs <;> (simp only at hs; rw [hrun] at hs; cases hs)
    · subst hd
      have hc : repl_pkg_count sent = 0 := by
        rcases hsent with rfl | rfl <;> rfl
      refine ⟨_, rfl, ?_, ?_, ?_, ?_, ?_⟩
      · simp [h0, hc]
      · simp
      · intro _
        simp [h0, hc]
      · simp only; split <;> simp
      · simp only; split <;> simp
  | ev_response pkg status =>
    simp only [Bool.and_true, decide_eq_true_eq] at hpre
    obtain ⟨d, hd, hstep⟩ := bind_eq_ok _ _ _ hstep
    cases hstep
    have hrd := REPLICATE_on_repl_response_replicate is_error s.siridb d r pkg status hr hd
    have ha : s.awaiting - 1 = 0 := by omega
    refine ⟨_, hrd, ?_, fun _ => ha, ?_, h4, h5⟩
    · simp only [ha]; omega
    · intro hs
      have : s.awaiting = 0 := (h3 hs).1
      omega

/-- From a freshly initialised idle task, by any sequence of start, pause,
continue, timer tick and response events, each under the precondition its
assertion states and `siridb_replicate_continue` on a task that is not RUNNING
only, at most one packet popped from the FIFO awaits its response; the timer
is armed only when none does, so a tick pops only after the response to the
packet before was handled. -/
theorem replicate_single_in_flight (av sy : siridb_server_t → Bool) (is_error : Nat → Bool)
    (events : List replicate_event_t) :
    ∀ s s1 : replicate_sys_t, replicate_inv s →
      replicate_run_with replicate_event_pre_paused av sy is_error events s = some s1 →
      replicate_inv s1 := by
  induction events with
  | nil =>
    intro s s1 hinv h
    cases h
    exact hinv
  | cons e es ih =>
    intro s s1 hinv h
    unfold replicate_run_with at h
    by_cases hpre : replicate_event_pre_paused e s = true
    · rw [if_pos hpre] at h
      cases hstep : replicate_event_step av sy is_error e s with
      | error err => rw [hstep] at h; cases h
      | ok s2 =>
        rw [hstep] at h
        exact ih s2 s1 (replicate_inv_step av sy is_error e s s2 hinv hpre hstep) h
    · rw [if_neg hpre] at h
      cases h

/-! ## Replication: an active task without scheduled work -/

/-- C28, the failing run. A freshly initialised idle task is paused twice and
then continued, each call under its assertion (the status is not CLOSED): the
first pause gives PAUSED, the second turns PAUSED into STOPPING, and
`siridb_replicate_continue` turns STOPPING into RUNNING without starting the
timer. The task is RUNNING, the timer is not armed and no packet awaits a
response, although two records wait in the FIFO. -/
theorem replicate_pause_twice_continue :
    (replicate_run sample_is_available sample_is_synchronizing (fun _ => false)
        [.ev_pause, .ev_pause] sample_repl_sys).map
        (fun s => (s.awaiting, s.sent, s.siridb.replicate)) =
      some (0, [],
        some { status := .REPLICATE_STOPPING, init_fp := false, timer := none }) ∧
    (replicate_run sample_is_available sample_is_synchronizing (fun _ => false)
        [.ev_pause, .ev_pause, .ev_continue] sample_repl_sys).map
        (fun s => (s.awaiting, s.sent, s.siridb.replicate, s.siridb.fifo)) =
      some (0, [],
        some { status := .REPLICATE_RUNNING, init_fp := false, timer := none },
        some { records := [7, 8], failed := [] }) :=
  ⟨rfl, rfl⟩

/-- Each event that is allowed, `siridb_replicate_pause` on a task that is not
PAUSED only, keeps `replicate_scheduled`. -/
theorem replicate_scheduled_step (av sy : siridb_server_t → Bool) (is_error : Nat → Bool)
    (e : replicate_event_t) (s s1 : replicate_sys_t) (hinv : replicate_scheduled s)
    (hpre : replicate_event_pre_pause_once e s = true)
    (hstep : replicate_event_step av sy is_error e s = .ok s1) : replicate_scheduled s1 := by
  obtain ⟨r, hr, h1, h4, h5⟩ := hinv
  unfold replicate_event_pre_pause_once replicate_event_pre at hpre
  unfold replicate_event_step at hstep
  simp only [hr] at hpre hstep
  cases e with
  | ev_start =>
    cases hstep
    refine ⟨_, rfl, fun _ => Or.inl ?_, ?_, ?_⟩ <;>
      simp [siridb_replicate_start, uv_timer_start]
  | ev_pause =>
    simp only [Bool.and_eq_true, decide_eq_true_eq] at hpre
    cases hstep
    refine ⟨_, rfl, ?_, ?_, ?_⟩
    · intro hs
      rcases hst : r.status with _ | _ | _ | _ | _ | _
      · simp [siridb_replicate_pause, hst] at hs
      · exact absurd hst h4
      · exact h1 (Or.inl hst)
      · exact h1 (Or.inr hst)
      · exact absurd hst hpre.2
      · exact absurd hst h5
    · simp only [siridb_replicate_pause]; split <;> simp
    · simp only [siridb_replicate_pause]; split <;> simp
  | ev_continue =>
    cases hstep
    by_cases hs : r.status = .REPLICATE_STOPPING
    · refine ⟨_, rfl, fun _ => ?_, ?_, ?_⟩
      · have := h1 (Or.inr hs)
        simpa [siridb_replicate_continue, hs, siridb_replicate_is_idle] using this
      · simp [siridb_replicate_continue, hs, siridb_replicate_is_idle]
      · simp [siridb_replicate_continue, hs, siridb_replicate_is_idle]
    · refine ⟨_, rfl, fun _ => Or.inl ?_, ?_, ?_⟩ <;>
        simp [siridb_replicate_continue, hs, siridb_replicate_is_idle, siridb_replicate_start,
          uv_timer_start]
  | ev_tick =>
    obtain ⟨res, hres, hstep⟩ := bind_eq_ok _ _ _ hstep
    cases hstep
    obtain ⟨d, sent⟩ := res
    rcases REPLICATE_work_cases av sy _ d { r with timer := none } sent rfl hres with
      ⟨hrun, hd, pkg, hsent⟩ | ⟨hd, hsent⟩
    · subst hd hsent
      refine ⟨_, rfl, fun _ => Or.inr ?_, h4, h5⟩
      simp [repl_pkg_count]
    · subst hd
      refine ⟨_, rfl, ?_, ?_, ?_⟩
      · intro hs
        simp only at hs
        split at hs <;> simp at hs
      · simp only; split <;> simp
      · simp only; split <;> simp
  | ev_response pkg status =>
    obtain ⟨d, hd, hstep⟩ := bind_eq_ok _ _ _ hstep
    cases hstep
    have hrd := REPLICATE_on_repl_response_replicate is_error s.siridb d r pkg status hr hd
    exact ⟨_, hrd, fun _ => Or.inl rfl, h4, h5⟩

/-- From a freshly initialised idle task, by any sequence of start, pause,
continue, timer tick and response events, each under the precondition its
assertion states and `siridb_replicate_pause` on a task that is not PAUSED
only, whenever the status is RUNNING or STOPPING the timer is armed or a sent
packet awaits its response. -/
theorem replicate_never_stalls (av sy : siridb_server_t → Bool) (is_error : Nat → Bool)
    (events : List replicate_event_t) :
    ∀ s s1 : replicate_sys_t, replicate_scheduled s →
      replicate_run_with replicate_event_pre_pause_once av sy is_error events s = some s1 →
      replicate_scheduled s1 := by
  induction events with
  | nil =>
    intro s s1 hinv h
    cases h
    exact hinv
  | cons e es ih =>
    intro s s1 hinv h
    unfold replicate_run_with at h
    by_cases hpre : replicate_event_pre_pause_once e s = true
    · rw [if_pos hpre] at h
      cases hstep : replicate_event_step av sy is_error e s with
      | error err => rw [hstep] at h; cases h
      | ok s2 =>
        rw [hstep] at h
        exact ih s2 s1 (replicate_scheduled_step av sy is_error e s s2 hinv hpre hstep) h
    · rw [if_neg hpre] at h
      cases h

/-! ## Query listener: count series with a where expression -/

/-- `exit_count_series_stmt` in full: the count it adds is the length of
`siridb->series_map`, whatever the state of the statement holds, a where
expression included. -/
theorem exit_count_series_stmt_spec (h : query_handle_t) (packer : qp_packer_t)
    (cell : siridb_node_t) (nodes : List siridb_node_t)
    (hpacker : h.query.packer = some packer) (hnodes : h.query.nodes = cell :: nodes) :
    exit_count_series_stmt h =
      .ok ({ h with
          query := { h.query with
            nodes := nodes
            packer := some (packer ++
              [.raw "series", .int64 (int64_wrap h.siridb.series_map.length)]) } },
        next_action nodes) := by
  unfold exit_count_series_stmt
  simp only [qp_add, hpacker, bind_ok]
  refine (SIRIPARSER_NEXT_NODE_cons _ cell nodes ?_).trans ?_
  · exact hnodes
  · rfl

/-- C23, the failing run. `count series where ...` in a database with ten
series of which three satisfy the where expression: `exit_count_series_stmt`
adds the count 10, the size of the local collection, not the count 3 of the
series that satisfy the expression; the where expression of the count state
is not read. -/
theorem exit_count_series_stmt_where :
    (sample_count_where_handle 3).query.data =
      .q_count { ct_series := none, where_expr := some 3, n := 0 } ∧
    (((sample_count_where_handle 3).siridb.series_map.filter
      (sample_cexpr_run_series 3)).length = 3) ∧
    exit_count_series_stmt (sample_count_where_handle 3) =
      .ok ({ sample_count_where_handle 3 with
          query := { (sample_count_where_handle 3).query with
            nodes := []
            packer := some [.QP_MAP_OPEN, .raw "series", .int64 10] } },
        .send_query_result) :=
  ⟨rfl, rfl, rfl⟩

/-! ## Query listener: grant and revoke -/

theorem user_heap_set_getElem? (user_heap : List siridb_user_t) (p q : UserPtr)
    (user new : siridb_user_t) (hu : user_heap[p]? = some user) :
    (user_heap.set p new)[q]? = if p = q then some new else user_heap[q]? := by
  have hlt : p < user_heap.length := by
    by_contra hn
    rw [List.getElem?_eq_none (Nat.le_of_not_lt hn)] at hu
    cases hu
  rw [List.getElem?_set]
  by_cases hp : p = q
  · subst hp; simp [hlt]
  · simp [hp]

/-- `siridb_user_incref` on a user that is there. -/
theorem siridb_user_incref_some (user_heap : List siridb_user_t) (p : UserPtr)
    (user : siridb_user_t) (hu : user_heap[p]? = some user) :
    siridb_user_incref user_heap p = .ok (user_heap.set p { user with ref := user.ref + 1 }) := by
  unfold siridb_user_incref
  rw [hu]

/-- The lookup of a user by name sees the names only. -/
theorem siridb_users_get_user_congr (heap1 heap2 : List siridb_user_t)
    (hname : ∀ q : UserPtr, (heap1[q]?).map (fun u => u.username) =
      (heap2[q]?).map (fun u => u.username))
    (users : List UserPtr) (username : String) :
    siridb_users_get_user heap1 users username = siridb_users_get_user heap2 users username := by
  induction users with
  | nil => rfl
  | cons q users ih =>
    unfold siridb_users_get_user
    have hq := hname q
    cases h1 : heap1[q]? with
    | none =>
      rw [h1] at hq
      cases h2 : heap2[q]? with
      | none => rfl
      | some u2 => rw [h2] at hq; cases hq
    | some u1 =>
      rw [h1] at hq
      cases h2 : heap2[q]? with
      | none => rw [h2] at hq; cases hq
      | some u2 =>
        rw [h2] at hq
        have hu : u1.username = u2.username := Option.some.inj hq
        simp only [hu, ih]

/-- `enter_grant_user_stmt` in full when the user is found. -/
theorem enter_grant_user_stmt_spec (env : listener_env) (uenv : listener_users_env)
    (h : query_handle_t) (cell : siridb_node_t) (nodes : List siridb_node_t)
    (user_node : cleri_node_t) (p : UserPtr) (user : siridb_user_t) (access : List cleri_node_t)
    (hnodes : h.query.nodes = cell :: nodes)
    (hchild : cleri_child cell.node.children 1 = .ok user_node)
    (hget : siridb_users_get_user h.user_heap h.users (env.strx_extract_string user_node.str) =
      .ok (some p))
    (huser : h.user_heap[p]? = some user) (hdata : h.query.data = .children access) :
    enter_grant_user_stmt env uenv h =
      .ok ({ h with
          query := { h.query with
            nodes := nodes, data := .user p, free_cb := .decref_user_object }
          user_heap := h.user_heap.set p
            { user with
              access_bit := user.access_bit ||| uenv.siridb_access_from_children access
              ref := user.ref + 1 } },
        next_action nodes) := by
  unfold enter_grant_user_stmt
  simp only [query_node, hnodes, bind_ok, hchild, hget, hdata, huser]
  rw [siridb_user_incref_some _ p _ (by rw [user_heap_set_getElem? _ p p user _ huser, if_pos rfl])]
  simp only [bind_ok, List.set_set]
  refine (SIRIPARSER_NEXT_NODE_cons _ cell nodes ?_).trans ?_
  · rfl
  · rfl

/-- `enter_revoke_user_stmt` in full when the user is found. -/
theorem enter_revoke_user_stmt_spec (env : listener_env) (uenv : listener_users_env)
    (h : query_handle_t) (cell : siridb_node_t) (nodes : List siridb_node_t)
    (user_node : cleri_node_t) (p : UserPtr) (user : siridb_user_t) (access : List cleri_node_t)
    (hnodes : h.query.nodes = cell :: nodes)
    (hchild : cleri_child cell.node.children 1 = .ok user_node)
    (hget : siridb_users_get_user h.user_heap h.users (env.strx_extract_string user_node.str) =
      .ok (some p))
    (huser : h.user_heap[p]? = some user) (hdata : h.query.data = .children access) :
    enter_revoke_user_stmt env uenv h =
      .ok ({ h with
          query := { h.query with
            nodes := nodes, data := .user p, free_cb := .decref_user_object }
          user_heap := h.user_heap.set p
            { user with
              access_bit := user.access_bit ^^^
                (user.access_bit &&& uenv.siridb_access_from_children access)
              ref := user.ref + 1 } },
        next_action nodes) := by
  unfold enter_revoke_user_stmt
  simp only [query_node, hnodes, bind_ok, hchild, hget, hdata, huser]
  rw [siridb_user_incref_some _ p _ (by rw [user_heap_set_getElem? _ p p user _ huser, if_pos rfl])]
  simp only [bind_ok, List.set_set]
  refine (SIRIPARSER_NEXT_NODE_cons _ cell nodes ?_).trans ?_
  · rfl
  · rfl

/-- The lookup of a user finds the same user after the access bits and the
reference count of a user have changed. -/
theorem siridb_users_get_user_set (user_heap : List siridb_user_t) (p : UserPtr)
    (user : siridb_user_t) (a r : Nat) (huser : user_heap[p]? = some user)
    (users : List UserPtr) (username : String) :
    siridb_users_get_user (user_heap.set p { user with access_bit := a, ref := r }) users
        username =
      siridb_users_get_user user_heap users username := by
  apply siridb_users_get_user_congr
  intro q
  rw [user_heap_set_getElem? _ p q user _ huser]
  by_cases hq : p = q
  · subst hq; rw [if_pos rfl, huser]; rfl
  · rw [if_neg hq]

/-- The bits that `x ^= (x & b)` leaves are those of `x` outside `b`. -/
theorem access_revoke_testBit (a b i : Nat) :
    (a ^^^ (a &&& b)).testBit i = (a.testBit i && !b.testBit i) := by
  rw [Nat.testBit_xor, Nat.testBit_and]
  cases a.testBit i <;> cases b.testBit i <;> rfl

theorem access_revoke_and (a b : Nat) : (a ^^^ (a &&& b)) &&& b = 0 := by
  apply Nat.eq_of_testBit_eq
  intro i
  rw [Nat.testBit_and, access_revoke_testBit, Nat.zero_testBit]
  cases a.testBit i <;> cases b.testBit i <;> rfl

theorem access_grant_idem (a b : Nat) : (a ||| b) ||| b = a ||| b := by
  apply Nat.eq_of_testBit_eq
  intro i
  simp only [Nat.testBit_or]
  cases a.testBit i <;> cases b.testBit i <;> rfl

theorem access_revoke_idem (a b : Nat) :
    (a ^^^ (a &&& b)) ^^^ ((a ^^^ (a &&& b)) &&& b) = a ^^^ (a &&& b) := by
  rw [access_revoke_and, Nat.xor_zero]

theorem user_access_bit_set (h : query_handle_t) (query : siridb_query_t) (p : UserPtr)
    (user new : siridb_user_t) (huser : h.user_heap[p]? = some user) (q : UserPtr) :
    user_access_bit { h with query := query, user_heap := h.user_heap.set p new } q =
      if p = q then some new.access_bit else user_access_bit h q := by
  unfold user_access_bit
  simp only
  rw [user_heap_set_getElem? _ p q user _ huser]
  by_cases hq : p = q
  · rw [if_pos hq, if_pos hq]; rfl
  · rw [if_neg hq, if_neg hq]

/-- C29. When `enter_grant_user_stmt` and `enter_revoke_user_stmt` find the
user, whose access bits are `a`, and `b` is the mask of the access expression:
grant leaves the bits `a ||| b`, revoke leaves `a ^^^ (a &&& b)`, which is
`a` and not `b` bit by bit; the bits outside `b` and the other users keep
their value, and no result leaves the width of `a` and `b`. Revoke of `b` on
the state that grant has left leaves no bit of `b`; grant after grant and
revoke after revoke change nothing. -/
theorem grant_revoke_access_bits (env : listener_env) (uenv : listener_users_env)
    (h : query_handle_t) (cell : siridb_node_t) (nodes : List siridb_node_t)
    (user_node : cleri_node_t) (p : UserPtr) (user : siridb_user_t) (access : List cleri_node_t)
    (hnodes : h.query.nodes = cell :: nodes)
    (hchild : cleri_child cell.node.children 1 = .ok user_node)
    (hget : siridb_users_get_user h.user_heap h.users (env.strx_extract_string user_node.str) =
      .ok (some p))
    (huser : h.user_heap[p]? = some user) (hdata : h.query.data = .children access) :
    ∃ hg hr : query_handle_t,
      enter_grant_user_stmt env uenv h = .ok (hg, next_action nodes) ∧
      enter_revoke_user_stmt env uenv h = .ok (hr, next_action nodes) ∧
      user_access_bit hg p =
        some (user.access_bit ||| uenv.siridb_access_from_children access) ∧
      user_access_bit hr p =
        some (user.access_bit ^^^
          (user.access_bit &&& uenv.siridb_access_from_children access)) ∧
      (∀ i : Nat,
        (user.access_bit ^^^
          (user.access_bit &&& uenv.siridb_access_from_children access)).testBit i =
        (user.access_bit.testBit i && !(uenv.siridb_access_from_children access).testBit i)) ∧
      (∀ i : Nat, (uenv.siridb_access_from_children access).testBit i = false →
        (user.access_bit ||| uenv.siridb_access_from_children access).testBit i =
          user.access_bit.testBit i ∧
        (user.access_bit ^^^
          (user.access_bit &&& uenv.siridb_access_from_children access)).testBit i =
          user.access_bit.testBit i) ∧
      (∀ q : UserPtr, q ≠ p →
        user_access_bit hg q = user_access_bit h q ∧
        user_access_bit hr q = user_access_bit h q) ∧
      (∀ w : Nat, user.access_bit < 2 ^ w → uenv.siridb_access_from_children access < 2 ^ w →
        user.access_bit ||| uenv.siridb_access_from_children access < 2 ^ w ∧
        user.access_bit ^^^
          (user.access_bit &&& uenv.siridb_access_from_children access) < 2 ^ w) ∧
      (∃ hgr : query_handle_t,
        enter_revoke_user_stmt env uenv { hg with query := h.query } =
          .ok (hgr, next_action nodes) ∧
        ∃ c : Nat, user_access_bit hgr p = some c ∧
          c &&& uenv.siridb_access_from_children access = 0) ∧
      (∃ hgg : query_handle_t,
        enter_grant_user_stmt env uenv { hg with query := h.query } =
          .ok (hgg, next_action nodes) ∧
        user_access_bit hgg p = user_access_bit hg p) ∧
      (∃ hrr : query_handle_t,
        enter_revoke_user_stmt env uenv { hr with query := h.query } =
          .ok (hrr, next_action nodes) ∧
        user_access_bit hrr p = user_access_bit hr p) := by
  have hg := enter_grant_user_stmt_spec env uenv h cell nodes user_node p user access hnodes
    hchild hget huser hdata
  have hr := enter_revoke_user_stmt_spec env uenv h cell nodes user_node p user access hnodes
    hchild hget huser hdata
  have hset : ∀ new : siridb_user_t, (h.user_heap.set p new)[p]? = some new := by
    intro new
    rw [user_heap_set_getElem? _ p p user _ huser, if_pos rfl]
  refine ⟨_, _, hg, hr, ?_, ?_, ?_, ?_, ?_, ?_, ?_, ?_, ?_⟩
  · rw [user_access_bit_set h _ p user _ huser p, if_pos rfl]
  · rw [user_access_bit_set h _ p user _ huser p, if_pos rfl]
  · intro i
    exact access_revoke_testBit _ _ i
  · intro i hb
    rw [access_revoke_testBit, Nat.testBit_or, hb]
    simp
  · intro q hq
    rw [user_access_bit_set h _ p user _ huser q, user_access_bit_set h _ p user _ huser q,
      if_neg (Ne.symm hq), if_neg (Ne.symm hq)]
    exact ⟨rfl, rfl⟩
  · intro w ha hb
    exact ⟨Nat.or_lt_two_pow ha hb, Nat.xor_lt_two_pow ha (Nat.and_lt_two_pow _ hb)⟩
  · refine ⟨_, enter_revoke_user_stmt_spec env uenv _ cell nodes user_node p _ access hnodes
      hchild ?_ (hset _) hdata,
      (user.access_bit ||| uenv.siridb_access_from_children access) ^^^
        ((user.access_bit ||| uenv.siridb_access_from_children access) &&&
          uenv.siridb_access_from_children access), ?_, ?_⟩
    · exact (siridb_users_get_user_set h.user_heap p user _ _ huser _ _).trans hget
    · unfold user_access_bit
      simp only [List.set_set]
      rw [hset]
      rfl
    · exact access_revoke_and _ _
  · refine ⟨_, enter_grant_user_stmt_spec env uenv _ cell nodes user_node p _ access hnodes
      hchild ?_ (hset _) hdata, ?_⟩
    · exact (siridb_users_get_user_set h.user_heap p user _ _ huser _ _).trans hget
    · unfold user_access_bit
      simp only [List.set_set]
      rw [hset, hset]
      simp only [Option.map_some', access_grant_idem]
  · refine ⟨_, enter_revoke_user_stmt_spec env uenv _ cell nodes user_node p _ access hnodes
      hchild ?_ (hset _) hdata, ?_⟩
    · exact (siridb_users_get_user_set h.user_heap p user _ _ huser _ _).trans hget
    · unfold user_access_bit
      simp only [List.set_set]
      rw [hset, hset]
      simp only [Option.map_some', access_revoke_idem]

/-- C29, witness: the user sasha has the bits 32 and the mask is 130; grant
leaves 162 and revoke leaves 32. -/
theorem grant_revoke_access_bits_witness :
    ∃ hg hr : query_handle_t,
      enter_grant_user_stmt sample_listener_env sample_users_env sample_grant_handle =
        .ok (hg, .next_cb 32) ∧
      enter_revoke_user_stmt sample_listener_env sample_users_env sample_grant_handle =
        .ok (hr, .next_cb 32) ∧
      user_access_bit hg 1 = some 162 ∧ user_access_bit hr 1 = some 32 := by
  obtain ⟨hg, hr, h1, h2, h3, h4, _⟩ :=
    grant_revoke_access_bits sample_listener_env sample_users_env sample_grant_handle _ _ _ 1 _ _
      rfl rfl rfl rfl rfl
  exact ⟨hg, hr, h1, h2, h3, h4⟩

/-! ## Query listener: grant and revoke when the users cannot be written -/

/-- The handlers `exit_alter_user`, `exit_grant_user_stmt` and
`exit_revoke_user_stmt` when the users cannot be written: the message is set
and the error is sent; nothing else changes. -/
theorem exit_users_save_failure (uenv : listener_users_env) (fmt : String → String)
    (h : query_handle_t) (hsave : uenv.siridb_users_save h.user_heap h.users = true) :
    exit_users_save uenv fmt h =
      .ok ({ h with query := { h.query with err_msg := "Could not write users to file!" } },
        .send_error .SN_MSG_QUERY_ERROR) := by
  unfold exit_users_save siridb_send_error
  rw [if_pos hsave]

/-- C30, counterexample. The user sasha has the access bits 32; `grant` with
the mask 130 runs `enter_grant_user_stmt` and then `exit_grant_user_stmt`,
which cannot write the users and ends with `SN_MSG_QUERY_ERROR`: the access
bits of sasha in memory are 162, not 32 as before the statement. -/
theorem grant_save_failure_keeps_new_bits :
    user_access_bit sample_grant_handle 1 = some 32 ∧
    ((enter_grant_user_stmt sample_listener_env sample_users_env_no_save
        sample_grant_handle).bind fun r =>
      (exit_grant_user_stmt sample_users_env_no_save r.1).bind fun r =>
      .ok (r.2, r.1.query.err_msg, user_access_bit r.1 1)) =
      .ok (.send_error .SN_MSG_QUERY_ERROR, "Could not write users to file!", some 162) :=
  ⟨rfl, rfl⟩

/-- The free call-back `decref_user_object` on a state that holds a reference
to the user at `p`: the reference count of the user goes down by one. -/
theorem query_free_user (h : query_handle_t) (p : UserPtr) (user : siridb_user_t)
    (hcb : h.query.free_cb = .decref_user_object) (hdata : h.query.data = .user p)
    (huser : h.user_heap[p]? = some user) (href : user.ref ≠ 0) :
    query_free h =
      .ok { h with user_heap := h.user_heap.set p { user with ref := user.ref - 1 } } := by
  unfold query_free decref_user_object siridb_user_decref
  simp only [hcb, hdata, huser, if_neg href, bind_ok]

/-- C30, amended. When `grant` or `revoke` finds the user, whose access bits
are `a`, and the users cannot be written to file: the exit handler ends with
`SN_MSG_QUERY_ERROR` and the message "Could not write users to file!", and
the access bits of the user in memory keep the value the enter handler has
given them, `a ||| b` for grant and `a ^^^ (a &&& b)` for revoke with the mask
`b`, also after the query is freed; they are not set back to `a`. -/
theorem grant_revoke_save_failure (env : listener_env) (uenv : listener_users_env)
    (h : query_handle_t) (cell : siridb_node_t) (nodes : List siridb_node_t)
    (user_node : cleri_node_t) (p : UserPtr) (user : siridb_user_t) (access : List cleri_node_t)
    (hnodes : h.query.nodes = cell :: nodes)
    (hchild : cleri_child cell.node.children 1 = .ok user_node)
    (hget : siridb_users_get_user h.user_heap h.users (env.strx_extract_string user_node.str) =
      .ok (some p))
    (huser : h.user_heap[p]? = some user) (hdata : h.query.data = .children access)
    (hsave : ∀ user_heap : List siridb_user_t, uenv.siridb_users_save user_heap h.users = true) :
    (∃ hg he hf : query_handle_t,
      enter_grant_user_stmt env uenv h = .ok (hg, next_action nodes) ∧
      exit_grant_user_stmt uenv hg = .ok (he, .send_error .SN_MSG_QUERY_ERROR) ∧
      he.query.err_msg = "Could not write users to file!" ∧
      user_access_bit he p =
        some (user.access_bit ||| uenv.siridb_access_from_children access) ∧
      query_free he = .ok hf ∧
      user_access_bit hf p =
        some (user.access_bit ||| uenv.siridb_access_from_children access)) ∧
    (∃ hr he hf : query_handle_t,
      enter_revoke_user_stmt env uenv h = .ok (hr, next_action nodes) ∧
      exit_revoke_user_stmt uenv hr = .ok (he, .send_error .SN_MSG_QUERY_ERROR) ∧
      he.query.err_msg = "Could not write users to file!" ∧
      user_access_bit he p =
        some (user.access_bit ^^^
          (user.access_bit &&& uenv.siridb_access_from_children access)) ∧
      query_free he = .ok hf ∧
      user_access_bit hf p =
        some (user.access_bit ^^^
          (user.access_bit &&& uenv.siridb_access_from_children access))) := by
  have hset : ∀ new : siridb_user_t, (h.user_heap.set p new)[p]? = some new := by
    intro new
    rw [user_heap_set_getElem? _ p p user _ huser, if_pos rfl]
  constructor
  · refine ⟨_, _, _,
      enter_grant_user_stmt_spec env uenv h cell nodes user_node p user access hnodes hchild
        hget huser hdata,
      exit_users_save_failure uenv _ _ (hsave _), rfl, ?_,
      query_free_user _ p _ rfl rfl (hset _) (Nat.succ_ne_zero _), ?_⟩
    · unfold user_access_bit
      simp only
      rw [hset]
      rfl
    · unfold user_access_bit
      simp only [List.set_set]
      rw [hset]
      rfl
  · refine ⟨_, _, _,
      enter_revoke_user_stmt_spec env uenv h cell nodes user_node p user access hnodes hchild
        hget huser hdata,
      exit_users_save_failure uenv _ _ (hsave _), rfl, ?_,
      query_free_user _ p _ rfl rfl (hset _) (Nat.succ_ne_zero _), ?_⟩
    · unfold user_access_bit
      simp only
      rw [hset]
      rfl
    · unfold user_access_bit
      simp only [List.set_set]
      rw [hset]
      rfl

/-- C30, witness: `grant` of the mask 130 to sasha, whose bits are 32, when
the users cannot be written. -/
theorem grant_revoke_save_failure_witness :
    ∃ hg he : query_handle_t,
      enter_grant_user_stmt sample_listener_env sample_users_env_no_save sample_grant_handle =
        .ok (hg, .next_cb 32) ∧
      exit_grant_user_stmt sample_users_env_no_save hg =
        .ok (he, .send_error .SN_MSG_QUERY_ERROR) ∧
      user_access_bit he 1 = some 162 := by
  obtain ⟨⟨hg, he, _, h1, h2, _, h4, _⟩, _⟩ :=
    grant_revoke_save_failure sample_listener_env sample_users_env_no_save sample_grant_handle
      _ _ _ 1 _ _ rfl rfl rfl rfl rfl (fun _ => rfl)
  exact ⟨hg, he, h1, h2, h4⟩

/-! ## Query listener: references taken and released -/

theorem SIRIPARSER_NEXT_NODE_keeps (h h1 : query_handle_t) (a : listener_action_t)
    (hr : SIRIPARSER_NEXT_NODE h = .ok (h1, a)) :
    h1.user_heap = h.user_heap ∧ h1.server_ref = h.server_ref ∧
    h1.query.data = h.query.data ∧ h1.query.free_cb = h.query.free_cb ∧
    (a = .send_query_result ∨ ∃ cb1, a = .next_cb cb1) := by
  unfold SIRIPARSER_NEXT_NODE at hr
  cases hn : h.query.nodes with
  | nil => rw [hn] at hr; cases hr
  | cons c cs =>
    rw [hn] at hr
    cases cs with
    | nil => cases hr; exact ⟨rfl, rfl, rfl, rfl, Or.inl rfl⟩
    | cons c1 cs1 => cases hr; exact ⟨rfl, rfl, rfl, rfl, Or.inr ⟨_, rfl⟩⟩

theorem ref_count_eq (h h1 : query_handle_t) (hu : h1.user_heap = h.user_heap)
    (hs : h1.server_ref = h.server_ref) (o : UserPtr ⊕ ServerPtr) :
    ref_count h1 o = ref_count h o := by
  unfold ref_count
  rw [hu, hs]

theorem ref_count_user_set (h h1 : query_handle_t) (p : UserPtr) (user new : siridb_user_t)
    (huser : h.user_heap[p]? = some user) (hu : h1.user_heap = h.user_heap.set p new)
    (hs : h1.server_ref = h.server_ref) (o : UserPtr ⊕ ServerPtr) :
    ref_count h1 o = if o = .inl p then new.ref else ref_count h o := by
  cases o with
  | inl q =>
    unfold ref_count
    simp only [hu, user_heap_set_getElem? _ p q user new huser]
    by_cases hq : p = q
    · subst hq; simp
    · have hne : (Sum.inl q : UserPtr ⊕ ServerPtr) ≠ Sum.inl p := fun e => hq (Sum.inl.inj e).symm
      rw [if_neg hq, if_neg hne]
  | inr q =>
    unfold ref_count
    simp only [hs]
    rw [if_neg (by simp)]

theorem ref_count_server_set (h h1 : query_handle_t) (p : ServerPtr) (ref new : Nat)
    (href : h.server_ref[p]? = some ref) (hu : h1.user_heap = h.user_heap)
    (hs : h1.server_ref = h.server_ref.set p new) (o : UserPtr ⊕ ServerPtr) :
    ref_count h1 o = if o = .inr p then new else ref_count h o := by
  have hlt : p < h.server_ref.length := by
    by_contra hn
    rw [List.getElem?_eq_none (Nat.le_of_not_lt hn)] at href
    cases href
  cases o with
  | inl q =>
    unfold ref_count
    simp only [hu]
    rw [if_neg (by simp)]
  | inr q =>
    unfold ref_count
    simp only [hs, List.getD_eq_getElem?_getD, List.getElem?_set]
    by_cases hq : p = q
    · subst hq; simp [hlt]
    · have hne : (Sum.inr q : UserPtr ⊕ ServerPtr) ≠ Sum.inr p := fun e => hq (Sum.inr.inj e).symm
      rw [if_neg hq, if_neg hne]

theorem ref_count_user (h : query_handle_t) (p : UserPtr) (user : siridb_user_t)
    (huser : h.user_heap[p]? = some user) : ref_count h (.inl p) = user.ref := by
  simp only [ref_count, huser]

theorem ref_count_server (h : query_handle_t) (p : ServerPtr) (ref : Nat)
    (href : h.server_ref[p]? = some ref) : ref_count h (.inr p) = ref := by
  simp only [ref_count, List.getD_eq_getElem?_getD, href, Option.getD_some]

/-- The access check of the master: the handler ends with the error and has
changed the message only, or it is its rest. -/
theorem SIRIPARSER_MASTER_CHECK_ACCESS_cases (env : listener_env) (h : query_handle_t)
    (access_bit : Nat) (k : query_handle_t → Except Fault (query_handle_t × listener_action_t))
    (r : query_handle_t × listener_action_t)
    (hr : SIRIPARSER_MASTER_CHECK_ACCESS env h access_bit k = .ok r) :
    (∃ msg : String, r = ({ h with query := { h.query with err_msg := msg } },
        .send_error .SN_MSG_QUERY_ERROR)) ∨ k h = .ok r := by
  unfold SIRIPARSER_MASTER_CHECK_ACCESS at hr
  split at hr
  · split at hr
    · cases hr
    · split at hr
      · unfold siridb_send_error at hr
        cases hr
        exact Or.inl ⟨_, rfl⟩
      · exact Or.inr hr
  · exact Or.inr hr

/-- A handler that ends with a message and `siridb_send_error`. -/
theorem enter_step_error (h h1 : query_handle_t) (a : listener_action_t) (msg : String)
    (hr : ((h1, a) : query_handle_t × listener_action_t) =
      ({ h with query := { h.query with err_msg := msg } }, .send_error .SN_MSG_QUERY_ERROR)) :
    (∃ tp, a = .send_error tp) ∧ h1.query.free_cb = h.query.free_cb ∧
      ∀ o : UserPtr ⊕ ServerPtr, ref_count h1 o = ref_count h o := by
  cases hr
  exact ⟨⟨_, rfl⟩, rfl, fun o => ref_count_eq _ _ rfl rfl o⟩

theorem enter_alter_server_step (env : listener_env) : enter_step (enter_alter_server env) := by
  intro h h1 a hr
  unfold enter_alter_server at hr
  rcases SIRIPARSER_MASTER_CHECK_ACCESS_cases env h _ _ _ hr with ⟨msg, he⟩ | hk
  · exact Or.inl (enter_step_error h h1 a msg he)
  · obtain ⟨node, _, hk⟩ := bind_eq_ok _ _ _ hk
    obtain ⟨n1, _, hk⟩ := bind_eq_ok _ _ _ hk
    obtain ⟨server_node, _, hk⟩ := bind_eq_ok _ _ _ hk
    obtain ⟨server, _, hk⟩ := bind_eq_ok _ _ _ hk
    cases server with
    | none =>
      unfold siridb_send_error at hk
      exact Or.inl (enter_step_error h h1 a _ (Except.ok.inj hk).symm)
    | some p =>
      simp only at hk
      obtain ⟨server_ref, hinc, hk⟩ := bind_eq_ok _ _ _ hk
      obtain ⟨hu, hs, hd, hf, ha⟩ := SIRIPARSER_NEXT_NODE_keeps _ _ _ hk
      unfold siridb_server_incref at hinc
      cases href : h.server_ref[p]? with
      | none => rw [href] at hinc; cases hinc
      | some ref =>
        rw [href] at hinc
        cases hinc
        refine Or.inr ⟨ha, .inr p, hd, hf, fun o => ?_⟩
        rw [ref_count_server_set h h1 p ref (ref + 1) href hu hs o]
        by_cases ho : o = .inr p
        · rw [if_pos ho, if_pos ho, ho, ref_count_server h p ref href]
        · rw [if_neg ho, if_neg ho]; rfl

/-- After a reference to the user at `p` is taken. -/
theorem ref_held_user (h h1 : query_handle_t) (p : UserPtr) (user new : siridb_user_t)
    (huser : h.user_heap[p]? = some user) (hu : h1.user_heap = h.user_heap.set p new)
    (hs : h1.server_ref = h.server_ref) (hnew : new.ref = user.ref + 1)
    (hd : h1.query.data = .user p) (hf : h1.query.free_cb = .decref_user_object) :
    ref_held (.inl p) h h1 := by
  refine ⟨hd, hf, fun o => ?_⟩
  rw [ref_count_user_set h h1 p user new huser hu hs o]
  by_cases ho : o = .inl p
  · rw [if_pos ho, if_pos ho, ho, ref_count_user h p user huser, hnew]
  · rw [if_neg ho, if_neg ho]; rfl

theorem siridb_user_incref_eq_ok (user_heap heap1 : List siridb_user_t) (p : UserPtr)
    (hinc : siridb_user_incref user_heap p = .ok heap1) :
    ∃ user, user_heap[p]? = some user ∧
      heap1 = user_heap.set p { user with ref := user.ref + 1 } := by
  unfold siridb_user_incref at hinc
  cases hu : user_heap[p]? with
  | none => rw [hu] at hinc; cases hinc
  | some user => rw [hu] at hinc; cases hinc; exact ⟨user, rfl, rfl⟩

theorem enter_alter_user_step (env : listener_env) : enter_step (enter_alter_user env) := by
  intro h h1 a hr
  unfold enter_alter_user at hr
  rcases SIRIPARSER_MASTER_CHECK_ACCESS_cases env h _ _ _ hr with ⟨msg, he⟩ | hk
  · exact Or.inl (enter_step_error h h1 a msg he)
  · obtain ⟨node, _, hk⟩ := bind_eq_ok _ _ _ hk
    obtain ⟨user_node, _, hk⟩ := bind_eq_ok _ _ _ hk
    obtain ⟨user, _, hk⟩ := bind_eq_ok _ _ _ hk
    cases user with
    | none =>
      unfold siridb_send_error at hk
      exact Or.inl (enter_step_error h h1 a _ (Except.ok.inj hk).symm)
    | some p =>
      simp only at hk
      obtain ⟨heap1, hinc, hk⟩ := bind_eq_ok _ _ _ hk
      obtain ⟨hu, hs, hd, hf, ha⟩ := SIRIPARSER_NEXT_NODE_keeps _ _ _ hk
      obtain ⟨user, huser, rfl⟩ := siridb_user_incref_eq_ok _ _ _ hinc
      exact Or.inr ⟨ha, .inl p, ref_held_user h h1 p user _ huser hu hs rfl hd hf⟩

theorem enter_grant_user_stmt_step (env : listener_env) (uenv : listener_users_env) :
    enter_step (enter_grant_user_stmt env uenv) := by
  intro h h1 a hr
  unfold enter_grant_user_stmt at hr
  obtain ⟨node, _, hk⟩ := bind_eq_ok _ _ _ hr
  obtain ⟨user_node, _, hk⟩ := bind_eq_ok _ _ _ hk
  obtain ⟨user, _, hk⟩ := bind_eq_ok _ _ _ hk
  cases user with
  | none =>
    unfold siridb_send_error at hk
    exact Or.inl (enter_step_error h h1 a _ (Except.ok.inj hk).symm)
  | some p =>
    simp only at hk
    split at hk
    · rename_i access user hdata huser
      obtain ⟨heap1, hinc, hk⟩ := bind_eq_ok _ _ _ hk
      obtain ⟨hu, hs, hd, hf, ha⟩ := SIRIPARSER_NEXT_NODE_keeps _ _ _ hk
      obtain ⟨user1, huser1, rfl⟩ := siridb_user_incref_eq_ok _ _ _ hinc
      rw [user_heap_set_getElem? _ p p user _ huser, if_pos rfl] at huser1
      cases huser1
      rw [List.set_set] at hu
      exact Or.inr ⟨ha, .inl p, ref_held_user h h1 p user _ huser hu hs rfl hd hf⟩
    · cases hk

theorem enter_revoke_user_stmt_step (env : listener_env) (uenv : listener_users_env) :
    enter_step (enter_revoke_user_stmt env uenv) := by
  intro h h1 a hr
  unfold enter_revoke_user_stmt at hr
  obtain ⟨node, _, hk⟩ := bind_eq_ok _ _ _ hr
  obtain ⟨user_node, _, hk⟩ := bind_eq_ok _ _ _ hk
  obtain ⟨user, _, hk⟩ := bind_eq_ok _ _ _ hk
  cases user with
  | none =>
    unfold siridb_send_error at hk
    exact Or.inl (enter_step_error h h1 a _ (Except.ok.inj hk).symm)
  | some p =>
    simp only at hk
    split at hk
    · rename_i access user hdata huser
      obtain ⟨heap1, hinc, hk⟩ := bind_eq_ok _ _ _ hk
      obtain ⟨hu, hs, hd, hf, ha⟩ := SIRIPARSER_NEXT_NODE_keeps _ _ _ hk
      obtain ⟨user1, huser1, rfl⟩ := siridb_user_incref_eq_ok _ _ _ hinc
      rw [user_heap_set_getElem? _ p p user _ huser, if_pos rfl] at huser1
      cases huser1
      rw [List.set_set] at hu
      exact Or.inr ⟨ha, .inl p, ref_held_user h h1 p user _ huser hu hs rfl hd hf⟩
    · cases hk

theorem enter_create_user_stmt_step (env : listener_env) :
    enter_step (enter_create_user_stmt env) := by
  intro h h1 a hr
  unfold enter_create_user_stmt at hr
  rcases SIRIPARSER_MASTER_CHECK_ACCESS_cases env h _ _ _ hr with ⟨msg, he⟩ | hk
  · exact Or.inl (enter_step_error h h1 a msg he)
  · simp only [siridb_user_new] at hk
    obtain ⟨heap1, hinc, hk⟩ := bind_eq_ok _ _ _ hk
    obtain ⟨hu, hs, hd, hf, ha⟩ := SIRIPARSER_NEXT_NODE_keeps _ _ _ hk
    obtain ⟨user1, huser1, rfl⟩ := siridb_user_incref_eq_ok _ _ _ hinc
    simp only [List.getElem?_concat_length, Option.some.injEq] at huser1
    subst huser1
    refine Or.inr ⟨ha, .inl h.user_heap.length, hd, hf, fun o => ?_⟩
    cases o with
    | inl q =>
      unfold ref_count
      simp only [hu, hs]
      rw [List.getElem?_set]
      by_cases hq : h.user_heap.length = q
      · subst hq
        simp
      · have hne : (Sum.inl q : UserPtr ⊕ ServerPtr) ≠ Sum.inl h.user_heap.length :=
          fun e => hq (Sum.inl.inj e).symm
        rw [if_neg hq, if_neg hne]
        by_cases hlt : (q : Nat) < h.user_heap.length
        · rw [List.getElem?_append_left hlt]; rfl
        · have hgt : h.user_heap.length < q := Nat.lt_of_le_of_ne (Nat.le_of_not_lt hlt) hq
          have e1 : (h.user_heap ++
              [({ username := none, access_bit := 0, ref := 0 } : siridb_user_t)])[q]? = none :=
            List.getElem?_eq_none (by simp; omega)
          have e2 : h.user_heap[q]? = none := List.getElem?_eq_none (by omega)
          rw [e1, e2]
    | inr q =>
      unfold ref_count
      simp only [hs]
      rw [if_neg (by simp)]
      rfl


/-- A handler that ends with `SIRIPARSER_NEXT_NODE` on a state that differs
from `h` in the query only, the object and the free call-back kept. -/
theorem later_step_next (hands_over : Bool) (h h0 h1 : query_handle_t) (a : listener_action_t)
    (hr : SIRIPARSER_NEXT_NODE h0 = .ok (h1, a))
    (hu : h0.user_heap = h.user_heap) (hs : h0.server_ref = h.server_ref)
    (hd : h0.query.data = h.query.data) (hf : h0.query.free_cb = h.query.free_cb) :
    (∀ o : UserPtr ⊕ ServerPtr, ref_count h1 o = ref_count h o) ∧
    h1.query.data = h.query.data ∧
    (h1.query.free_cb = h.query.free_cb ∨
      (hands_over = true ∧ h1.query.free_cb = .siridb_query_free)) ∧
    ∀ (tp : bp_query_t) (cb1 : promises_cb_t), a ≠ .query_forward tp cb1 := by
  obtain ⟨hu1, hs1, hd1, hf1, ha⟩ := SIRIPARSER_NEXT_NODE_keeps _ _ _ hr
  refine ⟨fun o => ref_count_eq _ _ (hu1.trans hu) (hs1.trans hs) o, hd1.trans hd,
    Or.inl (hf1.trans hf), fun tp cb1 e => ?_⟩
  rcases ha with ha | ⟨cb2, ha⟩ <;> rw [ha] at e <;> cases e

/-- A handler that ends with a message and `siridb_send_error`. -/
theorem later_step_error (hands_over : Bool) (h h1 : query_handle_t) (a : listener_action_t)
    (msg : String)
    (hr : siridb_send_error { h with query := { h.query with err_msg := msg } }
      .SN_MSG_QUERY_ERROR = .ok (h1, a)) :
    (∀ o : UserPtr ⊕ ServerPtr, ref_count h1 o = ref_count h o) ∧
    h1.query.data = h.query.data ∧
    (h1.query.free_cb = h.query.free_cb ∨
      (hands_over = true ∧ h1.query.free_cb = .siridb_query_free)) ∧
    ∀ (tp : bp_query_t) (cb1 : promises_cb_t), a ≠ .query_forward tp cb1 := by
  unfold siridb_send_error at hr
  cases hr
  exact ⟨fun o => ref_count_eq _ _ rfl rfl o, rfl, Or.inl rfl, fun tp cb1 e => by cases e⟩

theorem exit_users_save_step (uenv : listener_users_env) (fmt : String → String)
    (hands_over : Bool) : later_step hands_over (exit_users_save uenv fmt) := by
  intro h h1 a hr
  unfold exit_users_save at hr
  split at hr
  · exact later_step_error hands_over h h1 a _ hr
  · obtain ⟨user, _, hr⟩ := bind_eq_ok _ _ _ hr
    split at hr
    · cases hr
    · exact later_step_next hands_over h _ h1 a hr rfl rfl rfl rfl

theorem enter_set_password_step (env : listener_env) (uenv : listener_users_env)
    (hands_over : Bool) : later_step hands_over (enter_set_password env uenv) := by
  intro h h1 a hr
  unfold enter_set_password at hr
  obtain ⟨user, _, hr⟩ := bind_eq_ok _ _ _ hr
  obtain ⟨node, _, hr⟩ := bind_eq_ok _ _ _ hr
  obtain ⟨pw_node, _, hr⟩ := bind_eq_ok _ _ _ hr
  split at hr
  · exact later_step_error hands_over h h1 a _ hr
  · exact later_step_next hands_over h _ h1 a hr rfl rfl rfl rfl

theorem exit_set_log_level_step (uenv : listener_users_env) (hands_over : Bool) :
    later_step hands_over (exit_set_log_level uenv) := by
  intro h h1 a hr
  unfold exit_set_log_level at hr
  split at hr
  · obtain ⟨n0, _, hr⟩ := bind_eq_ok _ _ _ hr
    obtain ⟨n2, _, hr⟩ := bind_eq_ok _ _ _ hr
    obtain ⟨node, _, hr⟩ := bind_eq_ok _ _ _ hr
    obtain ⟨log_level, _, hr⟩ := bind_eq_ok _ _ _ hr
    exact later_step_next hands_over h _ h1 a hr rfl rfl rfl rfl
  · cases hr

theorem query_user_eq_ok (h : query_handle_t) (r : UserPtr × siridb_user_t)
    (hr : query_user h = .ok r) : h.query.data = .user r.1 ∧ h.user_heap[r.1]? = some r.2 := by
  unfold query_user at hr
  split at hr
  · rename_i p hd
    split at hr
    · rename_i user hu
      cases hr
      exact ⟨hd, hu⟩
    · cases hr
  · cases hr

/-- `exit_create_user_stmt` keeps the reference counts; when it succeeds the
free call-back is `siridb_query_free`. -/
theorem exit_create_user_stmt_step (env : listener_env) (uenv : listener_users_env) :
    later_step true (exit_create_user_stmt env uenv) := by
  intro h h1 a hr
  unfold exit_create_user_stmt at hr
  obtain ⟨user, hquser, hr⟩ := bind_eq_ok _ _ _ hr
  obtain ⟨hdata, huser⟩ := query_user_eq_ok h user hquser
  obtain ⟨node, _, hr⟩ := bind_eq_ok _ _ _ hr
  obtain ⟨user_node, _, hr⟩ := bind_eq_ok _ _ _ hr
  have hrefs : ∀ (h2 : query_handle_t),
      h2.user_heap = h.user_heap.set user.1
        { user.2 with username := some (env.strx_extract_string user_node.str) } →
      h2.server_ref = h.server_ref →
      ∀ o : UserPtr ⊕ ServerPtr, ref_count h2 o = ref_count h o := by
    intro h2 hu hs o
    rw [ref_count_user_set h h2 user.1 user.2 _ huser hu hs o]
    by_cases ho : o = .inl user.1
    · rw [if_pos ho, ho, ref_count_user h user.1 user.2 huser]
    · rw [if_neg ho]
  simp only at hr
  split at hr
  · unfold siridb_send_error at hr
    cases hr
    exact ⟨hrefs _ rfl rfl, rfl, Or.inl rfl, fun tp cb1 e => by cases e⟩
  · obtain ⟨hu1, hs1, hd1, hf1, ha⟩ := SIRIPARSER_NEXT_NODE_keeps _ _ _ hr
    refine ⟨hrefs h1 hu1 hs1, hd1, Or.inr ⟨rfl, hf1⟩, fun tp cb1 e => ?_⟩
    rcases ha with ha | ⟨cb2, ha⟩ <;> rw [ha] at e <;> cases e

/-- The enter handler of each statement of `incref_statements`. -/
theorem incref_statements_enter (env : listener_env) (uenv : listener_users_env)
    (stmt : listener_cb_t × List listener_cb_t × Bool)
    (hstmt : stmt ∈ incref_statements env uenv) : enter_step stmt.1 := by
  unfold incref_statements at hstmt
  simp only [List.mem_cons, List.mem_singleton, List.not_mem_nil, or_false] at hstmt
  rcases hstmt with e | e | e | e | e <;> subst e
  · exact enter_alter_server_step env
  · exact enter_alter_user_step env
  · exact enter_create_user_stmt_step env
  · exact enter_grant_user_stmt_step env uenv
  · exact enter_revoke_user_stmt_step env uenv

/-- The handlers that follow in each statement of `incref_statements`. -/
theorem incref_statements_later (env : listener_env) (uenv : listener_users_env)
    (stmt : listener_cb_t × List listener_cb_t × Bool)
    (hstmt : stmt ∈ incref_statements env uenv) (cb : listener_cb_t) (hcb : cb ∈ stmt.2.1) :
    later_step stmt.2.2 cb := by
  unfold incref_statements at hstmt
  simp only [List.mem_cons, List.mem_singleton, List.not_mem_nil, or_false] at hstmt
  rcases hstmt with e | e | e | e | e <;> subst e <;>
    simp only [List.mem_cons, List.mem_singleton, List.not_mem_nil, or_false] at hcb
  · subst hcb
    exact exit_set_log_level_step uenv false
  · rcases hcb with e | e <;> subst e
    · exact enter_set_password_step env uenv false
    · exact exit_users_save_step uenv _ false
  · rcases hcb with e | e <;> subst e
    · exact enter_set_password_step env uenv true
    · exact exit_create_user_stmt_step env uenv
  · rcases hcb with e | e <;> subst e
    · exact enter_set_password_step env uenv false
    · exact exit_users_save_step uenv _ false
  · subst hcb
    exact exit_users_save_step uenv _ false

/-- The free call-back of a query that holds a reference to `obj` gives the
reference back: the counts are those before it was taken. -/
theorem query_free_held (obj : UserPtr ⊕ ServerPtr) (h0 h : query_handle_t)
    (hheld : ref_held obj h0 h) :
    ∃ hf : query_handle_t, query_free h = .ok hf ∧ hf.query = h.query ∧
      ∀ o : UserPtr ⊕ ServerPtr, ref_count hf o = ref_count h0 o := by
  obtain ⟨hd, hf, ht⟩ := hheld
  cases obj with
  | inl p =>
    have hp := ht (.inl p)
    rw [if_pos rfl] at hp
    cases hu : h.user_heap[p]? with
    | none =>
      simp only [ref_count, hu] at hp
      omega
    | some user =>
      have href : user.ref = ref_count h0 (.inl p) + 1 := by
        rw [← hp, ref_count_user h p user hu]
      refine ⟨_, query_free_user h p user hf hd hu (by omega), rfl, fun o => ?_⟩
      rw [ref_count_user_set h
        { h with user_heap := h.user_heap.set p { user with ref := user.ref - 1 } } p user _ hu
        rfl rfl o]
      by_cases ho : o = .inl p
      · rw [if_pos ho, ho]
        simp only
        omega
      · rw [if_neg ho, ht o, if_neg ho]
        rfl
  | inr p =>
    have hp := ht (.inr p)
    rw [if_pos rfl] at hp
    cases hu : h.server_ref[p]? with
    | none =>
      simp only [ref_count, List.getD_eq_getElem?_getD, hu, Option.getD_none] at hp
      omega
    | some ref =>
      have href : ref = ref_count h0 (.inr p) + 1 := by
        rw [← hp, ref_count_server h p ref hu]
      have hne : ref ≠ 0 := by omega
      refine ⟨{ h with server_ref := h.server_ref.set p (ref - 1) }, ?_, rfl, fun o => ?_⟩
      · unfold query_free decref_server_object siridb_server_decref
        have hf1 : h.query.free_cb = .decref_server_object := hf
        have hd1 : h.query.data = .server p := hd
        simp only [hf1, hd1, hu, if_neg hne, bind_ok]
      · rw [ref_count_server_set h { h with server_ref := h.server_ref.set p (ref - 1) } p ref _
          hu rfl rfl o]
        by_cases ho : o = .inr p
        · rw [if_pos ho, ho]
          omega
        · rw [if_neg ho, ht o, if_neg ho]
          rfl

/-- The free call-back `siridb_query_free` releases the query only. -/
theorem query_free_plain (h : query_handle_t) (hf : h.query.free_cb = .siridb_query_free) :
    query_free h = .ok h := by
  unfold query_free
  rw [hf]

/-- A run of handlers that follow, from a state in which the query holds a
reference to `obj` or has handed it over: at the end the reference is given
back, or it was handed over and is still counted. -/
theorem query_run_later (hands_over : Bool) (obj : UserPtr ⊕ ServerPtr) (h0 : query_handle_t)
    (cbs : List listener_cb_t) (hcbs : ∀ cb ∈ cbs, later_step hands_over cb) :
    ∀ h hf : query_handle_t,
      (ref_held obj h0 h ∨
        (hands_over = true ∧ h.query.free_cb = .siridb_query_free ∧ ref_taken obj h0 h)) →
      query_run cbs h = .ok (some hf) →
      (∀ o : UserPtr ⊕ ServerPtr, ref_count hf o = ref_count h0 o) ∨
      (hands_over = true ∧ hf.query.free_cb = .siridb_query_free ∧ ref_taken obj h0 hf) := by
  have hend : ∀ h hf : query_handle_t,
      (ref_held obj h0 h ∨
        (hands_over = true ∧ h.query.free_cb = .siridb_query_free ∧ ref_taken obj h0 h)) →
      ((query_free h).bind fun h => (.ok (some h) : Except Fault (Option query_handle_t))) =
        .ok (some hf) →
      (∀ o : UserPtr ⊕ ServerPtr, ref_count hf o = ref_count h0 o) ∨
      (hands_over = true ∧ hf.query.free_cb = .siridb_query_free ∧ ref_taken obj h0 hf) := by
    intro h hf hinv hrun
    rcases hinv with hheld | ⟨hh, hfree, ht⟩
    · obtain ⟨hf1, hq, _, hrefs⟩ := query_free_held obj h0 h hheld
      rw [hq] at hrun
      cases hrun
      exact Or.inl hrefs
    · rw [query_free_plain h hfree] at hrun
      cases hrun
      exact Or.inr ⟨hh, hfree, ht⟩
  induction cbs with
  | nil =>
    intro h hf hinv hrun
    exact hend h hf hinv hrun
  | cons cb cbs ih =>
    intro h hf hinv hrun
    unfold query_run at hrun
    obtain ⟨r, hcb, hrun⟩ := bind_eq_ok _ _ _ hrun
    obtain ⟨h1, a⟩ := r
    obtain ⟨hrefs, hd, hfree, hfw⟩ := hcbs cb (List.mem_cons_self _ _) h h1 a hcb
    have hinv1 : ref_held obj h0 h1 ∨
        (hands_over = true ∧ h1.query.free_cb = .siridb_query_free ∧ ref_taken obj h0 h1) := by
      rcases hinv with ⟨hd0, hf0, ht0⟩ | ⟨hh, hf0, ht0⟩
      · rcases hfree with hfree | ⟨hh, hfree⟩
        · exact Or.inl ⟨hd.trans hd0, hfree.trans hf0, fun o => (hrefs o).trans (ht0 o)⟩
        · exact Or.inr ⟨hh, hfree, fun o => (hrefs o).trans (ht0 o)⟩
      · rcases hfree with hfree | ⟨_, hfree⟩
        · exact Or.inr ⟨hh, hfree.trans hf0, fun o => (hrefs o).trans (ht0 o)⟩
        · exact Or.inr ⟨hh, hfree, fun o => (hrefs o).trans (ht0 o)⟩
    cases a with
    | next_cb cb1 =>
      exact ih (fun cb2 h2 => hcbs cb2 (List.mem_cons_of_mem _ h2)) h1 hf hinv1 hrun
    | send_query_result => exact hend h1 hf hinv1 hrun
    | send_error tp => exact hend h1 hf hinv1 hrun
    | query_forward tp cb1 => exact absurd rfl (hfw tp cb1)


/-- C21, counterexample. `create user` on the master: `enter_create_user_stmt`
makes the user object at the address 3, takes a reference (the count is 1)
and installs `decref_user_object`; `exit_create_user_stmt` adds the user to
the list and sets the free call-back to `siridb_query_free`. The query
completes and is freed: the count of the user is still 1, the reference was
not given back by the free call-back. -/
theorem create_user_keeps_reference :
    ((enter_create_user_stmt sample_listener_env sample_create_user_handle).bind fun r =>
      .ok (r.2, r.1.query.free_cb, ref_count r.1 (.inl 3))) =
      .ok (.next_cb 42, .decref_user_object, 1) ∧
    ((query_run
        [enter_create_user_stmt sample_listener_env,
          exit_create_user_stmt sample_listener_env sample_users_env]
        sample_create_user_handle).bind fun hf =>
      .ok (hf.map fun h => (h.query.free_cb, ref_count h (.inl 3), h.users))) =
      .ok (some (.siridb_query_free, 1, [0, 1, 2, 3])) :=
  ⟨rfl, rfl⟩

/-- C21, amended. For each statement of `incref_statements` (alter server,
alter user, create user, grant, revoke), a query whose free call-back is
`siridb_query_free`, and each path of handlers of the statement after its
enter handler, up to the end of the query, where it is freed once via its
free call-back: when the enter handler ends with an error it has taken no
reference, and the free call-back releases none; when it goes on it has taken
one reference to one object, bound to `query->data`, and at the end every
reference count is what it was before the statement, the reference was given
back exactly once, unless the statement is `create user` and
`exit_create_user_stmt` has set the free call-back to `siridb_query_free`:
then the reference is not given back, the user keeps it. -/
theorem refcount_balance (env : listener_env) (uenv : listener_users_env)
    (stmt : listener_cb_t × List listener_cb_t × Bool)
    (hstmt : stmt ∈ incref_statements env uenv) (cbs : List listener_cb_t)
    (hcbs : ∀ cb ∈ cbs, cb ∈ stmt.2.1) (h hf : query_handle_t)
    (hfree : h.query.free_cb = .siridb_query_free)
    (hrun : query_run (stmt.1 :: cbs) h = .ok (some hf)) :
    ∃ (h1 : query_handle_t) (a : listener_action_t), stmt.1 h = .ok (h1, a) ∧
      (((∃ tp, a = .send_error tp) ∧
          (∀ o : UserPtr ⊕ ServerPtr, ref_count h1 o = ref_count h o) ∧
          query_free h1 = .ok h1 ∧ hf = h1) ∨
        ((∀ tp, a ≠ .send_error tp) ∧
          ∃ obj : UserPtr ⊕ ServerPtr, ref_held obj h h1 ∧
            ((∀ o : UserPtr ⊕ ServerPtr, ref_count hf o = ref_count h o) ∨
              (stmt.2.2 = true ∧ hf.query.free_cb = .siridb_query_free ∧
                ref_taken obj h hf)))) := by
  unfold query_run at hrun
  obtain ⟨r, hcb, hrun⟩ := bind_eq_ok _ _ _ hrun
  obtain ⟨h1, a⟩ := r
  refine ⟨h1, a, hcb, ?_⟩
  have hlater : ∀ cb ∈ cbs, later_step stmt.2.2 cb :=
    fun cb hcb1 => incref_statements_later env uenv stmt hstmt cb (hcbs cb hcb1)
  rcases incref_statements_enter env uenv stmt hstmt h h1 a hcb with
    ⟨⟨tp, ha⟩, hf1, hrefs⟩ | ⟨ha, obj, hheld⟩
  · subst ha
    have hq := query_free_plain h1 (hf1.trans hfree)
    simp only [hq, bind_ok] at hrun
    cases hrun
    exact Or.inl ⟨⟨tp, rfl⟩, hrefs, hq, rfl⟩
  · refine Or.inr ⟨fun tp e => ?_, obj, hheld, ?_⟩
    · rcases ha with ha | ⟨cb1, ha⟩ <;> rw [ha] at e <;> cases e
    · rcases ha with ha | ⟨cb1, ha⟩
      · subst ha
        exact query_run_later stmt.2.2 obj h [] (fun cb hcb1 => absurd hcb1 (List.not_mem_nil cb))
          h1 hf (Or.inl hheld) hrun
      · subst ha
        exact query_run_later stmt.2.2 obj h cbs hlater h1 hf (Or.inl hheld) hrun

/-- C21, witness: `grant` to the user sasha, `enter_grant_user_stmt` and then
`exit_grant_user_stmt`; at the end every reference count is as before. -/
theorem refcount_balance_witness :
    ∃ hf : query_handle_t,
      query_run
        [enter_grant_user_stmt sample_listener_env sample_users_env,
          exit_grant_user_stmt sample_users_env] sample_grant_handle = .ok (some hf) ∧
      ∀ o : UserPtr ⊕ ServerPtr, ref_count hf o = ref_count sample_grant_handle o := by
  obtain ⟨hf, hrun⟩ : ∃ hf : query_handle_t,
      query_run
        [enter_grant_user_stmt sample_listener_env sample_users_env,
          exit_grant_user_stmt sample_users_env] sample_grant_handle = .ok (some hf) :=
    ⟨_, rfl⟩
  refine ⟨hf, hrun, ?_⟩
  obtain ⟨h1, a, _, hcase⟩ :=
    refcount_balance sample_listener_env sample_users_env
      (enter_grant_user_stmt sample_listener_env sample_users_env,
        [enter_set_password sample_listener_env sample_users_env,
          exit_grant_user_stmt sample_users_env], false)
      (List.mem_cons_of_mem _ (List.mem_cons_of_mem _ (List.mem_cons_of_mem _
        (List.mem_cons_self _ _))))
      [exit_grant_user_stmt sample_users_env]
      (fun cb hcb => List.mem_singleton.1 hcb ▸ List.mem_cons_of_mem _ (List.mem_cons_self _ _))
      sample_grant_handle hf rfl hrun
  rcases hcase with ⟨_, hrefs, _, rfl⟩ | ⟨_, obj, _, hrefs | ⟨hfalse, _⟩⟩
  · exact hrefs
  · exact hrefs
  · cases hfalse

/-! ## Query listener: drop of a shard that is not there -/

theorem imap64_pop_unknown (imap : List (Nat × ShardPtr)) (id : Nat)
    (hid : ∀ e ∈ imap, e.1 ≠ id) : imap64_pop imap id = (none, imap) := by
  unfold imap64_pop
  have hnone : imap.find? (fun e => e.1 == id) = none := by
    rw [List.find?_eq_none]
    intro e he
    simpa using hid e he
  rw [hnone]

/-- C22. `exit_drop_shard_stmt` for a shard id that is not a key of the index
`siridb->shards`, on a state with a packer and a cursor that is not through:
the handler returns, it adds `success_msg` and the message "Shard '<id>' is
dropped successfully." with the id to the packer and moves to the next node
(it sends no error); the index of the shards, the shard objects with their
flags, the series, the state of the statement and the error message are as
they were. The same statement again on the state that is left gives the same
state and the same message. -/
theorem exit_drop_shard_stmt_unknown (senv : listener_shards_env) (s : shard_handle_t)
    (cell : siridb_node_t) (nodes : List siridb_node_t) (shard_id_node : cleri_node_t)
    (packer : qp_packer_t)
    (hnodes : s.handle.query.nodes = cell :: nodes)
    (hchild : cleri_child cell.node.children 1 = .ok shard_id_node)
    (hpacker : s.handle.query.packer = some packer)
    (hid : ∀ e ∈ s.shards,
      e.1 ≠ (int64_wrap (senv.atoll shard_id_node.str) % 2 ^ 64).toNat) :
    ∃ s1 : shard_handle_t,
      exit_drop_shard_stmt senv s = .ok (s1, next_action nodes) ∧
      (∀ tp, next_action nodes ≠ .send_error tp) ∧
      s1.handle.query.packer = some (packer ++
        [.raw "success_msg",
          .str ("Shard '" ++ toString (int64_wrap (senv.atoll shard_id_node.str)) ++
            "' is dropped successfully.")]) ∧
      s1.handle.query.nodes = nodes ∧
      s1.shards = s.shards ∧ s1.shard_heap = s.shard_heap ∧
      s1.handle.siridb = s.handle.siridb ∧
      s1.handle.query.data = s.handle.query.data ∧
      s1.handle.query.err_msg = s.handle.query.err_msg ∧
      exit_drop_shard_stmt senv { s1 with handle := { s1.handle with query := s.handle.query } } =
        .ok (s1, next_action nodes) := by
  have key : exit_drop_shard_stmt senv s =
      .ok ({ s with
          handle := { s.handle with
            query := { s.handle.query with
              nodes := nodes
              packer := some (packer ++
                [.raw "success_msg",
                  .str ("Shard '" ++ toString (int64_wrap (senv.atoll shard_id_node.str)) ++
                    "' is dropped successfully.")]) } } },
        next_action nodes) := by
    unfold exit_drop_shard_stmt
    simp only [query_node, hnodes, bind_ok, hchild, imap64_pop_unknown _ _ hid, qp_add, hpacker,
      QP_ADD_SUCCESS]
    rw [SIRIPARSER_NEXT_NODE_cons _ cell nodes rfl]
    rfl
  refine ⟨_, key, ?_, rfl, rfl, rfl, rfl, rfl, rfl, rfl, ?_⟩
  · intro tp e
    cases nodes <;> cases e
  · exact key

/-- C22, witness: `drop shard 999` on a server that holds the shards 7 and
8. -/
theorem exit_drop_shard_stmt_unknown_witness :
    ∃ s1 : shard_handle_t,
      exit_drop_shard_stmt sample_shards_env sample_drop_shard_handle =
        .ok (s1, .send_query_result) ∧
      s1.handle.query.packer = some
        [.QP_MAP_OPEN, .raw "success_msg", .str "Shard '999' is dropped successfully."] ∧
      s1.shards = [(7, 0), (8, 1)] := by
  obtain ⟨s1, h1, _, h3, _, h5, _⟩ :=
    exit_drop_shard_stmt_unknown sample_shards_env sample_drop_shard_handle _ [] _ _ rfl rfl rfl
      (by decide)
  exact ⟨s1, h1, h3.trans rfl, h5⟩

/-! ## Query listener: list pools -/

/-- The loop of `exit_list_pools_stmt` when every pool it walks is there: the
rows of the first `limit - n` pools that satisfy the where expression. -/
theorem list_pools_loop_spec (env : listener_env) (penv : listener_pools_env) (siridb : siridb_t)
    (pools : siridb_pools_t) (props : List Nat) (where_expr : Option cexpr_t) (limit : Nat) :
    ∀ (todo pid n : Nat), (∀ q : Nat, pid ≤ q → q < pid + todo → pools.pool[q]? ≠ none) →
      list_pools_loop env penv siridb pools props where_expr limit todo pid n =
        .ok ((((List.range' pid todo).filter fun q =>
            list_pools_where penv where_expr (list_pools_walker penv siridb pools q)).take
              (limit - n)).flatMap fun q =>
            list_pools_row env penv props (list_pools_walker penv siridb pools q)) := by
  intro todo
  induction todo with
  | zero =>
    intro pid n _
    simp only [list_pools_loop, List.range'_zero, List.filter_nil, List.take_nil,
      List.flatMap_nil]
  | succ todo ih =>
    intro pid n hpool
    unfold list_pools_loop
    by_cases hn : n < limit
    · rw [if_pos hn]
      cases hp : pools.pool[pid]? with
      | none => exact absurd hp (hpool pid (Nat.le_refl _) (by omega))
      | some pool =>
        have hw : list_pools_walker penv siridb pools pid =
            { pid := pid, servers := pool.len, series := penv.series_len siridb } := by
          simp only [list_pools_walker, hp]
        have hrest : ∀ q : Nat, pid + 1 ≤ q → q < pid + 1 + todo → pools.pool[q]? ≠ none :=
          fun q h1 h2 => hpool q (by omega) (by omega)
        simp only [← hw]
        rw [List.range'_succ, List.filter_cons]
        by_cases hsat : list_pools_where penv where_expr (list_pools_walker penv siridb pools pid)
            = true
        · rw [if_pos hsat, if_pos hsat, ih (pid + 1) (n + 1) hrest]
          have hl : limit - n = (limit - (n + 1)) + 1 := by omega
          rw [hl, List.take_succ_cons, List.flatMap_cons]
          rfl
        · rw [if_neg hsat, if_neg hsat, ih (pid + 1) n hrest]
    · rw [if_neg hn]
      have hl : limit - n = 0 := by omega
      rw [hl]
      rfl

theorem list_pools_value_length (env : listener_env) (penv : listener_pools_env)
    (wpool : siridb_pool_walker_t) (gid : Nat)
    (hgid : gid = env.CLERI_GID_K_POOL ∨ gid = penv.CLERI_GID_K_SERVERS ∨
      gid = penv.CLERI_GID_K_SERIES) :
    (list_pools_value env penv wpool gid).length = 1 := by
  unfold list_pools_value
  split
  · rfl
  · split
    · rfl
    · split
      · rfl
      · rename_i h1 h2 h3
        rcases hgid with e | e | e
        · exact absurd e h1
        · exact absurd e h2
        · exact absurd e h3

theorem list_pools_values_length (env : listener_env) (penv : listener_pools_env)
    (wpool : siridb_pool_walker_t) (props : List Nat)
    (hprops : ∀ gid ∈ props, gid = env.CLERI_GID_K_POOL ∨ gid = penv.CLERI_GID_K_SERVERS ∨
      gid = penv.CLERI_GID_K_SERIES) :
    (props.flatMap (list_pools_value env penv wpool)).length = props.length := by
  induction props with
  | nil => rfl
  | cons gid props ih =>
    rw [List.flatMap_cons, List.length_append,
      list_pools_value_length env penv wpool gid (hprops gid (List.mem_cons_self _ _)),
      ih (fun g hg => hprops g (List.mem_cons_of_mem _ hg)), List.length_cons]
    omega

/-- The run of `exit_list_pools_stmt` in terms of its loop and its columns. -/
theorem exit_list_pools_stmt_run (env : listener_env) (penv : listener_pools_env)
    (h : query_handle_t) (qlist : query_list_t) (packer : qp_packer_t) (cell : siridb_node_t)
    (nodes : List siridb_node_t) (pools : siridb_pools_t)
    (hdata : h.query.data = .q_list qlist) (hpacker : h.query.packer = some packer)
    (hnodes : h.query.nodes = cell :: nodes) (hpools : h.siridb.pools = some pools)
    (hpool : ∀ pid : Nat, pid < pools.len → pools.pool[pid]? ≠ none) :
    exit_list_pools_stmt env penv h =
      .ok ({ h with
          query := { h.query with
            nodes := nodes
            data := .q_list { qlist with props := some (list_pools_columns env penv qlist.props).2 }
            packer := some (packer ++
              ((list_pools_columns env penv qlist.props).1 ++
                [.QP_ARRAY_CLOSE, .raw "pools", .QP_ARRAY_OPEN]) ++
              (((((List.range pools.len).filter fun q =>
                  list_pools_where penv qlist.where_expr
                    (list_pools_walker penv h.siridb pools q)).take qlist.limit).flatMap
                  fun pid =>
                list_pools_row env penv (list_pools_columns env penv qlist.props).2
                  (list_pools_walker penv h.siridb pools pid)) ++ [.QP_ARRAY_CLOSE])) } },
        next_action nodes) := by
  unfold exit_list_pools_stmt
  simp only [hdata, qp_add, hpacker, bind_ok, hpools]
  rw [list_pools_loop_spec env penv h.siridb pools _ qlist.where_expr qlist.limit pools.len 0 0
    (fun q _ hq => hpool q (by omega))]
  simp only [bind_ok, Nat.sub_zero]
  refine (SIRIPARSER_NEXT_NODE_cons _ cell nodes ?_).trans ?_
  · exact hnodes
  · simp only [List.range_eq_range']

/-- The row of a pool holds one value for each column, in the order of the
columns, when the columns are columns of a pool. -/
theorem list_pools_row_spec (env : listener_env) (penv : listener_pools_env)
    (wpool : siridb_pool_walker_t) (columns : List Nat)
    (hcolumns : ∀ gid ∈ columns, gid = env.CLERI_GID_K_POOL ∨
      gid = penv.CLERI_GID_K_SERVERS ∨ gid = penv.CLERI_GID_K_SERIES) :
    list_pools_row env penv columns wpool =
      [.QP_ARRAY_OPEN] ++ columns.map (spec_pools_value env penv wpool) ++
        [.QP_ARRAY_CLOSE] := by
  unfold list_pools_row
  congr 2
  induction columns with
  | nil => rfl
  | cons gid columns ih =>
    rw [List.flatMap_cons, List.map_cons, ih (fun g hg => hcolumns g (List.mem_cons_of_mem _ hg))]
    have hgid := hcolumns gid (List.mem_cons_self _ _)
    unfold list_pools_value spec_pools_value
    by_cases h1 : gid = env.CLERI_GID_K_POOL
    · rw [if_pos h1, if_pos h1]; rfl
    · rw [if_neg h1, if_neg h1]
      by_cases h2 : gid = penv.CLERI_GID_K_SERVERS
      · rw [if_pos h2, if_pos h2]; rfl
      · rw [if_neg h2, if_neg h2]
        have h3 : gid = penv.CLERI_GID_K_SERIES := by
          rcases hgid with e | e | e
          · exact absurd e h1
          · exact absurd e h2
          · exact e
        rw [if_pos h3]; rfl

/-- C25. `exit_list_pools_stmt` on a list state, with a packer, a cursor that
is not through and every pool of the pool set there, when the columns of the
statement are columns of a pool. With `columns` the captured columns, or
`pool`, `servers`, `series` when none were captured, the handler returns; to
the packer it adds the names `pool`, `servers`, `series` if no columns were
captured, the end of the columns, the key `pools` and an array with one row
for each of the first `min limit m` pools among the `m` pools that satisfy the
where expression (all pools without one), in increasing pool id; a row is an
array with exactly one value for each column, in the order of `columns`: the
pool id, the number of servers or the number of series of the pool. The list
state keeps `columns`. -/
theorem exit_list_pools_stmt_spec (env : listener_env) (penv : listener_pools_env)
    (h : query_handle_t) (qlist : query_list_t) (packer : qp_packer_t) (cell : siridb_node_t)
    (nodes : List siridb_node_t) (pools : siridb_pools_t) (columns : List Nat)
    (hdata : h.query.data = .q_list qlist) (hpacker : h.query.packer = some packer)
    (hnodes : h.query.nodes = cell :: nodes) (hpools : h.siridb.pools = some pools)
    (hpool : ∀ pid : Nat, pid < pools.len → pools.pool[pid]? ≠ none)
    (hcolumns : columns =
      match qlist.props with
      | some props => props
      | none => [env.CLERI_GID_K_POOL, penv.CLERI_GID_K_SERVERS, penv.CLERI_GID_K_SERIES])
    (hgids : ∀ gid ∈ columns, gid = env.CLERI_GID_K_POOL ∨ gid = penv.CLERI_GID_K_SERVERS ∨
      gid = penv.CLERI_GID_K_SERIES) :
    exit_list_pools_stmt env penv h =
      .ok ({ h with
          query := { h.query with
            nodes := nodes
            data := .q_list { qlist with props := some columns }
            packer := some (packer ++
              ((if qlist.props = none then [.raw "pool", .raw "servers", .raw "series"]
                else []) ++
                [.QP_ARRAY_CLOSE, .raw "pools", .QP_ARRAY_OPEN]) ++
              ((((spec_pools_matching penv h.siridb pools qlist.where_expr).take
                  qlist.limit).flatMap fun pid =>
                [.QP_ARRAY_OPEN] ++
                  columns.map
                    (spec_pools_value env penv (list_pools_walker penv h.siridb pools pid)) ++
                  [.QP_ARRAY_CLOSE]) ++
                [.QP_ARRAY_CLOSE])) } },
        next_action nodes) ∧
    ((spec_pools_matching penv h.siridb pools qlist.where_expr).take qlist.limit).length =
      min qlist.limit (spec_pools_matching penv h.siridb pools qlist.where_expr).length ∧
    ((spec_pools_matching penv h.siridb pools qlist.where_expr).take qlist.limit).Pairwise
      (fun p q => p < q) ∧
    (∀ pid : Nat, pid ∈ spec_pools_matching penv h.siridb pools qlist.where_expr ↔
      pid < pools.len ∧
        ∀ w : cexpr_t, qlist.where_expr = some w →
          penv.cexpr_run_pool w (list_pools_walker penv h.siridb pools pid) = true) ∧
    (∀ wpool : siridb_pool_walker_t,
      (columns.map (spec_pools_value env penv wpool)).length = columns.length) := by
  have hcols : list_pools_columns env penv qlist.props =
      ((if qlist.props = none then [.raw "pool", .raw "servers", .raw "series"] else []),
        columns) := by
    rw [hcolumns]
    unfold list_pools_columns
    cases qlist.props with
    | none => rfl
    | some props => rfl
  have hwhere : ∀ pid : Nat,
      list_pools_where penv qlist.where_expr (list_pools_walker penv h.siridb pools pid) =
        (match qlist.where_expr with
          | none => true
          | some w => penv.cexpr_run_pool w (list_pools_walker penv h.siridb pools pid)) :=
    fun _ => rfl
  refine ⟨?_, List.length_take _ _, ?_, ?_, fun _ => List.length_map _ _⟩
  · rw [exit_list_pools_stmt_run env penv h qlist packer cell nodes pools hdata hpacker hnodes
      hpools hpool, hcols]
    simp only [spec_pools_matching, hwhere,
      list_pools_row_spec env penv _ columns hgids]
  · exact List.Pairwise.sublist
      ((List.take_sublist _ _).trans (List.filter_sublist _)) (List.pairwise_lt_range _)
  · intro pid
    unfold spec_pools_matching
    rw [List.mem_filter, List.mem_range]
    cases qlist.where_expr with
    | none => simp
    | some w => simp

/-- C25, witness: `list pools` in the database of three pools. With the
captured columns `series`, `pool` and the limit 2, the rows of the pools 0 and
1 are added, each with the number of series and then the pool id. Without
captured columns, when the pools 1 and 2 satisfy the where expression and the
limit is 1, the names of the three columns and the row of the pool 1 are
added. -/
theorem exit_list_pools_stmt_spec_witness :
    exit_list_pools_stmt sample_listener_env sample_pools_env
        (sample_list_pools_handle (some [48, 41]) none 2) =
      .ok ({ sample_list_pools_handle (some [48, 41]) none 2 with
          query := { (sample_list_pools_handle (some [48, 41]) none 2).query with
            nodes := [{ node := sample_leaf 0, cb := 12 }]
            packer := some
              [.QP_MAP_OPEN, .raw "columns", .QP_ARRAY_OPEN, .QP_ARRAY_CLOSE,
                .raw "pools", .QP_ARRAY_OPEN,
                .QP_ARRAY_OPEN, .int64 10, .int16 0, .QP_ARRAY_CLOSE,
                .QP_ARRAY_OPEN, .int64 10, .int16 1, .QP_ARRAY_CLOSE,
                .QP_ARRAY_CLOSE] } },
        .next_cb 12) ∧
    exit_list_pools_stmt sample_listener_env sample_pools_env
        (sample_list_pools_handle none (some 1) 1) =
      .ok ({ sample_list_pools_handle none (some 1) 1 with
          query := { (sample_list_pools_handle none (some 1) 1).query with
            nodes := [{ node := sample_leaf 0, cb := 12 }]
            data := .q_list
              { ct_series := none, where_expr := some 1, props := some [41, 47, 48], limit := 1 }
            packer := some
              [.QP_MAP_OPEN, .raw "columns", .QP_ARRAY_OPEN,
                .raw "pool", .raw "servers", .raw "series", .QP_ARRAY_CLOSE,
                .raw "pools", .QP_ARRAY_OPEN,
                .QP_ARRAY_OPEN, .int16 1, .int16 1, .int64 10, .QP_ARRAY_CLOSE,
                .QP_ARRAY_CLOSE] } },
        .next_cb 12) :=
  ⟨(exit_list_pools_stmt_spec sample_listener_env sample_pools_env
      (sample_list_pools_handle (some [48, 41]) none 2) _ _ _ _ _ [48, 41] rfl rfl rfl rfl
      (by decide) rfl (by decide)).1.trans rfl,
    (exit_list_pools_stmt_spec sample_listener_env sample_pools_env
      (sample_list_pools_handle none (some 1) 1) _ _ _ _ _ [41, 47, 48] rfl rfl rfl rfl
      (by decide) rfl (by decide)).1.trans rfl⟩

/-! ## Query listener: the columns of a list statement -/

/-- The loop of `enter_xxx_columns` on `k` columns with a first child each,
parted by delimiters: it ends after `k` runs of its body with the `k` names
and the `k` ids, in the order of the columns. -/
theorem xxx_columns_loop_spec :
    ∀ (more : List (cleri_node_t × cleri_node_t)) (column : cleri_node_t),
      (∀ col ∈ column :: more.map (fun dc => dc.2), col.children ≠ []) →
      xxx_columns_loop (column_cells column more) =
        .ok ((column :: more.map fun dc => dc.2).map (fun col => .raw col.str),
          (column :: more.map fun dc => dc.2).map column_gid,
          more.length + 1) := by
  intro more
  induction more with
  | nil =>
    intro column hkw
    have hc := hkw column (List.mem_cons_self _ _)
    cases hch : column.children with
    | nil => exact absurd hch hc
    | cons kw rest =>
      simp only [column_cells, List.flatMap_nil, xxx_columns_loop, cleri_child, hch,
        List.getElem?_cons_zero, bind_ok, List.map_nil, List.map_cons, column_gid,
        List.length_nil]
  | cons dc more ih =>
    intro column hkw
    have hc := hkw column (List.mem_cons_self _ _)
    have hrest : ∀ col ∈ dc.2 :: more.map (fun dc => dc.2), col.children ≠ [] :=
      fun col hcol => hkw col (List.mem_cons_of_mem _ hcol)
    have hcells : column_cells column (dc :: more) = column :: dc.1 :: column_cells dc.2 more :=
      rfl
    cases hch : column.children with
    | nil => exact absurd hch hc
    | cons kw rest =>
      rw [hcells]
      unfold xxx_columns_loop
      rw [ih dc.2 hrest]
      simp only [cleri_child, hch, List.getElem?_cons_zero, bind_ok, List.map_cons, column_gid,
        List.length_cons]

/-- The cells of `k` columns and their delimiters are `2 * k - 1`. -/
theorem column_cells_length (column : cleri_node_t) (more : List (cleri_node_t × cleri_node_t)) :
    (column_cells column more).length = 2 * more.length + 1 := by
  unfold column_cells
  induction more with
  | nil => rfl
  | cons dc more ih =>
    simp only [List.flatMap_cons, List.length_cons, List.length_append, List.length_nil] at ih ⊢
    omega

/-- C26. `enter_xxx_columns` on a list state with a packer, at a node whose
children are `k` column nodes, each with a first child, parted by `k - 1`
delimiter nodes: the loop ends after exactly `k` runs of its body without a
fault (no `NULL` link is followed); the handler returns, the `k` column ids
are the columns `props` of the list state, in the order of the source, and
the `k` column names are added to the packer in the same order. -/
theorem enter_xxx_columns_spec (h : query_handle_t) (qlist : query_list_t)
    (packer : qp_packer_t) (cell : siridb_node_t) (nodes : List siridb_node_t)
    (column : cleri_node_t) (more : List (cleri_node_t × cleri_node_t))
    (hdata : h.query.data = .q_list qlist) (hpacker : h.query.packer = some packer)
    (hnodes : h.query.nodes = cell :: nodes)
    (hcells : cell.node.children = column_cells column more)
    (hkw : ∀ col ∈ column :: more.map (fun dc => dc.2), col.children ≠ []) :
    xxx_columns_loop cell.node.children =
      .ok ((column :: more.map fun dc => dc.2).map (fun col => .raw col.str),
        (column :: more.map fun dc => dc.2).map column_gid,
        (column :: more.map fun dc => dc.2).length) ∧
    (column_cells column more).length + 1 = 2 * (column :: more.map fun dc => dc.2).length ∧
    enter_xxx_columns h =
      .ok ({ h with
          query := { h.query with
            nodes := nodes
            data := .q_list
              { qlist with props := some ((column :: more.map fun dc => dc.2).map column_gid) }
            packer := some (packer ++
              (column :: more.map fun dc => dc.2).map (fun col => .raw col.str)) } },
        next_action nodes) := by
  have hloop := xxx_columns_loop_spec more column hkw
  refine ⟨?_, ?_, ?_⟩
  · rw [hcells, hloop, List.length_cons, List.length_map]
  · rw [column_cells_length, List.length_cons, List.length_map]
    omega
  · unfold enter_xxx_columns
    simp only [query_node, hnodes, bind_ok, hdata, hcells, hloop, qp_add, hpacker]
    refine (SIRIPARSER_NEXT_NODE_cons _ cell nodes ?_).trans ?_
    · rfl
    · rfl

/-- C26, witness: the columns `name, pool`. -/
theorem enter_xxx_columns_spec_witness :
    enter_xxx_columns sample_columns_handle =
      .ok ({ sample_columns_handle with
          query := { sample_columns_handle.query with
            nodes := [{ node := sample_leaf 0, cb := 62 }]
            data := .q_list
              { ct_series := none, where_expr := none, props := some [40, 41], limit := 5 }
            packer := some
              [.QP_MAP_OPEN, .raw "columns", .QP_ARRAY_OPEN, .raw "name", .raw "pool"] } },
        .next_cb 62) :=
  (enter_xxx_columns_spec sample_columns_handle _ _ _ _
    (.mk 0 .CLERI_TP_CHOICE "name" 0 [.mk 40 .CLERI_TP_OTHER "name" 0 []])
    [(.mk 0 .CLERI_TP_OTHER "," 0 [],
      .mk 0 .CLERI_TP_CHOICE "pool" 0 [.mk 41 .CLERI_TP_OTHER "pool" 0 []])]
    rfl rfl rfl rfl (by
      intro col hcol
      simp only [List.map_cons, List.map_nil, List.mem_cons, List.mem_singleton,
        List.not_mem_nil, or_false] at hcol
      rcases hcol with e | e <;> subst e <;> simp [cleri_node_t.children])).2.2.trans rfl

/-! ## Parsing: the result of `cleri_parse` -/

theorem cstr_get_lt (str : List Nat) (i : Nat) (hi : i < str.length) :
    cstr_get str i = .ok (str.getD i 0) := by
  unfold cstr_get
  rw [if_pos hi]

theorem cstr_get_end (str : List Nat) : cstr_get str str.length = .ok 0 := by
  unfold cstr_get
  rw [if_neg (Nat.lt_irrefl _), if_pos rfl]

/-- The loop of `cleri_parse` that looks for the end of the text returns:
`at_end` holds exactly when the rest of the text is white space. -/
theorem parse_at_end_spec (str : List Nat) (hnul : ∀ ch ∈ str, ch ≠ 0) :
    ∀ (k test fuel : Nat), test + k = str.length → k < fuel →
      ∃ at_end : Bool, parse_at_end str fuel test = .ok at_end ∧
        (at_end = true ↔ rest_is_space str test) := by
  intro k
  induction k with
  | zero =>
    intro test fuel htest hfuel
    obtain ⟨fuel, rfl⟩ : ∃ f, fuel = f + 1 := ⟨fuel - 1, by omega⟩
    have ht : test = str.length := by omega
    subst ht
    refine ⟨true, ?_, ?_⟩
    · unfold parse_at_end
      rw [cstr_get_end]
      rfl
    · refine ⟨fun _ i h1 h2 => ?_, fun _ => rfl⟩
      omega
  | succ k ih =>
    intro test fuel htest hfuel
    obtain ⟨fuel, rfl⟩ : ∃ f, fuel = f + 1 := ⟨fuel - 1, by omega⟩
    have hlt : test < str.length := by omega
    have hch : str.getD test 0 ≠ 0 := by
      rw [List.getD_eq_getElem _ _ hlt]
      exact hnul _ (List.getElem_mem _)
    unfold parse_at_end
    rw [cstr_get_lt str test hlt]
    simp only [bind_ok, if_neg hch]
    by_cases hsp : isspace (str.getD test 0) = true
    · simp only [hsp, Bool.not_true, Bool.false_eq_true, if_false]
      obtain ⟨at_end, hrun, hiff⟩ := ih (test + 1) fuel (by omega) (by omega)
      refine ⟨at_end, hrun, ?_⟩
      constructor
      · intro hat i h1 h2
        by_cases hi : i = test
        · rw [hi]; exact hsp
        · exact hiff.1 hat i (by omega) h2
      · intro hrest
        exact hiff.2 (fun i h1 h2 => hrest i (by omega) h2)
    · have hsp1 : isspace (str.getD test 0) = false := by
        cases hb : isspace (str.getD test 0)
        · rfl
        · exact absurd hb hsp
      simp only [hsp1, Bool.not_false, if_true]
      refine ⟨false, rfl, ⟨fun hf => (by cases hf), fun hrest => ?_⟩⟩
      exact absurd (hrest test (Nat.le_refl _) hlt) hsp

/-- The loop of `cleri__parse_walk` that passes white space returns a length
within the text. -/
theorem parse_walk_skip_spec (str : List Nat) :
    ∀ (k len fuel : Nat), len + k = str.length → k < fuel →
      ∃ len1 : Nat, parse_walk_skip str fuel len = .ok len1 ∧ len ≤ len1 ∧
        len1 ≤ str.length := by
  intro k
  induction k with
  | zero =>
    intro len fuel hlen hfuel
    obtain ⟨fuel, rfl⟩ : ∃ f, fuel = f + 1 := ⟨fuel - 1, by omega⟩
    have ht : len = str.length := by omega
    subst ht
    refine ⟨str.length, ?_, Nat.le_refl _, Nat.le_refl _⟩
    unfold parse_walk_skip
    rw [cstr_get_end]
    rfl
  | succ k ih =>
    intro len fuel hlen hfuel
    obtain ⟨fuel, rfl⟩ : ∃ f, fuel = f + 1 := ⟨fuel - 1, by omega⟩
    have hlt : len < str.length := by omega
    unfold parse_walk_skip
    rw [cstr_get_lt str len hlt]
    simp only [bind_ok]
    by_cases hsp : isspace (str.getD len 0) = true
    · rw [if_pos hsp]
      obtain ⟨len1, hrun, h1, h2⟩ := ih (len + 1) fuel (by omega) (by omega)
      exact ⟨len1, hrun, by omega, h2⟩
    · rw [if_neg hsp]
      exact ⟨len, rfl, Nat.le_refl _, by omega⟩

/-- C27. For every text without a NUL before its end, when the walk of
`cleri_parse` ends without an internal error (`is_valid` is not -1) and has
left the length `tree->len` of the root node within the text: `cleri_parse`
returns. It returns `NULL` exactly when the rest of the text is not white
space, nothing is required yet and the expecting cannot be updated; else it
returns the parse result, in which `is_valid` is 1 if and only if every byte
from the offset `tree->len` up to the terminating NUL is white space, and 0
if not; when `is_valid` is 1, `pos` is `tree->len`, else `pos` is the offset
of the position that the expecting has recorded in the walk. -/
theorem cleri_parse_spec (env : cleri_env) (grammar : cleri_grammar_t) (str : List Nat)
    (pr1 : cleri_parse_t) (hnul : ∀ ch ∈ str, ch ≠ 0)
    (hwalk : cleri__parse_walk env grammar (cleri_parse_new str) env.CLERI_EXP_MODE_REQUIRED =
      .ok pr1)
    (hvalid : pr1.is_valid ≠ -1) (hstr : pr1.str = str) (hlen : pr1.tree_len ≤ str.length) :
    ∃ result : Option cleri_parse_t,
      cleri_parse env grammar str = .ok result ∧
      (result = none ↔
        (¬ rest_is_space str pr1.tree_len ∧ pr1.expecting.required = [] ∧
          (env.cleri_expecting_set_mode pr1.expecting pr1.tree_len
            env.CLERI_EXP_MODE_REQUIRED).bind (fun expecting =>
              env.cleri_expecting_update expecting env.CLERI_END_OF_STATEMENT pr1.tree_len) =
            none)) ∧
      ∀ pr : cleri_parse_t, result = some pr →
        (pr.is_valid = 1 ↔ rest_is_space str pr1.tree_len) ∧
        (pr.is_valid = 1 ∨ pr.is_valid = 0) ∧
        pr.tree_len = pr1.tree_len ∧
        (pr.is_valid = 1 → pr.pos = pr1.tree_len) ∧
        (pr.is_valid ≠ 1 → pr.pos = pr1.expecting.str) := by
  obtain ⟨at_end, hrun, hiff⟩ :=
    parse_at_end_spec str hnul (str.length - pr1.tree_len) pr1.tree_len (str.length + 1)
      (by omega) (by omega)
  unfold cleri_parse
  rw [hwalk]
  simp only [bind_ok, cleri_parse_result, if_neg hvalid, hstr, hrun]
  cases at_end with
  | true =>
    have hrest : rest_is_space str pr1.tree_len := hiff.1 rfl
    refine ⟨some
      { str := str, tree_len := pr1.tree_len
        expecting := env.cleri_expecting_combine pr1.expecting
        is_valid := 1, pos := pr1.tree_len }, ?_, ?_, ?_⟩
    · simp
    · simp [hrest]
    · intro pr hpr
      cases hpr
      simp [hrest]
  | false =>
    have hrest : ¬ rest_is_space str pr1.tree_len := fun hr => by
      have := hiff.2 hr
      cases this
    cases hreq : pr1.expecting.required with
    | nil =>
      cases hexp : (env.cleri_expecting_set_mode pr1.expecting pr1.tree_len
          env.CLERI_EXP_MODE_REQUIRED).bind (fun expecting =>
            env.cleri_expecting_update expecting env.CLERI_END_OF_STATEMENT pr1.tree_len) with
      | none =>
        refine ⟨none, ?_, ?_, ?_⟩
        · simp [hexp]
        · simp [hrest]
        · intro pr hpr
          cases hpr
      | some expecting =>
        refine ⟨some
          { str := str, tree_len := pr1.tree_len
            expecting := env.cleri_expecting_combine expecting
            is_valid := 0, pos := pr1.expecting.str }, ?_, ?_, ?_⟩
        · simp [hexp]
        · simp
        · intro pr hpr
          cases hpr
          simp [hrest]
    | cons cl_obj required =>
      refine ⟨some
        { str := str, tree_len := pr1.tree_len
          expecting := env.cleri_expecting_combine pr1.expecting
          is_valid := 0, pos := pr1.expecting.str }, ?_, ?_, ?_⟩
      · simp
      · simp
      · intro pr hpr
        cases hpr
        simp [hrest]

/-- C27, witness: the text "ab c" when the grammar matches its first two
bytes: the rest is not white space, `is_valid` is 0 and `pos` is the offset 2
that the expecting has recorded. -/
theorem cleri_parse_spec_witness :
    cleri_parse sample_cleri_env (sample_grammar 2) [97, 98, 32, 99] =
      .ok (some
        { str := [97, 98, 32, 99]
          tree_len := 2
          expecting := { str := 2, required := [7], optional := [] }
          is_valid := 0
          pos := 2 }) ∧
    ¬ rest_is_space [97, 98, 32, 99] 2 := by
  obtain ⟨result, hres, _, hpr⟩ :=
    cleri_parse_spec sample_cleri_env (sample_grammar 2) [97, 98, 32, 99]
      { str := [97, 98, 32, 99]
        tree_len := 2
        expecting := { str := 2, required := [7], optional := [] }
        is_valid := 0
        pos := 0 }
      (by decide) rfl (by decide) rfl (by decide)
  have hrun : cleri_parse sample_cleri_env (sample_grammar 2) [97, 98, 32, 99] =
      .ok (some
        { str := [97, 98, 32, 99]
          tree_len := 2
          expecting := { str := 2, required := [7], optional := [] }
          is_valid := 0
          pos := 2 }) := rfl
  refine ⟨hrun, fun hrest => ?_⟩
  have hsome := Except.ok.inj (hres.symm.trans hrun)
  have hv := ((hpr _ hsome).1).2 hrest
  exact absurd hv (by decide)

/-! ## Pool lookup: the share moved to a new pool -/

theorem count_take_succ (t : List Nat) (i p q : Nat) (hi : t[i]? = some p) :
    (t.take (i + 1)).count q = (t.take i).count q + if p = q then 1 else 0 := by
  rw [List.take_succ, hi, List.count_append]
  by_cases hpq : p = q
  · subst hpq
    simp
  · rw [if_neg hpq]
    simp [List.count_singleton, hpq]

theorem count_take_le (t : List Nat) (i q : Nat) : (t.take i).count q ≤ i :=
  (List.count_le_length _ _).trans (by rw [List.length_take]; exact Nat.min_le_left _ _)

theorem ShareInv_init (n : Nat) (t0 : List Nat) : ShareInv n t0 0 (List.range n, t0) := by
  refine ⟨SlotInv_init n t0, fun p hp => ?_, fun j p hj _ => absurd hj (Nat.not_lt_zero _)⟩
  simp [List.getElem?_range hp]

/-- Under the invariant, iteration `i` of the slot loop does not fault, no
counter wraps, and the invariant holds again. -/
theorem ShareInv_step (sz w n : Nat) (t0 : List Nat) (ht0 : Tbl sz n t0)
    (hn : n < 2 ^ LOOKUP_SLOT_BITS) (hw : n + sz ≤ 2 ^ w) (i : Nat) (hi : i < sz)
    (s : MakeState) (hs : ShareInv n t0 i s) :
    ∃ s1, POOLS_make_slot w n (n + 1) s i = .ok s1 ∧ ShareInv n t0 (i + 1) s1 := by
  obtain ⟨hslot, hcnt, hown⟩ := hs
  obtain ⟨p, c0, hp, hc, hpn⟩ := SlotInv_reads sz n t0 ht0 i hi s hslot
  obtain ⟨s1, hs1, hslot1⟩ := SlotInv_step sz w n t0 ht0 hn i hi s hslot
  have ht0i : t0[i]? = some p := by rw [← hslot.2.2.1 i (Nat.le_refl i)]; exact hp
  have hc0 : c0 = p + (t0.take i).count p := by
    have := hcnt p hpn
    rw [hc] at this
    exact Option.some.inj this
  have hle := count_take_le t0 i p
  have hwrap : (c0 + 1) % 2 ^ w = c0 + 1 := Nat.mod_eq_of_lt (by omega)
  have hnn : n % 2 ^ LOOKUP_SLOT_BITS = n := Nat.mod_eq_of_lt hn
  have hexp := POOLS_make_slot_ok w n (n + 1) i p c0 s.1 s.2 hp hc (Nat.succ_ne_zero n)
  rw [hwrap, hnn] at hexp
  have hs1eq := Except.ok.inj (hs1.symm.trans hexp)
  have hrank : p + slot_rank t0 p i = c0 + 1 := by
    unfold slot_rank
    rw [count_take_succ t0 i p p ht0i, if_pos rfl, hc0]
    omega
  have hplt : p < s.1.length := by rw [hslot.1]; exact hpn
  have hilt : i < s.2.length := by rw [hslot.2.1, ht0.1]; exact hi
  refine ⟨s1, hs1, hslot1, ?_, ?_⟩
  · intro q hq
    rw [hs1eq]
    simp only
    rw [count_take_succ t0 i p q ht0i]
    by_cases hpq : p = q
    · subst hpq
      rw [List.getElem?_set_self hplt, if_pos rfl, hc0, Nat.add_assoc]
    · rw [List.getElem?_set_ne hpq, if_neg hpq, hcnt q hq]
      rfl
  · intro j q hj hq
    rw [hs1eq]
    simp only
    by_cases hji : j = i
    · subst hji
      rw [ht0i] at hq
      cases hq
      unfold slot_owner
      rw [hrank]
      by_cases hmoved : (c0 + 1) % (n + 1) = 0
      · rw [if_pos hmoved, if_pos hmoved, List.getElem?_set_self hilt]
      · rw [if_neg hmoved, if_neg hmoved, hp]
    · have hlt : j < i := by omega
      have hold := hown j q hlt hq
      by_cases hmoved : (c0 + 1) % (n + 1) = 0
      · rw [if_pos hmoved, List.getElem?_set_ne (fun e => hji e.symm), hold]
      · rw [if_neg hmoved, hold]

/-- A round on a valid table never faults and ends in a state in which each
slot has the owner `slot_owner` gives. -/
theorem POOLS_make_slots_share (sz w n : Nat) (t0 : List Nat) (ht0 : Tbl sz n t0)
    (hn : n < 2 ^ LOOKUP_SLOT_BITS) (hw : n + sz ≤ 2 ^ w) :
    ∃ s, POOLS_make_slots sz w n (n + 1) (List.range n, t0) = .ok s ∧ ShareInv n t0 sz s := by
  unfold POOLS_make_slots
  exact foldlM_range_inv _ (ShareInv n t0) _ _ (ShareInv_init n t0)
    (fun i s hi hs => ShareInv_step sz w n t0 ht0 hn hw i hi s hs)

/-- Among the first `k` slots, the pool `p` has lost to the pool `n` one slot
for each multiple of `n + 1` that its counter has passed. -/
theorem moved_slots_count (sz n : Nat) (t0 t1 : List Nat) (ht0 : Tbl sz n t0) (p : Nat)
    (hp : p < n)
    (hown : ∀ j q : Nat, j < sz → t0[j]? = some q → t1[j]? = some (slot_owner n t0 q j)) :
    ∀ k : Nat, k ≤ sz → moved_slots t0 t1 p n k = (p + (t0.take k).count p) / (n + 1) := by
  intro k
  induction k with
  | zero =>
    intro _
    simp only [moved_slots, List.range_zero, List.filter_nil, List.length_nil, List.take_zero,
      List.count_nil, Nat.add_zero]
    exact (Nat.div_eq_of_lt (by omega)).symm
  | succ k ih =>
    intro hk
    have ihk := ih (by omega)
    obtain ⟨q, hq, hqn⟩ := Tbl_get sz n t0 ht0 k (by omega)
    have ht1 := hown k q (by omega) hq
    unfold moved_slots at ihk ⊢
    rw [List.range_succ, List.filter_append, List.length_append, ihk,
      count_take_succ t0 k q p hq]
    by_cases hqp : q = p
    · subst hqp
      rw [if_pos rfl]
      have hrank : q + slot_rank t0 q k = q + (t0.take k).count q + 1 := by
        unfold slot_rank
        rw [count_take_succ t0 k q q hq, if_pos rfl]
        omega
      have hdiv := Nat.succ_div (q + (t0.take k).count q) (n + 1)
      rw [show q + ((t0.take k).count q + 1) = (q + (t0.take k).count q) + 1 from by omega,
        hdiv]
      congr 1
      simp only [List.filter_cons, List.filter_nil, hq, ht1, beq_self_eq_true, Bool.true_and]
      unfold slot_owner
      rw [hrank]
      by_cases hmoved : (q + (t0.take k).count q + 1) % (n + 1) = 0
      · rw [if_pos hmoved, if_pos (Nat.dvd_of_mod_eq_zero hmoved)]
        simp
      · rw [if_neg hmoved, if_neg (fun hd => hmoved (Nat.mod_eq_zero_of_dvd hd))]
        have hne : (some q == some n) = false := by
          simp only [beq_eq_false_iff_ne, ne_eq, Option.some.injEq]
          omega
        rw [hne]
        rfl
    · rw [if_neg hqp, Nat.add_zero]
      have hne : (some q == some p) = false := by
        simp only [beq_eq_false_iff_ne, ne_eq, Option.some.injEq]
        exact hqp
      simp only [List.filter_cons, List.filter_nil, hq, hne, Bool.false_and,
        Bool.false_eq_true, if_false, List.length_nil, Nat.add_zero]

/-- One generation step, generic in the number of slots: the run of
`POOLS_make` from `n` to `n + 1` pools on a valid table returns; each slot
has the owner `slot_owner` gives, and the pool `p` loses
`(p + c) / (n + 1)` of its `c` slots. -/
theorem POOLS_make_share (sz w n : Nat) (t0 : List Nat) (ht0 : Tbl sz n t0)
    (hn : n < 2 ^ LOOKUP_SLOT_BITS) (hw : n + sz < 2 ^ w) (hsz : 0 < sz) (fuel : Nat) :
    ∃ t1, POOLS_make sz w (fuel + 2) n (n + 1) t0 = .ok t1 ∧ t1.length = sz ∧
      (∀ j p : Nat, j < sz → t0[j]? = some p → t1[j]? = some (slot_owner n t0 p j)) ∧
      ∀ p : Nat, p < n → moved_slots t0 t1 p n sz = (p + t0.count p) / (n + 1) := by
  obtain ⟨s, hs, hinv⟩ := POOLS_make_slots_share sz w n t0 ht0 hn (by omega)
  have hm : (n + 1) % 2 ^ w = n + 1 := Nat.mod_eq_of_lt (by omega)
  have hown : ∀ j p : Nat, j < sz → t0[j]? = some p → s.2[j]? = some (slot_owner n t0 p j) :=
    hinv.2.2
  refine ⟨s.2, ?_, ?_, hown, fun p hp => ?_⟩
  · rw [POOLS_make_round sz w (fuel + 1) n (n + 1) t0 (by omega), hm, hs, bind_ok,
      POOLS_make_done]
  · rw [hinv.1.2.1, ht0.1]
  · rw [moved_slots_count sz n t0 s.2 ht0 p hp hown sz (Nat.le_refl _),
      List.take_of_length_le (by rw [ht0.1])]

/-- C24. Generation step `n` with `1 ≤ n < 8192`, the run of `POOLS_make`
from `n` to `n + 1` pools on a table of 8192 slots with owners below `n`: it
returns a table of 8192 slots. For every pool `p < n` that owns `c` slots
before the step, exactly `(p + c) / (n + 1)` of its slots have the owner `n`
after it: a slot of `p` is reassigned to `n` if and only if its 1-based rank
`r` among the slots of `p`, in increasing slot index, satisfies
`(p + r) % (n + 1) = 0`; every other slot keeps its owner. -/
theorem pools_make_share_moved (w : Nat) (hw : 16 ≤ w) (n : Nat) (h1 : 1 ≤ n) (h2 : n < 8192)
    (t0 : List Nat) (ht0 : Tbl SIRIDB_LOOKUP_SZ n t0) (fuel : Nat) :
    ∃ t1, POOLS_make SIRIDB_LOOKUP_SZ w (fuel + 2) n (n + 1) t0 = .ok t1 ∧
      t1.length = SIRIDB_LOOKUP_SZ ∧
      (∀ j p : Nat, j < SIRIDB_LOOKUP_SZ → t0[j]? = some p →
        p < n ∧
        (t1[j]? = some n ↔ (p + slot_rank t0 p j) % (n + 1) = 0) ∧
        (t1[j]? = some p ↔ (p + slot_rank t0 p j) % (n + 1) ≠ 0) ∧
        (t1[j]? = some n ∨ t1[j]? = some p)) ∧
      ∀ p : Nat, p < n →
        moved_slots t0 t1 p n SIRIDB_LOOKUP_SZ = (p + t0.count p) / (n + 1) := by
  have h := two_pow_le_of_le w hw
  obtain ⟨t1, hrun, hlen, hown, hcount⟩ :=
    POOLS_make_share SIRIDB_LOOKUP_SZ w n t0 ht0 (by unfold LOOKUP_SLOT_BITS; omega)
      (by rw [SIRIDB_LOOKUP_SZ_eq]; omega) (by rw [SIRIDB_LOOKUP_SZ_eq]; omega) fuel
  refine ⟨t1, hrun, hlen, fun j p hj hp => ?_, hcount⟩
  have hpn : p < n := ht0.2 j p hp
  have ht1 := hown j p hj hp
  unfold slot_owner at ht1
  by_cases hmoved : (p + slot_rank t0 p j) % (n + 1) = 0
  · rw [if_pos hmoved] at ht1
    refine ⟨hpn, ⟨fun _ => hmoved, fun _ => ht1⟩, ⟨fun e => ?_, fun e => absurd hmoved e⟩,
      Or.inl ht1⟩
    rw [ht1] at e
    have := Option.some.inj e
    omega
  · rw [if_neg hmoved] at ht1
    refine ⟨hpn, ⟨fun e => ?_, fun e => absurd e hmoved⟩, ⟨fun _ => hmoved, fun _ => ht1⟩,
      Or.inr ht1⟩
    rw [ht1] at e
    have := Option.some.inj e
    omega

/-- C24, witness: step 1 on the table of 8192 zeros, the lookup of one
pool. -/
theorem pools_make_share_moved_witness :
    ∃ t1, POOLS_make SIRIDB_LOOKUP_SZ 16 2 1 2 (List.replicate SIRIDB_LOOKUP_SZ 0) = .ok t1 ∧
      t1.length = SIRIDB_LOOKUP_SZ ∧
      moved_slots (List.replicate SIRIDB_LOOKUP_SZ 0) t1 0 1 SIRIDB_LOOKUP_SZ =
        (0 + (List.replicate SIRIDB_LOOKUP_SZ 0).count 0) / (1 + 1) := by
  obtain ⟨t1, hrun, hlen, _, hcount⟩ :=
    pools_make_share_moved 16 (by decide) 1 (by decide) (by decide)
      (List.replicate SIRIDB_LOOKUP_SZ 0) (Tbl_zero _) 0
  exact ⟨t1, hrun, hlen, hcount 0 (by decide)⟩

/-! ## Pool lookup: the stack of the recursion -/

/-- The stack that the recursion needs, in closed form: `k + 1` frames and
arrays of `n`, `n + 1`, ..., `n + k - 1` elements. -/
theorem POOLS_make_stack_need_eq (frame cell : Nat) :
    ∀ k n : Nat, 2 * POOLS_make_stack_need frame cell n k + cell * k =
      2 * (frame * (k + 1)) + cell * (2 * n * k + k * k) := by
  intro k
  induction k with
  | zero =>
    intro n
    simp [POOLS_make_stack_need]
  | succ k ih =>
    intro n
    have h := ih (n + 1)
    simp only [POOLS_make_stack_need]
    nlinarith [h]

/-- The run of `POOLS_make` on a bounded stack, from a valid table: when the
stack holds what the nested levels need, the result is that of `POOLS_make`;
when it does not, the run ends with a stack overflow. -/
theorem POOLS_make_stack_spec (sz w frame cell N : Nat) (hw : N < 2 ^ w)
    (hN : N ≤ 2 ^ LOOKUP_SLOT_BITS) :
    ∀ (fuel stack n : Nat) (t : List Nat), n ≤ N → N - n < fuel → Tbl sz n t →
      (POOLS_make_stack_need frame cell n (N - n) ≤ stack →
        POOLS_make_stack sz w frame cell fuel stack n N t = POOLS_make sz w fuel n N t) ∧
      (stack < POOLS_make_stack_need frame cell n (N - n) →
        POOLS_make_stack sz w frame cell fuel stack n N t = .error .stack_overflow) := by
  intro fuel
  induction fuel with
  | zero => intro stack n t _ h _; exact absurd h (Nat.not_lt_zero _)
  | succ fuel ih =>
    intro stack n t hle hf ht
    by_cases hn : n = N
    · subst hn
      rw [Nat.sub_self]
      simp only [POOLS_make_stack_need]
      constructor
      · intro hst
        rw [POOLS_make_done, POOLS_make_stack, if_neg (by omega), if_pos rfl]
      · intro hst
        rw [POOLS_make_stack, if_pos hst]
    · have hlt : n < N := Nat.lt_of_le_of_ne hle hn
      have hm : (n + 1) % 2 ^ w = n + 1 := Nat.mod_eq_of_lt (by omega)
      obtain ⟨s, hs, hinv⟩ := POOLS_make_slots_struct sz w n t ht (by omega)
      have e : N - n = (N - (n + 1)) + 1 := by omega
      have hrec := ih (stack - frame - cell * n) (n + 1) s.2 hlt (by omega)
        (Tbl_of_SlotInv sz n t ht s hinv)
      rw [e]
      simp only [POOLS_make_stack_need]
      constructor
      · intro hst
        rw [POOLS_make_round sz w fuel n N t hn, hm, hs, bind_ok, POOLS_make_stack,
          if_neg (by omega), if_neg hn, if_neg (by omega)]
        simp only [hm, hs, bind_ok]
        exact hrec.1 (by omega)
      · intro hst
        rw [POOLS_make_stack]
        by_cases h1 : stack < frame
        · rw [if_pos h1]
        · rw [if_neg h1, if_neg hn]
          by_cases h2 : stack - frame < cell * n
          · rw [if_pos h2]
          · rw [if_neg h2]
            simp only [hm, hs, bind_ok]
            exact hrec.2 (by omega)

/-- Lookup generation on a bounded stack, for `num_pools` in `[1, 8192]`: when
the stack holds the frames and the arrays `counters` of all nested levels the
result is the table of the specification's algorithm; else the run ends with
a stack overflow. -/
theorem siridb_pools_gen_lookup_stack_spec (w : Nat) (hw : 16 ≤ w) (frame cell stack : Nat)
    (num_pools : Nat) (h1 : 1 ≤ num_pools) (h2 : num_pools ≤ 8192) :
    (POOLS_make_stack_need frame cell 1 (num_pools - 1) ≤ stack →
      siridb_pools_gen_lookup_stack w frame cell stack num_pools =
        .ok (spec_gen_lookup num_pools)) ∧
    (stack < POOLS_make_stack_need frame cell 1 (num_pools - 1) →
      siridb_pools_gen_lookup_stack w frame cell stack num_pools = .error .stack_overflow) := by
  have h := two_pow_le_of_le w hw
  have hspec := POOLS_make_stack_spec SIRIDB_LOOKUP_SZ w frame cell num_pools (by omega)
    (by unfold LOOKUP_SLOT_BITS; omega) num_pools stack 1 (List.replicate SIRIDB_LOOKUP_SZ 0) h1
    (by omega) (Tbl_zero _)
  have href : POOLS_make SIRIDB_LOOKUP_SZ w num_pools 1 num_pools
      (List.replicate SIRIDB_LOOKUP_SZ 0) = .ok (spec_gen_lookup num_pools) := by
    unfold spec_gen_lookup spec_lookup
    rw [← SIRIDB_LOOKUP_SZ_eq]
    exact POOLS_make_refines SIRIDB_LOOKUP_SZ w num_pools (by unfold LOOKUP_SLOT_BITS; omega)
      (by omega) (by rw [SIRIDB_LOOKUP_SZ_eq]; omega) num_pools 1 _ h1 (by omega) (Tbl_zero _)
  unfold siridb_pools_gen_lookup_stack
  exact ⟨fun hst => (hspec.1 hst).trans href, hspec.2⟩

/-- C2, the failing run. Lookup generation for 1500 pools, a number in
`[1, 8192]`, on a stack of 8 MiB with `uint_fast16_t` of 8 bytes, whatever a
call takes for its frame: the arrays `counters` of the nested calls alone
take `8 * (1 + 2 + ... + 1499) = 8994000` bytes, the run ends with a stack
overflow and returns no table. For 1400 pools the arrays take 7834400 bytes
and, with frames of no size, the table of the specification's algorithm is
returned. With `uint_fast16_t` of 2 bytes the arrays for 8192 pools take
67100672 bytes, more than 8 MiB as well. -/
theorem siridb_pools_gen_lookup_stack_overflow :
    (∀ frame : Nat,
      siridb_pools_gen_lookup_stack 64 frame 8 8388608 1500 = .error .stack_overflow) ∧
    siridb_pools_gen_lookup_stack 64 0 8 8388608 1400 = .ok (spec_gen_lookup 1400) ∧
    (∀ frame : Nat,
      siridb_pools_gen_lookup_stack 16 frame 2 8388608 8192 = .error .stack_overflow) := by
  refine ⟨fun frame => ?_, ?_, fun frame => ?_⟩
  · refine (siridb_pools_gen_lookup_stack_spec 64 (by decide) frame 8 8388608 1500 (by decide)
      (by decide)).2 ?_
    have h := POOLS_make_stack_need_eq frame 8 (1500 - 1) 1
    norm_num at h ⊢
    omega
  · refine (siridb_pools_gen_lookup_stack_spec 64 (by decide) 0 8 8388608 1400 (by decide)
      (by decide)).1 ?_
    have h := POOLS_make_stack_need_eq 0 8 (1400 - 1) 1
    norm_num at h ⊢
    omega
  · refine (siridb_pools_gen_lookup_stack_spec 16 (by decide) frame 2 8388608 8192 (by decide)
      (by decide)).2 ?_
    have h := POOLS_make_stack_need_eq frame 2 (8192 - 1) 1
    norm_num at h ⊢
    omega

end SiriDB
